import Mathlib

/-!
# rotorcraft-genom3: control-plane codels

Shallow embedding of the codels of `rotorcraft_codels.c`,
`rotorcraft_comm_codels.c` and `rotorcraft_main_codels.c`.

Conventions of the embedding:

* a C `double` is an exact rational (`ℚ`): no rounding, no infinities; a
  theorem on a value that the code computes in doubles is then a statement
  over exact reals; where the rounding decides a claim, the definitions of the
  section on double-precision arithmetic (`round_f64`, `f64_add`, ...) round
  every operation to binary64;
* a `double` that the code tests with `isnan` is an `Option ℚ`, where `none`
  is NaN;
* machine integers are `ℕ` / `ℤ`, with explicit wrap-around where the code
  converts or subtracts;
* a call of `mk_send_msg` is recorded as a `sent_msg` in the list of messages
  returned by the codel;
* the time read by `gettimeofday` is an argument of the codel;
* the outcome of the serial device (a wait that times out, the link opened by
  `mk_connect_chan`) is an argument of the codel, and `malloc` succeeds;
* a pointer that may be NULL is an `Option`, and a codel whose run
  dereferences a NULL pointer or indexes an array out of its bounds has the
  result `none`;
* a `static` variable of a codel is an argument of the codel and a field of
  its result;
* a received message is the list of its bytes.
-/

namespace Rotorcraft

/-! ## Constants -/

/-- Value of `M_PI` in `math.h`: the double nearest to π, which is this exact
rational (`0x400921FB54442D18`). -/
def M_PI : ℚ := 884279719003555 / 281474976710656

/-- Modelled from the spec: the constant `or_rotorcraft_max_rotors` is declared
in the interface description, which is not among the sources; the spec gives
MAX_ROTORS = 8, the size of the arrays `rotor_data[8]` of the codels. -/
def or_rotorcraft_max_rotors : ℕ := 8

/-! ## Numeric conversions -/

/-- Conversion of a `double` to a C integer type: truncation toward zero. -/
def dbl_to_int (q : ℚ) : ℤ := if 0 ≤ q then ⌊q⌋ else -⌊-q⌋

/-- Storage of an integer in an `int16_t`: wrap-around modulo 2^16 (what the
usual compilers do; the conversion of an out-of-range double is undefined in
C). -/
def to_int16 (z : ℤ) : ℤ := (z + 32768) % 65536 - 32768

/-- Storage of an integer in a `uint32_t`: wrap-around modulo 2^32 (same
remark). -/
def to_uint32 (z : ℤ) : ℕ := (z % 4294967296).toNat

/-! ## Sensor rates and IMU filter -/

/-- The struct `rotorcraft_ids_sensor_time_s_rate_s`: one rate per channel. -/
structure rate_s where
  imu : ℚ
  mag : ℚ
  motor : ℚ
  battery : ℚ
deriving DecidableEq

/-- The struct `rotorcraft_ids_imu_filter_s`: filter coefficients, calibrated
inputs `g`, `a`, `m` and filtered outputs `gf`, `af`, `mf` (NaN until the
first sample). -/
structure imu_filter_s where
  galpha : Fin 3 → ℚ
  aalpha : Fin 3 → ℚ
  malpha : Fin 3 → ℚ
  g : Fin 3 → Option ℚ
  a : Fin 3 → Option ℚ
  m : Fin 3 → Option ℚ
  gf : Fin 3 → Option ℚ
  af : Fin 3 → Option ℚ
  mf : Fin 3 → Option ℚ
deriving DecidableEq

/-- The three output arrays `gfc`, `afc`, `mfc` of `rc_get_imu_filter`. -/
structure imu_cutoff where
  gfc : Fin 3 → ℚ
  afc : Fin 3 → ℚ
  mfc : Fin 3 → ℚ
deriving DecidableEq

/-- One axis of `rc_get_imu_filter`:
`alpha < 1. ? wc * alpha / (1. - alpha) : 0.`, without rounding
(`fc_of_alpha_f64` rounds the operations). -/
def fc_of_alpha (wc alpha : ℚ) : ℚ :=
  if alpha < 1 then wc * alpha / (1 - alpha) else 0

/-- Codel `rc_get_imu_filter`: cutoff frequencies read back from the filter
coefficients and the rate. -/
def rc_get_imu_filter (imu_filter : imu_filter_s) (rate : rate_s) : imu_cutoff :=
  let wc := rate.imu * (1 / 2) / M_PI
  let wm := rate.mag * (1 / 2) / M_PI
  { gfc := fun i => fc_of_alpha wc (imu_filter.galpha i)
    afc := fun i => fc_of_alpha wc (imu_filter.aalpha i)
    mfc := fun i => fc_of_alpha wm (imu_filter.malpha i) }

/-- One axis of `rc_set_imu_filter`:
`fc > 0. ? wc * fc / (wc * fc + 1) : 1.`, without rounding
(`alpha_of_fc_f64` rounds the operations). -/
def alpha_of_fc (wc fc : ℚ) : ℚ :=
  if 0 < fc then wc * fc / (wc * fc + 1) else 1

/-- The `wc` of `rc_set_imu_filter`: `rate > 0. ? 2 * M_PI / rate : 0.`. -/
def wc_of_rate (r : ℚ) : ℚ := if 0 < r then 2 * M_PI / r else 0

/-- Codel `rc_set_imu_filter`: filter coefficients from the cutoff frequencies
and the rate; the inputs and outputs of the filter are left as they are. -/
def rc_set_imu_filter (gfc afc mfc : Fin 3 → ℚ) (rate : rate_s)
    (imu_filter : imu_filter_s) : imu_filter_s :=
  let wc := wc_of_rate rate.imu
  let wm := wc_of_rate rate.mag
  { imu_filter with
    galpha := fun i => alpha_of_fc wc (gfc i)
    aalpha := fun i => alpha_of_fc wc (afc i)
    malpha := fun i => alpha_of_fc wm (mfc i) }

/-- Element `scale[3*i + k]` of a row-major 3×3 matrix stored in a C array of
nine doubles. -/
def scale_at (scale : Fin 9 → ℚ) (i k : Fin 3) : ℚ :=
  scale ⟨3 * i.val + k.val, by omega⟩

/-- The array `in` written by `rc_filter_imu_data`:
`in[i] = scale[3i]*v[0] + scale[3i+1]*v[1] + scale[3i+2]*v[2]` with
`v = raw + bias`. -/
def rc_filter_imu_in (raw : Fin 3 → ℚ) (scale : Fin 9 → ℚ) (bias : Fin 3 → ℚ) :
    Fin 3 → ℚ :=
  let v : Fin 3 → ℚ := fun i => raw i + bias i
  fun i => scale_at scale i 0 * v 0 + scale_at scale i 1 * v 1 + scale_at scale i 2 * v 2

/-- Function `rc_filter_imu_data`: calibration then first-order low-pass
filter. Returns the arrays `in` and `out` after the call. The operations are
taken without rounding; `rc_filter_imu_data_f64` rounds them. -/
def rc_filter_imu_data (raw : Fin 3 → ℚ) (scale : Fin 9 → ℚ) (bias : Fin 3 → ℚ)
    (alpha : Fin 3 → ℚ) (out : Fin 3 → Option ℚ) :
    (Fin 3 → ℚ) × (Fin 3 → Option ℚ) :=
  let inp := rc_filter_imu_in raw scale bias
  (inp, fun i =>
    match out i with
    | some o => some (o + alpha i * (inp i - o))
    | none => some (inp i))

/-! ## Timestamper (`mk_get_ts`) -/

/-- The C `struct timeval`: seconds and microseconds. -/
structure timeval where
  tv_sec : ℤ
  tv_usec : ℤ
deriving DecidableEq

/-- The struct `or_time_ts` (declared in the interface description, not in the
codels): seconds and nanoseconds, as unbounded integers. -/
structure or_time_ts where
  sec : ℤ
  nsec : ℤ
deriving DecidableEq

/-- The struct `rotorcraft_ids_sensor_time_s_ts_s`: timing state of one channel.
The field `offset` is `none` when it holds `-DBL_MAX`: that double is the least
finite one, it absorbs the drift correction subtracted from it and compares
below every difference of two times, and the code stores it to reset the
offset estimator. -/
structure ts_s where
  seq : ℕ
  last : ℚ
  ts : ℚ
  offset : Option ℚ
  rmed : ℚ
  rgain : ℚ
  rerr : ℚ
deriving DecidableEq

/-- The constant `tsshift` of `mk_get_ts`. -/
def tsshift : ℤ := 1000000000

/-- Arrival timestamp `ats = (atv.tv_sec - tsshift) + atv.tv_usec * 1e-6`. -/
def arrival (atv : timeval) : ℚ :=
  ((atv.tv_sec - tsshift : ℤ) : ℚ) + (atv.tv_usec : ℚ) * (1 / 1000000)

/-- First part of `mk_get_ts` ("update estimated rate"): the running median
`rmed`, its gain and error, and the low-pass rate `*lprate`. The test
`df > rmed` with `df = 1. / (ats - last)` holds when `ats = last` (the double
division gives +infinity). -/
def mk_get_ts_rate (ats : ℚ) (timings : ts_s) (lprate : ℚ) : ts_s × ℚ :=
  let up : Bool := decide (ats - timings.last = 0 ∨ timings.rmed < 1 / (ats - timings.last))
  let rerr := if up then (3 * timings.rerr + 1) / 4 else (3 * timings.rerr - 1) / 4
  let rgain0 := if 3 / 4 < |rerr| then timings.rgain * 2 else timings.rgain / 2
  let rgain := if rgain0 < 1 / 100 then 1 / 100 else rgain0
  let rmed := if up then timings.rmed + rgain else timings.rmed - rgain
  ({ timings with rerr := rerr, rgain := rgain, rmed := rmed },
    lprate + 1 / 10 * (rmed - lprate))

/-- The `uint8_t` difference `ds = seq - timings->seq`. -/
def delta_seq (seq last_seq : ℕ) : ℕ := (((seq : ℤ) - (last_seq : ℤ)) % 256).toNat

/-- The offset after the "delta samples" step of `mk_get_ts`:
`-DBL_MAX` if `ds > 16`, `offset - 0.001 * ds / rate` if `rate > 0.1`, else 0. -/
def sync_offset1 (ds : ℕ) (rate : ℚ) (offset : Option ℚ) : Option ℚ :=
  if 16 < ds then none
  else if 1 / 10 < rate then offset.map (fun o => o - 1 / 1000 * (ds : ℚ) / rate)
  else some 0

/-- The remote timestamp after the "update remote timestamp" step:
`ts + ds / rate` if `rate > 0.1`, else the arrival time. -/
def sync_ts1 (ds : ℕ) (ats rate ts : ℚ) : ℚ :=
  if 1 / 10 < rate then ts + (ds : ℚ) / rate else ats

/-- The offset after the "update offset" step:
`if (ts - ats > offset) offset = ts - ats`, with `d = ts - ats`. -/
def sync_offset2 (offset1 : Option ℚ) (d : ℚ) : ℚ :=
  match offset1 with
  | some o => if o < d then d else o
  | none => d

/-- Second part of `mk_get_ts` ("delta samples" to "local timestamp"): returns
the timing state and the final value of the local variable `ats`, the
reconstructed time. -/
def mk_get_ts_sync (seq : ℕ) (ats rate : ℚ) (timings : ts_s) : ts_s × ℚ :=
  let ds : ℕ := delta_seq seq timings.seq
  let offset1 := sync_offset1 ds rate timings.offset
  let ts1 := sync_ts1 ds ats rate timings.ts
  let offset2 := sync_offset2 offset1 (ts1 - ats)
  if 5 / 1000 < ats - (ts1 - offset2) then
    ({ timings with last := ats, seq := seq, ts := ts1, offset := some (ts1 - ats) }, ats)
  else
    ({ timings with last := ats, seq := seq, ts := ts1, offset := some offset2 },
      ts1 - offset2)

/-- Last part of `mk_get_ts` ("update timestamp"): `sec = floor(ats)`,
`nsec = (ats - sec) * 1e9`, `sec += tsshift`. -/
def ts_of_time (ats : ℚ) : or_time_ts :=
  { sec := ⌊ats⌋ + tsshift
    nsec := dbl_to_int ((ats - (⌊ats⌋ : ℚ)) * 1000000000) }

/-- The reconstructed time of a call of `mk_get_ts`, before it is split into
`sec` and `nsec`. -/
def mk_get_ts_time (seq : ℕ) (atv : timeval) (rate : ℚ) (timings : ts_s) (lprate : ℚ) : ℚ :=
  (mk_get_ts_sync seq (arrival atv) rate (mk_get_ts_rate (arrival atv) timings lprate).1).2

/-- Function `mk_get_ts`: returns the timing state, the timestamp `*ts` and the
measured rate `*lprate` after the call. -/
def mk_get_ts (seq : ℕ) (atv : timeval) (rate : ℚ) (timings : ts_s) (lprate : ℚ) :
    ts_s × or_time_ts × ℚ :=
  let r := mk_get_ts_rate (arrival atv) timings lprate
  let s := mk_get_ts_sync seq (arrival atv) rate r.1
  (s.1, ts_of_time s.2, r.2)

/-- One received frame of a channel: its sequence byte and arrival time. -/
structure ts_call where
  seq : ℕ
  atv : timeval
deriving DecidableEq

/-- Timestamps emitted by successive calls of `mk_get_ts` on one channel, at a
fixed nominal rate. -/
def mk_get_ts_run (rate : ℚ) : ts_s → ℚ → List ts_call → List or_time_ts
  | _, _, [] => []
  | timings, lprate, c :: cs =>
    (mk_get_ts c.seq c.atv rate timings lprate).2.1 ::
      mk_get_ts_run rate (mk_get_ts c.seq c.atv rate timings lprate).1
        (mk_get_ts c.seq c.atv rate timings lprate).2.2 cs

/-- The value `sec + nsec * 1e-9` of a timestamp, as an exact number. -/
def or_time_ts.value (t : or_time_ts) : ℚ := (t.sec : ℚ) + (t.nsec : ℚ) * (1 / 1000000000)

/-- The struct `rotorcraft_ids_sensor_time_s`: timing state of the channels,
nominal rates and measured rates. -/
structure sensor_time_s where
  imu : ts_s
  mag : ts_s
  battery : ts_s
  motor : List ts_s
  rate : rate_s
  measured_rate : rate_s
deriving DecidableEq

/-! ## Events, links and messages -/

/-- The events and exceptions (`genom_event`) of the component. -/
inductive genom_event where
  | genom_ok
  | rotorcraft_e_range
  | rotorcraft_e_connection
  | rotorcraft_e_input
  | rotorcraft_e_sys
  | rotorcraft_e_baddev
  | rotorcraft_e_started
  | rotorcraft_e_rate (detail : String)
  | rotorcraft_e_rotor_failure (id : ℕ)
  | rotorcraft_e_rotor_stopped (id : ℕ)
  | rotorcraft_e_rotor_not_disabled (id : ℕ)
  | rotorcraft_main
  | rotorcraft_stop
  | rotorcraft_ether
  | rotorcraft_pause_main
  | rotorcraft_pause_start
  | rotorcraft_pause_stop
  | rotorcraft_monitor
  | rotorcraft_pause_monitor
  | rotorcraft_log
  | rotorcraft_poll
  | rotorcraft_collect
  | rotorcraft_pause_collect
deriving DecidableEq

/-- Device kinds, the indices of the table `rc_devices`. -/
inductive rc_device where
  | RC_NONE
  | RC_MKBL
  | RC_MKFL
  | RC_FLYMU
  | RC_CHIMERA
  | RC_TEENSY
deriving DecidableEq

/-- The fields of `struct mk_channel_s` (declared in `codels.h`) that the
codels read: one serial link. `fd < 0` means closed. -/
structure mk_channel_s where
  fd : ℤ
  path : String
  st_dev : ℕ
  st_ino : ℕ
  device : rc_device
  imu : Bool
  mag : Bool
  motor : Bool
  minid : ℕ
  maxid : ℕ
deriving DecidableEq

/-- The struct `rotorcraft_conn_s`: the array `chan` of `n` links. -/
structure rotorcraft_conn_s where
  chan : List mk_channel_s
deriving DecidableEq

/-- One argument of `mk_send_msg`: `%1`, `%2`, `%4` values, or the elements of
a `%@` array of 16-bit values, where `none` is an element read outside the
initialised part of the source array. -/
inductive msg_arg where
  | u8 (v : ℕ)
  | u16 (v : ℕ)
  | u32 (v : ℕ)
  | arr (vals : List (Option ℤ))
deriving DecidableEq

/-- Modelled from the spec: `mk_send_msg` (defined in `codels.c`, which is not
among the sources) encodes its arguments after the format string and writes
the frame on the link. A call is recorded as the index of the link in
`conn->chan`, the format string and the arguments. -/
structure sent_msg where
  chan : ℕ
  fmt : String
  args : List msg_arg
deriving DecidableEq

/-! ## Rotors -/

/-- The struct `or_rotorcraft_rotor_state`. -/
structure or_rotorcraft_rotor_state where
  ts : or_time_ts
  emerg : Bool
  spinning : Bool
  starting : Bool
  disabled : Bool
  velocity : Option ℚ
  throttle : Option ℚ
  consumption : Option ℚ
  energy_level : Option ℚ
deriving DecidableEq

/-- The struct `rotorcraft_ids_rotor_data_s`. -/
structure rotor_data_s where
  state : or_rotorcraft_rotor_state
  ts : or_time_ts
  wd : ℚ
  clkrate : ℕ
  autoconf : Bool
deriving DecidableEq

/-! ## Functions `set_sensor_rate` and `set_battery_limits` -/

/-- The range test of `mk_set_sensor_rate`. -/
def rate_out_of_range (rate : rate_s) : Prop :=
  rate.imu < 0 ∨ 2000 < rate.imu ∨ rate.mag < 0 ∨ 2000 < rate.mag ∨
    rate.motor < 0 ∨ 2000 < rate.motor ∨ rate.battery < 0 ∨ 2000 < rate.battery

instance (rate : rate_s) : Decidable (rate_out_of_range rate) := by
  unfold rate_out_of_range; infer_instance

/-- The period `p = rate > 0. ? 1000000/rate : 0`, stored in a `uint32_t`. -/
def period_of_rate (r : ℚ) : ℕ := if 0 < r then to_uint32 (dbl_to_int (1000000 / r)) else 0

/-- The messages `b`, `m`, `i`, `c` that `mk_set_sensor_rate` sends to the link
of index `i`. -/
def rate_msgs (rate : rate_s) (i : ℕ) (c : mk_channel_s) : List sent_msg :=
  if c.fd < 0 then []
  else
    [{ chan := i, fmt := "b%4", args := [msg_arg.u32 (period_of_rate rate.battery)] }]
    ++ (if c.motor then
          [{ chan := i, fmt := "m%4", args := [msg_arg.u32 (period_of_rate rate.motor)] }]
        else [])
    ++ (if c.imu then
          [{ chan := i, fmt := "i%4", args := [msg_arg.u32 (period_of_rate rate.imu)] }]
        else [])
    ++ (if c.mag then
          [{ chan := i, fmt := "c%4", args := [msg_arg.u32 (period_of_rate rate.mag)] }]
        else [])

/-- The assignment `offset = -DBL_MAX` on every channel of `sensor_time`. -/
def reset_offsets (st : sensor_time_s) : sensor_time_s :=
  { st with
    imu := { st.imu with offset := none }
    mag := { st.mag with offset := none }
    battery := { st.battery with offset := none }
    motor := st.motor.map (fun t => { t with offset := none }) }

/-- State after a call of `mk_set_sensor_rate`. -/
structure set_sensor_rate_result where
  event : genom_event
  imu_filter : Option imu_filter_s
  sensor_time : Option sensor_time_s
  sent : List sent_msg
deriving DecidableEq

/-- Codel `mk_set_sensor_rate`. The pointers `imu_filter` and `sensor_time` may
be NULL (`none`). The result is `none` when the code dereferences a NULL
pointer: a filter is given without `sensor_time`, whose field `rate` is read
for the old rate. -/
def mk_set_sensor_rate (rate : rate_s) (conn : rotorcraft_conn_s)
    (imu_filter : Option imu_filter_s) (sensor_time : Option sensor_time_s) :
    Option set_sensor_rate_result :=
  if rate_out_of_range rate then
    some { event := genom_event.rotorcraft_e_range, imu_filter := imu_filter,
           sensor_time := sensor_time, sent := [] }
  else
    let st1 := sensor_time.map reset_offsets
    let sent := (conn.chan.enum.map (fun ic => rate_msgs rate ic.1 ic.2)).flatten
    match imu_filter, st1 with
    | some _, none => none
    | some f, some st =>
      let fc := rc_get_imu_filter f st.rate
      some { event := genom_event.genom_ok
             imu_filter := some (rc_set_imu_filter fc.gfc fc.afc fc.mfc rate f)
             sensor_time := some { st with rate := rate }
             sent := sent }
    | none, st =>
      some { event := genom_event.genom_ok, imu_filter := none
             sensor_time := st.map (fun s => { s with rate := rate })
             sent := sent }

/-- The command of a rotor, `or_rotorcraft_rotor_control`: the `_length` first
elements of `_buffer`, a sequence of at most 8 doubles (`none` is NaN). -/
abbrev or_rotorcraft_rotor_control := List (Option ℚ)

/-- The value `rotor_data[i].wd` set by `mk_set_velocity`: 0 for a disabled
rotor, else the commanded value, and 0 if that is NaN. -/
def velocity_wd (r : rotor_data_s) (d : Option ℚ) : ℚ :=
  if r.state.disabled then 0 else d.getD 0

/-- The half-period computed by `mk_set_velocity` before it is stored in the
`int16_t` array: `fabs(wd) < 1000000./65535. ? copysign(32767, wd) :
1000000/2/wd`. -/
def velocity_period (wd : ℚ) : ℚ :=
  if |wd| < 1000000 / 65535 then (if wd < 0 then -32767 else 32767) else 500000 / wd

/-- The element `p[i]` of `mk_set_velocity`. -/
def velocity_p (r : rotor_data_s) (d : Option ℚ) : ℤ :=
  to_int16 (dbl_to_int (velocity_period (velocity_wd r d)))

/-- The element `p[i]` of `mk_set_throttle`: 0 for NaN or a disabled rotor,
else `desired * 1023./100.` stored in an `int16_t`. -/
def throttle_p (r : rotor_data_s) (d : Option ℚ) : ℤ :=
  match d with
  | none => 0
  | some x => if r.state.disabled then 0 else to_int16 (dbl_to_int (x * 1023 / 100))

/-- The stamp `{ tv.tv_sec, tv.tv_usec * 1000 }` written in the rotor records. -/
def ts_of_timeval (tv : timeval) : or_time_ts := { sec := tv.tv_sec, nsec := tv.tv_usec * 1000 }

/-- Read of `p[k]` in the local array `p`, of which the `l` first elements have
been written: `none` outside of them. -/
def read_p (p : List ℤ) (k : ℤ) : Option ℤ := if 0 ≤ k then p.get? k.toNat else none

/-- The number `n` of elements sent to a link: `l - minid + 1` if `l <= maxid`,
else `maxid - minid + 1`, in a `uint32_t`. -/
def dispatch_count (l : ℕ) (c : mk_channel_s) : ℕ :=
  if l ≤ c.maxid then to_uint32 ((l : ℤ) - c.minid + 1)
  else to_uint32 ((c.maxid : ℤ) - c.minid + 1)

/-- The "send" loop of `mk_set_velocity` and `mk_set_throttle`: for each link
with `minid <= l`, one message with the `n` elements that start at
`p + minid - 1`. -/
def dispatch (fmt : String) (conn : rotorcraft_conn_s) (p : List ℤ) (l : ℕ) : List sent_msg :=
  conn.chan.enum.filterMap (fun ic =>
    if l < ic.2.minid then none
    else some { chan := ic.1, fmt := fmt
                args := [msg_arg.arr ((List.range (dispatch_count l ic.2)).map
                  (fun (j : ℕ) => read_p p ((ic.2.minid : ℤ) - 1 + (j : ℤ))))] })

/-- State after a codel that updates the rotor records and sends messages. -/
structure rotor_result where
  event : genom_event
  rotor_data : List rotor_data_s
  sent : List sent_msg
deriving DecidableEq

/-- Codel `mk_set_velocity`. `rotor_data` is the array of 8 records, `tv` the
time read by `gettimeofday`. -/
def mk_set_velocity (conn : rotorcraft_conn_s) (rotor_data : List rotor_data_s)
    (desired : or_rotorcraft_rotor_control) (tv : timeval) : rotor_result :=
  if desired.length = 0 then
    { event := genom_event.genom_ok, rotor_data := rotor_data, sent := [] }
  else
    { event := genom_event.genom_ok
      rotor_data :=
        List.zipWith (fun r d => { r with ts := ts_of_timeval tv, wd := velocity_wd r d })
          rotor_data desired ++ rotor_data.drop desired.length
      sent := dispatch "w%@" conn (List.zipWith velocity_p rotor_data desired) desired.length }

/-- Codel `mk_set_throttle`. -/
def mk_set_throttle (conn : rotorcraft_conn_s) (rotor_data : List rotor_data_s)
    (desired : or_rotorcraft_rotor_control) (tv : timeval) : rotor_result :=
  if desired.length = 0 then
    { event := genom_event.genom_ok, rotor_data := rotor_data, sent := [] }
  else
    { event := genom_event.genom_ok
      rotor_data :=
        List.zipWith (fun r _ => { r with ts := ts_of_timeval tv, wd := 0 })
          rotor_data desired ++ rotor_data.drop desired.length
      sent := dispatch "q%@" conn (List.zipWith throttle_p rotor_data desired) desired.length }

/-! ## Activities `stop` and `servo` -/

/-- The time `tv.tv_sec + 1e-6 * tv.tv_usec`. -/
def timeval_secs (tv : timeval) : ℚ := (tv.tv_sec : ℚ) + 1 / 1000000 * (tv.tv_usec : ℚ)

/-- The time `ts.sec + 1e-9 * ts.nsec`. -/
def ts_secs (ts : or_time_ts) : ℚ := (ts.sec : ℚ) + 1 / 1000000000 * (ts.nsec : ℚ)

/-- Codel `mk_stop`: sends `x` to every link, then returns the pause event if
an enabled rotor with a state younger than 500 ms is spinning. -/
def mk_stop (conn : rotorcraft_conn_s) (rotor_data : List rotor_data_s) (tv : timeval) :
    genom_event × List sent_msg :=
  (if rotor_data.any (fun r =>
        !r.state.disabled && !decide (1 / 2 + ts_secs r.state.ts < timeval_secs tv)
          && r.state.spinning)
    then genom_event.rotorcraft_pause_start else genom_event.rotorcraft_ether,
   conn.chan.enum.map (fun ic => { chan := ic.1, fmt := "x", args := [] }))

/-- The enum `or_rotorcraft_control_type`. -/
inductive or_rotorcraft_control_type where
  | or_rotorcraft_velocity
  | or_rotorcraft_throttle
deriving DecidableEq

/-- The struct `or_rotorcraft_input` read on the port `rotor_input`. -/
structure or_rotorcraft_input where
  ts : or_time_ts
  control : or_rotorcraft_control_type
  desired : or_rotorcraft_rotor_control
deriving DecidableEq

/-- The port `rotor_input` as a call sees it: whether `read` fails (returns
non-zero) and the result of `data` (`none` is NULL). -/
structure rotorcraft_rotor_input where
  read_fails : Bool
  data : Option or_rotorcraft_input
deriving DecidableEq

/-- The struct `rotorcraft_ids_servo_s`. -/
structure servo_s where
  timeout : ℚ
  ramp : ℚ
deriving DecidableEq

/-- The test `rate_less80p(dev)` of `mk_servo_main`. -/
def rate_less80p (measured nominal : ℚ) : Bool := decide (measured < 8 / 10 * nominal)

/-- The channel named by the rate watchdog of `mk_servo_main`: the first of
imu, mag, motor whose measured rate is below 80% of the nominal rate. -/
def low_rate (st : sensor_time_s) : Option String :=
  if rate_less80p st.measured_rate.imu st.rate.imu then some "imu"
  else if rate_less80p st.measured_rate.mag st.rate.mag then some "mag"
  else if rate_less80p st.measured_rate.motor st.rate.motor then some "motor"
  else none

/-- The loop "check rotors status" of `mk_servo_main`, from index `i` on: the
error of the first enabled rotor that is in emergency or neither starting nor
spinning. -/
def servo_rotor_check : List rotor_data_s → ℕ → Option genom_event
  | [], _ => none
  | r :: rs, i =>
    if r.state.disabled then servo_rotor_check rs (i + 1)
    else if r.state.emerg then some (genom_event.rotorcraft_e_rotor_failure (1 + i))
    else if !(r.state.starting || r.state.spinning) then
      some (genom_event.rotorcraft_e_rotor_stopped (1 + i))
    else servo_rotor_check rs (i + 1)

/-- The flag `rampup` of `mk_servo_main`: every `rotor_data[i]` with
`i < desired._length` is spinning. -/
def servo_rampup (rotor_data : List rotor_data_s) (l : ℕ) : Bool :=
  (rotor_data.take l).all (fun r => r.state.spinning)

/-- State after a call of `mk_servo_main`. -/
structure servo_result where
  event : genom_event
  scale : ℚ
  rotor_data : List rotor_data_s
  sent : List sent_msg
deriving DecidableEq

/-- Codel `mk_servo_start`: the scale after the call and the event. -/
def mk_servo_start : ℚ × genom_event := (0, genom_event.rotorcraft_main)

/-- The last steps of `mk_servo_main`, "linear input scaling" and "send", once
the watchdogs and the rotor checks have passed with the scale `scale`. The
increment of the scale is taken without rounding; `servo_ramp_step_f64` rounds
it. -/
def servo_ramp_send (period_ms : ℕ) (conn : rotorcraft_conn_s)
    (rotor_data : List rotor_data_s) (input : or_rotorcraft_input) (servo : servo_s)
    (scale : ℚ) (tv_send : timeval) : servo_result :=
  let desired : or_rotorcraft_rotor_control :=
    if scale < 1 then input.desired.map (Option.map (fun x => x * scale)) else input.desired
  let scale1 : ℚ :=
    if scale < 1 then
      if servo_rampup rotor_data input.desired.length then
        (if 1 < scale + 1 / 1000 * (period_ms : ℚ) / servo.ramp then 1
         else scale + 1 / 1000 * (period_ms : ℚ) / servo.ramp)
      else scale
    else scale
  let r := match input.control with
    | or_rotorcraft_control_type.or_rotorcraft_velocity =>
      mk_set_velocity conn rotor_data desired tv_send
    | or_rotorcraft_control_type.or_rotorcraft_throttle =>
      mk_set_throttle conn rotor_data desired tv_send
  { event := genom_event.rotorcraft_pause_main, scale := scale1
    rotor_data := r.rotor_data, sent := r.sent }

/-- Codel `mk_servo_main`. `period_ms` is the constant
`rotorcraft_control_period_ms` (declared in the component description), `conn`
is `none` for a NULL pointer, `tv` is the time read by the codel and `tv_send`
the time read by the codel it calls (`mk_stop`, `mk_set_velocity` or
`mk_set_throttle`). -/
def mk_servo_main (period_ms : ℕ) (conn : Option rotorcraft_conn_s)
    (sensor_time : sensor_time_s) (rotor_data : List rotor_data_s)
    (rotor_input : rotorcraft_rotor_input) (servo : servo_s) (scale : ℚ)
    (tv tv_send : timeval) : servo_result :=
  match conn with
  | none => { event := genom_event.rotorcraft_e_connection, scale := scale
              rotor_data := rotor_data, sent := [] }
  | some conn =>
    if rotor_input.read_fails then
      { event := genom_event.rotorcraft_e_input, scale := scale
        rotor_data := rotor_data, sent := [] }
    else
      match rotor_input.data with
      | none => { event := genom_event.rotorcraft_e_input, scale := scale
                  rotor_data := rotor_data, sent := [] }
      | some input =>
        let stale : Bool := decide (1 / 2 + ts_secs input.ts < timeval_secs tv)
        let scale1 := if stale then scale - 2 / 1000 * (period_ms : ℚ) / servo.ramp else scale
        if stale && decide (scale1 < 0) then
          { event := genom_event.rotorcraft_e_input, scale := scale1
            rotor_data := rotor_data, sent := (mk_stop conn rotor_data tv_send).2 }
        else
          let scale2 :=
            if (low_rate sensor_time).isSome then
              scale1 - 2 / 1000 * (period_ms : ℚ) / servo.ramp
            else scale1
          match low_rate sensor_time, decide (scale2 < 0) with
          | some dev, true =>
            { event := genom_event.rotorcraft_e_rate dev, scale := 0
              rotor_data := rotor_data, sent := (mk_stop conn rotor_data tv_send).2 }
          | _, _ =>
            match servo_rotor_check (rotor_data.take or_rotorcraft_max_rotors) 0 with
            | some e =>
              { event := e, scale := scale2
                rotor_data := rotor_data, sent := (mk_stop conn rotor_data tv_send).2 }
            | none => servo_ramp_send period_ms conn rotor_data input servo scale2 tv_send

/-- One tick of the servo activity, as `mk_servo_main` sees it: the input port,
the sensor timing state, the rotor records and the clock. -/
structure servo_tick where
  sensor_time : sensor_time_s
  rotor_data : List rotor_data_s
  rotor_input : rotorcraft_rotor_input
  tv : timeval
  tv_send : timeval
deriving DecidableEq

/-- The scale after successive calls of `mk_servo_main`, one per tick; the
activity goes on as long as the codel returns the pause event. -/
def mk_servo_run (period_ms : ℕ) (conn : Option rotorcraft_conn_s) (servo : servo_s) :
    ℚ → List servo_tick → ℚ
  | scale, [] => scale
  | scale, t :: ts =>
    if (mk_servo_main period_ms conn t.sensor_time t.rotor_data t.rotor_input servo scale
        t.tv t.tv_send).event = genom_event.rotorcraft_pause_main then
      mk_servo_run period_ms conn servo
        (mk_servo_main period_ms conn t.sensor_time t.rotor_data t.rotor_input servo scale
          t.tv t.tv_send).scale ts
    else
      (mk_servo_main period_ms conn t.sensor_time t.rotor_data t.rotor_input servo scale
        t.tv t.tv_send).scale

/-! ## Predicates of the statements -/

/-- The motor ranges of the links of a connection partition `[1..8]`: every
range is a non-empty interval inside `[1, 8]`, two distinct links have disjoint
ranges, and every id of `[1, 8]` is in the range of a link. -/
def motor_partition (conn : rotorcraft_conn_s) : Prop :=
  (∀ c ∈ conn.chan, 1 ≤ c.minid ∧ c.minid ≤ c.maxid ∧ c.maxid ≤ or_rotorcraft_max_rotors)
    ∧ conn.chan.Pairwise (fun a b => a.maxid < b.minid ∨ b.maxid < a.minid)
    ∧ (∀ id ∈ List.range' 1 or_rotorcraft_max_rotors,
        ∃ c ∈ conn.chan, c.minid ≤ id ∧ id ≤ c.maxid)

instance (conn : rotorcraft_conn_s) : Decidable (motor_partition conn) := by
  unfold motor_partition; infer_instance

/-- The slice `[minid-1 .. min(l, maxid)-1]` of the array `p`. -/
def motor_slice (p : List ℤ) (l : ℕ) (c : mk_channel_s) : List ℤ :=
  (p.drop (c.minid - 1)).take (min l c.maxid + 1 - c.minid)

/-- A tick on which the servo runs undisturbed: the input is read and is not
older than 500 ms, no sensor rate is low, every rotor reports spinning and no
enabled rotor is in emergency. -/
def servo_tick_nominal (t : servo_tick) : Prop :=
  t.rotor_input.read_fails = false
    ∧ (∃ input, t.rotor_input.data = some input
        ∧ ¬ (1 / 2 + ts_secs input.ts < timeval_secs t.tv))
    ∧ low_rate t.sensor_time = none
    ∧ (∀ r ∈ t.rotor_data, r.state.spinning = true)
    ∧ (∀ r ∈ t.rotor_data, r.state.disabled = false → r.state.emerg = false)

/-! ## Concrete inputs of the examples -/

/-- A rotor record that is enabled and spinning. -/
def rotor_spinning : rotor_data_s :=
  { state := { ts := { sec := 1000000017, nsec := 0 }, emerg := false, spinning := true,
               starting := false, disabled := false, velocity := some 100,
               throttle := some 50, consumption := some 1, energy_level := some 80 }
    ts := { sec := 1000000017, nsec := 0 }, wd := 0, clkrate := 0, autoconf := false }

/-- Eight rotors, enabled and spinning. -/
def rotors_spinning : List rotor_data_s := List.replicate 8 rotor_spinning

/-- An open link with the given capabilities and motor range. -/
def link_of (imu mag motor : Bool) (minid maxid : ℕ) : mk_channel_s :=
  { fd := 3, path := "/dev/ttyUSB0", st_dev := 1, st_ino := minid, device := rc_device.RC_CHIMERA
    imu := imu, mag := mag, motor := motor, minid := minid, maxid := maxid }

/-- A connection of two links that drive rotors 1 to 4 and 5 to 8. -/
def conn_two_links : rotorcraft_conn_s :=
  { chan := [link_of true true true 1 4, link_of false false true 5 8] }

/-- A rotor record that is enabled and reports both spinning and emergency. -/
def rotor_emerg : rotor_data_s :=
  { rotor_spinning with state := { rotor_spinning.state with emerg := true } }

/-- A channel timing state after a reset. -/
def ts_reset : ts_s :=
  { seq := 0, last := 0, ts := 0, offset := none, rmed := 0, rgain := 0, rerr := 0 }

/-- The rates set by `mk_main_init`. -/
def rate_init : rate_s := { imu := 1000, mag := 100, motor := 100, battery := 1 }

/-- A sensor timing state whose measured rates are the nominal ones. -/
def sensor_time_nominal : sensor_time_s :=
  { imu := ts_reset, mag := ts_reset, battery := ts_reset, motor := List.replicate 8 ts_reset
    rate := rate_init, measured_rate := rate_init }

/-- A velocity command of 100 for the eight rotors, stamped at second
1000000017. -/
def input_velocity : or_rotorcraft_input :=
  { ts := { sec := 1000000017, nsec := 0 }
    control := or_rotorcraft_control_type.or_rotorcraft_velocity
    desired := List.replicate 8 (some 100) }

/-- A tick one millisecond after the command, all rotors spinning. -/
def tick_spinning : servo_tick :=
  { sensor_time := sensor_time_nominal, rotor_data := rotors_spinning
    rotor_input := { read_fails := false, data := some input_velocity }
    tv := { tv_sec := 1000000017, tv_usec := 1000 }
    tv_send := { tv_sec := 1000000017, tv_usec := 1000 } }

/-- The same tick when rotor 1, spinning, also reports an emergency. -/
def tick_emerg : servo_tick :=
  { tick_spinning with rotor_data := rotor_emerg :: List.replicate 7 rotor_spinning }

/-- A filter state with the coefficient `alpha` on every axis. -/
def filter_of_alpha (alpha : ℚ) : imu_filter_s :=
  { galpha := fun _ => alpha, aalpha := fun _ => alpha, malpha := fun _ => alpha
    g := fun _ => none, a := fun _ => none, m := fun _ => none
    gf := fun _ => none, af := fun _ => none, mf := fun _ => none }

/-! ## Functions `set_velocity` (validation), `disable_motor`, `enable_motor`, `set_pid` -/

/-- The loop "check rotors status" of `mk_validate_input`, from index `i` on:
the failure of the first enabled rotor that is in emergency. -/
def validate_rotor_check : List rotor_data_s → ℕ → Option genom_event
  | [], _ => none
  | r :: rs, i =>
    if r.state.disabled then validate_rotor_check rs (i + 1)
    else if r.state.emerg then some (genom_event.rotorcraft_e_rotor_failure (1 + i))
    else validate_rotor_check rs (i + 1)

/-- The loop `while(l && isnan(desired->_buffer[l-1])) l--` of
`mk_validate_input`, started at `l`. -/
def trim_nan_length (buffer : List (Option ℚ)) : ℕ → ℕ
  | 0 => 0
  | l + 1 => if buffer[l]? = some none then trim_nan_length buffer l else l + 1

/-- Codel `mk_validate_input`: the event and the command `*desired` after the
call (its buffer is not written, only its length is set). -/
def mk_validate_input (rotor_data : List rotor_data_s)
    (desired : or_rotorcraft_rotor_control) : genom_event × or_rotorcraft_rotor_control :=
  match validate_rotor_check (rotor_data.take or_rotorcraft_max_rotors) 0 with
  | some e => (e, desired)
  | none => (genom_event.genom_ok, desired.take (trim_nan_length desired desired.length))

/-- Index of the first link of `conn->chan` (counted from `i`) whose motor
range contains `motor`: the link reached by the loops of `mk_disable_motor` and
`mk_enable_motor` before their `break`. -/
def owner_link (motor : ℕ) : List mk_channel_s → ℕ → Option ℕ
  | [], _ => none
  | c :: cs, i =>
    if c.minid ≤ motor ∧ motor ≤ c.maxid then some i else owner_link motor cs (i + 1)

/-- The message `fmt` with the argument `(uint8_t){motor}`, sent to the first
link whose range contains `motor`, if there is one. -/
def send_to_owner (fmt : String) (motor : ℕ) (conn : rotorcraft_conn_s) : List sent_msg :=
  match owner_link motor conn.chan 0 with
  | some i => [{ chan := i, fmt := fmt, args := [msg_arg.u8 (motor % 256)] }]
  | none => []

/-- The rotor state stored by `mk_disable_motor`. -/
def disabled_state (tv : timeval) : or_rotorcraft_rotor_state :=
  { ts := ts_of_timeval tv, emerg := false, spinning := false, starting := false
    disabled := true, velocity := none, throttle := none, consumption := none
    energy_level := none }

/-- The rotor state stored by `mk_enable_motor`: the fields that the compound
literal does not name are zero. -/
def enabled_state (tv : timeval) : or_rotorcraft_rotor_state :=
  { ts := ts_of_timeval tv, emerg := false, spinning := false, starting := false
    disabled := false, velocity := some 0, throttle := some 0, consumption := some 0
    energy_level := some 0 }

/-- Codel `mk_disable_motor`. -/
def mk_disable_motor (motor : ℕ) (conn : rotorcraft_conn_s) (rotor_data : List rotor_data_s)
    (tv : timeval) : rotor_result :=
  if motor < 1 ∨ or_rotorcraft_max_rotors < motor then
    { event := genom_event.rotorcraft_e_range, rotor_data := rotor_data, sent := [] }
  else
    { event := genom_event.genom_ok
      rotor_data := List.modify
        (fun r => { r with state := disabled_state tv, autoconf := false }) (motor - 1) rotor_data
      sent := send_to_owner "x%1" motor conn }

/-- Codel `mk_enable_motor`. -/
def mk_enable_motor (motor : ℕ) (conn : rotorcraft_conn_s) (rotor_data : List rotor_data_s)
    (tv : timeval) : rotor_result :=
  if motor < 1 ∨ or_rotorcraft_max_rotors < motor then
    { event := genom_event.rotorcraft_e_range, rotor_data := rotor_data, sent := [] }
  else
    let rd := List.modify
      (fun r => { r with state := enabled_state tv, autoconf := false }) (motor - 1) rotor_data
    { event := genom_event.genom_ok
      rotor_data := rd
      sent :=
        if (rd.take or_rotorcraft_max_rotors).any
            (fun r => !r.state.disabled && r.state.spinning) then
          send_to_owner "g%1" motor conn
        else [] }

/-- Storage of an integer in a `uint16_t`: wrap-around modulo 2^16 (same remark
as for `to_int16`). -/
def to_uint16 (z : ℤ) : ℕ := (z % 65536).toNat

/-- The range of the link `c` contains the motor id `motor`. -/
def owns (c : mk_channel_s) (motor : ℕ) : Prop := c.minid ≤ motor ∧ motor ≤ c.maxid

instance (c : mk_channel_s) (motor : ℕ) : Decidable (owns c motor) := by
  unfold owns; infer_instance

/-- A rotor record that is enabled and stopped. -/
def rotor_idle : rotor_data_s :=
  { rotor_spinning with state := { rotor_spinning.state with spinning := false } }

/-- A rotor record that is disabled and still reports spinning. -/
def rotor_disabled_spinning : rotor_data_s :=
  { rotor_spinning with state := { rotor_spinning.state with disabled := true } }

/-- Result `s` of the loop that repeats `mk_wait_msg` while it is interrupted:
an error (`s < 0`), the 500 ms deadline reached (`s == 0`) or data to read
(`s > 0`). -/
inductive wait_result where
  | error
  | timeout
  | ready
deriving DecidableEq

/-- What the link does during the "check endpoint" part of `mk_connect_chan`.
The functions `mk_send_msg`, `mk_wait_msg` and `mk_recv_msg` are not among the
sources; their results are given here: whether the `k`-th call of
`mk_send_msg(chan, "?")` fails, the result of the wait that follows it, and the
message read by the `j`-th call of `mk_recv_msg` after the flush (`none` when
it does not return 1). -/
structure handshake_env where
  send_fails : ℕ → Bool
  wait : ℕ → wait_result
  recv : ℕ → Option (List ℕ)

/-- What `mk_connect_chan` does on the link during the handshake: it sends the
identify message `?`, or waits for an answer with a deadline of 500 ms. -/
inductive handshake_action where
  | send_id
  | wait_500ms
deriving DecidableEq

/-- The value of `errno` with which the handshake gives up. -/
inductive handshake_errno where
  | ETIMEDOUT
  | ENOMSG
  | other
deriving DecidableEq

/-- How the inner loop `do { ... } while(c++ < 3)` ends: a return with a system
error, a `break` on an answer, or the end of the loop with `c > 3`. -/
inductive attempts_end where
  | failed
  | answered
  | exhausted
deriving DecidableEq

/-- The inner loop `do { send "?"; wait 500 ms; if (s > 0) break; }
while(c++ < 3)` of `mk_connect_chan`, entered with the counter `c` after `k`
sends: how it ends, the number of sends after it, and what was done. -/
def handshake_attempts (env : handshake_env) (c k : ℕ) :
    attempts_end × ℕ × List handshake_action :=
  if env.send_fails k then (attempts_end.failed, k + 1, [handshake_action.send_id])
  else
    match env.wait k with
    | wait_result.error =>
      (attempts_end.failed, k + 1, [handshake_action.send_id, handshake_action.wait_500ms])
    | wait_result.ready =>
      (attempts_end.answered, k + 1, [handshake_action.send_id, handshake_action.wait_500ms])
    | wait_result.timeout =>
      if c < 3 then
        ((handshake_attempts env (c + 1) (k + 1)).1, (handshake_attempts env (c + 1) (k + 1)).2.1,
          handshake_action.send_id :: handshake_action.wait_500ms ::
            (handshake_attempts env (c + 1) (k + 1)).2.2)
      else
        (attempts_end.exhausted, k + 1,
          [handshake_action.send_id, handshake_action.wait_500ms])
termination_by 3 - c
decreasing_by all_goals omega

/-- Result of the handshake: a system error with its `errno`, or the identity
message of the device (first byte `?`). -/
inductive handshake_outcome where
  | sys_error (errno : handshake_errno)
  | identity (msg : List ℕ)
deriving DecidableEq

/-- The "check endpoint" part of `mk_connect_chan`, after the flush: the outer
loop `do { c = 0; ...; s = mk_recv_msg(chan, true); } while(s == 1 &&
chan->msg[0] != '?')`, after `k` sends and `j` reads. The loop goes on as long
as the device sends other messages: `fuel` bounds its iterations, and the
result is `none` when it is used up. -/
def mk_connect_chan_handshake (env : handshake_env) :
    ℕ → ℕ → ℕ → Option (handshake_outcome × List handshake_action)
  | 0, _, _ => none
  | fuel + 1, k, j =>
    match (handshake_attempts env 0 k).1 with
    | attempts_end.failed =>
      some (handshake_outcome.sys_error handshake_errno.other, (handshake_attempts env 0 k).2.2)
    | attempts_end.exhausted =>
      some (handshake_outcome.sys_error handshake_errno.ETIMEDOUT,
        (handshake_attempts env 0 k).2.2)
    | attempts_end.answered =>
      match env.recv j with
      | none =>
        some (handshake_outcome.sys_error handshake_errno.ENOMSG,
          (handshake_attempts env 0 k).2.2)
      | some msg =>
        if msg.head? = some 63 then
          some (handshake_outcome.identity msg, (handshake_attempts env 0 k).2.2)
        else
          (mk_connect_chan_handshake env fuel (handshake_attempts env 0 k).2.1 (j + 1)).map
            (fun r => (r.1, (handshake_attempts env 0 k).2.2 ++ r.2))

/-- A device that never answers: every send succeeds and every wait reaches its
deadline. -/
def env_silent : handshake_env :=
  { send_fails := fun _ => false, wait := fun _ => wait_result.timeout, recv := fun _ => none }

/-! ## Runs of the servo -/

/-- The results of the successive calls of `mk_servo_main`, one per tick, from
the scale `scale`: the activity goes on as long as the codel returns the pause
event, and the call that returns another event is the last one. -/
def mk_servo_calls (period_ms : ℕ) (conn : Option rotorcraft_conn_s) (servo : servo_s) :
    ℚ → List servo_tick → List servo_result
  | _, [] => []
  | scale, t :: ts =>
    if (mk_servo_main period_ms conn t.sensor_time t.rotor_data t.rotor_input servo scale
        t.tv t.tv_send).event = genom_event.rotorcraft_pause_main then
      mk_servo_main period_ms conn t.sensor_time t.rotor_data t.rotor_input servo scale
          t.tv t.tv_send ::
        mk_servo_calls period_ms conn servo
          (mk_servo_main period_ms conn t.sensor_time t.rotor_data t.rotor_input servo scale
            t.tv t.tv_send).scale ts
    else
      [mk_servo_main period_ms conn t.sensor_time t.rotor_data t.rotor_input servo scale
        t.tv t.tv_send]

/-- A sensor timing state whose measured IMU rate is 700 for a nominal rate
of 1000. -/
def sensor_time_low_imu : sensor_time_s :=
  { sensor_time_nominal with measured_rate := { rate_init with imu := 700 } }

/-- State after `mk_connect_start` or `mk_pconnect_start`: the returned event,
the connection, the timing state and the messages sent. -/
structure connect_result where
  event : genom_event
  conn : rotorcraft_conn_s
  sensor_time : sensor_time_s
  sent : List sent_msg
deriving DecidableEq

/-- State after `mk_disconnect_start`. -/
structure disconnect_result where
  event : genom_event
  conn : rotorcraft_conn_s
  sent : List sent_msg
deriving DecidableEq

/-- The call `mk_set_sensor_rate(&sensor_time->rate, *conn, NULL, sensor_time)`
that ends `mk_connect_start` and `mk_pconnect_start`; its event is ignored. -/
def configure_streaming (event : genom_event) (conn : rotorcraft_conn_s)
    (sensor_time : sensor_time_s) : connect_result :=
  { event := event
    conn := conn
    sensor_time :=
      ((mk_set_sensor_rate sensor_time.rate conn none (some sensor_time)).bind
        (fun r => r.sensor_time)).getD sensor_time
    sent :=
      ((mk_set_sensor_rate sensor_time.rate conn none (some sensor_time)).map
        (fun r => r.sent)).getD [] }

/-- Codel `mk_connect_start`. The argument `opened` is the outcome of
`mk_connect_chan(serial, baud, chan)`: an error event, or the link with `fd`,
`path`, `st_dev`, `st_ino` and `device` filled in. All the links are closed and
the array is freed before the device is opened, so an error leaves the
connection empty. `malloc` is taken to succeed. -/
def mk_connect_start (opened : Except genom_event mk_channel_s) (_conn : rotorcraft_conn_s)
    (sensor_time : sensor_time_s) : connect_result :=
  match opened with
  | Except.error e => { event := e, conn := { chan := [] }, sensor_time := sensor_time, sent := [] }
  | Except.ok chan =>
    configure_streaming genom_event.rotorcraft_ether
      { chan := [{ chan with imu := true, mag := true, motor := true, minid := 1
                             maxid := or_rotorcraft_max_rotors }] }
      sensor_time

/-- Body of the loop "check already open device" of `mk_pconnect_start`: an
open link on the device of `chan` (same `st_dev` and `st_ino`) is closed. -/
def close_same_device (chan c : mk_channel_s) : mk_channel_s :=
  if c.fd < 0 then c
  else if c.st_dev ≠ chan.st_dev then c
  else if c.st_ino ≠ chan.st_ino then c
  else { c with fd := -1 }

/-- Test of the loop "check conflicting flags" of `mk_pconnect_start` on one
link. -/
def conflicting (imu mag : Bool) (c : mk_channel_s) : Bool :=
  if c.fd < 0 then false else (imu && c.imu) || (mag && c.mag)

/-- Body of the loop "allocate motor id range" of `mk_pconnect_start` on the
link `c`, with the local `uint16_t` variables `minid` and `maxid`: the link
after the step and the new `maxid`. The field `maxid` of the link receives
`minid - 1`, which is not negative on that branch (`c.minid < minid`); the
fields `minid` and `maxid`, declared in `codels.h`, are taken to hold a
`uint16_t` value unchanged. -/
def alloc_step (minid : ℕ) (c : mk_channel_s) (maxid : ℕ) : mk_channel_s × ℕ :=
  if c.fd < 0 then (c, maxid)
  else if c.motor = false then (c, maxid)
  else if c.maxid < minid then (c, maxid)
  else if minid ≤ c.minid then
    (c, if c.minid ≤ maxid then to_uint16 ((c.minid : ℤ) - 1) else maxid)
  else ({ c with maxid := minid - 1 }, to_uint16 (c.maxid : ℤ))

/-- The loop "allocate motor id range" of `mk_pconnect_start` over the links:
the links after the loop and the final `maxid`. -/
def alloc_loop (minid : ℕ) : List mk_channel_s → ℕ → List mk_channel_s × ℕ
  | [], maxid => ([], maxid)
  | c :: cs, maxid =>
    ((alloc_step minid c maxid).1 :: (alloc_loop minid cs (alloc_step minid c maxid).2).1,
      (alloc_loop minid cs (alloc_step minid c maxid).2).2)

/-- The loop "record" of `mk_pconnect_start`, which has no `break`: every
closed slot receives `*chan`, after which `chan` is freed and set to NULL
(`none`). The result is the array and the pointer after the loop, or `none`
when a closed slot is met while `chan` is NULL (the copy `*chan` dereferences
a NULL pointer). -/
def record_loop : List mk_channel_s → Option mk_channel_s →
    Option (List mk_channel_s × Option mk_channel_s)
  | [], chan => some ([], chan)
  | c :: cs, chan =>
    if 0 ≤ c.fd then (record_loop cs chan).map (fun r => (c :: r.1, r.2))
    else
      match chan with
      | none => none
      | some n => (record_loop cs none).map (fun r => (n :: r.1, r.2))

/-- The array after the step "record" of `mk_pconnect_start`: the new link is
appended when the loop has left `chan` non-NULL (`realloc` is taken to
succeed). -/
def record (n : mk_channel_s) (l : List mk_channel_s) : Option (List mk_channel_s) :=
  (record_loop l (some n)).map
    (fun r => match r.2 with
      | some c => r.1 ++ [c]
      | none => r.1)

/-- Codel `mk_pconnect_start`. The argument `opened` is the outcome of
`mk_connect_chan` as in `mk_connect_start`; `offset` is a `uint16_t`. The
result is `none` when the loop "record" dereferences a NULL pointer. The array
is modified in place, so the connection of an error result is the array as it
is when the codel returns. -/
def mk_pconnect_start (opened : Except genom_event mk_channel_s) (imu mag motor : Bool)
    (offset : ℕ) (conn : rotorcraft_conn_s) (sensor_time : sensor_time_s) :
    Option connect_result :=
  match opened with
  | Except.error e => some { event := e, conn := conn, sensor_time := sensor_time, sent := [] }
  | Except.ok chan =>
    if (conn.chan.map (close_same_device chan)).any (conflicting imu mag) then
      some { event := genom_event.rotorcraft_e_baddev
             conn := { chan := conn.chan.map (close_same_device chan) }
             sensor_time := sensor_time, sent := [] }
    else if motor = false then
      (record { chan with imu := imu, mag := mag, motor := motor, minid := 0, maxid := 0 }
          (conn.chan.map (close_same_device chan))).map
        (fun l => configure_streaming genom_event.rotorcraft_ether { chan := l } sensor_time)
    else if (alloc_loop (to_uint16 ((offset : ℤ) + 1)) (conn.chan.map (close_same_device chan))
                or_rotorcraft_max_rotors).2 < to_uint16 ((offset : ℤ) + 1)
            ∨ to_uint16 ((offset : ℤ) + 1) < 1
            ∨ or_rotorcraft_max_rotors
                < (alloc_loop (to_uint16 ((offset : ℤ) + 1))
                    (conn.chan.map (close_same_device chan)) or_rotorcraft_max_rotors).2 then
      some { event := genom_event.rotorcraft_e_baddev
             conn := { chan := (alloc_loop (to_uint16 ((offset : ℤ) + 1))
                         (conn.chan.map (close_same_device chan)) or_rotorcraft_max_rotors).1 }
             sensor_time := sensor_time, sent := [] }
    else
      (record { chan with imu := imu, mag := mag, motor := motor
                          minid := to_uint16 ((offset : ℤ) + 1)
                          maxid := (alloc_loop (to_uint16 ((offset : ℤ) + 1))
                            (conn.chan.map (close_same_device chan))
                            or_rotorcraft_max_rotors).2 }
          (alloc_loop (to_uint16 ((offset : ℤ) + 1)) (conn.chan.map (close_same_device chan))
            or_rotorcraft_max_rotors).1).map
        (fun l => configure_streaming genom_event.rotorcraft_ether { chan := l } sensor_time)

/-- Codel `mk_disconnect_start`: streaming is stopped with the rates 0 (filter
and timing state NULL), then every open link is sent `x` and closed. -/
def mk_disconnect_start (conn : rotorcraft_conn_s) : disconnect_result :=
  { event := genom_event.rotorcraft_ether
    conn := { chan := conn.chan.map (fun c => if c.fd < 0 then c else { c with fd := -1 }) }
    sent :=
      ((mk_set_sensor_rate { imu := 0, mag := 0, motor := 0, battery := 0 } conn none none).map
        (fun r => r.sent)).getD []
      ++ conn.chan.enum.filterMap
          (fun ic => if ic.2.fd < 0 then none
                     else some { chan := ic.1, fmt := "x", args := [] }) }

/-- The postcondition of a successful `mk_connect_chan` that the activities
rely on: the link it returns is open. -/
def opened_ok (opened : Except genom_event mk_channel_s) : Prop :=
  ∀ c, opened = Except.ok c → 0 ≤ c.fd

/-- The connection states reachable from the empty connection (set by
`mk_comm_start`) by the activities `connect`, `pconnect` and `disconnect`. -/
inductive conn_reachable : rotorcraft_conn_s → Prop where
  | empty : conn_reachable { chan := [] }
  | connect (opened : Except genom_event mk_channel_s) (conn : rotorcraft_conn_s)
      (sensor_time : sensor_time_s) :
      conn_reachable conn → opened_ok opened →
      conn_reachable (mk_connect_start opened conn sensor_time).conn
  | pconnect (opened : Except genom_event mk_channel_s) (imu mag motor : Bool) (offset : ℕ)
      (conn : rotorcraft_conn_s) (sensor_time : sensor_time_s) (r : connect_result) :
      conn_reachable conn → opened_ok opened → offset < 65536 →
      mk_pconnect_start opened imu mag motor offset conn sensor_time = some r →
      conn_reachable r.conn
  | disconnect (conn : rotorcraft_conn_s) :
      conn_reachable conn → conn_reachable (mk_disconnect_start conn).conn

/-- An open link with the motor capability. -/
def open_motor (c : mk_channel_s) : Prop := 0 ≤ c.fd ∧ c.motor = true

instance (c : mk_channel_s) : Decidable (open_motor c) := by
  unfold open_motor; infer_instance

/-- The motor-range invariant of a list of links: every open motor link has a
non-empty range inside [1, 8], and the ranges of two distinct open motor links
are disjoint. -/
def motor_ranges_ok (l : List mk_channel_s) : Prop :=
  (∀ c ∈ l, open_motor c → 1 ≤ c.minid ∧ c.minid ≤ c.maxid ∧ c.maxid ≤ or_rotorcraft_max_rotors)
    ∧ l.Pairwise (fun c d => open_motor c → open_motor d →
        c.maxid < d.minid ∨ d.maxid < c.minid)

/-- A link as `mk_connect_chan` returns it: open, with the device identity
`(st_dev, st_ino)`; the capabilities and the range are set by the caller. -/
def chan_opened (st_dev st_ino : ℕ) : mk_channel_s :=
  { fd := 4, path := "/dev/ttyACM0", st_dev := st_dev, st_ino := st_ino
    device := rc_device.RC_TEENSY, imu := false, mag := false, motor := false
    minid := 0, maxid := 0 }

/-! ## Activity `start` -/

/-- State after `mk_start_start` or `mk_start_monitor`: the returned event, the
tick counter `*timeout`, the bit set `*state` of the rotors seen starting, and
the messages sent. -/
structure start_result where
  event : genom_event
  timeout : ℕ
  state : ℕ
  sent : List sent_msg
deriving DecidableEq

/-- The second loop of `mk_start_start`, from the rotor of index `i` on: the
start message `g%1` goes to the first link whose range contains `i + 1`, and
the loop returns at the first enabled rotor in emergency. -/
def start_start_loop (conn : rotorcraft_conn_s) : List rotor_data_s → ℕ →
    genom_event × List sent_msg
  | [], _ => (genom_event.rotorcraft_monitor, [])
  | r :: rs, i =>
    if r.state.disabled then start_start_loop conn rs (i + 1)
    else if r.state.emerg then
      (genom_event.rotorcraft_pause_start, send_to_owner "g%1" (i + 1) conn)
    else
      ((start_start_loop conn rs (i + 1)).1,
        send_to_owner "g%1" (i + 1) conn ++ (start_start_loop conn rs (i + 1)).2)

/-- Codel `mk_start_start`. `timeout` and `state` are the values of `*timeout`
and `*state` at the call; the new `*timeout` is the `uint32_t` conversion of
`servo->timeout * 1e3 / rotorcraft_control_period_ms`. -/
def mk_start_start (period_ms : ℕ) (conn : Option rotorcraft_conn_s) (servo : servo_s)
    (timeout state : ℕ) (rotor_data : List rotor_data_s) : start_result :=
  match conn with
  | none => { event := genom_event.rotorcraft_e_connection, timeout := timeout
              state := state, sent := [] }
  | some conn =>
    if (rotor_data.take or_rotorcraft_max_rotors).any
        (fun r => !r.state.disabled && r.state.spinning) then
      { event := genom_event.rotorcraft_e_started, timeout := timeout, state := state
        sent := [] }
    else
      { event := (start_start_loop conn (rotor_data.take or_rotorcraft_max_rotors) 0).1
        timeout := to_uint32 (dbl_to_int (servo.timeout * 1000 / (period_ms : ℚ)))
        state := 0
        sent := (start_start_loop conn (rotor_data.take or_rotorcraft_max_rotors) 0).2 }

/-- State of the loop of `mk_start_monitor` when it ends: the error it returns
with, if any, the bit set `*state`, the flag `complete` and the start messages
sent again. -/
structure monitor_scan where
  error : Option genom_event
  state : ℕ
  complete : Bool
  sent : List sent_msg
deriving DecidableEq

/-- The loop of `mk_start_monitor`, from the rotor of index `i` on, with the
decremented tick counter `timeout`, the `uint16_t` bit set `state` and the flag
`complete`. The call of `mk_stop` that precedes each error return is made by
`mk_start_monitor` below. -/
def start_monitor_loop (conn : rotorcraft_conn_s) (timeout : ℕ) :
    List rotor_data_s → ℕ → ℕ → Bool → monitor_scan
  | [], _, state, complete =>
    { error := none, state := state, complete := complete, sent := [] }
  | r :: rs, i, state, complete =>
    if r.state.disabled then
      if r.state.starting || r.state.spinning then
        { error := some (genom_event.rotorcraft_e_rotor_not_disabled (1 + i))
          state := state, complete := complete, sent := [] }
      else start_monitor_loop conn timeout rs (i + 1) state complete
    else if r.state.spinning then
      start_monitor_loop conn timeout rs (i + 1)
        (if r.state.starting then (state ||| 1 <<< i) % 65536 else state) complete
    else if r.state.emerg then
      { error := some (genom_event.rotorcraft_e_rotor_failure (1 + i))
        state := if r.state.starting then (state ||| 1 <<< i) % 65536 else state
        complete := complete, sent := [] }
    else if !r.state.starting
        && decide ((if r.state.starting then (state ||| 1 <<< i) % 65536 else state)
              &&& 1 <<< i ≠ 0) then
      { error := some (genom_event.rotorcraft_e_rotor_stopped (1 + i))
        state := if r.state.starting then (state ||| 1 <<< i) % 65536 else state
        complete := complete, sent := [] }
    else
      { start_monitor_loop conn timeout rs (i + 1)
          (if r.state.starting then (state ||| 1 <<< i) % 65536 else state) false with
        sent :=
          (if !r.state.starting && decide (timeout % 100 = 0) then
            send_to_owner "g%1" (i + 1) conn else [])
          ++ (start_monitor_loop conn timeout rs (i + 1)
                (if r.state.starting then (state ||| 1 <<< i) % 65536 else state) false).sent }

/-- The end of `mk_start_monitor`, after a loop that returned no error, with
the decremented tick counter `timeout`: the event and whether `mk_stop` is
called. The system error is the one built by `mk_e_sys_error("start")` with
`errno = EAGAIN`. -/
def start_monitor_end (sensor_time : sensor_time_s) (timeout : ℕ) (complete : Bool) :
    genom_event × Bool :=
  if !complete then
    if timeout = 0 then (genom_event.rotorcraft_e_sys, true)
    else (genom_event.rotorcraft_pause_monitor, false)
  else
    match low_rate sensor_time with
    | some dev =>
      if timeout = 0 then (genom_event.rotorcraft_e_rate dev, true)
      else (genom_event.rotorcraft_pause_monitor, false)
    | none => (genom_event.rotorcraft_ether, false)

/-- Codel `mk_start_monitor`. `timeout` and `state` are the values of
`*timeout` (a `uint32_t`) and `*state` at the call, `tv_send` is the time read
by `mk_stop`. -/
def mk_start_monitor (conn : rotorcraft_conn_s) (sensor_time : sensor_time_s)
    (timeout state : ℕ) (rotor_data : List rotor_data_s) (tv_send : timeval) : start_result :=
  let scan := start_monitor_loop conn (to_uint32 ((timeout : ℤ) - 1))
    (rotor_data.take or_rotorcraft_max_rotors) 0 state true
  match scan.error with
  | some e =>
    { event := e, timeout := to_uint32 ((timeout : ℤ) - 1), state := scan.state
      sent := scan.sent ++ (mk_stop conn rotor_data tv_send).2 }
  | none =>
    { event := (start_monitor_end sensor_time (to_uint32 ((timeout : ℤ) - 1)) scan.complete).1
      timeout := to_uint32 ((timeout : ℤ) - 1)
      state := scan.state
      sent := scan.sent
        ++ (if (start_monitor_end sensor_time (to_uint32 ((timeout : ℤ) - 1))
                scan.complete).2 then (mk_stop conn rotor_data tv_send).2 else []) }

/-! ## Task `main`: `mk_main_perm` -/

/-- The struct `rotorcraft_ids_battery_s`; the level is NaN (`none`) until a
battery frame arrives. -/
structure battery_s where
  ts : or_time_ts
  min : ℚ
  max : ℚ
  level : Option ℚ
deriving DecidableEq

/-- The test `!isnan(level) && level > 0. && level < min` of `mk_main_perm`. -/
def battery_low (battery : battery_s) : Bool :=
  match battery.level with
  | none => false
  | some l => decide (0 < l) && decide (l < battery.min)

/-- The part "battery level" of `mk_main_perm`, with the value `cnt` of its
static counter at the call (0 when the program starts): the beep messages and
the counter after the call. -/
def main_perm_beep (conn : rotorcraft_conn_s) (battery : battery_s) (cnt : ℕ) :
    List sent_msg × ℕ :=
  if battery_low battery then
    (if cnt = 0 then
        conn.chan.enum.map (fun ic => { chan := ic.1, fmt := "~%2", args := [msg_arg.u16 440] })
      else [],
     (cnt + 1) % 500)
  else ([], cnt)

/-- The test `rate < 0.1 * nominal || nominal < 0.1` of the part "update sensor
time" of `mk_main_perm`, with
`rate = 1. / (tv.tv_sec - ts.sec + (1 + tv.tv_usec * 1000 - ts.nsec) * 1e-9)`.
When the denominator is 0 the double division gives +infinity, which is not
below `0.1 * nominal`. -/
def rate_aged (tv : timeval) (ts : or_time_ts) (nominal : ℚ) : Bool :=
  (decide (((tv.tv_sec - ts.sec : ℤ) : ℚ)
        + ((1 + tv.tv_usec * 1000 - ts.nsec : ℤ) : ℚ) * (1 / 1000000000) ≠ 0)
    && decide (1 / (((tv.tv_sec - ts.sec : ℤ) : ℚ)
        + ((1 + tv.tv_usec * 1000 - ts.nsec : ℤ) : ℚ) * (1 / 1000000000))
          < 1 / 10 * nominal))
  || decide (nominal < 1 / 10)

/-- The part "update sensor time" of `mk_main_perm`: the measured rate of a
channel is set to 0 when its last timestamp is older than 10 nominal periods or
its nominal rate is below 0.1. `its` and `mts` are the timestamps of the
published IMU and magnetometer data. -/
def main_perm_rates (sensor_time : sensor_time_s) (its mts : or_time_ts)
    (rotor_data : List rotor_data_s) (tv : timeval) : sensor_time_s :=
  { sensor_time with
    measured_rate :=
      { imu := if rate_aged tv its sensor_time.rate.imu then 0
               else sensor_time.measured_rate.imu
        mag := if rate_aged tv mts sensor_time.rate.mag then 0
               else sensor_time.measured_rate.mag
        motor :=
          if (rotor_data.take or_rotorcraft_max_rotors).any
              (fun r => !r.state.disabled && rate_aged tv r.state.ts sensor_time.rate.motor)
          then 0 else sensor_time.measured_rate.motor
        battery := sensor_time.measured_rate.battery } }

/-- State after a call of `mk_main_perm`, for the parts of the codel that the
control path reads: the messages sent, the static counter `cnt` and the timing
state. The publication of the ports is not part of this state. -/
structure main_perm_result where
  event : genom_event
  sent : List sent_msg
  cnt : ℕ
  sensor_time : sensor_time_s
deriving DecidableEq

/-- Codel `mk_main_perm`: battery alarm and ageing of the measured rates. -/
def mk_main_perm (conn : rotorcraft_conn_s) (battery : battery_s)
    (rotor_data : List rotor_data_s) (sensor_time : sensor_time_s) (its mts : or_time_ts)
    (tv : timeval) (cnt : ℕ) : main_perm_result :=
  { event := genom_event.rotorcraft_log
    sent := (main_perm_beep conn battery cnt).1
    cnt := (main_perm_beep conn battery cnt).2
    sensor_time := main_perm_rates sensor_time its mts rotor_data tv }

/-- One tick of the task `main` as `mk_main_perm` sees it. -/
structure main_tick where
  battery : battery_s
  rotor_data : List rotor_data_s
  its : or_time_ts
  mts : or_time_ts
  tv : timeval
deriving DecidableEq

/-- The messages sent by successive calls of `mk_main_perm`, one list per
tick, from the counter value `cnt` and the timing state `sensor_time`. -/
def mk_main_perm_run (conn : rotorcraft_conn_s) :
    sensor_time_s → ℕ → List main_tick → List (List sent_msg)
  | _, _, [] => []
  | sensor_time, cnt, t :: ts =>
    (mk_main_perm conn t.battery t.rotor_data sensor_time t.its t.mts t.tv cnt).sent ::
      mk_main_perm_run conn
        (mk_main_perm conn t.battery t.rotor_data sensor_time t.its t.mts t.tv cnt).sensor_time
        (mk_main_perm conn t.battery t.rotor_data sensor_time t.its t.mts t.tv cnt).cnt ts

/-! ## Concrete inputs of the examples (servo and start paths) -/

/-- Eight enabled rotors, all spinning except rotor 2, which is stopped. -/
def rotors_one_idle : List rotor_data_s :=
  rotor_spinning :: rotor_idle :: List.replicate 6 rotor_spinning

/-- The number of ticks of a list on which the battery is low. -/
def low_ticks (ticks : List main_tick) : ℕ :=
  (ticks.filter (fun u => battery_low u.battery)).length

/-- The beep `~%2 440` sent to every link of the connection. -/
def beep_msgs (conn : rotorcraft_conn_s) : List sent_msg :=
  conn.chan.enum.map (fun ic => { chan := ic.1, fmt := "~%2", args := [msg_arg.u16 440] })

/-- A tick of the task `main` with the battery at the level `level`, for the
limits min = 14.0 and max = 16.8 set by `mk_main_init`. -/
def main_tick_level (level : Option ℚ) : main_tick :=
  { battery := { ts := { sec := 1000000017, nsec := 0 }, min := 14, max := 84 / 5
                 level := level }
    rotor_data := rotors_spinning
    its := { sec := 1000000017, nsec := 0 }
    mts := { sec := 1000000017, nsec := 0 }
    tv := { tv_sec := 1000000017, tv_usec := 1000 } }

/-- A rotor record as `mk_disable_motor` leaves it: disabled and stopped. -/
def rotor_disabled_idle : rotor_data_s :=
  { rotor_spinning with
    state := { rotor_spinning.state with disabled := true, spinning := false } }

/-- A rotor record that is enabled and starting, not yet spinning. -/
def rotor_starting : rotor_data_s :=
  { rotor_spinning with
    state := { rotor_spinning.state with starting := true, spinning := false } }

/-- Eight rotors, all enabled and spinning except rotor 2, which is disabled
and stopped. -/
def rotors_one_disabled : List rotor_data_s :=
  rotor_spinning :: rotor_disabled_idle :: List.replicate 6 rotor_spinning

/-- Eight enabled rotors, all spinning except rotor 2, which is starting. -/
def rotors_one_starting : List rotor_data_s :=
  rotor_spinning :: rotor_starting :: List.replicate 6 rotor_spinning

/-- A velocity command of 100 for rotor 1 alone, stamped at second
1000000017. -/
def input_velocity_one : or_rotorcraft_input :=
  { input_velocity with desired := [some 100] }

/-- The nominal timing state with the IMU rate set to 0.05 Hz. -/
def sensor_time_slow_imu : sensor_time_s :=
  { sensor_time_nominal with rate := { rate_init with imu := 1 / 20 } }

/-- A rotor record that is enabled, in emergency and not spinning. -/
def rotor_emerg_idle : rotor_data_s :=
  { rotor_spinning with
    state := { rotor_spinning.state with emerg := true, spinning := false } }

/-! ## Task `comm`: `mk_comm_recv_msg` -/

/-- The resolutions of a device in the table `rc_devices`: gyroscope,
accelerometer, magnetometer, and temperature resolution and offset. -/
structure rc_device_res where
  gres : ℚ
  ares : ℚ
  mres : ℚ
  tres : ℚ
  toff : ℚ
deriving DecidableEq

/-- The table `rc_devices`; the fields that an entry does not set are 0. -/
def rc_devices : rc_device → rc_device_res
  | rc_device.RC_NONE => { gres := 0, ares := 0, mres := 0, tres := 0, toff := 0 }
  | rc_device.RC_MKBL =>
    { gres := 1 / 1000, ares := 1 / 1000, mres := 1 / 100000000, tres := 0, toff := 0 }
  | rc_device.RC_MKFL =>
    { gres := 1 / 1000, ares := 1 / 1000, mres := 1 / 100000000, tres := 0, toff := 0 }
  | rc_device.RC_FLYMU =>
    { gres := 1 / 1000, ares := 1 / 1000, mres := 1 / 100000000, tres := 0, toff := 0 }
  | rc_device.RC_CHIMERA =>
    { gres := 1000 * M_PI / 180 / 32768, ares := 8 * (981 / 100) / 32768
      mres := 1 / 100000000, tres := 1 / (33387 / 100), toff := 21 }
  | rc_device.RC_TEENSY => { gres := 0, ares := 0, mres := 0, tres := 0, toff := 0 }

/-- The struct `rotorcraft_ids_imu_calibration_s`: row-major 3×3 scale matrix,
bias and standard deviation for the gyroscope, the accelerometer and the
magnetometer. -/
structure imu_calibration_s where
  gscale : Fin 9 → ℚ
  gbias : Fin 3 → ℚ
  gstddev : Fin 3 → ℚ
  ascale : Fin 9 → ℚ
  abias : Fin 3 → ℚ
  astddev : Fin 3 → ℚ
  mscale : Fin 9 → ℚ
  mbias : Fin 3 → ℚ
  mstddev : Fin 3 → ℚ
deriving DecidableEq

/-- The fields of the port data `or_pose_estimator_state` that the codels of
the task `comm` write: the timestamp, the attitude `att` (`qw`, `qx`, `qy`,
`qz` in this order), the angular velocity `avel` and the acceleration `acc`,
each with its presence flag. -/
structure or_pose_estimator_state where
  ts : or_time_ts
  att_present : Bool
  att : Fin 4 → Option ℚ
  avel_present : Bool
  avel : Fin 3 → Option ℚ
  acc_present : Bool
  acc : Fin 3 → Option ℚ
deriving DecidableEq

/-- The state that `mk_comm_recv_msg` reads and writes: filter, timing state,
data of the ports `imu` and `mag`, rotor records, battery and IMU
temperature. -/
structure comm_state where
  imu_filter : imu_filter_s
  sensor_time : sensor_time_s
  idata : or_pose_estimator_state
  mdata : or_pose_estimator_state
  rotor_data : List rotor_data_s
  battery : battery_s
  imu_temp : Option ℚ
deriving DecidableEq

/-- The byte `msg[k]` of a received message. -/
def msg_byte (msg : List ℕ) (k : ℕ) : ℕ := msg.getD k 0

/-- The value
`v16 = ((int16_t)hi << 8); v16 |= ((uint16_t)lo << 0);` of two bytes: the
signed big-endian 16-bit integer, stored in an `int16_t`. -/
def be_int16 (hi lo : ℕ) : ℤ := to_int16 ((hi : ℤ) * 256 + (lo : ℤ))

/-- The value `u16 = ((uint16_t)hi << 8); u16 |= ((uint16_t)lo << 0);` of two
bytes: the unsigned big-endian 16-bit integer. -/
def be_uint16 (hi lo : ℕ) : ℕ := (hi * 256 + lo) % 65536

/-- The `uint8_t` global id `id = local; id += chan->minid - 1;`. -/
def motor_global_id (chan : mk_channel_s) (local_id : ℕ) : ℕ :=
  (((local_id : ℤ) + ((chan.minid : ℤ) - 1)) % 256).toNat

/-- The `uint8_t` array index after `id--`. -/
def motor_index (id : ℕ) : ℕ := (((id : ℤ) - 1) % 256).toNat

/-- The case `'I'` of `mk_comm_recv_msg`: IMU data. -/
def recv_imu (chan : mk_channel_s) (msg : List ℕ) (cal : imu_calibration_s)
    (s : comm_state) (tv : timeval) : comm_state :=
  if chan.imu = false then s
  else if msg.length = 14 ∨ msg.length = 16 then
    if msg_byte msg 1 = s.sensor_time.imu.seq then s
    else
      { s with
        sensor_time :=
          { s.sensor_time with
            imu := (mk_get_ts (msg_byte msg 1) tv s.sensor_time.rate.imu s.sensor_time.imu
                      s.sensor_time.measured_rate.imu).1
            measured_rate :=
              { s.sensor_time.measured_rate with
                imu := (mk_get_ts (msg_byte msg 1) tv s.sensor_time.rate.imu s.sensor_time.imu
                          s.sensor_time.measured_rate.imu).2.2 } }
        imu_filter :=
          { s.imu_filter with
            a := fun i => some ((rc_filter_imu_data
                  (fun (k : Fin 3) =>
                    (be_int16 (msg_byte msg (2 + 2 * k.val)) (msg_byte msg (3 + 2 * k.val)) : ℚ)
                      * (rc_devices chan.device).ares)
                  cal.ascale cal.abias s.imu_filter.aalpha s.imu_filter.af).1 i)
            af := (rc_filter_imu_data
                  (fun (k : Fin 3) =>
                    (be_int16 (msg_byte msg (2 + 2 * k.val)) (msg_byte msg (3 + 2 * k.val)) : ℚ)
                      * (rc_devices chan.device).ares)
                  cal.ascale cal.abias s.imu_filter.aalpha s.imu_filter.af).2
            g := fun i => some ((rc_filter_imu_data
                  (fun (k : Fin 3) =>
                    (be_int16 (msg_byte msg (8 + 2 * k.val)) (msg_byte msg (9 + 2 * k.val)) : ℚ)
                      * (rc_devices chan.device).gres)
                  cal.gscale cal.gbias s.imu_filter.galpha s.imu_filter.gf).1 i)
            gf := (rc_filter_imu_data
                  (fun (k : Fin 3) =>
                    (be_int16 (msg_byte msg (8 + 2 * k.val)) (msg_byte msg (9 + 2 * k.val)) : ℚ)
                      * (rc_devices chan.device).gres)
                  cal.gscale cal.gbias s.imu_filter.galpha s.imu_filter.gf).2 }
        idata :=
          { s.idata with
            ts := (mk_get_ts (msg_byte msg 1) tv s.sensor_time.rate.imu s.sensor_time.imu
                      s.sensor_time.measured_rate.imu).2.1
            acc := (rc_filter_imu_data
                  (fun (k : Fin 3) =>
                    (be_int16 (msg_byte msg (2 + 2 * k.val)) (msg_byte msg (3 + 2 * k.val)) : ℚ)
                      * (rc_devices chan.device).ares)
                  cal.ascale cal.abias s.imu_filter.aalpha s.imu_filter.af).2
            acc_present := true
            avel := (rc_filter_imu_data
                  (fun (k : Fin 3) =>
                    (be_int16 (msg_byte msg (8 + 2 * k.val)) (msg_byte msg (9 + 2 * k.val)) : ℚ)
                      * (rc_devices chan.device).gres)
                  cal.gscale cal.gbias s.imu_filter.galpha s.imu_filter.gf).2
            avel_present := true }
        imu_temp :=
          if msg.length = 16 then
            some ((be_int16 (msg_byte msg 14) (msg_byte msg 15) : ℚ)
                    * (rc_devices chan.device).tres + (rc_devices chan.device).toff)
          else s.imu_temp }
  else s

/-- The array `v` of the case `'C'`: `v[k] = v16 * mres + mbias[k]`. -/
def mag_sample (chan : mk_channel_s) (msg : List ℕ) (cal : imu_calibration_s) : Fin 3 → ℚ :=
  fun k =>
    (be_int16 (msg_byte msg (2 + 2 * k.val)) (msg_byte msg (3 + 2 * k.val)) : ℚ)
      * (rc_devices chan.device).mres + cal.mbias k

/-- The case `'C'` of `mk_comm_recv_msg`: magnetometer data. -/
def recv_mag (chan : mk_channel_s) (msg : List ℕ) (cal : imu_calibration_s)
    (s : comm_state) (tv : timeval) : comm_state :=
  if chan.mag = false then s
  else if msg.length = 8 then
    if msg_byte msg 1 = s.sensor_time.mag.seq then s
    else
      { s with
        sensor_time :=
          { s.sensor_time with
            mag := (mk_get_ts (msg_byte msg 1) tv s.sensor_time.rate.mag s.sensor_time.mag
                      s.sensor_time.measured_rate.mag).1
            measured_rate :=
              { s.sensor_time.measured_rate with
                mag := (mk_get_ts (msg_byte msg 1) tv s.sensor_time.rate.mag s.sensor_time.mag
                          s.sensor_time.measured_rate.mag).2.2 } }
        imu_filter :=
          { s.imu_filter with
            m := fun i => some ((rc_filter_imu_data (mag_sample chan msg cal) cal.mscale
                  cal.mbias s.imu_filter.malpha s.imu_filter.mf).1 i)
            mf := (rc_filter_imu_data (mag_sample chan msg cal) cal.mscale cal.mbias
                  s.imu_filter.malpha s.imu_filter.mf).2 }
        mdata :=
          { s.mdata with
            ts := (mk_get_ts (msg_byte msg 1) tv s.sensor_time.rate.mag s.sensor_time.mag
                      s.sensor_time.measured_rate.mag).2.1
            att := fun (j : Fin 4) =>
              if h : j.val = 0 then none
              else (rc_filter_imu_data (mag_sample chan msg cal) cal.mscale cal.mbias
                      s.imu_filter.malpha s.imu_filter.mf).2 ⟨j.val - 1, by omega⟩
            att_present := true } }
  else s

/-- The rotor record after a motor frame with the sequence byte `seq`, the
state byte `state` and the velocity, throttle and consumption fields, where
`ts` is the timestamp given by `mk_get_ts`. -/
def motor_record (r : rotor_data_s) (msg : List ℕ) (ts : or_time_ts) : rotor_data_s :=
  { r with
    state :=
      { ts := ts
        emerg := decide (msg_byte msg 2 &&& 128 ≠ 0)
        spinning := decide (msg_byte msg 2 &&& 32 ≠ 0)
        starting := decide (msg_byte msg 2 &&& 16 ≠ 0)
        disabled := if r.autoconf && r.state.disabled then false else r.state.disabled
        velocity :=
          if msg_byte msg 2 &&& 32 ≠ 0 then
            (if be_int16 (msg_byte msg 3) (msg_byte msg 4) ≠ 0 then
              some (1000000 / 2 / (be_int16 (msg_byte msg 3) (msg_byte msg 4) : ℚ))
             else some 0)
          else some 0
        throttle := some ((be_int16 (msg_byte msg 5) (msg_byte msg 6) : ℚ) * 100 / 1023)
        consumption := some ((be_uint16 (msg_byte msg 7) (msg_byte msg 8) : ℚ) / 1000)
        energy_level := r.state.energy_level } }

/-- The case `'M'` of `mk_comm_recv_msg`: motor data. The result is `none`
when the index `id` is outside the arrays `sensor_time->motor` and
`rotor_data`. -/
def recv_motor (chan : mk_channel_s) (msg : List ℕ) (s : comm_state) (tv : timeval) :
    Option comm_state :=
  if chan.motor = false then some s
  else if msg.length = 9 then
    if motor_global_id chan (msg_byte msg 2 &&& 15) < chan.minid
        ∨ chan.maxid < motor_global_id chan (msg_byte msg 2 &&& 15) then some s
    else
      match s.sensor_time.motor[motor_index (motor_global_id chan (msg_byte msg 2 &&& 15))]?,
          s.rotor_data[motor_index (motor_global_id chan (msg_byte msg 2 &&& 15))]? with
      | some t, some r =>
        if msg_byte msg 1 = t.seq then some s
        else
          some { s with
            sensor_time :=
              { s.sensor_time with
                motor := s.sensor_time.motor.set
                  (motor_index (motor_global_id chan (msg_byte msg 2 &&& 15)))
                  (mk_get_ts (msg_byte msg 1) tv s.sensor_time.rate.motor t
                    s.sensor_time.measured_rate.motor).1
                measured_rate :=
                  { s.sensor_time.measured_rate with
                    motor := (mk_get_ts (msg_byte msg 1) tv s.sensor_time.rate.motor t
                                s.sensor_time.measured_rate.motor).2.2 } }
            rotor_data := s.rotor_data.set
              (motor_index (motor_global_id chan (msg_byte msg 2 &&& 15)))
              (motor_record r msg
                (mk_get_ts (msg_byte msg 1) tv s.sensor_time.rate.motor t
                  s.sensor_time.measured_rate.motor).2.1) }
      | _, _ => none
  else some s

/-- The case `'B'` of `mk_comm_recv_msg`: battery data. The limits satisfy
`min < max` (`mk_set_battery_limits`), so the division is defined. -/
def recv_battery (msg : List ℕ) (s : comm_state) (tv : timeval) : comm_state :=
  if msg.length = 4 then
    { s with
      battery :=
        { s.battery with
          level := some ((be_uint16 (msg_byte msg 2) (msg_byte msg 3) : ℚ) / 1000)
          ts := ts_of_timeval tv }
      rotor_data :=
        (s.rotor_data.take or_rotorcraft_max_rotors).map
            (fun r => { r with
              state := { r.state with
                energy_level :=
                  some (100 * ((be_uint16 (msg_byte msg 2) (msg_byte msg 3) : ℚ) / 1000
                      - s.battery.min) / (s.battery.max - s.battery.min)) } })
          ++ s.rotor_data.drop or_rotorcraft_max_rotors }
  else s

/-- The case `'T'` of `mk_comm_recv_msg`: clock rate. The result is `none` when
the index `id` is outside the array `rotor_data`. -/
def recv_clkrate (chan : mk_channel_s) (msg : List ℕ) (s : comm_state) : Option comm_state :=
  if chan.motor = false then some s
  else if msg.length = 3 then
    if motor_global_id chan (msg_byte msg 1 % 256) < chan.minid
        ∨ chan.maxid < motor_global_id chan (msg_byte msg 1 % 256) then some s
    else
      match s.rotor_data[motor_index (motor_global_id chan (msg_byte msg 1 % 256))]? with
      | some r =>
        some { s with
          rotor_data := s.rotor_data.set
            (motor_index (motor_global_id chan (msg_byte msg 1 % 256)))
            { r with clkrate := msg_byte msg 2 } }
      | none => none
  else some s

/-- Function `mk_comm_recv_msg`: the state after the message `msg` (the
`chan->len` bytes of `chan->msg`; a message returned by `mk_recv_msg` has at
least its type byte) received on the link `chan` at the time `tv`, or `none`
when the code indexes an array out of its bounds. The type bytes are `'I'` 73,
`'C'` 67, `'M'` 77, `'B'` 66, `'T'` 84; any other message is ignored. -/
def mk_comm_recv_msg (chan : mk_channel_s) (msg : List ℕ) (cal : imu_calibration_s)
    (s : comm_state) (tv : timeval) : Option comm_state :=
  if msg.head? = some 73 then some (recv_imu chan msg cal s tv)
  else if msg.head? = some 67 then some (recv_mag chan msg cal s tv)
  else if msg.head? = some 77 then recv_motor chan msg s tv
  else if msg.head? = some 66 then some (recv_battery msg s tv)
  else if msg.head? = some 84 then recv_clkrate chan msg s
  else some s

/-- The calibration set by `mk_main_init`: identity scales, zero biases. -/
def calibration_init : imu_calibration_s :=
  { gscale := fun i => if i.val % 4 = 0 then 1 else 0
    gbias := fun _ => 0
    gstddev := fun _ => 1 / 100
    ascale := fun i => if i.val % 4 = 0 then 1 else 0
    abias := fun _ => 0
    astddev := fun _ => 5 / 100
    mscale := fun i => if i.val % 4 = 0 then 1 else 0
    mbias := fun _ => 0
    mstddev := fun _ => 5 / 100 }

/-- Port data with no value present. -/
def pose_init : or_pose_estimator_state :=
  { ts := { sec := 1000000017, nsec := 0 }, att_present := false, att := fun _ => none
    avel_present := false, avel := fun _ => none, acc_present := false, acc := fun _ => none }

/-- A state of the task `comm`: nominal timing state, eight spinning rotors, a
pass-through filter and a battery at 15 V. -/
def comm_state_nominal : comm_state :=
  { imu_filter := filter_of_alpha 1
    sensor_time := sensor_time_nominal
    idata := pose_init
    mdata := pose_init
    rotor_data := rotors_spinning
    battery := { ts := { sec := 1000000017, nsec := 0 }, min := 14, max := 84 / 5
                 level := some 15 }
    imu_temp := none }

/-- A motor frame with the sequence byte 1 for the local rotor 1: state byte
0x21 (spinning), half-period 100, throttle 0 and consumption 0. -/
def motor_frame : List ℕ := [77, 1, 33, 0, 100, 0, 0, 0, 0]

/-- The "send" step of `mk_servo_main`: the call of `mk_set_velocity` or of
`mk_set_throttle` that `input_data->control` selects, for the command
`desired`. -/
def servo_send (conn : rotorcraft_conn_s) (rotor_data : List rotor_data_s)
    (control : or_rotorcraft_control_type) (desired : or_rotorcraft_rotor_control)
    (tv_send : timeval) : rotor_result :=
  match control with
  | or_rotorcraft_control_type.or_rotorcraft_velocity =>
    mk_set_velocity conn rotor_data desired tv_send
  | or_rotorcraft_control_type.or_rotorcraft_throttle =>
    mk_set_throttle conn rotor_data desired tv_send

/-! ## Connections with a link that drives no motor -/

/-- The connection built by `connect` on a first device, then `pconnect` on a
second device with `imu`, `mag` and `motor` false: the second link has the
range `minid = maxid = 0`. -/
def conn_motorless : rotorcraft_conn_s :=
  { chan := [{ chan_opened 1 1 with imu := true, mag := true, motor := true, minid := 1
                                    maxid := or_rotorcraft_max_rotors },
             chan_opened 1 2] }

/-- The connection `conn_motorless` after `disconnect`: two closed slots. -/
def conn_two_closed : rotorcraft_conn_s := (mk_disconnect_start conn_motorless).conn

/-- The connection built by `connect` on a device: one link with every
capability and the motor range 1 to 8. -/
def conn_connected : rotorcraft_conn_s :=
  (mk_connect_start (Except.ok (chan_opened 1 1)) { chan := [] } sensor_time_nominal).conn

/-! ## Runs of the start monitor -/

/-- One tick of the activity `start` in its monitor state, as `mk_start_monitor`
sees it: the sensor timing state, the rotor records and the clock read by
`mk_stop`. -/
structure monitor_tick where
  sensor_time : sensor_time_s
  rotor_data : List rotor_data_s
  tv_send : timeval
deriving DecidableEq

/-- The results of the successive calls of `mk_start_monitor`, one per tick,
from the tick counter `timeout` and the bit set `state`: the activity stays in
the monitor state as long as the codel returns the pause event, and the call
that returns another event is the last one. -/
def mk_start_monitor_calls (conn : rotorcraft_conn_s) :
    ℕ → ℕ → List monitor_tick → List start_result
  | _, _, [] => []
  | timeout, state, t :: ts =>
    if (mk_start_monitor conn t.sensor_time timeout state t.rotor_data t.tv_send).event
        = genom_event.rotorcraft_pause_monitor then
      mk_start_monitor conn t.sensor_time timeout state t.rotor_data t.tv_send ::
        mk_start_monitor_calls conn
          (mk_start_monitor conn t.sensor_time timeout state t.rotor_data t.tv_send).timeout
          (mk_start_monitor conn t.sensor_time timeout state t.rotor_data t.tv_send).state ts
    else
      [mk_start_monitor conn t.sensor_time timeout state t.rotor_data t.tv_send]

/-- Eight enabled rotors, all stopped. -/
def rotors_idle : List rotor_data_s := List.replicate 8 rotor_idle

/-- A tick of the start monitor on which every rotor is still stopped. -/
def monitor_tick_idle : monitor_tick :=
  { sensor_time := sensor_time_nominal, rotor_data := rotors_idle
    tv_send := { tv_sec := 1000000017, tv_usec := 1000 } }

/-! ## Task `main`: the rotor sequence of the port `rotor_measure` -/

/-- The member `rotor` of the data of the port `rotor_measure`: a sequence of at
most 8 rotor states, with its length `_length` and its array `_buffer`. -/
structure rotor_sequence where
  length : ℕ
  buffer : List or_rotorcraft_rotor_state
deriving DecidableEq

/-- The loop of `mk_main_perm` that fills `rdata->rotor`, from the rotor of
index `i` on: `_buffer[i] = rotor_data[i].state`, and `_length = i + 1` when the
rotor is not disabled. -/
def main_perm_rotor_loop : List rotor_data_s → ℕ → rotor_sequence → rotor_sequence
  | [], _, rotor => rotor
  | r :: rs, i, rotor =>
    main_perm_rotor_loop rs (i + 1)
      { length := if r.state.disabled then rotor.length else i + 1
        buffer := rotor.buffer.set i r.state }

/-- The value of `rdata->rotor` after a call of `mk_main_perm`, from its value
`rotor` before the call (the port data is kept from one call to the next). -/
def main_perm_rotor (rotor_data : List rotor_data_s) (rotor : rotor_sequence) : rotor_sequence :=
  main_perm_rotor_loop (rotor_data.take or_rotorcraft_max_rotors) 0 rotor

/-- Eight rotors, all disabled and stopped. -/
def rotors_disabled : List rotor_data_s := List.replicate 8 rotor_disabled_idle

/-! ## Task `comm`: `mk_comm_nodata` -/

/-- The struct `rotorcraft_accum`: the sums `data`, the number `count` of
samples added and the stamp `last` of the last sample added. The struct is
declared in the component description; the sums are doubles (`none` is NaN) and
the count is taken not to overflow. -/
structure rotorcraft_accum where
  data : Fin 3 → Option ℚ
  count : ℕ
  last : or_time_ts
deriving DecidableEq

/-- The addition `x += v` of doubles: NaN when one of them is NaN. -/
def nan_add (x v : Option ℚ) : Option ℚ := x.bind (fun a => v.map (fun b => a + b))

/-- Codel `mk_avgsensors_start`: the three accumulators are cleared. -/
def mk_avgsensors_start : (Fin 3 → rotorcraft_accum) × genom_event :=
  (fun _ => { data := fun _ => some 0, count := 0, last := { sec := 0, nsec := 0 } },
    genom_event.rotorcraft_collect)

/-- One of the three blocks of `mk_avgsensors_collect` on the accumulator `a`:
when the value is present and
`ts.sec != a.last.sec || ts.nsec != a.last.sec` (the second test compares the
field `nsec` of the sample with the field `sec` of the accumulator, as the
source does), the value `v` is added, the count incremented and `stamp` stored
in `last`. -/
def avg_accumulate (present : Bool) (ts : or_time_ts) (v : Fin 3 → Option ℚ)
    (stamp : or_time_ts) (a : rotorcraft_accum) : rotorcraft_accum :=
  if present && decide (ts.sec ≠ a.last.sec ∨ ts.nsec ≠ a.last.sec) then
    { data := fun k => nan_add (a.data k) (v k), count := a.count + 1, last := stamp }
  else a

/-- State after `mk_avgsensors_collect`. -/
structure collect_result where
  event : genom_event
  accum : Fin 3 → rotorcraft_accum
  duration : ℚ
deriving DecidableEq

/-- Codel `mk_avgsensors_collect`. `imu_data` and `mag_data` are the data of
the ports `imu` and `mag`, `period_ms` is the constant
`rotorcraft_control_period_ms`. The accumulators 0, 1 and 2 receive the angular
velocity, the acceleration and the components `qx`, `qy`, `qz` of the
magnetometer data; the third block stores the stamp of the IMU data in `last`,
as the source does. The system error is the one built by
`mk_e_sys_error("set_zero")` with `errno = EIO`. -/
def mk_avgsensors_collect (period_ms : ℕ) (imu_data mag_data : or_pose_estimator_state)
    (accum : Fin 3 → rotorcraft_accum) (duration : ℚ) : collect_result :=
  let a0 := avg_accumulate imu_data.avel_present imu_data.ts imu_data.avel imu_data.ts (accum 0)
  let a1 := avg_accumulate imu_data.acc_present imu_data.ts imu_data.acc imu_data.ts (accum 1)
  let a2 := avg_accumulate mag_data.att_present mag_data.ts (fun k => mag_data.att k.succ)
    imu_data.ts (accum 2)
  { event :=
      if 0 < duration - (period_ms : ℚ) / 1000 then genom_event.rotorcraft_pause_collect
      else if a0.count = 0 ∧ a1.count = 0 ∧ a2.count = 0 then genom_event.rotorcraft_e_sys
      else genom_event.rotorcraft_main
    accum := ![a0, a1, a2]
    duration := duration - (period_ms : ℚ) / 1000 }

/-- Data of the port `imu` with a gyroscope sample (1, 2, 3) stamped at second
1000000017 and 5 ms, without acceleration. -/
def pose_gyro : or_pose_estimator_state :=
  { pose_init with
    ts := { sec := 1000000017, nsec := 5000000 }
    avel_present := true
    avel := ![some 1, some 2, some 3] }

/-! ## Double-precision arithmetic

The definitions above take the operations on doubles without rounding. The
definitions of this section round every operation to binary64, for the values
that the code computes where the rounding decides the result: the filter step
of `rc_filter_imu_data`, the ramp step of `mk_servo_main` and the conversions
between filter coefficient and cutoff frequency. -/

/-- Binary search of the integer part of the base-2 logarithm of `n`: with
`j` bits left to decide and `2^e <= n`, the result is the largest `e'` in
`[e, e + 2^j)` with `2^e' <= n`. -/
def log2_bits : ℕ → ℕ → ℕ → ℕ
  | 0, e, _ => e
  | j + 1, e, n => log2_bits j (if 2 ^ (e + 2 ^ j) ≤ n then e + 2 ^ j else e) n

/-- The binary exponent `e` of a rational other than 0:
`2^e <= |q| < 2^(e+1)`, for a numerator and a denominator below `2^4096` (which
covers the doubles, their sums, products and quotients). The difference of the
logarithms of the numerator and of the denominator is `e` or `e + 1`. -/
def f64_exponent (q : ℚ) : ℤ :=
  if |q| < (2 : ℚ) ^ ((log2_bits 12 0 q.num.natAbs : ℤ) - (log2_bits 12 0 q.den : ℤ)) then
    (log2_bits 12 0 q.num.natAbs : ℤ) - (log2_bits 12 0 q.den : ℤ) - 1
  else (log2_bits 12 0 q.num.natAbs : ℤ) - (log2_bits 12 0 q.den : ℤ)

/-- Rounding of a rational that is not negative to the nearest integer, a tie
going to the even one. -/
def round_half_even (m : ℚ) : ℤ :=
  if m - ⌊m⌋ < 1 / 2 then ⌊m⌋
  else if 1 / 2 < m - ⌊m⌋ then ⌊m⌋ + 1
  else if ⌊m⌋ % 2 = 0 then ⌊m⌋ else ⌊m⌋ + 1

/-- Rounding of a real to a C `double` (IEEE 754 binary64, rounding to nearest,
ties to even): the nearest multiple of `2^(e-52)`, where `e` is the binary
exponent, which has a significand of 53 bits. The exponent is not bounded, so
the overflow to infinity and the subnormal numbers are not modelled. -/
def round_f64 (q : ℚ) : ℚ :=
  if q = 0 then 0
  else (if q < 0 then -1 else 1) * (round_half_even (|q| / 2 ^ (f64_exponent q - 52)) : ℚ)
    * 2 ^ (f64_exponent q - 52)

/-- The sum `a + b` of two doubles. -/
def f64_add (a b : ℚ) : ℚ := round_f64 (a + b)

/-- The difference `a - b` of two doubles. -/
def f64_sub (a b : ℚ) : ℚ := round_f64 (a - b)

/-- The product `a * b` of two doubles. -/
def f64_mul (a b : ℚ) : ℚ := round_f64 (a * b)

/-- The quotient `a / b` of two doubles. -/
def f64_div (a b : ℚ) : ℚ := round_f64 (a / b)

/-- The array `in` written by `rc_filter_imu_data`, each operation rounded:
`v = raw + bias`, then
`in[i] = scale[3i]*v[0] + scale[3i+1]*v[1] + scale[3i+2]*v[2]`, the sum taken
from left to right. -/
def rc_filter_imu_in_f64 (raw : Fin 3 → ℚ) (scale : Fin 9 → ℚ) (bias : Fin 3 → ℚ) :
    Fin 3 → ℚ :=
  let v : Fin 3 → ℚ := fun i => f64_add (raw i) (bias i)
  fun i =>
    f64_add (f64_add (f64_mul (scale_at scale i 0) (v 0)) (f64_mul (scale_at scale i 1) (v 1)))
      (f64_mul (scale_at scale i 2) (v 2))

/-- Function `rc_filter_imu_data` in double arithmetic: the filter step
`out[i] += alpha[i] * (in[i] - out[i])` rounds the difference, the product and
the sum. -/
def rc_filter_imu_data_f64 (raw : Fin 3 → ℚ) (scale : Fin 9 → ℚ) (bias : Fin 3 → ℚ)
    (alpha : Fin 3 → ℚ) (out : Fin 3 → Option ℚ) :
    (Fin 3 → ℚ) × (Fin 3 → Option ℚ) :=
  let inp := rc_filter_imu_in_f64 raw scale bias
  (inp, fun i =>
    match out i with
    | some o => some (f64_add o (f64_mul (alpha i) (f64_sub (inp i) o)))
    | none => some (inp i))

/-- The ramp step of `mk_servo_main` in double arithmetic, on a tick where the
rotors all spin: when `*scale < 1.`,
`*scale += 1e-3 * rotorcraft_control_period_ms / servo->ramp` and
`if (*scale > 1.) *scale = 1.`. -/
def servo_ramp_step_f64 (period_ms : ℕ) (ramp scale : ℚ) : ℚ :=
  if scale < 1 then
    if 1 < f64_add scale (f64_div (f64_mul (round_f64 (1 / 1000)) (period_ms : ℚ)) ramp) then 1
    else f64_add scale (f64_div (f64_mul (round_f64 (1 / 1000)) (period_ms : ℚ)) ramp)
  else scale

/-- The scale after `k` ramp steps in double arithmetic, from the scale
`scale`. -/
def servo_ramp_f64 (period_ms : ℕ) (ramp : ℚ) : ℚ → ℕ → ℚ
  | scale, 0 => scale
  | scale, k + 1 => servo_ramp_f64 period_ms ramp (servo_ramp_step_f64 period_ms ramp scale) k

/-- The `wc` of `rc_get_imu_filter` in double arithmetic:
`rate * 0.5 / M_PI`. -/
def wc_get_f64 (r : ℚ) : ℚ := f64_div (f64_mul r (1 / 2)) M_PI

/-- One axis of `rc_get_imu_filter` in double arithmetic:
`alpha < 1. ? wc * alpha / (1. - alpha) : 0.`. -/
def fc_of_alpha_f64 (wc alpha : ℚ) : ℚ :=
  if alpha < 1 then f64_div (f64_mul wc alpha) (f64_sub 1 alpha) else 0

/-- The `wc` of `rc_set_imu_filter` in double arithmetic:
`rate > 0. ? 2 * M_PI / rate : 0.`. -/
def wc_of_rate_f64 (r : ℚ) : ℚ := if 0 < r then f64_div (f64_mul 2 M_PI) r else 0

/-- One axis of `rc_set_imu_filter` in double arithmetic:
`fc > 0. ? wc * fc / (wc * fc + 1) : 1.`. -/
def alpha_of_fc_f64 (wc fc : ℚ) : ℚ :=
  if 0 < fc then f64_div (f64_mul wc fc) (f64_add (f64_mul wc fc) 1) else 1

/-- The cutoff that `rc_get_imu_filter` reads at the rate `new` after
`mk_set_sensor_rate` has moved a filter coefficient `alpha` from the rate `old`
to the rate `new`, in double arithmetic: the cutoff is read at the old rate,
the coefficient is set from it at the new rate, and the cutoff is read again. -/
def cutoff_after_rate_f64 (old new alpha : ℚ) : ℚ :=
  fc_of_alpha_f64 (wc_get_f64 new)
    (alpha_of_fc_f64 (wc_of_rate_f64 new) (fc_of_alpha_f64 (wc_get_f64 old) alpha))

/-! ## Theorems -/

theorem M_PI_pos : 0 < M_PI := by
  unfold M_PI; norm_num

/-- One axis: the cutoff read back from the coefficient computed for `fc` at
the same positive rate is `fc`. -/
theorem fc_of_alpha_of_fc (r fc : ℚ) (hr : 0 < r) (hfc : 0 ≤ fc) :
    fc_of_alpha (r * (1 / 2) / M_PI) (alpha_of_fc (wc_of_rate r) fc) = fc := by
  have hpi := M_PI_pos
  rcases hfc.eq_or_lt with h0 | hpos
  · subst h0
    simp [alpha_of_fc, fc_of_alpha]
  · have hx : 0 < 2 * M_PI / r * fc := by positivity
    have hlt : 2 * M_PI / r * fc / (2 * M_PI / r * fc + 1) < 1 := by
      rw [div_lt_one (by linarith)]; linarith
    simp only [alpha_of_fc, wc_of_rate, fc_of_alpha, if_pos hr, if_pos hpos, if_pos hlt]
    have h1 : (2 * M_PI / r * fc + 1) ≠ 0 := by linarith
    have h2 : (1 : ℚ) - 2 * M_PI / r * fc / (2 * M_PI / r * fc + 1)
        = 1 / (2 * M_PI / r * fc + 1) := by
      field_simp
    rw [h2]
    field_simp
    ring

/-- The three arrays of cutoffs are read back unchanged (shared by the round
trip and by the reconfiguration of the filter on a rate change). -/
theorem rc_imu_filter_round_trip_axes (rate : rate_s) (gfc afc mfc : Fin 3 → ℚ)
    (f : imu_filter_s) (himu : 0 < rate.imu) (hmag : 0 < rate.mag)
    (hg : ∀ i, 0 ≤ gfc i) (ha : ∀ i, 0 ≤ afc i) (hm : ∀ i, 0 ≤ mfc i) :
    rc_get_imu_filter (rc_set_imu_filter gfc afc mfc rate f) rate
        = { gfc := gfc, afc := afc, mfc := mfc } := by
  simp only [rc_get_imu_filter, rc_set_imu_filter]
  congr 1 <;> funext i
  · exact fc_of_alpha_of_fc rate.imu (gfc i) himu (hg i)
  · exact fc_of_alpha_of_fc rate.imu (afc i) himu (ha i)
  · exact fc_of_alpha_of_fc rate.mag (mfc i) hmag (hm i)

/-- C2. Rate/alpha round trip: for positive imu and mag rates and non-negative
cutoffs, `rc_get_imu_filter` applied to the coefficients computed by
`rc_set_imu_filter` at the same rate gives back the cutoffs on every axis of
g, a and m; moreover (at any rate) `rc_set_imu_filter` maps a cutoff 0 to
alpha = 1 and `rc_get_imu_filter` maps alpha = 1 to a cutoff 0. -/
theorem rc_imu_filter_round_trip (rate : rate_s) (gfc afc mfc : Fin 3 → ℚ)
    (f : imu_filter_s) (himu : 0 < rate.imu) (hmag : 0 < rate.mag)
    (hg : ∀ i, 0 ≤ gfc i) (ha : ∀ i, 0 ≤ afc i) (hm : ∀ i, 0 ≤ mfc i) :
    rc_get_imu_filter (rc_set_imu_filter gfc afc mfc rate f) rate
        = { gfc := gfc, afc := afc, mfc := mfc }
      ∧ (∀ (rate0 : rate_s) (g0 a0 m0 : Fin 3 → ℚ) (f0 : imu_filter_s) (i : Fin 3),
          (g0 i = 0 → (rc_set_imu_filter g0 a0 m0 rate0 f0).galpha i = 1)
          ∧ (a0 i = 0 → (rc_set_imu_filter g0 a0 m0 rate0 f0).aalpha i = 1)
          ∧ (m0 i = 0 → (rc_set_imu_filter g0 a0 m0 rate0 f0).malpha i = 1))
      ∧ (∀ (rate0 : rate_s) (f0 : imu_filter_s) (i : Fin 3),
          (f0.galpha i = 1 → (rc_get_imu_filter f0 rate0).gfc i = 0)
          ∧ (f0.aalpha i = 1 → (rc_get_imu_filter f0 rate0).afc i = 0)
          ∧ (f0.malpha i = 1 → (rc_get_imu_filter f0 rate0).mfc i = 0)) := by
  refine ⟨rc_imu_filter_round_trip_axes rate gfc afc mfc f himu hmag hg ha hm, ?_, ?_⟩
  · intro rate0 g0 a0 m0 f0 i
    refine ⟨?_, ?_, ?_⟩ <;> intro h <;> simp [rc_set_imu_filter, alpha_of_fc, h]
  · intro rate0 f0 i
    refine ⟨?_, ?_, ?_⟩ <;> intro h <;> simp [rc_get_imu_filter, fc_of_alpha, h]

theorem rc_imu_filter_round_trip_witness :
    rc_get_imu_filter
        (rc_set_imu_filter (fun _ => 20) (fun _ => 5) (fun _ => 0)
          { imu := 1000, mag := 100, motor := 100, battery := 1 }
          { galpha := fun _ => 1, aalpha := fun _ => 1, malpha := fun _ => 1,
            g := fun _ => none, a := fun _ => none, m := fun _ => none,
            gf := fun _ => none, af := fun _ => none, mf := fun _ => none })
        { imu := 1000, mag := 100, motor := 100, battery := 1 }
      = { gfc := fun _ => 20, afc := fun _ => 5, mfc := fun _ => 0 } :=
  (rc_imu_filter_round_trip { imu := 1000, mag := 100, motor := 100, battery := 1 }
    (fun _ => 20) (fun _ => 5) (fun _ => 0)
    { galpha := fun _ => 1, aalpha := fun _ => 1, malpha := fun _ => 1,
      g := fun _ => none, a := fun _ => none, m := fun _ => none,
      gf := fun _ => none, af := fun _ => none, mf := fun _ => none }
    (by norm_num) (by norm_num) (fun _ => by norm_num) (fun _ => by norm_num)
    (fun _ => by norm_num)).1

/-- C3 (amended). Filter passthrough over exact reals: with alpha = 1 on the
three axes, whatever the previous output (a number or NaN), the output of
`rc_filter_imu_data`, its operations taken without rounding, equals the
calibrated input on every axis, and that input is the product of the scale
matrix with raw + bias. In double arithmetic the output equals the calibrated
input on every axis whose previous output is NaN; on an axis whose previous
output is a number it is the rounded sum `out + 1 * (in - out)`, the difference
being rounded first. -/
theorem rc_filter_imu_data_passthrough (raw : Fin 3 → ℚ) (scale : Fin 9 → ℚ)
    (bias : Fin 3 → ℚ) (alpha : Fin 3 → ℚ) (out : Fin 3 → Option ℚ)
    (halpha : ∀ i, alpha i = 1) :
    (∀ i, (rc_filter_imu_data raw scale bias alpha out).2 i
        = some ((rc_filter_imu_data raw scale bias alpha out).1 i))
      ∧ (rc_filter_imu_data raw scale bias alpha out).1
        = Matrix.mulVec (Matrix.of (scale_at scale)) (raw + bias)
      ∧ (∀ i, out i = none →
          (rc_filter_imu_data_f64 raw scale bias alpha out).2 i
            = some ((rc_filter_imu_data_f64 raw scale bias alpha out).1 i))
      ∧ (∀ i o, out i = some o →
          (rc_filter_imu_data_f64 raw scale bias alpha out).2 i
            = some (f64_add o
                (f64_mul 1 (f64_sub ((rc_filter_imu_data_f64 raw scale bias alpha out).1 i)
                  o)))) := by
  refine ⟨?_, ?_, ?_, ?_⟩
  · intro i
    simp only [rc_filter_imu_data, halpha i]
    cases out i <;> simp
  · funext i
    simp [rc_filter_imu_data, rc_filter_imu_in, Matrix.mulVec, Matrix.dotProduct,
      Fin.sum_univ_three, add_assoc]
  · intro i hi
    simp only [rc_filter_imu_data_f64, hi]
  · intro i o hi
    simp only [rc_filter_imu_data_f64, hi, halpha i]

theorem rc_filter_imu_data_passthrough_witness :
    (rc_filter_imu_data ![1, 2, 3] (fun k => if k.val % 4 = 0 then 2 else 0)
        ![1, 0, -1] (fun _ => 1) ![some 7, none, some 0]).2 0
      = some ((rc_filter_imu_data ![1, 2, 3] (fun k => if k.val % 4 = 0 then 2 else 0)
        ![1, 0, -1] (fun _ => 1) ![some 7, none, some 0]).1 0) :=
  (rc_filter_imu_data_passthrough ![1, 2, 3] (fun k => if k.val % 4 = 0 then 2 else 0)
    ![1, 0, -1] (fun _ => 1) ![some 7, none, some 0] (fun _ => rfl)).1 0

/-! ### Rounding to binary64 -/

/-- Values of `round_f64`: a double is kept, 1/10 and 1/1000 go to the doubles
written `0.1` and `1e-3` in C, a value half-way between two doubles goes to the
one with an even significand, and `M_PI` is a double. -/
theorem round_f64_values :
    round_f64 1 = 1 ∧ round_f64 (1 / 2) = 1 / 2 ∧ round_f64 (-3) = -3
      ∧ round_f64 (1 / 10) = 3602879701896397 / 36028797018963968
      ∧ round_f64 (1 / 1000) = 1152921504606847 / 1152921504606846976
      ∧ round_f64 (1 + 1 / 9007199254740992) = 1
      ∧ round_f64 (1 + 3 / 9007199254740992) = 1 + 4 / 9007199254740992
      ∧ round_f64 (1 + 1 / 9007199254740992 + 1 / 1152921504606846976)
        = 1 + 2 / 9007199254740992
      ∧ round_f64 (-(1 + 3 / 9007199254740992)) = -(1 + 4 / 9007199254740992)
      ∧ round_f64 M_PI = M_PI := by
  refine ⟨?_, ?_, ?_, ?_, ?_, ?_, ?_, ?_, ?_, ?_⟩ <;> decide!

/-- C3, as stated, fails in double arithmetic. With the identity scale matrix,
no bias, alpha = 1 and the raw sample 0.1 on the first axis (the double nearest
to 1/10, which is 3602879701896397/2^55), the calibrated input is that double.
With a previous output of 1 the filter step computes `1 + 1 * (0.1 - 1)`: the
difference is rounded to -8106479329266893/2^53 and the output is
900719925474099/2^53 (0.09999999999999998), which is not the calibrated
input. -/
theorem rc_filter_imu_data_passthrough_counterexample :
    round_f64 (1 / 10) = 3602879701896397 / 36028797018963968
      ∧ (rc_filter_imu_data_f64 ![3602879701896397 / 36028797018963968, 0, 0]
          (fun k => if k.val % 4 = 0 then 1 else 0) ![0, 0, 0] (fun _ => 1)
          ![some 1, none, none]).1 0 = 3602879701896397 / 36028797018963968
      ∧ f64_sub (3602879701896397 / 36028797018963968) 1
        = -(8106479329266893 / 9007199254740992)
      ∧ (rc_filter_imu_data_f64 ![3602879701896397 / 36028797018963968, 0, 0]
          (fun k => if k.val % 4 = 0 then 1 else 0) ![0, 0, 0] (fun _ => 1)
          ![some 1, none, none]).2 0 = some (900719925474099 / 9007199254740992)
      ∧ (rc_filter_imu_data_f64 ![3602879701896397 / 36028797018963968, 0, 0]
          (fun k => if k.val % 4 = 0 then 1 else 0) ![0, 0, 0] (fun _ => 1)
          ![some 1, none, none]).2 0
        ≠ some ((rc_filter_imu_data_f64 ![3602879701896397 / 36028797018963968, 0, 0]
          (fun k => if k.val % 4 = 0 then 1 else 0) ![0, 0, 0] (fun _ => 1)
          ![some 1, none, none]).1 0) := by
  refine ⟨?_, ?_, ?_, ?_, ?_⟩ <;> decide!

/-! ### Timestamper -/

theorem mk_get_ts_rate_fields (ats : ℚ) (t : ts_s) (lp : ℚ) :
    (mk_get_ts_rate ats t lp).1.ts = t.ts ∧ (mk_get_ts_rate ats t lp).1.offset = t.offset
      ∧ (mk_get_ts_rate ats t lp).1.seq = t.seq := by
  simp [mk_get_ts_rate]

theorem sync_offset2_ge (o : Option ℚ) (d : ℚ) : d ≤ sync_offset2 o d := by
  unfold sync_offset2
  split
  · split_ifs <;> linarith
  · exact le_refl _

theorem sync_offset2_le (o : Option ℚ) (d x : ℚ) (hd : d ≤ x)
    (ho : ∀ q, o = some q → q ≤ x) : sync_offset2 o d ≤ x := by
  unfold sync_offset2
  split
  · rename_i q
    split_ifs
    · exact hd
    · exact ho q rfl
  · exact hd

theorem mk_get_ts_sync_time (seq : ℕ) (ats rate : ℚ) (t : ts_s) :
    (mk_get_ts_sync seq ats rate t).2
      = if 5 / 1000 < ats - (sync_ts1 (delta_seq seq t.seq) ats rate t.ts
            - sync_offset2 (sync_offset1 (delta_seq seq t.seq) rate t.offset)
                (sync_ts1 (delta_seq seq t.seq) ats rate t.ts - ats))
        then ats
        else sync_ts1 (delta_seq seq t.seq) ats rate t.ts
            - sync_offset2 (sync_offset1 (delta_seq seq t.seq) rate t.offset)
                (sync_ts1 (delta_seq seq t.seq) ats rate t.ts - ats) := by
  unfold mk_get_ts_sync
  simp only
  split_ifs <;> rfl

/-- After the synchronisation step the stored offset is `ts` minus the
reconstructed time, which lies within 5 ms below the arrival time. -/
theorem mk_get_ts_sync_spec (seq : ℕ) (ats rate : ℚ) (t : ts_s) :
    (mk_get_ts_sync seq ats rate t).1.offset
        = some ((mk_get_ts_sync seq ats rate t).1.ts - (mk_get_ts_sync seq ats rate t).2)
      ∧ (mk_get_ts_sync seq ats rate t).2 ≤ ats
      ∧ ats - 5 / 1000 ≤ (mk_get_ts_sync seq ats rate t).2 := by
  have hge := sync_offset2_ge (sync_offset1 (delta_seq seq t.seq) rate t.offset)
    (sync_ts1 (delta_seq seq t.seq) ats rate t.ts - ats)
  unfold mk_get_ts_sync
  simp only
  split_ifs with h5
  · exact ⟨rfl, le_refl _, by norm_num⟩
  · refine ⟨?_, ?_, ?_⟩
    · simp
    · show sync_ts1 (delta_seq seq t.seq) ats rate t.ts
        - sync_offset2 (sync_offset1 (delta_seq seq t.seq) rate t.offset)
            (sync_ts1 (delta_seq seq t.seq) ats rate t.ts - ats) ≤ ats
      linarith
    · show ats - 5 / 1000 ≤ sync_ts1 (delta_seq seq t.seq) ats rate t.ts
        - sync_offset2 (sync_offset1 (delta_seq seq t.seq) rate t.offset)
            (sync_ts1 (delta_seq seq t.seq) ats rate t.ts - ats)
      linarith

/-- The reconstructed time never goes below the previous one, as long as the
arrival time does not. -/
theorem mk_get_ts_sync_mono (seq : ℕ) (ats rate e : ℚ) (t : ts_s)
    (hoff : t.offset = some (t.ts - e)) (he : e ≤ ats) :
    e ≤ (mk_get_ts_sync seq ats rate t).2 := by
  rw [mk_get_ts_sync_time]
  have hds : (0 : ℚ) ≤ (delta_seq seq t.seq : ℚ) := Nat.cast_nonneg _
  have key : sync_offset2 (sync_offset1 (delta_seq seq t.seq) rate t.offset)
      (sync_ts1 (delta_seq seq t.seq) ats rate t.ts - ats)
      ≤ sync_ts1 (delta_seq seq t.seq) ats rate t.ts - e := by
    apply sync_offset2_le
    · linarith
    · intro q hq
      unfold sync_offset1 at hq
      unfold sync_ts1
      by_cases h16 : 16 < delta_seq seq t.seq
      · simp [h16] at hq
      · by_cases hr : 1 / 10 < rate
        · have hrpos : 0 < rate := by linarith
          have hq1 : 0 ≤ (delta_seq seq t.seq : ℚ) / rate := div_nonneg hds hrpos.le
          have hq2 : 0 ≤ 1 / 1000 * (delta_seq seq t.seq : ℚ) / rate := by positivity
          simp only [if_neg h16, if_pos hr, hoff, Option.map_some', Option.some.injEq] at hq
          simp only [if_pos hr]
          linarith
        · simp only [if_neg h16, if_neg hr, Option.some.injEq] at hq
          simp only [if_neg hr]
          linarith
  split_ifs
  · exact he
  · linarith

theorem dbl_to_int_of_nonneg (q : ℚ) (h : 0 ≤ q) : dbl_to_int q = ⌊q⌋ := by
  simp [dbl_to_int, h]

/-- The timestamp `{sec, nsec}` is the reconstructed time cut to the
nanosecond, plus the constant `tsshift`. -/
theorem ts_of_time_value (a : ℚ) :
    (ts_of_time a).value = ((⌊a * 1000000000⌋ : ℤ) : ℚ) / 1000000000 + 1000000000 := by
  have hfr : 0 ≤ (a - (⌊a⌋ : ℚ)) * 1000000000 :=
    mul_nonneg (sub_nonneg.mpr (Int.floor_le a)) (by norm_num)
  have hfl : ⌊(a - (⌊a⌋ : ℚ)) * 1000000000⌋ = ⌊a * 1000000000⌋ - ⌊a⌋ * 1000000000 := by
    have : (a - (⌊a⌋ : ℚ)) * 1000000000
        = a * 1000000000 - ((⌊a⌋ * 1000000000 : ℤ) : ℚ) := by
      push_cast; ring
    rw [this, Int.floor_sub_int]
  simp only [or_time_ts.value, ts_of_time, dbl_to_int_of_nonneg _ hfr, hfl, tsshift]
  push_cast
  ring

theorem ts_of_time_mono (a b : ℚ) (h : a ≤ b) :
    (ts_of_time a).value ≤ (ts_of_time b).value := by
  rw [ts_of_time_value, ts_of_time_value]
  have h1 : ⌊a * 1000000000⌋ ≤ ⌊b * 1000000000⌋ :=
    Int.floor_mono (mul_le_mul_of_nonneg_right h (by norm_num))
  have h2 : ((⌊a * 1000000000⌋ : ℤ) : ℚ) ≤ ((⌊b * 1000000000⌋ : ℤ) : ℚ) := by
    exact_mod_cast h1
  have h3 : ((⌊a * 1000000000⌋ : ℤ) : ℚ) / 1000000000
      ≤ ((⌊b * 1000000000⌋ : ℤ) : ℚ) / 1000000000 :=
    div_le_div_of_nonneg_right h2 (by norm_num)
  linarith

theorem mk_get_ts_stamp (seq : ℕ) (atv : timeval) (rate : ℚ) (t : ts_s) (lp : ℚ) :
    (mk_get_ts seq atv rate t lp).2.1 = ts_of_time (mk_get_ts_time seq atv rate t lp) := rfl

theorem mk_get_ts_state (seq : ℕ) (atv : timeval) (rate : ℚ) (t : ts_s) (lp : ℚ) :
    (mk_get_ts seq atv rate t lp).1.offset
        = some ((mk_get_ts seq atv rate t lp).1.ts - mk_get_ts_time seq atv rate t lp)
      ∧ mk_get_ts_time seq atv rate t lp ≤ arrival atv := by
  have h := mk_get_ts_sync_spec seq (arrival atv) rate (mk_get_ts_rate (arrival atv) t lp).1
  exact ⟨h.1, h.2.1⟩

theorem mk_get_ts_time_mono (seq : ℕ) (atv : timeval) (rate e : ℚ) (t : ts_s) (lp : ℚ)
    (hoff : t.offset = some (t.ts - e)) (he : e ≤ arrival atv) :
    e ≤ mk_get_ts_time seq atv rate t lp := by
  have hf := mk_get_ts_rate_fields (arrival atv) t lp
  apply mk_get_ts_sync_mono
  · rw [hf.2.1, hf.1]; exact hoff
  · exact he

/-- Chain of the timestamps of a run that starts in a state left by a call
whose reconstructed time was `e`. -/
theorem mk_get_ts_run_chain (rate : ℚ) (calls : List ts_call) :
    ∀ (t : ts_s) (lp e : ℚ), t.offset = some (t.ts - e) →
      (∀ c ∈ calls, e ≤ arrival c.atv) →
      List.Sorted (fun x y => x ≤ y) (calls.map (fun c => arrival c.atv)) →
      List.Chain (fun x y => x ≤ y) (ts_of_time e).value
        ((mk_get_ts_run rate t lp calls).map or_time_ts.value) := by
  induction calls with
  | nil => intro t lp e _ _ _; simp [mk_get_ts_run]
  | cons c cs ih =>
    intro t lp e hoff hle hs
    simp only [mk_get_ts_run, List.map_cons, List.chain_cons]
    have hst := mk_get_ts_state c.seq c.atv rate t lp
    have hmono := mk_get_ts_time_mono c.seq c.atv rate e t lp hoff
      (hle c (List.mem_cons_self _ _))
    refine ⟨?_, ?_⟩
    · rw [mk_get_ts_stamp]; exact ts_of_time_mono _ _ hmono
    · rw [mk_get_ts_stamp]
      apply ih _ _ _ hst.1
      · intro d hd
        have hs2 := List.rel_of_sorted_cons (by simpa using hs) (arrival d.atv)
          (List.mem_map_of_mem (fun c => arrival c.atv) hd)
        exact le_trans hst.2 hs2
      · exact List.Sorted.of_cons (by simpa using hs)

/-- C1. Timestamper monotonicity: from any channel state, for any nominal rate
(in particular any rate r >= 0.1) and any sequence of calls of `mk_get_ts`
whose arrival times are non-decreasing, the values `sec + nsec * 1e-9` of the
emitted timestamps are non-decreasing, whatever the sequence bytes (so both
when the sequence delta is at most 16 and when it is above 16). -/
theorem mk_get_ts_monotone (rate : ℚ) (t : ts_s) (lp : ℚ) (calls : List ts_call)
    (harr : List.Sorted (fun x y => x ≤ y) (calls.map (fun c => arrival c.atv))) :
    List.Sorted (fun x y => x ≤ y)
      ((mk_get_ts_run rate t lp calls).map or_time_ts.value) := by
  cases calls with
  | nil => simp [mk_get_ts_run]
  | cons c cs =>
    have hst := mk_get_ts_state c.seq c.atv rate t lp
    have hch := mk_get_ts_run_chain rate cs (mk_get_ts c.seq c.atv rate t lp).1
      (mk_get_ts c.seq c.atv rate t lp).2.2 (mk_get_ts_time c.seq c.atv rate t lp) hst.1
      (fun d hd => le_trans hst.2 (List.rel_of_sorted_cons (by simpa using harr)
        (arrival d.atv) (List.mem_map_of_mem (fun c => arrival c.atv) hd)))
      (List.Sorted.of_cons (by simpa using harr))
    simp only [mk_get_ts_run, List.map_cons, mk_get_ts_stamp]
    exact (List.chain_iff_pairwise.mp hch)

theorem mk_get_ts_monotone_witness :
    List.Sorted (fun x y => x ≤ y)
        (([⟨1, ⟨1000000017, 0⟩⟩, ⟨2, ⟨1000000017, 1000⟩⟩, ⟨40, ⟨1000000017, 40000⟩⟩] :
            List ts_call).map (fun c => arrival c.atv))
      ∧ List.Sorted (fun x y => x ≤ y)
        ((mk_get_ts_run 1000
            { seq := 0, last := 0, ts := 0, offset := none, rmed := 0, rgain := 0, rerr := 0 } 0
            [⟨1, ⟨1000000017, 0⟩⟩, ⟨2, ⟨1000000017, 1000⟩⟩, ⟨40, ⟨1000000017, 40000⟩⟩]).map
          or_time_ts.value) :=
  ⟨by simp [arrival, tsshift]; norm_num,
   mk_get_ts_monotone 1000
    { seq := 0, last := 0, ts := 0, offset := none, rmed := 0, rgain := 0, rerr := 0 } 0
    [⟨1, ⟨1000000017, 0⟩⟩, ⟨2, ⟨1000000017, 1000⟩⟩, ⟨40, ⟨1000000017, 40000⟩⟩]
    (by simp [arrival, tsshift]; norm_num)⟩

/-! ### Sensor rate and battery limits -/

/-- C8. `mk_set_sensor_rate` returns the range error exactly when one of the
four requested rates is below 0 or above 2000; in that case no message is sent
and the sensor timing state, the stored rate and the filter are unchanged.
(When every rate is in range and the call does not dereference a NULL
`sensor_time`, it returns ok.) -/
theorem mk_set_sensor_rate_range (rate : rate_s) (conn : rotorcraft_conn_s)
    (imu_filter : Option imu_filter_s) (sensor_time : Option sensor_time_s) :
    (rate_out_of_range rate →
        mk_set_sensor_rate rate conn imu_filter sensor_time
          = some { event := genom_event.rotorcraft_e_range, imu_filter := imu_filter,
                   sensor_time := sensor_time, sent := [] })
      ∧ (∀ r, mk_set_sensor_rate rate conn imu_filter sensor_time = some r →
          (r.event = genom_event.rotorcraft_e_range ↔ rate_out_of_range rate))
      ∧ (∀ r, mk_set_sensor_rate rate conn imu_filter sensor_time = some r →
          r.event = genom_event.rotorcraft_e_range →
            r.sent = [] ∧ r.sensor_time = sensor_time ∧ r.imu_filter = imu_filter)
      ∧ (¬ rate_out_of_range rate → (imu_filter = none ∨ sensor_time ≠ none) →
          ∃ r, mk_set_sensor_rate rate conn imu_filter sensor_time = some r
            ∧ r.event = genom_event.genom_ok) := by
  have hok : ¬ rate_out_of_range rate →
      ∀ r, mk_set_sensor_rate rate conn imu_filter sensor_time = some r →
        r.event = genom_event.genom_ok := by
    intro hin r hr
    unfold mk_set_sensor_rate at hr
    rw [if_neg hin] at hr
    cases imu_filter <;> cases sensor_time <;> simp at hr <;> subst hr <;> rfl
  refine ⟨?_, ?_, ?_, ?_⟩
  · intro h
    simp [mk_set_sensor_rate, h]
  · intro r hr
    by_cases h : rate_out_of_range rate
    · simp only [mk_set_sensor_rate, if_pos h, Option.some.injEq] at hr
      subst hr
      simp [h]
    · have := hok h r hr
      simp [this, h]
  · intro r hr he
    by_cases h : rate_out_of_range rate
    · simp only [mk_set_sensor_rate, if_pos h, Option.some.injEq] at hr
      subst hr
      exact ⟨rfl, rfl, rfl⟩
    · have := hok h r hr
      rw [this] at he
      exact absurd he (by decide)
  · intro hin hnn
    unfold mk_set_sensor_rate
    rw [if_neg hin]
    cases imu_filter with
    | none => exact ⟨_, rfl, rfl⟩
    | some f =>
      cases sensor_time with
      | none => simp at hnn
      | some st => exact ⟨_, rfl, rfl⟩

theorem fc_of_alpha_nonneg (r alpha : ℚ) (hr : 0 ≤ r) (ha : 0 ≤ alpha) :
    0 ≤ fc_of_alpha (r * (1 / 2) / M_PI) alpha := by
  have hpi := M_PI_pos
  unfold fc_of_alpha
  split_ifs with h
  · have h1 : 0 < 1 - alpha := by linarith
    positivity
  · exact le_refl _

/-- C9 (amended). Over exact reals, `mk_set_sensor_rate` preserves the cutoff
frequencies when the new imu and mag rates are positive: for every old rate
with imu and mag rates >= 0, every accepted new rate whose imu and mag rates
are > 0, and every filter state whose coefficients are >= 0, the call with a
filter argument returns ok, stores the new rate, and the cutoffs read by
`rc_get_imu_filter` from the new coefficients at the new rate equal, on every
axis of g, a and m, those read from the old coefficients at the old rate, the
operations on doubles being taken without rounding. -/
theorem mk_set_sensor_rate_keeps_cutoff (rate : rate_s) (conn : rotorcraft_conn_s)
    (f : imu_filter_s) (st : sensor_time_s)
    (hnew : ¬ rate_out_of_range rate) (himu : 0 < rate.imu) (hmag : 0 < rate.mag)
    (holdi : 0 ≤ st.rate.imu) (holdm : 0 ≤ st.rate.mag)
    (hg : ∀ i, 0 ≤ f.galpha i) (ha : ∀ i, 0 ≤ f.aalpha i) (hm : ∀ i, 0 ≤ f.malpha i) :
    ∃ r f1 st1, mk_set_sensor_rate rate conn (some f) (some st) = some r
      ∧ r.event = genom_event.genom_ok
      ∧ r.imu_filter = some f1 ∧ r.sensor_time = some st1 ∧ st1.rate = rate
      ∧ rc_get_imu_filter f1 st1.rate = rc_get_imu_filter f st.rate := by
  simp only [mk_set_sensor_rate, if_neg hnew, Option.map_some']
  refine ⟨_, _, _, rfl, rfl, rfl, rfl, rfl, ?_⟩
  · have h := rc_imu_filter_round_trip_axes rate (rc_get_imu_filter f (reset_offsets st).rate).gfc
      (rc_get_imu_filter f (reset_offsets st).rate).afc
      (rc_get_imu_filter f (reset_offsets st).rate).mfc f himu hmag
      (fun i => fc_of_alpha_nonneg _ _ holdi (hg i))
      (fun i => fc_of_alpha_nonneg _ _ holdi (ha i))
      (fun i => fc_of_alpha_nonneg _ _ holdm (hm i))
    exact h

theorem to_uint32_of_nat (n : ℕ) (h : n < 4294967296) : to_uint32 (n : ℤ) = n := by
  unfold to_uint32
  rw [Int.emod_eq_of_lt (by positivity) (by exact_mod_cast h)]
  simp

theorem to_int16_of_range (z : ℤ) (h1 : -32768 ≤ z) (h2 : z ≤ 32767) : to_int16 z = z := by
  unfold to_int16
  rw [Int.emod_eq_of_lt (by omega) (by omega)]
  omega

theorem dbl_to_int_intCast (z : ℤ) : dbl_to_int (z : ℚ) = z := by
  unfold dbl_to_int
  split_ifs with h
  · exact Int.floor_intCast z
  · have : (-(z : ℚ)) = ((-z : ℤ) : ℚ) := by push_cast; ring
    rw [this, Int.floor_intCast]
    omega

theorem dbl_to_int_bounds (q : ℚ) (n : ℤ) (hn : 0 ≤ n) (hlo : -(n : ℚ) - 1 < q)
    (hhi : q < (n : ℚ) + 1) : -n ≤ dbl_to_int q ∧ dbl_to_int q ≤ n := by
  unfold dbl_to_int
  split_ifs with h
  · have h1 : 0 ≤ ⌊q⌋ := Int.floor_nonneg.mpr h
    have h2 : ⌊q⌋ < n + 1 := Int.floor_lt.mpr (by push_cast; exact hhi)
    omega
  · have h1 : 0 ≤ ⌊-q⌋ := Int.floor_nonneg.mpr (by linarith)
    have h2 : ⌊-q⌋ < n + 1 := Int.floor_lt.mpr (by push_cast; linarith)
    omega

/-- Under the range hypothesis the count sent to a link is the length of its
slice, and the elements read are those of the slice. -/
theorem dispatch_payload_slice (p : List ℤ) (l : ℕ) (c : mk_channel_s)
    (hp : p.length = l) (h1 : 1 ≤ c.minid) (h2 : c.minid ≤ c.maxid)
    (h3 : c.maxid ≤ or_rotorcraft_max_rotors) (hl : c.minid ≤ l)
    (hl8 : l ≤ or_rotorcraft_max_rotors) :
    (List.range (dispatch_count l c)).map (fun (j : ℕ) => read_p p ((c.minid : ℤ) - 1 + (j : ℤ)))
      = (motor_slice p l c).map some := by
  unfold or_rotorcraft_max_rotors at h3 hl8
  have hcnt : dispatch_count l c = min l c.maxid + 1 - c.minid := by
    unfold dispatch_count
    split_ifs with h
    · have : ((l : ℤ) - c.minid + 1) = ((l + 1 - c.minid : ℕ) : ℤ) := by omega
      rw [this, to_uint32_of_nat _ (by omega)]
      rw [min_eq_left h]
    · have : ((c.maxid : ℤ) - c.minid + 1) = ((c.maxid + 1 - c.minid : ℕ) : ℤ) := by omega
      rw [this, to_uint32_of_nat _ (by omega)]
      rw [min_eq_right (by omega)]
  rw [hcnt]
  apply List.ext_getElem?
  intro j
  unfold motor_slice
  rw [List.getElem?_map, List.getElem?_map, List.getElem?_take, List.getElem?_drop]
  by_cases hj : j < min l c.maxid + 1 - c.minid
  · have hidx : (c.minid : ℤ) - 1 + j = ((c.minid - 1 + j : ℕ) : ℤ) := by omega
    have hlt : c.minid - 1 + j < p.length := by
      rw [hp]
      have := min_le_left l c.maxid
      omega
    rw [List.getElem?_range hj, if_pos hj, Option.map_some', List.getElem?_eq_getElem hlt,
      Option.map_some']
    unfold read_p
    rw [hidx, if_pos (Int.natCast_nonneg _), Int.toNat_natCast, List.get?_eq_getElem?,
      List.getElem?_eq_getElem hlt]
  · rw [if_neg hj, List.getElem?_eq_none (by simpa using hj)]
    rfl

/-- C4. Motor-id routing: for a connection whose links hold motor ranges that
partition `[1..8]` and a command of length n in 1..8, `mk_set_velocity` sends,
in the order of the links, exactly one velocity frame to each link with
`minid <= n`, carrying the slice `[minid-1 .. min(n, maxid)-1]` of the encoded
commands, and nothing to a link with `minid > n`; element j of the frame of a
link is the encoded command of the rotor of id `minid + j`, which is in the
range of the link, and the encoded command of index k is that of rotor record
k and command k. -/
theorem mk_set_velocity_routing (conn : rotorcraft_conn_s) (rotor_data : List rotor_data_s)
    (desired : or_rotorcraft_rotor_control) (tv : timeval)
    (hpart : motor_partition conn) (hrd : rotor_data.length = or_rotorcraft_max_rotors)
    (hn1 : 1 ≤ desired.length) (hn8 : desired.length ≤ or_rotorcraft_max_rotors) :
    (mk_set_velocity conn rotor_data desired tv).sent
        = conn.chan.enum.filterMap (fun ic =>
            if ic.2.minid ≤ desired.length then
              some { chan := ic.1, fmt := "w%@"
                     args := [msg_arg.arr ((motor_slice (List.zipWith velocity_p rotor_data desired)
                       desired.length ic.2).map some)] }
            else none)
      ∧ (∀ c ∈ conn.chan, c.minid ≤ desired.length →
          (motor_slice (List.zipWith velocity_p rotor_data desired) desired.length c).length
              = min desired.length c.maxid + 1 - c.minid
            ∧ ∀ j, j < min desired.length c.maxid + 1 - c.minid →
              (motor_slice (List.zipWith velocity_p rotor_data desired) desired.length c)[j]?
                  = (List.zipWith velocity_p rotor_data desired)[c.minid + j - 1]?
                ∧ c.minid ≤ c.minid + j ∧ c.minid + j ≤ c.maxid)
      ∧ (∀ (k : ℕ) r d, rotor_data[k]? = some r → desired[k]? = some d →
          (List.zipWith velocity_p rotor_data desired)[k]? = some (velocity_p r d)) := by
  have hplen : (List.zipWith velocity_p rotor_data desired).length = desired.length := by
    rw [List.length_zipWith, hrd]
    exact min_eq_right hn8
  refine ⟨?_, ?_, ?_⟩
  · unfold mk_set_velocity
    rw [if_neg (by omega)]
    show dispatch "w%@" conn _ _ = _
    unfold dispatch
    apply List.filterMap_congr
    rintro ⟨i, c⟩ hic
    have hc : c ∈ conn.chan := by
      obtain ⟨hlt, heq⟩ := List.mem_enum hic
      rw [heq]
      exact List.getElem_mem _
    obtain ⟨h1, h2, h3⟩ := hpart.1 c hc
    by_cases hl : desired.length < c.minid
    · simp only [if_pos hl, if_neg (not_le.mpr hl)]
    · simp only [if_neg hl, if_pos (not_lt.mp hl)]
      rw [dispatch_payload_slice _ _ c hplen h1 h2 h3 (not_lt.mp hl) hn8]
  · intro c hc hl
    obtain ⟨h1, h2, h3⟩ := hpart.1 c hc
    unfold or_rotorcraft_max_rotors at h3 hn8
    have hmin := min_le_left desired.length c.maxid
    have hmin2 := min_le_right desired.length c.maxid
    refine ⟨?_, ?_⟩
    · unfold motor_slice
      rw [List.length_take, List.length_drop, hplen]
      omega
    · intro j hj
      refine ⟨?_, by omega, by omega⟩
      unfold motor_slice
      rw [List.getElem?_take, if_pos hj, List.getElem?_drop]
      congr 1
      omega
  · intro k r d hr hd
    rw [List.getElem?_zipWith, hr, hd]

theorem mk_set_velocity_routing_witness :
    motor_partition conn_two_links
      ∧ (mk_set_velocity conn_two_links rotors_spinning
          [some 100, some 100, some 100, some 100, some 100, some 100]
          { tv_sec := 1000000017, tv_usec := 0 }).sent
        = conn_two_links.chan.enum.filterMap (fun ic =>
            if ic.2.minid ≤ 6 then
              some { chan := ic.1, fmt := "w%@"
                     args := [msg_arg.arr ((motor_slice (List.zipWith velocity_p rotors_spinning
                       [some 100, some 100, some 100, some 100, some 100, some 100])
                       6 ic.2).map some)] }
            else none) :=
  ⟨by decide,
   (mk_set_velocity_routing conn_two_links rotors_spinning
      [some 100, some 100, some 100, some 100, some 100, some 100]
      { tv_sec := 1000000017, tv_usec := 0 } (by decide) (by decide) (by decide)
      (by decide)).1⟩

theorem servo_rotor_check_none (l : List rotor_data_s)
    (hspin : ∀ r ∈ l, r.state.spinning = true)
    (hemerg : ∀ r ∈ l, r.state.disabled = false → r.state.emerg = false) :
    ∀ i, servo_rotor_check l i = none := by
  induction l with
  | nil => intro i; rfl
  | cons r rs ih =>
    intro i
    have ih2 := ih (fun x hx => hspin x (List.mem_cons_of_mem _ hx))
      (fun x hx => hemerg x (List.mem_cons_of_mem _ hx)) (i + 1)
    unfold servo_rotor_check
    by_cases hd : r.state.disabled = true
    · rw [if_pos hd]; exact ih2
    · have hs := hspin r (List.mem_cons_self _ _)
      have he := hemerg r (List.mem_cons_self _ _) (by simpa using hd)
      rw [if_neg hd]
      simp only [he, hs, Bool.or_true, Bool.not_true, Bool.false_eq_true, if_false]
      exact ih2

theorem servo_rampup_of_spinning (l : List rotor_data_s) (n : ℕ)
    (hspin : ∀ r ∈ l, r.state.spinning = true) : servo_rampup l n = true := by
  unfold servo_rampup
  rw [List.all_eq_true]
  intro r hr
  exact hspin r (List.mem_of_mem_take hr)

/-- On a nominal tick `mk_servo_main` goes straight to the scaling and send
steps, with the scale it was given. -/
theorem mk_servo_main_nominal (period_ms : ℕ) (conn : rotorcraft_conn_s) (servo : servo_s)
    (t : servo_tick) (input : or_rotorcraft_input) (scale : ℚ)
    (hnom : servo_tick_nominal t) (hin : t.rotor_input.data = some input) :
    mk_servo_main period_ms (some conn) t.sensor_time t.rotor_data t.rotor_input servo scale
        t.tv t.tv_send
      = servo_ramp_send period_ms conn t.rotor_data input servo scale t.tv_send := by
  obtain ⟨hread, ⟨inp, hinp, hfresh⟩, hlow, hspin, hemerg⟩ := hnom
  rw [hin] at hinp
  cases hinp
  have hchk := servo_rotor_check_none (t.rotor_data.take or_rotorcraft_max_rotors)
    (fun r hr => hspin r (List.mem_of_mem_take hr))
    (fun r hr => hemerg r (List.mem_of_mem_take hr)) 0
  unfold mk_servo_main
  simp only [hread, hin, hlow, hchk, hfresh, Bool.false_eq_true, if_false, decide_False,
    Bool.false_and, Option.isSome_none]

theorem servo_ramp_send_event (period_ms : ℕ) (conn : rotorcraft_conn_s)
    (rd : List rotor_data_s) (input : or_rotorcraft_input) (servo : servo_s) (scale : ℚ)
    (tv : timeval) :
    (servo_ramp_send period_ms conn rd input servo scale tv).event
      = genom_event.rotorcraft_pause_main := rfl

theorem servo_ramp_send_scale (period_ms : ℕ) (conn : rotorcraft_conn_s)
    (rd : List rotor_data_s) (input : or_rotorcraft_input) (servo : servo_s) (scale : ℚ)
    (tv : timeval) (hspin : ∀ r ∈ rd, r.state.spinning = true)
    (hP : 0 < period_ms) (hramp : 0 < servo.ramp) (hs : scale ≤ 1) :
    (servo_ramp_send period_ms conn rd input servo scale tv).scale
      = min 1 (scale + (period_ms : ℚ) / (1000 * servo.ramp)) := by
  have hd : (0 : ℚ) < (period_ms : ℚ) / (1000 * servo.ramp) := by
    have : (0 : ℚ) < period_ms := by exact_mod_cast hP
    positivity
  have heq : 1 / 1000 * (period_ms : ℚ) / servo.ramp = (period_ms : ℚ) / (1000 * servo.ramp) := by
    field_simp
  show (if scale < 1 then
      if servo_rampup rd input.desired.length = true then
        (if 1 < scale + 1 / 1000 * (period_ms : ℚ) / servo.ramp then 1
         else scale + 1 / 1000 * (period_ms : ℚ) / servo.ramp)
      else scale
    else scale) = _
  rw [servo_rampup_of_spinning rd _ hspin, heq]
  simp only [if_true]
  split_ifs with h1 h2
  · rw [min_eq_left h2.le]
  · rw [min_eq_right (not_lt.mp h2)]
  · have : scale = 1 := le_antisymm hs (not_lt.mp h1)
    rw [this, min_eq_left (by linarith)]

/-- The scale after a run of nominal ticks that starts from `min 1 (j * d)`,
with `d` the increment of one tick. -/
theorem mk_servo_run_nominal (period_ms : ℕ) (conn : rotorcraft_conn_s) (servo : servo_s)
    (hP : 0 < period_ms) (hramp : 0 < servo.ramp) (ticks : List servo_tick) :
    ∀ j : ℕ, (∀ t ∈ ticks, servo_tick_nominal t) →
      mk_servo_run period_ms (some conn) servo
          (min 1 ((j : ℚ) * ((period_ms : ℚ) / (1000 * servo.ramp)))) ticks
        = min 1 (((j + ticks.length : ℕ) : ℚ) * ((period_ms : ℚ) / (1000 * servo.ramp))) := by
  have hd : (0 : ℚ) < (period_ms : ℚ) / (1000 * servo.ramp) := by
    have : (0 : ℚ) < period_ms := by exact_mod_cast hP
    positivity
  induction ticks with
  | nil => intro j _; simp [mk_servo_run]
  | cons t ts ih =>
    intro j hnom
    have ht := hnom t (List.mem_cons_self _ _)
    obtain ⟨input, hin, -⟩ := ht.2.1
    have hstep := mk_servo_main_nominal period_ms conn servo t input
      (min 1 ((j : ℚ) * ((period_ms : ℚ) / (1000 * servo.ramp)))) ht hin
    have hsc := servo_ramp_send_scale period_ms conn t.rotor_data input servo
      (min 1 ((j : ℚ) * ((period_ms : ℚ) / (1000 * servo.ramp)))) t.tv_send ht.2.2.2.1 hP hramp
      (min_le_left _ _)
    have hnext : min 1 (min 1 ((j : ℚ) * ((period_ms : ℚ) / (1000 * servo.ramp)))
          + (period_ms : ℚ) / (1000 * servo.ramp))
        = min 1 (((j + 1 : ℕ) : ℚ) * ((period_ms : ℚ) / (1000 * servo.ramp))) := by
      have e : ((j + 1 : ℕ) : ℚ) * ((period_ms : ℚ) / (1000 * servo.ramp))
          = (j : ℚ) * ((period_ms : ℚ) / (1000 * servo.ramp))
            + (period_ms : ℚ) / (1000 * servo.ramp) := by
        push_cast; ring
      rw [e]
      rcases le_total 1 ((j : ℚ) * ((period_ms : ℚ) / (1000 * servo.ramp))) with h | h
      · rw [min_eq_left h, min_eq_left (by linarith), min_eq_left (by linarith)]
      · rw [min_eq_right h]
    unfold mk_servo_run
    rw [hstep, servo_ramp_send_event, if_pos rfl, hsc, hnext]
    rw [ih (j + 1) (fun x hx => hnom x (List.mem_cons_of_mem _ hx))]
    congr 2
    simp only [List.length_cons]
    push_cast
    ring

/-- C5 (amended). Servo ramp over exact reals, for `ramp > 0` and a period
`P > 0`: starting from the scale 0 of `mk_servo_start`, if on every tick the
input is read and fresh, no sensor rate is low, all rotors report spinning and
no enabled rotor has the emerg flag, then after k calls of `mk_servo_main`, the
operations on doubles being taken without rounding, the scale is
`min(1, k*P/(1000*ramp))`; it equals 1 exactly from `ceil(ramp*1000/P)` calls
on; and a call on such a tick with a scale below 1 returns the pause event and
passes to `mk_set_velocity` or `mk_set_throttle` the input values multiplied by
the scale held at the start of the call. -/
theorem mk_servo_ramp (period_ms : ℕ) (conn : rotorcraft_conn_s) (servo : servo_s)
    (ticks : List servo_tick) (hP : 0 < period_ms) (hramp : 0 < servo.ramp)
    (hnom : ∀ t ∈ ticks, servo_tick_nominal t) :
    mk_servo_run period_ms (some conn) servo mk_servo_start.1 ticks
        = min 1 ((ticks.length : ℚ) * (period_ms : ℚ) / (1000 * servo.ramp))
      ∧ (mk_servo_run period_ms (some conn) servo mk_servo_start.1 ticks = 1
          ↔ ⌈servo.ramp * 1000 / (period_ms : ℚ)⌉ ≤ (ticks.length : ℤ))
      ∧ (∀ t ∈ ticks, ∀ input, t.rotor_input.data = some input → ∀ scale : ℚ, scale < 1 →
          (mk_servo_main period_ms (some conn) t.sensor_time t.rotor_data t.rotor_input servo
              scale t.tv t.tv_send).event = genom_event.rotorcraft_pause_main
          ∧ (input.control = or_rotorcraft_control_type.or_rotorcraft_velocity →
              (mk_servo_main period_ms (some conn) t.sensor_time t.rotor_data t.rotor_input
                  servo scale t.tv t.tv_send).sent
                = (mk_set_velocity conn t.rotor_data
                    (input.desired.map (Option.map (fun x => x * scale))) t.tv_send).sent)
          ∧ (input.control = or_rotorcraft_control_type.or_rotorcraft_throttle →
              (mk_servo_main period_ms (some conn) t.sensor_time t.rotor_data t.rotor_input
                  servo scale t.tv t.tv_send).sent
                = (mk_set_throttle conn t.rotor_data
                    (input.desired.map (Option.map (fun x => x * scale))) t.tv_send).sent)) := by
  have hPq : (0 : ℚ) < period_ms := by exact_mod_cast hP
  have hrun : mk_servo_run period_ms (some conn) servo mk_servo_start.1 ticks
      = min 1 ((ticks.length : ℚ) * (period_ms : ℚ) / (1000 * servo.ramp)) := by
    have h := mk_servo_run_nominal period_ms conn servo hP hramp ticks 0 hnom
    have h0 : min (1 : ℚ) (((0 : ℕ) : ℚ) * ((period_ms : ℚ) / (1000 * servo.ramp))) = 0 := by
      simp
    rw [h0] at h
    show mk_servo_run period_ms (some conn) servo 0 ticks = _
    rw [h]
    congr 1
    push_cast
    ring
  refine ⟨hrun, ?_, ?_⟩
  · rw [hrun, Int.ceil_le]
    have hden : (0 : ℚ) < 1000 * servo.ramp := by positivity
    constructor
    · intro h
      have h1 : (1 : ℚ) ≤ (ticks.length : ℚ) * (period_ms : ℚ) / (1000 * servo.ramp) := by
        by_contra hc
        rw [min_eq_right (not_le.mp hc).le] at h
        exact hc h.ge
      rw [le_div_iff₀ hden] at h1
      rw [div_le_iff₀ hPq]
      push_cast
      linarith
    · intro h
      rw [div_le_iff₀ hPq] at h
      push_cast at h
      apply min_eq_left
      rw [le_div_iff₀ hden]
      linarith
  · intro t ht input hin scale hs
    rw [mk_servo_main_nominal period_ms conn servo t input scale (hnom t ht) hin]
    refine ⟨rfl, ?_, ?_⟩
    · intro hc
      simp only [servo_ramp_send, hc, if_pos hs]
    · intro hc
      simp only [servo_ramp_send, hc, if_pos hs]

theorem tick_spinning_nominal : servo_tick_nominal tick_spinning := by
  refine ⟨rfl, ⟨input_velocity, rfl, ?_⟩, ?_, ?_, ?_⟩
  · norm_num [input_velocity, tick_spinning, ts_secs, timeval_secs]
  · norm_num [low_rate, rate_less80p, tick_spinning, sensor_time_nominal, rate_init]
  · decide
  · decide

theorem mk_servo_ramp_witness :
    ((0 : ℕ) < 1 ∧ (0 : ℚ) < (3 : ℚ)
        ∧ ∀ t ∈ [tick_spinning, tick_spinning], servo_tick_nominal t)
      ∧ mk_servo_run 1 (some conn_two_links) { timeout := 30, ramp := 3 } mk_servo_start.1
          [tick_spinning, tick_spinning]
        = min 1 ((([tick_spinning, tick_spinning] : List servo_tick).length : ℚ) * ((1 : ℕ) : ℚ)
            / (1000 * 3)) :=
  ⟨⟨by norm_num, by norm_num, by
      intro t ht
      simp only [List.mem_cons, List.mem_singleton, List.not_mem_nil, or_false, or_self] at ht
      rw [ht]; exact tick_spinning_nominal⟩,
   (mk_servo_ramp 1 conn_two_links { timeout := 30, ramp := 3 } [tick_spinning, tick_spinning]
      (by norm_num) (by norm_num) (by
        intro t ht
        simp only [List.mem_cons, List.mem_singleton, List.not_mem_nil, or_false, or_self] at ht
        rw [ht]; exact tick_spinning_nominal)).1⟩

/-! ### The ramp of the servo in double arithmetic -/

theorem servo_ramp_f64_add (period_ms : ℕ) (ramp : ℚ) : ∀ (a b : ℕ) (scale : ℚ),
    servo_ramp_f64 period_ms ramp scale (a + b)
      = servo_ramp_f64 period_ms ramp (servo_ramp_f64 period_ms ramp scale a) b := by
  intro a
  induction a with
  | zero => intro b scale; rw [Nat.zero_add]; rfl
  | succ k ih =>
    intro b scale
    rw [show k + 1 + b = (k + b) + 1 by omega]
    show servo_ramp_f64 period_ms ramp (servo_ramp_step_f64 period_ms ramp scale) (k + b) = _
    rw [ih]
    rfl

theorem servo_ramp_f64_default_300 :
    servo_ramp_f64 1 3 (0) 300 = 900719925474103 / 9007199254740992 := by
  decide!

theorem servo_ramp_f64_default_600 :
    servo_ramp_f64 1 3 (900719925474103 / 9007199254740992) 300 = 7205759403792749 / 36028797018963968 := by
  decide!

theorem servo_ramp_f64_default_900 :
    servo_ramp_f64 1 3 (7205759403792749 / 36028797018963968) 300 = 5404319552844599 / 18014398509481984 := by
  decide!

theorem servo_ramp_f64_default_1200 :
    servo_ramp_f64 1 3 (5404319552844599 / 18014398509481984) 300 = 7205759403792899 / 18014398509481984 := by
  decide!

theorem servo_ramp_f64_default_1500 :
    servo_ramp_f64 1 3 (7205759403792899 / 18014398509481984) 300 = 4503599627370599 / 9007199254740992 := by
  decide!

theorem servo_ramp_f64_default_1800 :
    servo_ramp_f64 1 3 (4503599627370599 / 9007199254740992) 300 = 5404319552844599 / 9007199254740992 := by
  decide!

theorem servo_ramp_f64_default_2100 :
    servo_ramp_f64 1 3 (5404319552844599 / 9007199254740992) 300 = 6305039478318599 / 9007199254740992 := by
  decide!

theorem servo_ramp_f64_default_2400 :
    servo_ramp_f64 1 3 (6305039478318599 / 9007199254740992) 300 = 7205759403792599 / 9007199254740992 := by
  decide!

theorem servo_ramp_f64_default_2700 :
    servo_ramp_f64 1 3 (7205759403792599 / 9007199254740992) 300 = 8106479329266599 / 9007199254740992 := by
  decide!

theorem servo_ramp_f64_default_3000 :
    servo_ramp_f64 1 3 (8106479329266599 / 9007199254740992) 300 = 9007199254740599 / 9007199254740992 := by
  decide!

/-- The scale accumulated in double arithmetic with the default ramp of 3 s and
a period of 1 ms: 0.9999999999999564 after 3000 calls, 1 after 3001 calls. -/
theorem servo_ramp_f64_default :
    servo_ramp_f64 1 3 0 3000 = 9007199254740599 / 9007199254740992
      ∧ servo_ramp_f64 1 3 0 3001 = 1 := by
  have h : servo_ramp_f64 1 3 0 3000 = 9007199254740599 / 9007199254740992 := by
    show servo_ramp_f64 1 3 0
      (300 + (300 + (300 + (300 + (300 + (300 + (300 + (300 + (300 + 300))))))))) = _
    rw [servo_ramp_f64_add, servo_ramp_f64_default_300, servo_ramp_f64_add,
      servo_ramp_f64_default_600, servo_ramp_f64_add, servo_ramp_f64_default_900,
      servo_ramp_f64_add, servo_ramp_f64_default_1200, servo_ramp_f64_add,
      servo_ramp_f64_default_1500, servo_ramp_f64_add, servo_ramp_f64_default_1800,
      servo_ramp_f64_add, servo_ramp_f64_default_2100, servo_ramp_f64_add,
      servo_ramp_f64_default_2400, servo_ramp_f64_add, servo_ramp_f64_default_2700,
      servo_ramp_f64_default_3000]
  refine ⟨h, ?_⟩
  show servo_ramp_f64 1 3 0 (3000 + 1) = _
  rw [servo_ramp_f64_add, h]
  decide!

/-- C5, as stated, fails. (1) On a tick where the input is fresh, no sensor
rate is low and all rotors report spinning, but rotor 1 (enabled) also has the
emerg flag, the first call of `mk_servo_main` returns the rotor failure and
leaves the scale at 0, not at `min(1, 1*P/(1000*ramp))` = 1/3000. (2) In double
arithmetic, with the default ramp of 3 s and a period of 1 ms, the scale after
the first ramp step is 6148914691236517/2^64, not 1/3000; after 3000 steps,
where `ceil(ramp*1000/P)` = 3000, it is 9007199254740599/2^53
(0.9999999999999564), not 1; it is 1 after 3001 steps. -/
theorem mk_servo_ramp_counterexample :
    tick_emerg.rotor_input.read_fails = false
      ∧ tick_emerg.rotor_input.data = some input_velocity
      ∧ ¬ (1 / 2 + ts_secs input_velocity.ts < timeval_secs tick_emerg.tv)
      ∧ low_rate tick_emerg.sensor_time = none
      ∧ (∀ r ∈ tick_emerg.rotor_data, r.state.spinning = true)
      ∧ (mk_servo_main 1 (some conn_two_links) tick_emerg.sensor_time tick_emerg.rotor_data
          tick_emerg.rotor_input { timeout := 30, ramp := 3 } mk_servo_start.1 tick_emerg.tv
          tick_emerg.tv_send).event = genom_event.rotorcraft_e_rotor_failure 1
      ∧ mk_servo_run 1 (some conn_two_links) { timeout := 30, ramp := 3 } mk_servo_start.1
          [tick_emerg] = 0
      ∧ mk_servo_run 1 (some conn_two_links) { timeout := 30, ramp := 3 } mk_servo_start.1
          [tick_emerg] ≠ min 1 (((1 : ℕ) : ℚ) * ((1 : ℕ) : ℚ) / (1000 * 3))
      ∧ servo_ramp_f64 1 3 mk_servo_start.1 1 = 6148914691236517 / 18446744073709551616
      ∧ servo_ramp_f64 1 3 mk_servo_start.1 1
        ≠ min 1 (((1 : ℕ) : ℚ) * ((1 : ℕ) : ℚ) / (1000 * 3))
      ∧ ⌈(3 : ℚ) * 1000 / ((1 : ℕ) : ℚ)⌉ = 3000
      ∧ servo_ramp_f64 1 3 mk_servo_start.1 3000 = 9007199254740599 / 9007199254740992
      ∧ servo_ramp_f64 1 3 mk_servo_start.1 3000 ≠ 1
      ∧ servo_ramp_f64 1 3 mk_servo_start.1 3001 = 1 := by
  have hfresh : ¬ (1 / 2 + ts_secs input_velocity.ts < timeval_secs tick_emerg.tv) := by
    norm_num [input_velocity, tick_emerg, tick_spinning, ts_secs, timeval_secs]
  have hlow : low_rate tick_emerg.sensor_time = none := by
    norm_num [low_rate, rate_less80p, tick_emerg, tick_spinning, sensor_time_nominal, rate_init]
  have hmain : mk_servo_main 1 (some conn_two_links) tick_emerg.sensor_time
      tick_emerg.rotor_data tick_emerg.rotor_input { timeout := 30, ramp := 3 }
      mk_servo_start.1 tick_emerg.tv tick_emerg.tv_send
      = { event := genom_event.rotorcraft_e_rotor_failure 1, scale := 0
          rotor_data := tick_emerg.rotor_data
          sent := (mk_stop conn_two_links tick_emerg.rotor_data tick_emerg.tv_send).2 } := by
    have hchk : servo_rotor_check (tick_emerg.rotor_data.take or_rotorcraft_max_rotors) 0
        = some (genom_event.rotorcraft_e_rotor_failure 1) := by decide
    have hread : tick_emerg.rotor_input.read_fails = false := rfl
    have hdata : tick_emerg.rotor_input.data = some input_velocity := rfl
    unfold mk_servo_main
    simp only [hread, hdata, hlow, hchk, hfresh, Bool.false_eq_true, if_false, decide_False,
      Bool.false_and, Option.isSome_none, mk_servo_start]
  have hrun : mk_servo_run 1 (some conn_two_links) { timeout := 30, ramp := 3 }
      mk_servo_start.1 [tick_emerg] = 0 := by
    unfold mk_servo_run
    rw [hmain]
    simp
  have hone : servo_ramp_f64 1 3 mk_servo_start.1 1
      = 6148914691236517 / 18446744073709551616 := by decide!
  have hdef := servo_ramp_f64_default
  refine ⟨rfl, rfl, hfresh, hlow, by decide, by rw [hmain], hrun, ?_, hone, ?_, ?_, hdef.1, ?_,
    hdef.2⟩
  · rw [hrun]
    norm_num
  · rw [hone]
    norm_num
  · rw [Int.ceil_eq_iff]
    norm_num
  · have h3000 : servo_ramp_f64 1 3 mk_servo_start.1 3000
        = 9007199254740599 / 9007199254740992 := hdef.1
    rw [h3000]
    norm_num

theorem mk_set_sensor_rate_keeps_cutoff_witness :
    (¬ rate_out_of_range { imu := 500, mag := 50, motor := 100, battery := 1 }
        ∧ (0 : ℚ) ≤ sensor_time_nominal.rate.imu)
      ∧ ∃ r f1 st1,
        mk_set_sensor_rate { imu := 500, mag := 50, motor := 100, battery := 1 } conn_two_links
            (some (filter_of_alpha (1 / 2))) (some sensor_time_nominal) = some r
          ∧ r.event = genom_event.genom_ok
          ∧ r.imu_filter = some f1 ∧ r.sensor_time = some st1
          ∧ st1.rate = { imu := 500, mag := 50, motor := 100, battery := 1 }
          ∧ rc_get_imu_filter f1 st1.rate
            = rc_get_imu_filter (filter_of_alpha (1 / 2)) sensor_time_nominal.rate :=
  ⟨⟨by norm_num [rate_out_of_range], by norm_num [sensor_time_nominal, rate_init]⟩,
   mk_set_sensor_rate_keeps_cutoff { imu := 500, mag := 50, motor := 100, battery := 1 }
    conn_two_links (filter_of_alpha (1 / 2)) sensor_time_nominal
    (by norm_num [rate_out_of_range]) (by norm_num) (by norm_num)
    (by norm_num [sensor_time_nominal, rate_init]) (by norm_num [sensor_time_nominal, rate_init])
    (fun _ => by norm_num [filter_of_alpha]) (fun _ => by norm_num [filter_of_alpha])
    (fun _ => by norm_num [filter_of_alpha])⟩

/-- C9, as stated, fails. (1) New imu rate 0, which is accepted: the gyroscope
cutoff read at the old rate 1000 from alpha = 1/2 is `1000/2/M_PI`, not 0, and
after `mk_set_sensor_rate` the cutoff read at the new rate is 0. (2) A filter
state with alpha = -1: the cutoff read at the old rate is negative, and after
the call to a new rate 500 the cutoff read is 0. (3) In double arithmetic, with
alpha = 1/2 and the rate going from 1000 to 500: the cutoff read at the old
rate is 349985421095133/2^41 (159.15494309189535), the cutoff read at the new
rate from the new coefficient is 5599766737522127/2^45 (159.15494309189532). -/
theorem mk_set_sensor_rate_keeps_cutoff_counterexample :
    (¬ rate_out_of_range { imu := 0, mag := 100, motor := 100, battery := 1 }
      ∧ (mk_set_sensor_rate { imu := 0, mag := 100, motor := 100, battery := 1 } conn_two_links
          (some (filter_of_alpha (1 / 2))) (some sensor_time_nominal)).map
          (fun r => r.imu_filter.map (fun f1 =>
            (rc_get_imu_filter f1 { imu := 0, mag := 100, motor := 100, battery := 1 }).gfc 0))
        = some (some 0)
      ∧ (rc_get_imu_filter (filter_of_alpha (1 / 2)) sensor_time_nominal.rate).gfc 0
        = 1000 / 2 / M_PI
      ∧ (1000 : ℚ) / 2 / M_PI ≠ 0)
    ∧ (¬ rate_out_of_range { imu := 500, mag := 100, motor := 100, battery := 1 }
      ∧ (mk_set_sensor_rate { imu := 500, mag := 100, motor := 100, battery := 1 }
          conn_two_links (some (filter_of_alpha (-1))) (some sensor_time_nominal)).map
          (fun r => r.imu_filter.map (fun f1 =>
            (rc_get_imu_filter f1 { imu := 500, mag := 100, motor := 100, battery := 1 }).gfc 0))
        = some (some 0)
      ∧ (rc_get_imu_filter (filter_of_alpha (-1)) sensor_time_nominal.rate).gfc 0
        = -(1000 / 4 / M_PI)
      ∧ -((1000 : ℚ) / 4 / M_PI) ≠ 0)
    ∧ (fc_of_alpha_f64 (wc_get_f64 1000) (1 / 2) = 349985421095133 / 2199023255552
      ∧ alpha_of_fc_f64 (wc_of_rate_f64 500) (349985421095133 / 2199023255552)
        = 6004799503160661 / 9007199254740992
      ∧ cutoff_after_rate_f64 1000 500 (1 / 2) = 5599766737522127 / 35184372088832
      ∧ cutoff_after_rate_f64 1000 500 (1 / 2)
        ≠ fc_of_alpha_f64 (wc_get_f64 1000) (1 / 2)) := by
  have hpi := M_PI_pos
  have hne : M_PI ≠ 0 := hpi.ne'
  refine ⟨⟨by norm_num [rate_out_of_range], ?_, ?_, ?_⟩,
    ⟨by norm_num [rate_out_of_range], ?_, ?_, ?_⟩,
    ⟨by decide!, by decide!, by decide!, by decide!⟩⟩
  · have h : ¬ rate_out_of_range { imu := 0, mag := 100, motor := 100, battery := 1 } := by
      norm_num [rate_out_of_range]
    simp only [mk_set_sensor_rate, if_neg h, Option.map_some']
    norm_num [rc_get_imu_filter, rc_set_imu_filter, fc_of_alpha, alpha_of_fc, wc_of_rate]
  · norm_num [rc_get_imu_filter, fc_of_alpha, filter_of_alpha, sensor_time_nominal, rate_init]
  · positivity
  · have h : ¬ rate_out_of_range { imu := 500, mag := 100, motor := 100, battery := 1 } := by
      norm_num [rate_out_of_range]
    simp only [mk_set_sensor_rate, if_neg h, Option.map_some']
    show some (some (fc_of_alpha (500 * (1 / 2) / M_PI)
      (alpha_of_fc (wc_of_rate 500) (fc_of_alpha (1000 * (1 / 2) / M_PI) (-1))))) = some (some 0)
    have hneg : ¬ (0 : ℚ) < fc_of_alpha (1000 * (1 / 2) / M_PI) (-1) := by
      have h0 : (0 : ℚ) ≤ 1000 * (1 / 2) / M_PI := by positivity
      have h2 : fc_of_alpha (1000 * (1 / 2) / M_PI) (-1) = -(1000 * (1 / 2) / M_PI) / 2 := by
        unfold fc_of_alpha
        rw [if_pos (by norm_num)]
        ring
      rw [h2, not_lt]
      linarith
    rw [alpha_of_fc, if_neg hneg, fc_of_alpha, if_neg (lt_irrefl 1)]
  · norm_num [rc_get_imu_filter, fc_of_alpha, filter_of_alpha, sensor_time_nominal, rate_init]
    ring
  · have : (0 : ℚ) < 1000 / 4 / M_PI := by positivity
    linarith

/-! ### Validation of the command -/

theorem validate_rotor_check_none (l : List rotor_data_s)
    (h : ∀ r ∈ l, r.state.disabled = true ∨ r.state.emerg = false) :
    ∀ i, validate_rotor_check l i = none := by
  induction l with
  | nil => intro i; rfl
  | cons r rs ih =>
    intro i
    have ih2 := ih (fun x hx => h x (List.mem_cons_of_mem _ hx)) (i + 1)
    unfold validate_rotor_check
    rcases h r (List.mem_cons_self _ _) with hd | he
    · rw [if_pos hd]; exact ih2
    · by_cases hd : r.state.disabled = true
      · rw [if_pos hd]; exact ih2
      · rw [if_neg hd, if_neg (by simp [he])]; exact ih2

theorem validate_rotor_check_first (l : List rotor_data_s) :
    ∀ (k i : ℕ) (r : rotor_data_s), l[i]? = some r → r.state.disabled = false →
      r.state.emerg = true →
      (∀ j q, j < i → l[j]? = some q → q.state.disabled = true ∨ q.state.emerg = false) →
      validate_rotor_check l k = some (genom_event.rotorcraft_e_rotor_failure (1 + (k + i))) := by
  induction l with
  | nil => intro k i r hr; simp at hr
  | cons c cs ih =>
    intro k i r hr hd he hbefore
    unfold validate_rotor_check
    cases i with
    | zero =>
      simp only [List.getElem?_cons_zero, Option.some.injEq] at hr
      subst hr
      simp [hd, he]
    | succ n =>
      have hc := hbefore 0 c (Nat.succ_pos n) (by simp)
      have hrec := ih (k + 1) n r (by simpa using hr) hd he
        (fun j q hj hq => hbefore (j + 1) q (Nat.succ_lt_succ hj) (by simpa using hq))
      have hidx : 1 + (k + 1 + n) = 1 + (k + (n + 1)) := by omega
      rw [hidx] at hrec
      rcases hc with hcd | hce
      · rw [if_pos hcd]; exact hrec
      · by_cases hcd : c.state.disabled = true
        · rw [if_pos hcd]; exact hrec
        · rw [if_neg hcd, if_neg (by simp [hce])]; exact hrec

theorem trim_nan_length_le (buf : List (Option ℚ)) : ∀ l, trim_nan_length buf l ≤ l := by
  intro l
  induction l with
  | zero => simp [trim_nan_length]
  | succ n ih =>
    unfold trim_nan_length
    split_ifs
    · omega
    · exact le_refl _

theorem trim_nan_length_tail (buf : List (Option ℚ)) :
    ∀ l k, trim_nan_length buf l ≤ k → k < l → buf[k]? = some none := by
  intro l
  induction l with
  | zero => intro k _ hk; omega
  | succ n ih =>
    intro k h1 h2
    unfold trim_nan_length at h1
    split_ifs at h1 with hn
    · rcases Nat.lt_succ_iff_lt_or_eq.mp h2 with h | h
      · exact ih k h1 h
      · rw [h]; exact hn
    · omega

theorem trim_nan_length_last (buf : List (Option ℚ)) :
    ∀ l, l ≤ buf.length → trim_nan_length buf l = 0
      ∨ ∃ x, buf[trim_nan_length buf l - 1]? = some (some x) := by
  intro l
  induction l with
  | zero => intro _; left; rfl
  | succ n ih =>
    intro hl
    unfold trim_nan_length
    split_ifs with hn
    · exact ih (by omega)
    · right
      have hlt : n < buf.length := by omega
      rw [Nat.add_sub_cancel, List.getElem?_eq_getElem hlt] at *
      cases hb : buf[n] with
      | none => rw [hb] at hn; exact absurd rfl hn
      | some x => exact ⟨x, rfl⟩

/-- C11. `mk_validate_input`: if rotor `i` is the first enabled rotor with the
emerg flag, the codel returns rotor_failure with id `1 + i` and leaves the
command as it is. If no enabled rotor has the emerg flag, it returns ok and
cuts the command to the length `l`, the smallest one such that every element
of index `>= l` is NaN: the kept elements are unchanged, and the result is
empty or ends with a number. -/
theorem mk_validate_input_spec (rotor_data : List rotor_data_s)
    (desired : or_rotorcraft_rotor_control) :
    (∀ (i : ℕ) r, (rotor_data.take or_rotorcraft_max_rotors)[i]? = some r →
        r.state.disabled = false → r.state.emerg = true →
        (∀ (j : ℕ) q, j < i → (rotor_data.take or_rotorcraft_max_rotors)[j]? = some q →
          q.state.disabled = true ∨ q.state.emerg = false) →
        mk_validate_input rotor_data desired
          = (genom_event.rotorcraft_e_rotor_failure (1 + i), desired))
      ∧ ((∀ r ∈ rotor_data.take or_rotorcraft_max_rotors,
            r.state.disabled = true ∨ r.state.emerg = false) →
          ∃ l : ℕ, mk_validate_input rotor_data desired
              = (genom_event.genom_ok, desired.take l)
            ∧ l ≤ desired.length
            ∧ (∀ (k : ℕ), l ≤ k → k < desired.length → desired[k]? = some none)
            ∧ (∀ l2 : ℕ, l2 ≤ desired.length →
                (∀ (k : ℕ), l2 ≤ k → k < desired.length → desired[k]? = some none) → l ≤ l2)
            ∧ (∀ (k : ℕ), k < l → (desired.take l)[k]? = desired[k]?)
            ∧ (l = 0 ∨ ∃ x, (desired.take l)[l - 1]? = some (some x))) := by
  constructor
  · intro i r hr hd he hb
    have h := validate_rotor_check_first _ 0 i r hr hd he hb
    unfold mk_validate_input
    rw [h]
    simp
  · intro h
    have hnone := validate_rotor_check_none _ h 0
    refine ⟨trim_nan_length desired desired.length, ?_, trim_nan_length_le _ _,
      trim_nan_length_tail _ _, ?_, ?_, ?_⟩
    · unfold mk_validate_input
      rw [hnone]
    · intro l2 hl2 hall
      by_contra hlt
      rcases trim_nan_length_last desired desired.length (le_refl _) with h0 | ⟨x, hx⟩
      · omega
      · have hle := trim_nan_length_le desired desired.length
        have := hall (trim_nan_length desired desired.length - 1) (by omega) (by omega)
        rw [this] at hx
        exact absurd hx (by simp)
    · intro k hk
      rw [List.getElem?_take, if_pos hk]
    · rcases trim_nan_length_last desired desired.length (le_refl _) with h0 | ⟨x, hx⟩
      · left; exact h0
      · by_cases h0 : trim_nan_length desired desired.length = 0
        · left; exact h0
        · right
          refine ⟨x, ?_⟩
          rw [List.getElem?_take, if_pos (by omega)]
          exact hx

/-! ### Motors: disable, enable, PID -/

theorem owner_link_first (motor : ℕ) (l : List mk_channel_s) :
    ∀ (k i : ℕ) (c : mk_channel_s), l[i]? = some c → owns c motor →
      (∀ (j : ℕ) q, j < i → l[j]? = some q → ¬ owns q motor) →
      owner_link motor l k = some (k + i) := by
  induction l with
  | nil => intro k i c hc; simp at hc
  | cons d ds ih =>
    intro k i c hc ho hb
    unfold owner_link
    cases i with
    | zero =>
      simp only [List.getElem?_cons_zero, Option.some.injEq] at hc
      subst hc
      have ho2 : d.minid ≤ motor ∧ motor ≤ d.maxid := ho
      rw [if_pos ho2]; rfl
    | succ n =>
      have hd : ¬ (d.minid ≤ motor ∧ motor ≤ d.maxid) := hb 0 d (Nat.succ_pos n) (by simp)
      rw [if_neg hd]
      have := ih (k + 1) n c (by simpa using hc) ho
        (fun j q hj hq => hb (j + 1) q (Nat.succ_lt_succ hj) (by simpa using hq))
      rw [this]
      congr 1
      omega

theorem owner_link_none (motor : ℕ) (l : List mk_channel_s)
    (h : ∀ c ∈ l, ¬ owns c motor) : ∀ k, owner_link motor l k = none := by
  induction l with
  | nil => intro k; rfl
  | cons d ds ih =>
    intro k
    unfold owner_link
    have hd : ¬ (d.minid ≤ motor ∧ motor ≤ d.maxid) := h d (List.mem_cons_self _ _)
    rw [if_neg hd]
    exact ih (fun c hc => h c (List.mem_cons_of_mem _ hc)) (k + 1)

theorem send_to_owner_first (fmt : String) (motor : ℕ) (conn : rotorcraft_conn_s) (i : ℕ)
    (c : mk_channel_s) (hc : conn.chan[i]? = some c) (ho : owns c motor)
    (hb : ∀ (j : ℕ) q, j < i → conn.chan[j]? = some q → ¬ owns q motor) :
    send_to_owner fmt motor conn
      = [{ chan := i, fmt := fmt, args := [msg_arg.u8 (motor % 256)] }] := by
  unfold send_to_owner
  rw [owner_link_first motor conn.chan 0 i c hc ho hb]
  simp

theorem send_to_owner_none (fmt : String) (motor : ℕ) (conn : rotorcraft_conn_s)
    (h : ∀ c ∈ conn.chan, ¬ owns c motor) : send_to_owner fmt motor conn = [] := by
  unfold send_to_owner
  rw [owner_link_none motor conn.chan h 0]

/-- C12 (amended). `mk_disable_motor`: for an id outside [1, 8] it returns the
range error and changes nothing; for an id in [1, 8] it returns ok, sets the
flags of rotor id to disabled = true, emerg = spinning = starting = false, its
velocity, throttle, consumption and energy_level to NaN, clears its autoconf
flag, leaves every other rotor record unchanged, and sends exactly one message
`x%1 id`, to the first link whose motor range contains id; when no link has id
in its range it sends no message. -/
theorem mk_disable_motor_spec (motor : ℕ) (conn : rotorcraft_conn_s)
    (rotor_data : List rotor_data_s) (tv : timeval) :
    ((motor < 1 ∨ or_rotorcraft_max_rotors < motor) →
        mk_disable_motor motor conn rotor_data tv
          = { event := genom_event.rotorcraft_e_range, rotor_data := rotor_data, sent := [] })
      ∧ (1 ≤ motor → motor ≤ or_rotorcraft_max_rotors →
          (mk_disable_motor motor conn rotor_data tv).event = genom_event.genom_ok
          ∧ (mk_disable_motor motor conn rotor_data tv).rotor_data.length = rotor_data.length
          ∧ (∀ r, rotor_data[motor - 1]? = some r →
              ∃ r2, (mk_disable_motor motor conn rotor_data tv).rotor_data[motor - 1]? = some r2
                ∧ r2.state.disabled = true ∧ r2.state.emerg = false
                ∧ r2.state.spinning = false ∧ r2.state.starting = false
                ∧ r2.state.velocity = none ∧ r2.state.throttle = none
                ∧ r2.state.consumption = none ∧ r2.state.energy_level = none
                ∧ r2.autoconf = false
                ∧ r2.wd = r.wd ∧ r2.ts = r.ts ∧ r2.clkrate = r.clkrate)
          ∧ (∀ (k : ℕ), k ≠ motor - 1 →
              (mk_disable_motor motor conn rotor_data tv).rotor_data[k]? = rotor_data[k]?)
          ∧ (∀ (i : ℕ) c, conn.chan[i]? = some c → owns c motor →
              (∀ (j : ℕ) q, j < i → conn.chan[j]? = some q → ¬ owns q motor) →
              (mk_disable_motor motor conn rotor_data tv).sent
                = [{ chan := i, fmt := "x%1", args := [msg_arg.u8 motor] }])
          ∧ ((∀ c ∈ conn.chan, ¬ owns c motor) →
              (mk_disable_motor motor conn rotor_data tv).sent = [])) := by
  constructor
  · intro h
    unfold mk_disable_motor
    rw [if_pos h]
  · intro h1 h8
    have hin : ¬ (motor < 1 ∨ or_rotorcraft_max_rotors < motor) := by omega
    have hmod : motor % 256 = motor := by
      unfold or_rotorcraft_max_rotors at h8
      omega
    have hdef : mk_disable_motor motor conn rotor_data tv
        = { event := genom_event.genom_ok
            rotor_data := List.modify
              (fun r => { r with state := disabled_state tv, autoconf := false }) (motor - 1)
              rotor_data
            sent := send_to_owner "x%1" motor conn } := by
      unfold mk_disable_motor
      rw [if_neg hin]
    rw [hdef]
    refine ⟨rfl, by simp, ?_, ?_, ?_, ?_⟩
    · intro r hr
      refine ⟨{ r with state := disabled_state tv, autoconf := false }, ?_, rfl, rfl, rfl, rfl,
        rfl, rfl, rfl, rfl, rfl, rfl, rfl, rfl⟩
      rw [List.getElem?_modify, hr]
      simp
    · intro k hk
      rw [List.getElem?_modify]
      cases rotor_data[k]? with
      | none => rfl
      | some x => simp [Ne.symm hk]
    · intro i c hc ho hb
      rw [send_to_owner_first "x%1" motor conn i c hc ho hb, hmod]
    · intro h
      exact send_to_owner_none "x%1" motor conn h

/-- C12, as stated, fails: with a connection that has no link (as after
`mk_main_init`), `mk_disable_motor` for the id 1 returns ok and disables the
rotor, but sends no message. -/
theorem mk_disable_motor_counterexample :
    (mk_disable_motor 1 { chan := [] } rotors_spinning
        { tv_sec := 1000000017, tv_usec := 0 }).event = genom_event.genom_ok
      ∧ (mk_disable_motor 1 { chan := [] } rotors_spinning
        { tv_sec := 1000000017, tv_usec := 0 }).sent = [] := by
  constructor <;> rfl

/-- After the update of rotor `motor` by `mk_enable_motor`, an enabled spinning
rotor among the eight is an enabled spinning rotor other than `motor`. -/
theorem enable_other_spinning (motor : ℕ) (rotor_data : List rotor_data_s) (tv : timeval) :
    ((List.modify (fun r => { r with state := enabled_state tv, autoconf := false })
        (motor - 1) rotor_data).take or_rotorcraft_max_rotors).any
        (fun r => !r.state.disabled && r.state.spinning) = true
      ↔ ∃ (k : ℕ) (r : rotor_data_s), k ≠ motor - 1 ∧ k < or_rotorcraft_max_rotors
          ∧ rotor_data[k]? = some r ∧ r.state.disabled = false ∧ r.state.spinning = true := by
  rw [List.any_eq_true]
  constructor
  · rintro ⟨r, hr, hp⟩
    obtain ⟨k, hk, hget⟩ := List.getElem_of_mem hr
    have hk8 : k < or_rotorcraft_max_rotors := by
      rw [List.length_take] at hk
      exact lt_of_lt_of_le hk (min_le_left _ _)
    have hget2 : (List.modify (fun r => { r with state := enabled_state tv, autoconf := false })
        (motor - 1) rotor_data)[k]? = some r := by
      have := List.getElem?_eq_getElem hk
      rw [hget, List.getElem?_take, if_pos hk8] at this
      exact this
    rw [List.getElem?_modify] at hget2
    cases hrd : rotor_data[k]? with
    | none => rw [hrd] at hget2; simp at hget2
    | some x =>
      rw [hrd] at hget2
      by_cases hkm : motor - 1 = k
      · simp only [hkm, if_true, Option.map_eq_map, Option.map_some', Option.some.injEq] at hget2
        subst hget2
        simp [enabled_state] at hp
      · simp only [hkm, if_false, Option.map_eq_map, Option.map_some', Option.some.injEq] at hget2
        subst hget2
        simp only [Bool.and_eq_true, Bool.not_eq_true'] at hp
        exact ⟨k, x, Ne.symm hkm, hk8, hrd, hp.1, hp.2⟩
  · rintro ⟨k, r, hkm, hk8, hrd, hd, hs⟩
    refine ⟨r, ?_, by simp [hd, hs]⟩
    have hget2 : ((List.modify (fun r => { r with state := enabled_state tv, autoconf := false })
        (motor - 1) rotor_data).take or_rotorcraft_max_rotors)[k]? = some r := by
      rw [List.getElem?_take, if_pos hk8, List.getElem?_modify, hrd]
      simp [Ne.symm hkm]
    exact List.getElem?_mem hget2

/-- C13 (amended). `mk_enable_motor`: for an id outside [1, 8] it returns the
range error and changes nothing; for an id in [1, 8] it returns ok, sets the
flags of rotor id to disabled = emerg = spinning = starting = false and leaves
every other rotor record unchanged; it sends `g%1 id`, to the first link whose
motor range contains id, if and only if some other rotor that is not disabled
is spinning (and a link has id in its range); otherwise it sends nothing. -/
theorem mk_enable_motor_spec (motor : ℕ) (conn : rotorcraft_conn_s)
    (rotor_data : List rotor_data_s) (tv : timeval) :
    ((motor < 1 ∨ or_rotorcraft_max_rotors < motor) →
        mk_enable_motor motor conn rotor_data tv
          = { event := genom_event.rotorcraft_e_range, rotor_data := rotor_data, sent := [] })
      ∧ (1 ≤ motor → motor ≤ or_rotorcraft_max_rotors →
          (mk_enable_motor motor conn rotor_data tv).event = genom_event.genom_ok
          ∧ (mk_enable_motor motor conn rotor_data tv).rotor_data.length = rotor_data.length
          ∧ (∀ r, rotor_data[motor - 1]? = some r →
              ∃ r2, (mk_enable_motor motor conn rotor_data tv).rotor_data[motor - 1]? = some r2
                ∧ r2.state.disabled = false ∧ r2.state.emerg = false
                ∧ r2.state.spinning = false ∧ r2.state.starting = false
                ∧ r2.wd = r.wd ∧ r2.ts = r.ts ∧ r2.clkrate = r.clkrate)
          ∧ (∀ (k : ℕ), k ≠ motor - 1 →
              (mk_enable_motor motor conn rotor_data tv).rotor_data[k]? = rotor_data[k]?)
          ∧ ((∃ (k : ℕ) (r : rotor_data_s), k ≠ motor - 1 ∧ k < or_rotorcraft_max_rotors
                ∧ rotor_data[k]? = some r ∧ r.state.disabled = false
                ∧ r.state.spinning = true) →
              (∀ (i : ℕ) c, conn.chan[i]? = some c → owns c motor →
                (∀ (j : ℕ) q, j < i → conn.chan[j]? = some q → ¬ owns q motor) →
                (mk_enable_motor motor conn rotor_data tv).sent
                  = [{ chan := i, fmt := "g%1", args := [msg_arg.u8 motor] }])
              ∧ ((∀ c ∈ conn.chan, ¬ owns c motor) →
                (mk_enable_motor motor conn rotor_data tv).sent = []))
          ∧ ((¬ ∃ (k : ℕ) (r : rotor_data_s), k ≠ motor - 1 ∧ k < or_rotorcraft_max_rotors
                ∧ rotor_data[k]? = some r ∧ r.state.disabled = false
                ∧ r.state.spinning = true) →
              (mk_enable_motor motor conn rotor_data tv).sent = [])) := by
  constructor
  · intro h
    unfold mk_enable_motor
    rw [if_pos h]
  · intro h1 h8
    have hin : ¬ (motor < 1 ∨ or_rotorcraft_max_rotors < motor) := by omega
    have hmod : motor % 256 = motor := by
      unfold or_rotorcraft_max_rotors at h8
      omega
    have hdef : mk_enable_motor motor conn rotor_data tv
        = { event := genom_event.genom_ok
            rotor_data := List.modify
              (fun r => { r with state := enabled_state tv, autoconf := false }) (motor - 1)
              rotor_data
            sent :=
              if ((List.modify (fun r => { r with state := enabled_state tv, autoconf := false })
                  (motor - 1) rotor_data).take or_rotorcraft_max_rotors).any
                  (fun r => !r.state.disabled && r.state.spinning) then
                send_to_owner "g%1" motor conn
              else [] } := by
      unfold mk_enable_motor
      rw [if_neg hin]
    rw [hdef]
    refine ⟨rfl, by simp, ?_, ?_, ?_, ?_⟩
    · intro r hr
      refine ⟨{ r with state := enabled_state tv, autoconf := false }, ?_, rfl, rfl, rfl, rfl,
        rfl, rfl, rfl⟩
      rw [List.getElem?_modify, hr]
      simp
    · intro k hk
      rw [List.getElem?_modify]
      cases rotor_data[k]? with
      | none => rfl
      | some x => simp [Ne.symm hk]
    · intro hex
      have hany := (enable_other_spinning motor rotor_data tv).mpr hex
      simp only [hany, if_true]
      constructor
      · intro i c hc ho hb
        rw [send_to_owner_first "g%1" motor conn i c hc ho hb, hmod]
      · intro h
        exact send_to_owner_none "g%1" motor conn h
    · intro hno
      have hany : ¬ (((List.modify
          (fun r => { r with state := enabled_state tv, autoconf := false })
          (motor - 1) rotor_data).take or_rotorcraft_max_rotors).any
          (fun r => !r.state.disabled && r.state.spinning) = true) :=
        fun h => hno ((enable_other_spinning motor rotor_data tv).mp h)
      simp only [hany, if_false]
      simp

/-- C13, as stated, fails: rotor 2 is disabled and still reports spinning, the
other rotors are stopped, and the first link owns rotor 1; `mk_enable_motor`
for the id 1 returns ok and sends nothing, although another motor is
spinning. -/
theorem mk_enable_motor_counterexample :
    (rotor_idle :: rotor_disabled_spinning :: List.replicate 6 rotor_idle)[1]?
        = some rotor_disabled_spinning
      ∧ rotor_disabled_spinning.state.spinning = true
      ∧ owns (link_of true true true 1 4) 1
      ∧ (mk_enable_motor 1 conn_two_links
          (rotor_idle :: rotor_disabled_spinning :: List.replicate 6 rotor_idle)
          { tv_sec := 1000000017, tv_usec := 0 }).event = genom_event.genom_ok
      ∧ (mk_enable_motor 1 conn_two_links
          (rotor_idle :: rotor_disabled_spinning :: List.replicate 6 rotor_idle)
          { tv_sec := 1000000017, tv_usec := 0 }).sent = [] := by
  refine ⟨rfl, rfl, by decide, rfl, ?_⟩
  decide

/-- C16. For every call of `mk_get_ts`, the emitted timestamp has
`0 <= nsec < 1e9`: `sec` is the integer part of the reconstructed time plus the
constant 1000000000, `nsec` is its fractional part in nanoseconds cut to an
integer, so that `sec + nsec * 1e-9` is the reconstructed time plus the
constant, cut to the nanosecond below. -/
theorem mk_get_ts_nsec_range (seq : ℕ) (atv : timeval) (rate : ℚ) (timings : ts_s)
    (lprate : ℚ) :
    0 ≤ (mk_get_ts seq atv rate timings lprate).2.1.nsec
      ∧ (mk_get_ts seq atv rate timings lprate).2.1.nsec < 1000000000
      ∧ (mk_get_ts seq atv rate timings lprate).2.1.sec
          = ⌊mk_get_ts_time seq atv rate timings lprate⌋ + 1000000000
      ∧ (mk_get_ts seq atv rate timings lprate).2.1.nsec
          = ⌊(mk_get_ts_time seq atv rate timings lprate
              - (⌊mk_get_ts_time seq atv rate timings lprate⌋ : ℚ)) * 1000000000⌋
      ∧ (mk_get_ts seq atv rate timings lprate).2.1.value
          ≤ mk_get_ts_time seq atv rate timings lprate + 1000000000
      ∧ mk_get_ts_time seq atv rate timings lprate + 1000000000 - 1 / 1000000000
          < (mk_get_ts seq atv rate timings lprate).2.1.value := by
  rw [mk_get_ts_stamp]
  generalize mk_get_ts_time seq atv rate timings lprate = a
  have hfr0 : 0 ≤ (a - (⌊a⌋ : ℚ)) * 1000000000 :=
    mul_nonneg (sub_nonneg.mpr (Int.floor_le a)) (by norm_num)
  have hfr1 : (a - (⌊a⌋ : ℚ)) * 1000000000 < 1000000000 := by
    have := Int.lt_floor_add_one a
    nlinarith
  have hn : (ts_of_time a).nsec = ⌊(a - (⌊a⌋ : ℚ)) * 1000000000⌋ := by
    simp only [ts_of_time, dbl_to_int_of_nonneg _ hfr0]
  have hv := ts_of_time_value a
  have hfl := Int.floor_le (a * 1000000000)
  have hfl2 := Int.lt_floor_add_one (a * 1000000000)
  refine ⟨?_, ?_, rfl, hn, ?_, ?_⟩
  · rw [hn]; exact Int.floor_nonneg.mpr hfr0
  · rw [hn, Int.floor_lt]; exact_mod_cast hfr1
  · rw [hv]
    have : ((⌊a * 1000000000⌋ : ℤ) : ℚ) / 1000000000 ≤ a := by
      rw [div_le_iff₀ (by norm_num)]; exact hfl
    linarith
  · rw [hv]
    have : a - 1 / 1000000000 < ((⌊a * 1000000000⌋ : ℤ) : ℚ) / 1000000000 := by
      rw [lt_div_iff₀ (by norm_num)]
      linarith
    linarith

/-! ### Handshake -/

theorem handshake_attempts_silent (env : handshake_env)
    (hsend : ∀ k, env.send_fails k = false) (hwait : ∀ k, env.wait k = wait_result.timeout)
    (k : ℕ) :
    handshake_attempts env 0 k
      = (attempts_end.exhausted, k + 4,
          [handshake_action.send_id, handshake_action.wait_500ms,
           handshake_action.send_id, handshake_action.wait_500ms,
           handshake_action.send_id, handshake_action.wait_500ms,
           handshake_action.send_id, handshake_action.wait_500ms]) := by
  have h3 : handshake_attempts env 3 (k + 3)
      = (attempts_end.exhausted, k + 4,
          [handshake_action.send_id, handshake_action.wait_500ms]) := by
    rw [handshake_attempts]
    simp [hsend, hwait]
  have h2 : handshake_attempts env 2 (k + 2)
      = (attempts_end.exhausted, k + 4,
          [handshake_action.send_id, handshake_action.wait_500ms,
           handshake_action.send_id, handshake_action.wait_500ms]) := by
    rw [handshake_attempts]
    simp [hsend, hwait, h3]
  have h1 : handshake_attempts env 1 (k + 1)
      = (attempts_end.exhausted, k + 4,
          [handshake_action.send_id, handshake_action.wait_500ms,
           handshake_action.send_id, handshake_action.wait_500ms,
           handshake_action.send_id, handshake_action.wait_500ms]) := by
    rw [handshake_attempts]
    simp [hsend, hwait, h2]
  rw [handshake_attempts]
  simp [hsend, hwait, h1]

/-- C19 (amended). Handshake retry limit: when the device never answers (every
send succeeds and every wait reaches its 500 ms deadline), `mk_connect_chan`
sends the identify message `?` exactly 4 times, a first attempt and 3 retries,
each followed by a 500 ms wait, and then gives up with the timeout system
error. -/
theorem mk_connect_chan_handshake_silent (env : handshake_env)
    (hsend : ∀ k, env.send_fails k = false) (hwait : ∀ k, env.wait k = wait_result.timeout)
    (fuel k j : ℕ) :
    mk_connect_chan_handshake env (fuel + 1) k j
        = some (handshake_outcome.sys_error handshake_errno.ETIMEDOUT,
            [handshake_action.send_id, handshake_action.wait_500ms,
             handshake_action.send_id, handshake_action.wait_500ms,
             handshake_action.send_id, handshake_action.wait_500ms,
             handshake_action.send_id, handshake_action.wait_500ms]) := by
  unfold mk_connect_chan_handshake
  rw [handshake_attempts_silent env hsend hwait k]

theorem mk_connect_chan_handshake_silent_witness :
    ((∀ k, env_silent.send_fails k = false) ∧ (∀ k, env_silent.wait k = wait_result.timeout))
      ∧ mk_connect_chan_handshake env_silent 1 0 0
        = some (handshake_outcome.sys_error handshake_errno.ETIMEDOUT,
            [handshake_action.send_id, handshake_action.wait_500ms,
             handshake_action.send_id, handshake_action.wait_500ms,
             handshake_action.send_id, handshake_action.wait_500ms,
             handshake_action.send_id, handshake_action.wait_500ms]) :=
  ⟨⟨fun _ => rfl, fun _ => rfl⟩,
   mk_connect_chan_handshake_silent env_silent (fun _ => rfl) (fun _ => rfl) 0 0 0⟩

/-- C19, as stated, fails: with a device that never answers, the handshake
sends the message `?` 4 times before it gives up, not at most 3 times. -/
theorem mk_connect_chan_handshake_counterexample :
    (mk_connect_chan_handshake env_silent 1 0 0).map (fun r => r.1)
        = some (handshake_outcome.sys_error handshake_errno.ETIMEDOUT)
      ∧ (mk_connect_chan_handshake env_silent 1 0 0).map
          (fun r => r.2.count handshake_action.send_id) = some 4 := by
  have h : mk_connect_chan_handshake env_silent 1 0 0
      = some (handshake_outcome.sys_error handshake_errno.ETIMEDOUT,
          [handshake_action.send_id, handshake_action.wait_500ms,
           handshake_action.send_id, handshake_action.wait_500ms,
           handshake_action.send_id, handshake_action.wait_500ms,
           handshake_action.send_id, handshake_action.wait_500ms]) := by
    unfold mk_connect_chan_handshake
    rw [handshake_attempts_silent env_silent (fun _ => rfl) (fun _ => rfl) 0]
  rw [h]
  constructor
  · rfl
  · decide

/-! ### Rate watchdog -/

theorem servo_rotor_check_healthy (l : List rotor_data_s)
    (h : ∀ r ∈ l, r.state.disabled = false →
      r.state.emerg = false ∧ (r.state.starting = true ∨ r.state.spinning = true)) :
    ∀ i, servo_rotor_check l i = none := by
  induction l with
  | nil => intro i; rfl
  | cons r rs ih =>
    intro i
    have ih2 := ih (fun x hx => h x (List.mem_cons_of_mem _ hx)) (i + 1)
    unfold servo_rotor_check
    by_cases hd : r.state.disabled = true
    · rw [if_pos hd]; exact ih2
    · obtain ⟨he, hs⟩ := h r (List.mem_cons_self _ _) (by simpa using hd)
      rw [if_neg hd]
      have hss : (r.state.starting || r.state.spinning) = true := by
        rcases hs with h1 | h1 <;> simp [h1]
      simp only [he, hss, Bool.not_true, Bool.false_eq_true, if_false]
      exact ih2

theorem low_rate_imu (st : sensor_time_s) (h1 : st.rate.imu = 1000)
    (h2 : st.measured_rate.imu = 700) : low_rate st = some "imu" := by
  unfold low_rate rate_less80p
  rw [h1, h2]
  norm_num

theorem record_loop_none : ∀ (l : List mk_channel_s) (r : List mk_channel_s × Option mk_channel_s),
    record_loop l none = some r → r = (l, none) ∧ ∀ c ∈ l, 0 ≤ c.fd := by
  intro l
  induction l with
  | nil =>
    intro r h
    simp only [record_loop, Option.some.injEq] at h
    exact ⟨h.symm, fun c hc => absurd hc (List.not_mem_nil c)⟩
  | cons c cs ih =>
    intro r h
    by_cases hc : 0 ≤ c.fd
    · simp only [record_loop, if_pos hc, Option.map_eq_some'] at h
      obtain ⟨r', hr', hr⟩ := h
      obtain ⟨h1, h2⟩ := ih r' hr'
      subst h1
      refine ⟨hr.symm, ?_⟩
      intro d hd
      rcases List.mem_cons.mp hd with hd | hd
      · rw [hd]; exact hc
      · exact h2 d hd
    · simp [record_loop, if_neg hc] at h

theorem record_loop_some : ∀ (l : List mk_channel_s) (n : mk_channel_s)
    (r : List mk_channel_s × Option mk_channel_s),
    record_loop l (some n) = some r →
      (r = (l, some n) ∧ ∀ c ∈ l, 0 ≤ c.fd)
      ∨ ∃ l1 c l2, l = l1 ++ c :: l2 ∧ c.fd < 0 ∧ (∀ d ∈ l1, 0 ≤ d.fd) ∧ (∀ d ∈ l2, 0 ≤ d.fd)
          ∧ r = (l1 ++ n :: l2, none) := by
  intro l
  induction l with
  | nil =>
    intro n r h
    simp only [record_loop, Option.some.injEq] at h
    exact Or.inl ⟨h.symm, fun c hc => absurd hc (List.not_mem_nil c)⟩
  | cons c cs ih =>
    intro n r h
    by_cases hc : 0 ≤ c.fd
    · simp only [record_loop, if_pos hc, Option.map_eq_some'] at h
      obtain ⟨r', hr', hr⟩ := h
      rcases ih n r' hr' with ⟨h1, h2⟩ | ⟨l1, d, l2, hl, hd, h1, h2, h3⟩
      · subst h1
        refine Or.inl ⟨hr.symm, ?_⟩
        intro d hd
        rcases List.mem_cons.mp hd with hd | hd
        · rw [hd]; exact hc
        · exact h2 d hd
      · subst h3
        refine Or.inr ⟨c :: l1, d, l2, by rw [hl]; rfl, hd, ?_, h2, hr.symm⟩
        intro e he
        rcases List.mem_cons.mp he with he | he
        · rw [he]; exact hc
        · exact h1 e he
    · simp only [record_loop, if_neg hc, Option.map_eq_some'] at h
      obtain ⟨r', hr', hr⟩ := h
      obtain ⟨h1, h2⟩ := record_loop_none cs r' hr'
      subst h1
      exact Or.inr ⟨[], c, cs, rfl, lt_of_not_ge hc, fun d hd => absurd hd (List.not_mem_nil d),
        h2, hr.symm⟩

theorem record_spec (n : mk_channel_s) (l f : List mk_channel_s) (h : record n l = some f) :
    (f = l ++ [n] ∧ ∀ c ∈ l, 0 ≤ c.fd)
    ∨ ∃ l1 c l2, l = l1 ++ c :: l2 ∧ c.fd < 0 ∧ (∀ d ∈ l1, 0 ≤ d.fd) ∧ (∀ d ∈ l2, 0 ≤ d.fd)
        ∧ f = l1 ++ n :: l2 := by
  simp only [record, Option.map_eq_some'] at h
  obtain ⟨r, hr, hf⟩ := h
  rcases record_loop_some l n r hr with ⟨h1, h2⟩ | ⟨l1, c, l2, hl, hc, h1, h2, h3⟩
  · subst h1
    exact Or.inl ⟨hf.symm, h2⟩
  · subst h3
    exact Or.inr ⟨l1, c, l2, hl, hc, h1, h2, hf.symm⟩

theorem alloc_step_fst (a : ℕ) (c : mk_channel_s) (b : ℕ) :
    (alloc_step a c b).1 = (alloc_step a c 0).1 := by
  unfold alloc_step
  split_ifs <;> rfl

theorem alloc_loop_fst (a : ℕ) : ∀ (l : List mk_channel_s) (b : ℕ),
    (alloc_loop a l b).1 = l.map (fun c => (alloc_step a c 0).1) := by
  intro l
  induction l with
  | nil => intro b; rfl
  | cons c cs ih =>
    intro b
    simp only [alloc_loop, List.map_cons, ih, alloc_step_fst a c b]

theorem alloc_step_cases (a : ℕ) (c : mk_channel_s) :
    (alloc_step a c 0).1 = c
    ∨ ((alloc_step a c 0).1 = { c with maxid := a - 1 }
        ∧ 0 ≤ c.fd ∧ c.motor = true ∧ c.minid < a ∧ a ≤ c.maxid) := by
  by_cases h1 : c.fd < 0
  · left; simp [alloc_step, h1]
  by_cases h2 : c.motor = false
  · left; simp [alloc_step, h1, h2]
  by_cases h3 : c.maxid < a
  · left; simp [alloc_step, h1, h2, h3]
  by_cases h4 : a ≤ c.minid
  · left; simp [alloc_step, h1, h2, h3, h4]
  · right
    refine ⟨by simp [alloc_step, h1, h2, h3, h4], le_of_not_lt h1, ?_, lt_of_not_le h4,
      le_of_not_lt h3⟩
    cases hm : c.motor
    · exact absurd hm h2
    · rfl

theorem mk_pconnect_start_cases (chan : mk_channel_s) (imu mag motor : Bool) (offset : ℕ)
    (conn : rotorcraft_conn_s) (st : sensor_time_s) (r : connect_result)
    (h : mk_pconnect_start (Except.ok chan) imu mag motor offset conn st = some r) :
    (r.event = genom_event.rotorcraft_e_baddev
      ∧ (conn.chan.map (close_same_device chan)).any (conflicting imu mag) = true
      ∧ r.conn.chan = conn.chan.map (close_same_device chan))
    ∨ (r.event = genom_event.rotorcraft_e_baddev
      ∧ (conn.chan.map (close_same_device chan)).any (conflicting imu mag) = false
      ∧ motor = true
      ∧ r.conn.chan = (alloc_loop (to_uint16 ((offset : ℤ) + 1))
          (conn.chan.map (close_same_device chan)) or_rotorcraft_max_rotors).1)
    ∨ (r.event = genom_event.rotorcraft_ether
      ∧ (conn.chan.map (close_same_device chan)).any (conflicting imu mag) = false
      ∧ motor = false
      ∧ record { chan with imu := imu, mag := mag, motor := motor, minid := 0, maxid := 0 }
          (conn.chan.map (close_same_device chan)) = some r.conn.chan)
    ∨ (r.event = genom_event.rotorcraft_ether
      ∧ (conn.chan.map (close_same_device chan)).any (conflicting imu mag) = false
      ∧ motor = true
      ∧ to_uint16 ((offset : ℤ) + 1)
          ≤ (alloc_loop (to_uint16 ((offset : ℤ) + 1)) (conn.chan.map (close_same_device chan))
              or_rotorcraft_max_rotors).2
      ∧ 1 ≤ to_uint16 ((offset : ℤ) + 1)
      ∧ (alloc_loop (to_uint16 ((offset : ℤ) + 1)) (conn.chan.map (close_same_device chan))
              or_rotorcraft_max_rotors).2 ≤ or_rotorcraft_max_rotors
      ∧ record { chan with imu := imu, mag := mag, motor := motor
                           minid := to_uint16 ((offset : ℤ) + 1)
                           maxid := (alloc_loop (to_uint16 ((offset : ℤ) + 1))
                             (conn.chan.map (close_same_device chan))
                             or_rotorcraft_max_rotors).2 }
          (alloc_loop (to_uint16 ((offset : ℤ) + 1)) (conn.chan.map (close_same_device chan))
            or_rotorcraft_max_rotors).1 = some r.conn.chan) := by
  unfold mk_pconnect_start at h
  simp only at h
  split_ifs at h with h1 h2 h3
  · simp only [Option.some.injEq] at h
    subst h
    exact Or.inl ⟨rfl, h1, rfl⟩
  · simp only [Option.map_eq_some'] at h
    obtain ⟨l, hl, hr⟩ := h
    subst hr
    exact Or.inr (Or.inr (Or.inl ⟨rfl, by simpa using h1, h2, hl⟩))
  · simp only [Option.some.injEq] at h
    subst h
    refine Or.inr (Or.inl ⟨rfl, by simpa using h1, ?_, rfl⟩)
    cases hm : motor
    · exact absurd hm h2
    · rfl
  · simp only [Option.map_eq_some'] at h
    obtain ⟨l, hl, hr⟩ := h
    subst hr
    have hm : motor = true := by
      cases hm : motor
      · exact absurd hm h2
      · rfl
    push_neg at h3
    exact Or.inr (Or.inr (Or.inr ⟨rfl, by simpa using h1, hm, h3.1, h3.2.1, h3.2.2, hl⟩))
theorem to_uint16_of_lt (n : ℕ) (h : n < 65536) : to_uint16 (n : ℤ) = n := by
  unfold to_uint16
  omega

theorem to_uint16_pred (n : ℕ) (h1 : 1 ≤ n) (h : n ≤ 65536) : to_uint16 ((n : ℤ) - 1) = n - 1 := by
  unfold to_uint16
  omega

theorem close_same_device_open (chan c : mk_channel_s) (h : 0 ≤ (close_same_device chan c).fd) :
    close_same_device chan c = c := by
  unfold close_same_device at h ⊢
  split_ifs at h ⊢ with h1 h2 h3
  · rfl
  · rfl
  · rfl
  · simp at h

theorem close_same_device_fields (chan c : mk_channel_s) :
    (close_same_device chan c).motor = c.motor ∧ (close_same_device chan c).minid = c.minid
      ∧ (close_same_device chan c).maxid = c.maxid := by
  unfold close_same_device
  split_ifs <;> exact ⟨rfl, rfl, rfl⟩

theorem motor_ranges_ok_close (chan : mk_channel_s) (l : List mk_channel_s)
    (h : motor_ranges_ok l) : motor_ranges_ok (l.map (close_same_device chan)) := by
  constructor
  · intro c hc ho
    obtain ⟨d, hd, rfl⟩ := List.mem_map.mp hc
    have e := close_same_device_open chan d ho.1
    rw [e] at ho ⊢
    exact h.1 d hd ho
  · refine List.Pairwise.map _ ?_ h.2
    intro c d hcd hoc hod
    have ec := close_same_device_open chan c hoc.1
    have ed := close_same_device_open chan d hod.1
    rw [ec] at hoc ⊢
    rw [ed] at hod ⊢
    exact hcd hoc hod

theorem alloc_step_sub (a : ℕ) (c : mk_channel_s) :
    (alloc_step a c 0).1.fd = c.fd ∧ (alloc_step a c 0).1.motor = c.motor
      ∧ (alloc_step a c 0).1.minid = c.minid ∧ (alloc_step a c 0).1.maxid ≤ c.maxid
      ∧ (alloc_step a c 0).1.st_dev = c.st_dev ∧ (alloc_step a c 0).1.st_ino = c.st_ino := by
  rcases alloc_step_cases a c with h | ⟨h, -, -, -, h4⟩
  · rw [h]; exact ⟨rfl, rfl, rfl, le_refl _, rfl, rfl⟩
  · rw [h]; exact ⟨rfl, rfl, rfl, by show a - 1 ≤ c.maxid; omega, rfl, rfl⟩

theorem alloc_step_open (a : ℕ) (c : mk_channel_s) :
    open_motor (alloc_step a c 0).1 ↔ open_motor c := by
  obtain ⟨h1, h2, -⟩ := alloc_step_sub a c
  unfold open_motor
  rw [h1, h2]

theorem motor_ranges_ok_alloc (a : ℕ) (l : List mk_channel_s) (b : ℕ)
    (h : motor_ranges_ok l) : motor_ranges_ok (alloc_loop a l b).1 := by
  rw [alloc_loop_fst]
  constructor
  · intro c hc ho
    obtain ⟨d, hd, rfl⟩ := List.mem_map.mp hc
    have hod := (alloc_step_open a d).mp ho
    have hw := h.1 d hd hod
    rcases alloc_step_cases a d with hs | ⟨hs, -, -, h3, h4⟩
    · rw [hs]; exact hw
    · rw [hs]
      refine ⟨hw.1, ?_, ?_⟩
      · show d.minid ≤ a - 1; omega
      · show a - 1 ≤ or_rotorcraft_max_rotors
        have := hw.2.2
        omega
  · refine List.Pairwise.map _ ?_ h.2
    intro c d hcd hoc hod
    have h1 := hcd ((alloc_step_open a c).mp hoc) ((alloc_step_open a d).mp hod)
    obtain ⟨-, -, hc3, hc4, -⟩ := alloc_step_sub a c
    obtain ⟨-, -, hd3, hd4, -⟩ := alloc_step_sub a d
    rw [hc3, hd3]
    omega

theorem alloc_step_snd (a : ℕ) (c : mk_channel_s) (b : ℕ)
    (hwf : open_motor c → 1 ≤ c.minid ∧ c.minid ≤ c.maxid ∧ c.maxid ≤ or_rotorcraft_max_rotors) :
    ((alloc_step a c b).2 ≤ b ∧ (open_motor c → a ≤ c.minid → (alloc_step a c b).2 < c.minid))
    ∨ (open_motor c ∧ c.minid < a ∧ a ≤ c.maxid ∧ (alloc_step a c b).2 = c.maxid) := by
  have h8 : or_rotorcraft_max_rotors = 8 := rfl
  by_cases h1 : c.fd < 0
  · left
    refine ⟨by simp [alloc_step, h1], ?_⟩
    intro ho
    exact absurd ho.1 (not_le.mpr h1)
  by_cases h2 : c.motor = false
  · left
    refine ⟨by simp [alloc_step, h1, h2], ?_⟩
    intro ho
    rw [ho.2] at h2
    exact absurd h2 (by decide)
  have ho : open_motor c := by
    refine ⟨le_of_not_lt h1, ?_⟩
    cases hm : c.motor
    · exact absurd hm h2
    · rfl
  obtain ⟨w1, w2, w3⟩ := hwf ho
  by_cases h3 : c.maxid < a
  · left
    refine ⟨by simp [alloc_step, h1, h2, h3], ?_⟩
    intro _ ha
    omega
  by_cases h4 : a ≤ c.minid
  · left
    have hp := to_uint16_pred c.minid w1 (by omega)
    by_cases h5 : c.minid ≤ b
    · have he : (alloc_step a c b).2 = c.minid - 1 := by
        simp only [alloc_step, if_neg h1, if_neg h2, if_neg h3, if_pos h4, if_pos h5, hp]
      rw [he]
      exact ⟨by omega, fun _ _ => by omega⟩
    · have he : (alloc_step a c b).2 = b := by
        simp only [alloc_step, if_neg h1, if_neg h2, if_neg h3, if_pos h4, if_neg h5]
      rw [he]
      exact ⟨le_refl _, fun _ _ => by omega⟩
  · right
    refine ⟨ho, lt_of_not_le h4, le_of_not_lt h3, ?_⟩
    simp only [alloc_step, if_neg h1, if_neg h2, if_neg h3, if_neg h4]
    exact to_uint16_of_lt c.maxid (by omega)

theorem alloc_loop_snd_le (a : ℕ) : ∀ (l : List mk_channel_s) (b : ℕ),
    (∀ c ∈ l, open_motor c →
      1 ≤ c.minid ∧ c.minid ≤ c.maxid ∧ c.maxid ≤ or_rotorcraft_max_rotors) →
    (alloc_loop a l b).2 ≤ b
    ∨ ∃ s ∈ l, open_motor s ∧ s.minid < a ∧ a ≤ s.maxid ∧ (alloc_loop a l b).2 ≤ s.maxid := by
  intro l
  induction l with
  | nil => intro b _; exact Or.inl (le_refl _)
  | cons c cs ih =>
    intro b hwf
    have hcs := ih (alloc_step a c b).2 (fun d hd => hwf d (List.mem_cons_of_mem c hd))
    have hc := alloc_step_snd a c b (hwf c (List.mem_cons_self c cs))
    show (alloc_loop a cs (alloc_step a c b).2).2 ≤ b ∨ _
    rcases hcs with hle | ⟨s, hs, h1, h2, h3, h4⟩
    · rcases hc with ⟨hb, -⟩ | ⟨ho, h2, h3, h4⟩
      · exact Or.inl (le_trans hle hb)
      · exact Or.inr ⟨c, List.mem_cons_self c cs, ho, h2, h3,
          show (alloc_loop a cs (alloc_step a c b).2).2 ≤ c.maxid from
            le_trans hle (le_of_eq h4)⟩
    · exact Or.inr ⟨s, List.mem_cons_of_mem c hs, h1, h2, h3, h4⟩

theorem alloc_loop_snd_lt (a : ℕ) : ∀ (l : List mk_channel_s) (b : ℕ),
    motor_ranges_ok l → ∀ d ∈ l, open_motor d → a ≤ d.minid →
    (alloc_loop a l b).2 < d.minid := by
  intro l
  induction l with
  | nil => intro b _ d hd; exact absurd hd (List.not_mem_nil d)
  | cons c cs ih =>
    intro b hok d hd hod had
    have hcsok : motor_ranges_ok cs :=
      ⟨fun e he => hok.1 e (List.mem_cons_of_mem c he), (List.pairwise_cons.mp hok.2).2⟩
    show (alloc_loop a cs (alloc_step a c b).2).2 < d.minid
    rcases List.mem_cons.mp hd with hdc | hdcs
    · subst hdc
      have hw := hok.1 d (List.mem_cons_self d cs) hod
      rcases alloc_step_snd a d b (fun _ => hw) with ⟨-, hlt⟩ | ⟨-, h2, -, -⟩
      · have hlt2 := hlt hod had
        rcases alloc_loop_snd_le a cs (alloc_step a d b).2 hcsok.1 with hle | ⟨s, hs, h1, h2, h3, h4⟩
        · omega
        · have hds := (List.pairwise_cons.mp hok.2).1 s hs hod h1
          omega
      · omega
    · exact ih (alloc_step a c b).2 hcsok d hdcs hod had

theorem alloc_loop_disjoint (a : ℕ) (l : List mk_channel_s) (b : ℕ) (hok : motor_ranges_ok l)
    (ha : 1 ≤ a) :
    ∀ d ∈ (alloc_loop a l b).1, open_motor d →
      d.maxid < a ∨ (alloc_loop a l b).2 < d.minid := by
  intro d hd ho
  rw [alloc_loop_fst] at hd
  obtain ⟨c, hc, rfl⟩ := List.mem_map.mp hd
  have hoc := (alloc_step_open a c).mp ho
  rcases alloc_step_cases a c with hs | ⟨hs, -⟩
  · rw [hs]
    by_cases h3 : c.maxid < a
    · exact Or.inl h3
    by_cases h4 : a ≤ c.minid
    · exact Or.inr (alloc_loop_snd_lt a l b hok c hc hoc h4)
    · exfalso
      have h1 : ¬ c.fd < 0 := not_lt.mpr hoc.1
      have h2 : ¬ c.motor = false := by rw [hoc.2]; decide
      have : (alloc_step a c 0).1.maxid = a - 1 := by
        simp only [alloc_step, if_neg h1, if_neg h2, if_neg h3, if_neg h4]
      rw [hs] at this
      omega
  · rw [hs]
    left
    show a - 1 < a
    omega

theorem pairwise_replace {α : Type} (R : α → α → Prop) (l1 l2 : List α) (c n : α)
    (h : (l1 ++ c :: l2).Pairwise R) (h1 : ∀ x ∈ l1, R x n) (h2 : ∀ y ∈ l2, R n y) :
    (l1 ++ n :: l2).Pairwise R := by
  rw [List.pairwise_append] at h ⊢
  obtain ⟨ha, hb, hc⟩ := h
  rw [List.pairwise_cons] at hb ⊢
  refine ⟨ha, ⟨h2, hb.2⟩, ?_⟩
  intro x hx y hy
  rcases List.mem_cons.mp hy with hy | hy
  · rw [hy]; exact h1 x hx
  · exact hc x hx y (List.mem_cons_of_mem c hy)

theorem motor_ranges_ok_record (n : mk_channel_s) (l f : List mk_channel_s)
    (hok : motor_ranges_ok l)
    (hn : 1 ≤ n.minid ∧ n.minid ≤ n.maxid ∧ n.maxid ≤ or_rotorcraft_max_rotors)
    (hdis : ∀ d ∈ l, open_motor d → d.maxid < n.minid ∨ n.maxid < d.minid)
    (h : record n l = some f) : motor_ranges_ok f := by
  rcases record_spec n l f h with ⟨hf, -⟩ | ⟨l1, c, l2, hl, -, -, -, hf⟩
  · subst hf
    constructor
    · intro d hd ho
      rcases List.mem_append.mp hd with hd | hd
      · exact hok.1 d hd ho
      · rw [List.mem_singleton.mp hd]; exact hn
    · rw [List.pairwise_append]
      refine ⟨hok.2, List.pairwise_singleton _ _, ?_⟩
      intro x hx y hy hox _
      rw [List.mem_singleton.mp hy]
      exact hdis x hx hox
  · subst hf
    subst hl
    constructor
    · intro d hd ho
      rcases List.mem_append.mp hd with hd | hd
      · exact hok.1 d (List.mem_append_left _ hd) ho
      · rcases List.mem_cons.mp hd with hd | hd
        · rw [hd]; exact hn
        · exact hok.1 d (List.mem_append_right _ (List.mem_cons_of_mem c hd)) ho
    · refine pairwise_replace _ l1 l2 c n hok.2 ?_ ?_
      · intro x hx hox _
        exact hdis x (List.mem_append_left _ hx) hox
      · intro y hy _ hoy
        have := hdis y (List.mem_append_right _ (List.mem_cons_of_mem c hy)) hoy
        omega
theorem record_mem (n : mk_channel_s) (l f : List mk_channel_s) (h : record n l = some f) :
    n ∈ f ∧ ∀ d ∈ f, d = n ∨ d ∈ l := by
  rcases record_spec n l f h with ⟨hf, -⟩ | ⟨l1, c, l2, hl, -, -, -, hf⟩
  · subst hf
    refine ⟨List.mem_append_right _ (List.mem_singleton_self n), ?_⟩
    intro d hd
    rcases List.mem_append.mp hd with hd | hd
    · exact Or.inr hd
    · exact Or.inl (List.mem_singleton.mp hd)
  · subst hf
    subst hl
    refine ⟨List.mem_append_right _ (List.mem_cons_self n l2), ?_⟩
    intro d hd
    rcases List.mem_append.mp hd with hd | hd
    · exact Or.inr (List.mem_append_left _ hd)
    · rcases List.mem_cons.mp hd with hd | hd
      · exact Or.inl hd
      · exact Or.inr (List.mem_append_right _ (List.mem_cons_of_mem c hd))

theorem to_uint16_succ (n : ℕ) (h : n < 65536) (h1 : 1 ≤ to_uint16 ((n : ℤ) + 1)) :
    to_uint16 ((n : ℤ) + 1) = n + 1 := by
  unfold to_uint16 at h1 ⊢
  omega

/-- C18. Motor-range invariant: if the open motor links of a connection have
non-empty ranges inside [1, 8] that are pairwise disjoint, then after a
successful `mk_pconnect_start` with motor = true and any offset (a `uint16_t`),
the open motor links of the new connection again have non-empty ranges inside
[1, 8] that are pairwise disjoint; the new link is one of them, with
minid = offset + 1, and every other link is a link of the old connection with
the same minid and a maxid that is not larger. -/
theorem mk_pconnect_start_motor_ranges (chan : mk_channel_s) (imu mag : Bool) (offset : ℕ)
    (conn : rotorcraft_conn_s) (st : sensor_time_s) (r : connect_result)
    (hfd : 0 ≤ chan.fd) (hoff : offset < 65536) (hinv : motor_ranges_ok conn.chan)
    (h : mk_pconnect_start (Except.ok chan) imu mag true offset conn st = some r)
    (hev : r.event = genom_event.rotorcraft_ether) :
    motor_ranges_ok r.conn.chan
    ∧ ∃ n ∈ r.conn.chan, open_motor n ∧ n.minid = offset + 1 ∧ n.fd = chan.fd
        ∧ n.st_dev = chan.st_dev ∧ n.st_ino = chan.st_ino
        ∧ ∀ d ∈ r.conn.chan, d = n ∨ ∃ c ∈ conn.chan, d.minid = c.minid ∧ d.maxid ≤ c.maxid
            ∧ d.motor = c.motor ∧ (0 ≤ d.fd → d.fd = c.fd) := by
  rcases mk_pconnect_start_cases chan imu mag true offset conn st r h with
    ⟨he, -⟩ | ⟨he, -⟩ | ⟨-, -, hm, -⟩ | ⟨-, -, -, hab, ha, hb, hrec⟩
  · rw [hev] at he; exact absurd he (by decide)
  · rw [hev] at he; exact absurd he (by decide)
  · exact absurd hm (by decide)
  · have hok1 := motor_ranges_ok_close chan conn.chan hinv
    have hok2 := motor_ranges_ok_alloc (to_uint16 ((offset : ℤ) + 1))
      (conn.chan.map (close_same_device chan)) or_rotorcraft_max_rotors hok1
    have hdis := alloc_loop_disjoint (to_uint16 ((offset : ℤ) + 1))
      (conn.chan.map (close_same_device chan)) or_rotorcraft_max_rotors hok1 ha
    have hmem := record_mem _ _ _ hrec
    refine ⟨motor_ranges_ok_record _ _ _ hok2 ⟨ha, hab, hb⟩ hdis hrec, _, hmem.1,
      ⟨hfd, rfl⟩, to_uint16_succ offset hoff ha, rfl, rfl, rfl, ?_⟩
    intro d hd
    rcases hmem.2 d hd with hd | hd
    · exact Or.inl hd
    · right
      rw [alloc_loop_fst] at hd
      obtain ⟨x, hx, rfl⟩ := List.mem_map.mp hd
      obtain ⟨c, hc, rfl⟩ := List.mem_map.mp hx
      obtain ⟨s1, s2, s3, s4, -⟩ :=
        alloc_step_sub (to_uint16 ((offset : ℤ) + 1)) (close_same_device chan c)
      obtain ⟨c1, c2, c3⟩ := close_same_device_fields chan c
      refine ⟨c, hc, by rw [s3, c2], by rw [← c3]; exact s4, by rw [s2, c1], ?_⟩
      intro h0
      rw [s1] at h0 ⊢
      rw [close_same_device_open chan c h0]

theorem mk_pconnect_start_motor_ranges_witness :
    ((0 : ℤ) ≤ (chan_opened 2 2).fd ∧ 4 < 65536
        ∧ motor_ranges_ok ({ chan := [link_of true true true 1 8] } : rotorcraft_conn_s).chan
        ∧ mk_pconnect_start (Except.ok (chan_opened 2 2)) false false true 4
            { chan := [link_of true true true 1 8] } sensor_time_nominal
          = some (configure_streaming genom_event.rotorcraft_ether
              { chan := [link_of true true true 1 4,
                         { chan_opened 2 2 with motor := true, minid := 5, maxid := 8 }] }
              sensor_time_nominal)
        ∧ (configure_streaming genom_event.rotorcraft_ether
              { chan := [link_of true true true 1 4,
                         { chan_opened 2 2 with motor := true, minid := 5, maxid := 8 }] }
              sensor_time_nominal).event = genom_event.rotorcraft_ether)
    ∧ motor_ranges_ok (configure_streaming genom_event.rotorcraft_ether
              { chan := [link_of true true true 1 4,
                         { chan_opened 2 2 with motor := true, minid := 5, maxid := 8 }] }
              sensor_time_nominal).conn.chan
    ∧ ∃ n ∈ (configure_streaming genom_event.rotorcraft_ether
              { chan := [link_of true true true 1 4,
                         { chan_opened 2 2 with motor := true, minid := 5, maxid := 8 }] }
              sensor_time_nominal).conn.chan,
        open_motor n ∧ n.minid = 4 + 1 ∧ n.fd = (chan_opened 2 2).fd
        ∧ n.st_dev = (chan_opened 2 2).st_dev ∧ n.st_ino = (chan_opened 2 2).st_ino
        ∧ ∀ d ∈ (configure_streaming genom_event.rotorcraft_ether
              { chan := [link_of true true true 1 4,
                         { chan_opened 2 2 with motor := true, minid := 5, maxid := 8 }] }
              sensor_time_nominal).conn.chan,
            d = n ∨ ∃ c ∈ ({ chan := [link_of true true true 1 8] } : rotorcraft_conn_s).chan,
              d.minid = c.minid ∧ d.maxid ≤ c.maxid ∧ d.motor = c.motor
                ∧ (0 ≤ d.fd → d.fd = c.fd) :=
  ⟨⟨by decide, by decide, by unfold motor_ranges_ok; decide, rfl, rfl⟩,
   mk_pconnect_start_motor_ranges (chan_opened 2 2) false false 4
    { chan := [link_of true true true 1 8] } sensor_time_nominal _
    (by decide) (by decide) (by unfold motor_ranges_ok; decide) rfl rfl⟩

/-! ### Error paths of the servo and start activities -/

theorem servo_rotor_check_first (l : List rotor_data_s) :
    ∀ (k i : ℕ) (r : rotor_data_s), l[i]? = some r → r.state.disabled = false →
      (r.state.emerg = true ∨ (r.state.starting = false ∧ r.state.spinning = false)) →
      (∀ (j : ℕ) q, j < i → l[j]? = some q → q.state.disabled = true
        ∨ (q.state.emerg = false ∧ (q.state.starting = true ∨ q.state.spinning = true))) →
      servo_rotor_check l k
        = some (if r.state.emerg then genom_event.rotorcraft_e_rotor_failure (1 + (k + i))
                else genom_event.rotorcraft_e_rotor_stopped (1 + (k + i))) := by
  induction l with
  | nil => intro k i r hr; simp at hr
  | cons c cs ih =>
    intro k i r hr hd hbad hbefore
    unfold servo_rotor_check
    cases i with
    | zero =>
      simp only [List.getElem?_cons_zero, Option.some.injEq] at hr
      subst hr
      rcases hbad with he | ⟨h1, h2⟩
      · simp [hd, he]
      · cases he : c.state.emerg <;> simp [hd, he, h1, h2]
    | succ n =>
      simp only [List.getElem?_cons_succ] at hr
      have h0 := hbefore 0 c (Nat.succ_pos n) (by simp)
      have hrest := ih (k + 1) n r hr hd hbad (fun j q hj hq =>
        hbefore (j + 1) q (Nat.succ_lt_succ hj) (by simpa using hq))
      have hidx : 1 + (k + 1 + n) = 1 + (k + (n + 1)) := by omega
      rw [hidx] at hrest
      rcases h0 with h0 | ⟨h0e, h0s⟩
      · rw [if_pos h0]; exact hrest
      · by_cases hcd : c.state.disabled = true
        · rw [if_pos hcd]; exact hrest
        · rw [if_neg hcd]
          have hss : (c.state.starting || c.state.spinning) = true := by
            rcases h0s with h | h <;> simp [h]
          simp only [h0e, hss, Bool.false_eq_true, if_false, Bool.not_true]
          exact hrest

theorem servo_rotor_check_some (l : List rotor_data_s) :
    ∀ (k : ℕ) (e : genom_event), servo_rotor_check l k = some e →
      ∃ (i : ℕ) (r : rotor_data_s), l[i]? = some r ∧ r.state.disabled = false
        ∧ (e = genom_event.rotorcraft_e_rotor_failure (1 + (k + i))
            ∨ e = genom_event.rotorcraft_e_rotor_stopped (1 + (k + i))) := by
  induction l with
  | nil => intro k e h; simp [servo_rotor_check] at h
  | cons c cs ih =>
    intro k e h
    unfold servo_rotor_check at h
    have hshift : ∀ e, servo_rotor_check cs (k + 1) = some e →
        ∃ (i : ℕ) (r : rotor_data_s), (c :: cs)[i]? = some r ∧ r.state.disabled = false
          ∧ (e = genom_event.rotorcraft_e_rotor_failure (1 + (k + i))
              ∨ e = genom_event.rotorcraft_e_rotor_stopped (1 + (k + i))) := by
      intro e he
      obtain ⟨i, r, hr, hd, hk⟩ := ih (k + 1) e he
      refine ⟨i + 1, r, by simpa using hr, hd, ?_⟩
      have hidx : 1 + (k + 1 + i) = 1 + (k + (i + 1)) := by omega
      rw [hidx] at hk
      exact hk
    by_cases hcd : c.state.disabled = true
    · rw [if_pos hcd] at h
      exact hshift e h
    · rw [if_neg hcd] at h
      have hcd2 : c.state.disabled = false := by simpa using hcd
      by_cases hce : c.state.emerg = true
      · rw [if_pos hce] at h
        simp only [Option.some.injEq] at h
        exact ⟨0, c, by simp, hcd2, Or.inl (by rw [← h]; simp)⟩
      · rw [if_neg hce] at h
        by_cases hcs : (!(c.state.starting || c.state.spinning)) = true
        · rw [if_pos hcs] at h
          simp only [Option.some.injEq] at h
          exact ⟨0, c, by simp, hcd2, Or.inr (by rw [← h]; simp)⟩
        · rw [if_neg hcs] at h
          exact hshift e h

theorem servo_rotor_check_none_healthy (l : List rotor_data_s) :
    ∀ (k : ℕ), servo_rotor_check l k = none →
      ∀ r ∈ l, r.state.disabled = false →
        r.state.emerg = false ∧ (r.state.starting = true ∨ r.state.spinning = true) := by
  induction l with
  | nil => intro k _ r hr; exact absurd hr (List.not_mem_nil r)
  | cons c cs ih =>
    intro k h r hr hd
    unfold servo_rotor_check at h
    by_cases hcd : c.state.disabled = true
    · rw [if_pos hcd] at h
      rcases List.mem_cons.mp hr with hrc | hrc
      · rw [hrc, hcd] at hd; exact absurd hd (by decide)
      · exact ih (k + 1) h r hrc hd
    · rw [if_neg hcd] at h
      by_cases hce : c.state.emerg = true
      · rw [if_pos hce] at h; exact absurd h (by simp)
      · rw [if_neg hce] at h
        by_cases hcs : (!(c.state.starting || c.state.spinning)) = true
        · rw [if_pos hcs] at h; exact absurd h (by simp)
        · rw [if_neg hcs] at h
          rcases List.mem_cons.mp hr with hrc | hrc
          · rw [hrc]
            refine ⟨by simpa using hce, ?_⟩
            simp only [Bool.not_eq_true', Bool.or_eq_false_iff, not_and, Bool.not_eq_false] at hcs
            cases hst : c.state.starting
            · exact Or.inr (hcs hst)
            · exact Or.inl rfl
          · exact ih (k + 1) h r hrc hd

/-- The outcomes of a call of `mk_servo_main` that has a connection and an
input: the input watchdog aborts, the rate watchdog aborts, a rotor check
fails, or the command is scaled and dispatched. -/
theorem mk_servo_main_cases (period_ms : ℕ) (conn : rotorcraft_conn_s)
    (st : sensor_time_s) (rd : List rotor_data_s) (ri : rotorcraft_rotor_input)
    (servo : servo_s) (scale : ℚ) (tv tv_send : timeval) (input : or_rotorcraft_input)
    (hread : ri.read_fails = false) (hin : ri.data = some input) :
    ((mk_servo_main period_ms (some conn) st rd ri servo scale tv tv_send).event
          = genom_event.rotorcraft_e_input
        ∧ (mk_servo_main period_ms (some conn) st rd ri servo scale tv tv_send).sent
          = (mk_stop conn rd tv_send).2)
    ∨ (∃ dev, low_rate st = some dev
        ∧ mk_servo_main period_ms (some conn) st rd ri servo scale tv tv_send
          = { event := genom_event.rotorcraft_e_rate dev, scale := 0, rotor_data := rd
              sent := (mk_stop conn rd tv_send).2 })
    ∨ (∃ e s2, servo_rotor_check (rd.take or_rotorcraft_max_rotors) 0 = some e
        ∧ mk_servo_main period_ms (some conn) st rd ri servo scale tv tv_send
          = { event := e, scale := s2, rotor_data := rd
              sent := (mk_stop conn rd tv_send).2 })
    ∨ (servo_rotor_check (rd.take or_rotorcraft_max_rotors) 0 = none
        ∧ ∃ s2, mk_servo_main period_ms (some conn) st rd ri servo scale tv tv_send
          = servo_ramp_send period_ms conn rd input servo s2 tv_send) := by
  unfold mk_servo_main
  simp only [hread, hin, Bool.false_eq_true, if_false]
  generalize decide (1 / 2 + ts_secs input.ts < timeval_secs tv) = stale
  generalize low_rate st = lr
  generalize servo_rotor_check (rd.take or_rotorcraft_max_rotors) 0 = chk
  generalize 2 / 1000 * (period_ms : ℚ) / servo.ramp = step
  cases stale
  · cases lr with
    | none =>
      cases chk with
      | none => exact Or.inr (Or.inr (Or.inr ⟨rfl, scale, by simp⟩))
      | some e => exact Or.inr (Or.inr (Or.inl ⟨e, scale, rfl, by simp⟩))
    | some dev =>
      by_cases h2 : scale - step < 0
      · exact Or.inr (Or.inl ⟨dev, rfl, by simp [h2]⟩)
      · cases chk with
        | none => exact Or.inr (Or.inr (Or.inr ⟨rfl, scale - step, by simp [h2]⟩))
        | some e => exact Or.inr (Or.inr (Or.inl ⟨e, scale - step, rfl, by simp [h2]⟩))
  · by_cases h1 : scale - step < 0
    · exact Or.inl (by simp [h1])
    · cases lr with
      | none =>
        cases chk with
        | none => exact Or.inr (Or.inr (Or.inr ⟨rfl, scale - step, by simp [h1]⟩))
        | some e => exact Or.inr (Or.inr (Or.inl ⟨e, scale - step, rfl, by simp [h1]⟩))
      | some dev =>
        by_cases h2 : scale - step - step < 0
        · exact Or.inr (Or.inl ⟨dev, rfl, by simp [h1, h2]⟩)
        · cases chk with
          | none =>
            exact Or.inr (Or.inr (Or.inr ⟨rfl, scale - step - step, by simp [h1, h2]⟩))
          | some e =>
            exact Or.inr (Or.inr (Or.inl ⟨e, scale - step - step, rfl, by simp [h1, h2]⟩))
theorem start_start_loop_event (conn : rotorcraft_conn_s) (l : List rotor_data_s) :
    ∀ i, (start_start_loop conn l i).1 = genom_event.rotorcraft_monitor
      ∨ (start_start_loop conn l i).1 = genom_event.rotorcraft_pause_start := by
  induction l with
  | nil => intro i; exact Or.inl rfl
  | cons r rs ih =>
    intro i
    unfold start_start_loop
    by_cases hd : r.state.disabled = true
    · rw [if_pos hd]; exact ih (i + 1)
    · rw [if_neg hd]
      by_cases he : r.state.emerg = true
      · rw [if_pos he]; exact Or.inr rfl
      · rw [if_neg he]; exact ih (i + 1)

theorem start_monitor_end_no_stop (st : sensor_time_s) (timeout : ℕ) (complete : Bool)
    (h : (start_monitor_end st timeout complete).2 = false) :
    (start_monitor_end st timeout complete).1 = genom_event.rotorcraft_pause_monitor
      ∨ (start_monitor_end st timeout complete).1 = genom_event.rotorcraft_ether := by
  unfold start_monitor_end at h ⊢
  cases complete
  · by_cases ht : timeout = 0
    · simp [ht] at h
    · simp [ht]
  · cases hl : low_rate st with
    | none => simp
    | some dev =>
      by_cases ht : timeout = 0
      · simp [ht, hl] at h
      · simp [ht]

/-- C21 (amended). Error returns and emergency stop. `mk_servo_main` returns the
connection error (no connection) and the input error of an unreadable or empty
input port without sending anything; every other error it returns (input
watchdog, rate watchdog, rotor failure, rotor stopped) comes after the
broadcast of `x` to every link, the only messages of the call. Every error
returned by `mk_start_monitor` comes after the broadcast of `x` to every link,
the last messages of the call. `mk_start_start` returns its errors (no
connection, already started) without sending anything. -/
theorem error_paths_broadcast (period_ms : ℕ) (conn : rotorcraft_conn_s)
    (st : sensor_time_s) (rd : List rotor_data_s) (ri : rotorcraft_rotor_input)
    (servo : servo_s) (scale : ℚ) (tv tv_send : timeval) (timeout state : ℕ) :
    (mk_servo_main period_ms none st rd ri servo scale tv tv_send
        = { event := genom_event.rotorcraft_e_connection, scale := scale, rotor_data := rd
            sent := [] })
    ∧ ((ri.read_fails = true ∨ ri.data = none) →
        mk_servo_main period_ms (some conn) st rd ri servo scale tv tv_send
          = { event := genom_event.rotorcraft_e_input, scale := scale, rotor_data := rd
              sent := [] })
    ∧ (ri.read_fails = false → ri.data ≠ none →
        (mk_servo_main period_ms (some conn) st rd ri servo scale tv tv_send).event
          ≠ genom_event.rotorcraft_pause_main →
        (mk_servo_main period_ms (some conn) st rd ri servo scale tv tv_send).sent
          = conn.chan.enum.map (fun ic => { chan := ic.1, fmt := "x", args := [] }))
    ∧ ((mk_start_monitor conn st timeout state rd tv_send).event
          ≠ genom_event.rotorcraft_pause_monitor →
        (mk_start_monitor conn st timeout state rd tv_send).event
          ≠ genom_event.rotorcraft_ether →
        ∃ pre, (mk_start_monitor conn st timeout state rd tv_send).sent
          = pre ++ conn.chan.enum.map (fun ic => { chan := ic.1, fmt := "x", args := [] }))
    ∧ (mk_start_start period_ms none servo timeout state rd
        = { event := genom_event.rotorcraft_e_connection, timeout := timeout, state := state
            sent := [] })
    ∧ ((mk_start_start period_ms (some conn) servo timeout state rd).event
          = genom_event.rotorcraft_monitor
      ∨ (mk_start_start period_ms (some conn) servo timeout state rd).event
          = genom_event.rotorcraft_pause_start
      ∨ mk_start_start period_ms (some conn) servo timeout state rd
          = { event := genom_event.rotorcraft_e_started, timeout := timeout, state := state
              sent := [] }) := by
  refine ⟨rfl, ?_, ?_, ?_, rfl, ?_⟩
  · intro h
    unfold mk_servo_main
    cases hr : ri.read_fails with
    | true => simp
    | false =>
      rcases h with h | h
      · rw [hr] at h; exact absurd h (by decide)
      · simp [h]
  · intro hread hdata hev
    obtain ⟨input, hin⟩ := Option.ne_none_iff_exists'.mp hdata
    rcases mk_servo_main_cases period_ms conn st rd ri servo scale tv tv_send input hread hin
      with ⟨-, h⟩ | ⟨dev, -, h⟩ | ⟨e, s2, -, h⟩ | ⟨-, s2, h⟩
    · rw [h]; rfl
    · rw [h]; rfl
    · rw [h]; rfl
    · rw [h] at hev
      exact absurd (servo_ramp_send_event period_ms conn rd input servo s2 tv_send) hev
  · intro h1 h2
    unfold mk_start_monitor at h1 h2 ⊢
    simp only at h1 h2 ⊢
    generalize start_monitor_loop conn (to_uint32 ((timeout : ℤ) - 1))
      (rd.take or_rotorcraft_max_rotors) 0 state true = scan at h1 h2 ⊢
    cases herr : scan.error with
    | some e => exact ⟨_, rfl⟩
    | none =>
      simp only [herr] at h1 h2 ⊢
      cases hend : (start_monitor_end st (to_uint32 ((timeout : ℤ) - 1)) scan.complete).2 with
      | true => rw [if_pos rfl]; exact ⟨_, rfl⟩
      | false =>
        rcases start_monitor_end_no_stop st _ _ hend with h | h
        · exact absurd h h1
        · exact absurd h h2
  · unfold mk_start_start
    simp only
    split_ifs with h
    · exact Or.inr (Or.inr rfl)
    · rcases start_start_loop_event conn (rd.take or_rotorcraft_max_rotors) 0 with h1 | h1
      · exact Or.inl h1
      · exact Or.inr (Or.inl h1)

/-- C21, as stated, fails: with two links connected, a call of `mk_servo_main`
whose input port cannot be read returns the input error and sends nothing, and
a call of `mk_start_start` with a rotor already spinning returns the started
error and sends nothing. -/
theorem error_paths_broadcast_counterexample :
    conn_two_links.chan.length = 2
      ∧ mk_servo_main 1 (some conn_two_links) sensor_time_nominal rotors_spinning
          { read_fails := true, data := none } { timeout := 30, ramp := 3 } 1
          { tv_sec := 1000000017, tv_usec := 1000 } { tv_sec := 1000000017, tv_usec := 1000 }
        = { event := genom_event.rotorcraft_e_input, scale := 1
            rotor_data := rotors_spinning, sent := [] }
      ∧ mk_start_start 1 (some conn_two_links) { timeout := 30, ramp := 3 } 0 0 rotors_spinning
        = { event := genom_event.rotorcraft_e_started, timeout := 0, state := 0, sent := [] } := by
  refine ⟨rfl, rfl, ?_⟩
  unfold mk_start_start
  simp only
  rw [if_pos (by decide)]

/-- C22. Servo per-rotor checks: in a call of `mk_servo_main` that the
connection, the input port and the watchdogs do not end (it returns neither
the input error nor a rate error), the rotors are checked in index order: at
the first enabled rotor `i` that has emerg set or is neither starting nor
spinning, the call sends `x` to every link and returns rotor_failure(1+i) if
emerg is set, rotor_stopped(1+i) otherwise; when every enabled rotor has emerg
clear and is starting or spinning, the command is scaled and dispatched. A
velocity or throttle message is sent only in that last case, and the rotor
named by a rotor error is never a disabled one. -/
theorem mk_servo_main_rotor_checks (period_ms : ℕ) (conn : rotorcraft_conn_s)
    (st : sensor_time_s) (rd : List rotor_data_s) (ri : rotorcraft_rotor_input)
    (servo : servo_s) (scale : ℚ) (tv tv_send : timeval) (input : or_rotorcraft_input)
    (hread : ri.read_fails = false) (hin : ri.data = some input)
    (hwd : (mk_servo_main period_ms (some conn) st rd ri servo scale tv tv_send).event
          ≠ genom_event.rotorcraft_e_input
        ∧ ∀ d, (mk_servo_main period_ms (some conn) st rd ri servo scale tv tv_send).event
          ≠ genom_event.rotorcraft_e_rate d) :
    (∀ (i : ℕ) (r : rotor_data_s), (rd.take or_rotorcraft_max_rotors)[i]? = some r →
        r.state.disabled = false →
        (r.state.emerg = true ∨ (r.state.starting = false ∧ r.state.spinning = false)) →
        (∀ (j : ℕ) q, j < i → (rd.take or_rotorcraft_max_rotors)[j]? = some q →
          q.state.disabled = true
          ∨ (q.state.emerg = false ∧ (q.state.starting = true ∨ q.state.spinning = true))) →
        (mk_servo_main period_ms (some conn) st rd ri servo scale tv tv_send).event
            = (if r.state.emerg then genom_event.rotorcraft_e_rotor_failure (1 + i)
               else genom_event.rotorcraft_e_rotor_stopped (1 + i))
          ∧ (mk_servo_main period_ms (some conn) st rd ri servo scale tv tv_send).sent
            = conn.chan.enum.map (fun ic => { chan := ic.1, fmt := "x", args := [] })
          ∧ (mk_servo_main period_ms (some conn) st rd ri servo scale tv tv_send).rotor_data
            = rd)
    ∧ ((∀ r ∈ rd.take or_rotorcraft_max_rotors, r.state.disabled = false →
          r.state.emerg = false ∧ (r.state.starting = true ∨ r.state.spinning = true)) →
        (mk_servo_main period_ms (some conn) st rd ri servo scale tv tv_send).event
            = genom_event.rotorcraft_pause_main
          ∧ ∃ s2, mk_servo_main period_ms (some conn) st rd ri servo scale tv tv_send
              = servo_ramp_send period_ms conn rd input servo s2 tv_send)
    ∧ ((∃ m ∈ (mk_servo_main period_ms (some conn) st rd ri servo scale tv tv_send).sent,
          m.fmt = "w%@" ∨ m.fmt = "q%@") →
        ∀ r ∈ rd.take or_rotorcraft_max_rotors, r.state.disabled = false →
          r.state.emerg = false ∧ (r.state.starting = true ∨ r.state.spinning = true))
    ∧ (∀ k, ((mk_servo_main period_ms (some conn) st rd ri servo scale tv tv_send).event
              = genom_event.rotorcraft_e_rotor_failure k
            ∨ (mk_servo_main period_ms (some conn) st rd ri servo scale tv tv_send).event
              = genom_event.rotorcraft_e_rotor_stopped k) →
        ∃ (i : ℕ) (r : rotor_data_s), k = 1 + i
          ∧ (rd.take or_rotorcraft_max_rotors)[i]? = some r ∧ r.state.disabled = false) := by
  obtain ⟨hwd1, hwd2⟩ := hwd
  have hstop : ∀ m ∈ (mk_stop conn rd tv_send).2, m.fmt = "x" := by
    intro m hm
    simp only [mk_stop, List.mem_map] at hm
    obtain ⟨ic, -, rfl⟩ := hm
    rfl
  rcases mk_servo_main_cases period_ms conn st rd ri servo scale tv tv_send input hread hin
    with ⟨h, -⟩ | ⟨dev, -, h⟩ | ⟨e, s2, hchk, h⟩ | ⟨hchk, s2, h⟩
  · exact absurd h hwd1
  · rw [h] at hwd2; exact absurd rfl (hwd2 dev)
  · refine ⟨?_, ?_, ?_, ?_⟩
    · intro i r hr hd hbad hbefore
      have hf := servo_rotor_check_first _ 0 i r hr hd hbad hbefore
      rw [hchk, Nat.zero_add] at hf
      simp only [Option.some.injEq] at hf
      rw [h]
      exact ⟨hf, rfl, rfl⟩
    · intro hall
      rw [servo_rotor_check_healthy _ hall 0] at hchk
      exact absurd hchk (by simp)
    · rintro ⟨m, hm, hfmt⟩
      rw [h] at hm
      have hx := hstop m hm
      rw [hx] at hfmt
      rcases hfmt with hfmt | hfmt <;> exact absurd hfmt (by decide)
    · intro k hk
      obtain ⟨i, r, hr, hd, hkind⟩ := servo_rotor_check_some _ 0 e hchk
      rw [Nat.zero_add] at hkind
      rw [h] at hk
      simp only at hk
      refine ⟨i, r, ?_, hr, hd⟩
      rcases hkind with he | he <;> rw [he] at hk <;> rcases hk with hk | hk <;>
        first
        | exact (genom_event.rotorcraft_e_rotor_failure.inj hk).symm
        | exact (genom_event.rotorcraft_e_rotor_stopped.inj hk).symm
        | exact absurd hk (by simp)
  · refine ⟨?_, ?_, ?_, ?_⟩
    · intro i r hr hd hbad hbefore
      have hf := servo_rotor_check_first _ 0 i r hr hd hbad hbefore
      rw [hchk] at hf
      exact absurd hf (by simp)
    · intro _
      exact ⟨by rw [h]; rfl, s2, h⟩
    · intro _
      exact servo_rotor_check_none_healthy _ 0 hchk
    · intro k hk
      rw [h, servo_ramp_send_event] at hk
      rcases hk with hk | hk <;> exact absurd hk (by simp)
theorem mk_servo_main_one_idle :
    mk_servo_main 1 (some conn_two_links) sensor_time_nominal rotors_one_idle
        tick_spinning.rotor_input { timeout := 30, ramp := 3 } 1 tick_spinning.tv
        tick_spinning.tv_send
      = { event := genom_event.rotorcraft_e_rotor_stopped 2, scale := 1
          rotor_data := rotors_one_idle
          sent := (mk_stop conn_two_links rotors_one_idle tick_spinning.tv_send).2 } := by
  have hfresh : ¬ (1 / 2 + ts_secs input_velocity.ts < timeval_secs tick_spinning.tv) := by
    norm_num [input_velocity, tick_spinning, ts_secs, timeval_secs]
  have hlow : low_rate sensor_time_nominal = none := by
    norm_num [low_rate, rate_less80p, sensor_time_nominal, rate_init]
  have hchk : servo_rotor_check (rotors_one_idle.take or_rotorcraft_max_rotors) 0
      = some (genom_event.rotorcraft_e_rotor_stopped 2) := by decide
  have hread : tick_spinning.rotor_input.read_fails = false := rfl
  have hdata : tick_spinning.rotor_input.data = some input_velocity := rfl
  unfold mk_servo_main
  simp only [hread, hdata, hlow, hchk, hfresh, Bool.false_eq_true, if_false, decide_False,
    Bool.false_and, Option.isSome_none]

theorem mk_servo_main_rotor_checks_witness :
    (tick_spinning.rotor_input.read_fails = false
        ∧ tick_spinning.rotor_input.data = some input_velocity
        ∧ (mk_servo_main 1 (some conn_two_links) sensor_time_nominal rotors_one_idle
            tick_spinning.rotor_input { timeout := 30, ramp := 3 } 1 tick_spinning.tv
            tick_spinning.tv_send).event ≠ genom_event.rotorcraft_e_input
        ∧ ∀ d, (mk_servo_main 1 (some conn_two_links) sensor_time_nominal rotors_one_idle
            tick_spinning.rotor_input { timeout := 30, ramp := 3 } 1 tick_spinning.tv
            tick_spinning.tv_send).event ≠ genom_event.rotorcraft_e_rate d)
      ∧ (mk_servo_main 1 (some conn_two_links) sensor_time_nominal rotors_one_idle
            tick_spinning.rotor_input { timeout := 30, ramp := 3 } 1 tick_spinning.tv
            tick_spinning.tv_send).event
          = (if rotor_idle.state.emerg then genom_event.rotorcraft_e_rotor_failure (1 + 1)
             else genom_event.rotorcraft_e_rotor_stopped (1 + 1))
      ∧ (mk_servo_main 1 (some conn_two_links) sensor_time_nominal rotors_one_idle
            tick_spinning.rotor_input { timeout := 30, ramp := 3 } 1 tick_spinning.tv
            tick_spinning.tv_send).sent
          = conn_two_links.chan.enum.map (fun ic => { chan := ic.1, fmt := "x", args := [] })
      ∧ (mk_servo_main 1 (some conn_two_links) sensor_time_nominal rotors_one_idle
            tick_spinning.rotor_input { timeout := 30, ramp := 3 } 1 tick_spinning.tv
            tick_spinning.tv_send).rotor_data = rotors_one_idle :=
  ⟨⟨rfl, rfl, by rw [mk_servo_main_one_idle]; simp,
      fun d => by rw [mk_servo_main_one_idle]; simp⟩,
   (mk_servo_main_rotor_checks 1 conn_two_links sensor_time_nominal rotors_one_idle
      tick_spinning.rotor_input { timeout := 30, ramp := 3 } 1 tick_spinning.tv
      tick_spinning.tv_send input_velocity rfl rfl
      ⟨by rw [mk_servo_main_one_idle]; simp,
        fun d => by rw [mk_servo_main_one_idle]; simp⟩).1 1 rotor_idle rfl rfl
      (Or.inr ⟨rfl, rfl⟩)
      (fun j q hj hq => by
        have hj0 : j = 0 := by omega
        subst hj0
        have hq2 : q = rotor_spinning := by
          have : (rotors_one_idle.take or_rotorcraft_max_rotors)[0]? = some rotor_spinning := rfl
          rw [this] at hq
          exact (Option.some.inj hq).symm
        subst hq2
        exact Or.inr ⟨rfl, Or.inr rfl⟩)⟩

/-! ### Battery alarm -/

theorem battery_low_iff (b : battery_s) :
    battery_low b = true ↔ ∃ l, b.level = some l ∧ 0 < l ∧ l < b.min := by
  unfold battery_low
  cases h : b.level with
  | none => simp
  | some l => simp

theorem mk_main_perm_run_get (conn : rotorcraft_conn_s) :
    ∀ (ticks : List main_tick) (st : sensor_time_s) (cnt0 : ℕ), cnt0 < 500 →
      ∀ (k : ℕ) (t : main_tick), ticks[k]? = some t →
        (mk_main_perm_run conn st cnt0 ticks)[k]?
          = some (if battery_low t.battery = true ∧ (cnt0 + low_ticks (ticks.take k)) % 500 = 0
                  then beep_msgs conn else []) := by
  intro ticks
  induction ticks with
  | nil => intro st cnt0 _ k t ht; simp at ht
  | cons u us ih =>
    intro st cnt0 hc k t ht
    cases k with
    | zero =>
      simp only [List.getElem?_cons_zero, Option.some.injEq] at ht
      subst ht
      have h0 : (cnt0 + low_ticks (List.take 0 (u :: us))) % 500 = cnt0 := by
        simp only [List.take_zero, low_ticks, List.filter_nil, List.length_nil, Nat.add_zero]
        omega
      rw [h0]
      simp only [mk_main_perm_run, mk_main_perm, main_perm_beep, List.getElem?_cons_zero,
        beep_msgs]
      congr 1
      by_cases hl : battery_low u.battery = true
      · by_cases hz : cnt0 = 0
        · simp [hl, hz]
        · simp [hl, hz]
      · simp [hl]
    | succ n =>
      simp only [List.getElem?_cons_succ] at ht
      have hcnt : (mk_main_perm conn u.battery u.rotor_data st u.its u.mts u.tv cnt0).cnt < 500 := by
        simp only [mk_main_perm, main_perm_beep]
        by_cases hl : battery_low u.battery = true
        · rw [if_pos hl]
          exact Nat.mod_lt _ (by norm_num)
        · rw [if_neg hl]
          exact hc
      have hrec := ih (mk_main_perm conn u.battery u.rotor_data st u.its u.mts u.tv cnt0).sensor_time
        (mk_main_perm conn u.battery u.rotor_data st u.its u.mts u.tv cnt0).cnt hcnt n t ht
      have hmod : ((mk_main_perm conn u.battery u.rotor_data st u.its u.mts u.tv cnt0).cnt
            + low_ticks (us.take n)) % 500
          = (cnt0 + low_ticks ((u :: us).take (n + 1))) % 500 := by
        simp only [mk_main_perm, main_perm_beep, low_ticks, List.take_succ_cons, List.filter_cons]
        by_cases hl : battery_low u.battery = true
        · simp only [hl, if_true, List.length_cons]
          omega
        · simp only [hl, Bool.false_eq_true, if_false]
      rw [hmod] at hrec
      simp only [mk_main_perm_run, List.getElem?_cons_succ]
      exact hrec

/-- C23 (amended). Battery alarm: `mk_main_perm` counts, in a static counter
that is 0 at start-up and is not reset when the level recovers, the ticks on
which the battery level is a number with 0 < level < min. The beep `~%2` with
frequency 440 is sent to every link on such a tick when the number of earlier
such ticks plus the initial counter is a multiple of 500, and on no other
tick; so over a run of such ticks that starts with the counter at 0, the beep
is sent on the 1st, 501st, 1001st, ... tick. On a tick where the level is
NaN, <= 0 or >= min no beep is sent. -/
theorem mk_main_perm_battery_alarm (conn : rotorcraft_conn_s) (st : sensor_time_s)
    (cnt0 : ℕ) (ticks : List main_tick) (hcnt : cnt0 < 500) :
    (mk_main_perm_run conn st cnt0 ticks).length = ticks.length
    ∧ (∀ (k : ℕ) (t : main_tick), ticks[k]? = some t →
        (mk_main_perm_run conn st cnt0 ticks)[k]?
          = some (if (∃ l, t.battery.level = some l ∧ 0 < l ∧ l < t.battery.min)
                      ∧ (cnt0 + low_ticks (ticks.take k)) % 500 = 0
                  then conn.chan.enum.map
                    (fun ic => { chan := ic.1, fmt := "~%2", args := [msg_arg.u16 440] })
                  else []))
    ∧ (cnt0 = 0 →
        (∀ t ∈ ticks, ∃ l, t.battery.level = some l ∧ 0 < l ∧ l < t.battery.min) →
        ∀ (k : ℕ), k < ticks.length →
          (mk_main_perm_run conn st cnt0 ticks)[k]?
            = some (if k % 500 = 0
                    then conn.chan.enum.map
                      (fun ic => { chan := ic.1, fmt := "~%2", args := [msg_arg.u16 440] })
                    else []))
    ∧ (∀ (k : ℕ) (t : main_tick), ticks[k]? = some t →
        (t.battery.level = none ∨ ∃ l, t.battery.level = some l ∧ (l ≤ 0 ∨ t.battery.min ≤ l)) →
        (mk_main_perm_run conn st cnt0 ticks)[k]? = some []) := by
  have hlen : ∀ (ticks : List main_tick) (st : sensor_time_s) (c : ℕ),
      (mk_main_perm_run conn st c ticks).length = ticks.length := by
    intro ticks
    induction ticks with
    | nil => intro st c; rfl
    | cons u us ih => intro st c; simp only [mk_main_perm_run, List.length_cons, ih]
  refine ⟨hlen ticks st cnt0, ?_, ?_, ?_⟩
  · intro k t ht
    rw [mk_main_perm_run_get conn ticks st cnt0 hcnt k t ht]
    simp only [battery_low_iff, beep_msgs]
  · intro h0 hall k hk
    have ht : ticks[k]? = some ticks[k] := List.getElem?_eq_getElem hk
    rw [mk_main_perm_run_get conn ticks st cnt0 hcnt k _ ht]
    have hlow : battery_low ticks[k].battery = true :=
      (battery_low_iff _).mpr (hall _ (List.getElem_mem hk))
    have hcount : low_ticks (ticks.take k) = k := by
      unfold low_ticks
      rw [List.filter_eq_self.mpr]
      · rw [List.length_take]; omega
      · intro u hu
        exact (battery_low_iff _).mpr (hall u (List.mem_of_mem_take hu))
    rw [hcount, h0, Nat.zero_add]
    simp only [hlow, true_and, beep_msgs]
  · intro k t ht hno
    rw [mk_main_perm_run_get conn ticks st cnt0 hcnt k t ht]
    have hlow : ¬ battery_low t.battery = true := by
      rw [battery_low_iff]
      rintro ⟨l, hl, h1, h2⟩
      rcases hno with hn | ⟨l2, hl2, h3⟩
      · rw [hn] at hl; exact absurd hl (by simp)
      · rw [hl2] at hl
        have : l2 = l := Option.some.inj hl
        subst this
        rcases h3 with h3 | h3
        · exact absurd h1 (not_lt.mpr h3)
        · exact absurd h2 (not_lt.mpr h3)
    rw [if_neg (fun h => hlow h.1)]

theorem mk_main_perm_battery_alarm_witness :
    (0 : ℕ) < 500
      ∧ (mk_main_perm_run conn_two_links sensor_time_nominal 0
          [main_tick_level (some (27 / 2)), main_tick_level (some (27 / 2))])[1]?
        = some (if 1 % 500 = 0
                then conn_two_links.chan.enum.map
                  (fun ic => { chan := ic.1, fmt := "~%2", args := [msg_arg.u16 440] })
                else []) :=
  ⟨by norm_num,
   (mk_main_perm_battery_alarm conn_two_links sensor_time_nominal 0
      [main_tick_level (some (27 / 2)), main_tick_level (some (27 / 2))] (by norm_num)).2.2.1
      rfl
      (fun t ht => by
        have : t = main_tick_level (some (27 / 2)) := by
          simp only [List.mem_cons, List.mem_singleton, List.not_mem_nil, or_false, or_self] at ht
          exact ht
        subst this
        exact ⟨27 / 2, rfl, by norm_num, by norm_num [main_tick_level]⟩)
      1 (by simp)⟩

/-- C23, as stated, fails: from start-up (counter 0), after one tick with the
level 13.5 (beep) and one tick with the level 15, the next tick with the level
13.5 begins a new run of low-level ticks, and no beep is sent on it. -/
theorem mk_main_perm_battery_alarm_counterexample :
    mk_main_perm_run conn_two_links sensor_time_nominal 0
        [main_tick_level (some (27 / 2)), main_tick_level (some 15),
         main_tick_level (some (27 / 2))]
      = [conn_two_links.chan.enum.map
            (fun ic => { chan := ic.1, fmt := "~%2", args := [msg_arg.u16 440] }), [], []] := by
  have h1 : battery_low (main_tick_level (some (27 / 2))).battery = true := by
    norm_num [battery_low, main_tick_level]
  have h2 : battery_low (main_tick_level (some 15)).battery = false := by
    norm_num [battery_low, main_tick_level]
  simp [mk_main_perm_run, mk_main_perm, main_perm_beep, h1, h2]

/-! ### Ramp-up condition of the servo -/

/-- A call of `mk_servo_main` with a fresh input, nominal sensor rates and
rotor checks that pass is the scaling and send steps at the given scale. -/
theorem mk_servo_main_fresh (period_ms : ℕ) (conn : rotorcraft_conn_s) (st : sensor_time_s)
    (rd : List rotor_data_s) (input : or_rotorcraft_input) (servo : servo_s) (scale : ℚ)
    (tv tv_send : timeval)
    (hfresh : ¬ (1 / 2 + ts_secs input.ts < timeval_secs tv))
    (hlow : low_rate st = none)
    (hchk : servo_rotor_check (rd.take or_rotorcraft_max_rotors) 0 = none) :
    mk_servo_main period_ms (some conn) st rd { read_fails := false, data := some input }
        servo scale tv tv_send
      = servo_ramp_send period_ms conn rd input servo scale tv_send := by
  unfold mk_servo_main
  simp only [hlow, hchk, hfresh, Bool.false_eq_true, if_false, decide_False,
    Bool.false_and, Option.isSome_none]

/-- C24. What the ramp step of `mk_servo_main` does where the claim fails. With
the scale at 0, a fresh command for the eight rotors and every enabled rotor
spinning, rotor 2 being disabled (and so not spinning), the call reaches the
ramp step and leaves the scale at 0: the disabled rotor prevents the ramp-up.
With rotor 2 enabled and starting, not yet spinning, and a command for rotor 1
alone, the call raises the scale to 1/3000: the enabled rotor that is not
spinning does not prevent the ramp-up. -/
theorem mk_servo_main_rampup_divergence :
    (∀ r ∈ rotors_one_disabled, r.state.disabled = false → r.state.spinning = true)
      ∧ (mk_servo_main 1 (some conn_two_links) sensor_time_nominal rotors_one_disabled
          { read_fails := false, data := some input_velocity } { timeout := 30, ramp := 3 } 0
          tick_spinning.tv tick_spinning.tv_send).event = genom_event.rotorcraft_pause_main
      ∧ (mk_servo_main 1 (some conn_two_links) sensor_time_nominal rotors_one_disabled
          { read_fails := false, data := some input_velocity } { timeout := 30, ramp := 3 } 0
          tick_spinning.tv tick_spinning.tv_send).scale = 0
      ∧ (rotor_starting ∈ rotors_one_starting ∧ rotor_starting.state.disabled = false
          ∧ rotor_starting.state.spinning = false)
      ∧ (mk_servo_main 1 (some conn_two_links) sensor_time_nominal rotors_one_starting
          { read_fails := false, data := some input_velocity_one } { timeout := 30, ramp := 3 }
          0 tick_spinning.tv tick_spinning.tv_send).event = genom_event.rotorcraft_pause_main
      ∧ (mk_servo_main 1 (some conn_two_links) sensor_time_nominal rotors_one_starting
          { read_fails := false, data := some input_velocity_one } { timeout := 30, ramp := 3 }
          0 tick_spinning.tv tick_spinning.tv_send).scale = 1 / 3000 := by
  have hfresh : ¬ (1 / 2 + ts_secs input_velocity.ts < timeval_secs tick_spinning.tv) := by
    norm_num [input_velocity, tick_spinning, ts_secs, timeval_secs]
  have hfresh1 : ¬ (1 / 2 + ts_secs input_velocity_one.ts < timeval_secs tick_spinning.tv) := by
    norm_num [input_velocity_one, input_velocity, tick_spinning, ts_secs, timeval_secs]
  have hlow : low_rate sensor_time_nominal = none := by
    norm_num [low_rate, rate_less80p, sensor_time_nominal, rate_init]
  have hchk : servo_rotor_check (rotors_one_disabled.take or_rotorcraft_max_rotors) 0 = none := by
    decide
  have hchk1 : servo_rotor_check (rotors_one_starting.take or_rotorcraft_max_rotors) 0 = none := by
    decide
  have hup : servo_rampup rotors_one_disabled input_velocity.desired.length = false := by decide
  have hup1 : servo_rampup rotors_one_starting input_velocity_one.desired.length = true := by
    decide
  rw [mk_servo_main_fresh 1 conn_two_links sensor_time_nominal rotors_one_disabled
      input_velocity _ 0 _ _ hfresh hlow hchk,
    mk_servo_main_fresh 1 conn_two_links sensor_time_nominal rotors_one_starting
      input_velocity_one _ 0 _ _ hfresh1 hlow hchk1]
  refine ⟨by decide, rfl, ?_, ⟨by decide, rfl, rfl⟩, rfl, ?_⟩
  · simp only [servo_ramp_send, hup]
    norm_num
  · simp only [servo_ramp_send, hup1]
    norm_num

/-! ### Scope of the rate watchdog -/

theorem low_rate_none_iff (st : sensor_time_s) :
    low_rate st = none ↔
      ¬ st.measured_rate.imu < 8 / 10 * st.rate.imu
        ∧ ¬ st.measured_rate.mag < 8 / 10 * st.rate.mag
        ∧ ¬ st.measured_rate.motor < 8 / 10 * st.rate.motor := by
  unfold low_rate rate_less80p
  by_cases h1 : st.measured_rate.imu < 8 / 10 * st.rate.imu
  · simp [h1]
  · by_cases h2 : st.measured_rate.mag < 8 / 10 * st.rate.mag
    · simp [h1, h2]
    · by_cases h3 : st.measured_rate.motor < 8 / 10 * st.rate.motor
      · simp [h1, h2, h3]
      · simp [h1, h2, h3]

theorem low_rate_some (st : sensor_time_s) (dev : String) (h : low_rate st = some dev) :
    (dev = "imu" ∧ st.measured_rate.imu < 8 / 10 * st.rate.imu)
    ∨ (dev = "mag" ∧ st.measured_rate.mag < 8 / 10 * st.rate.mag)
    ∨ (dev = "motor" ∧ st.measured_rate.motor < 8 / 10 * st.rate.motor) := by
  unfold low_rate rate_less80p at h
  by_cases h1 : st.measured_rate.imu < 8 / 10 * st.rate.imu
  · simp only [h1, decide_True, if_true, Option.some.injEq] at h
    exact Or.inl ⟨h.symm, h1⟩
  · by_cases h2 : st.measured_rate.mag < 8 / 10 * st.rate.mag
    · simp only [h1, h2, decide_True, decide_False, if_true, Bool.false_eq_true, if_false,
        Option.some.injEq] at h
      exact Or.inr (Or.inl ⟨h.symm, h2⟩)
    · by_cases h3 : st.measured_rate.motor < 8 / 10 * st.rate.motor
      · simp only [h1, h2, h3, decide_True, decide_False, if_true, Bool.false_eq_true, if_false,
          Option.some.injEq] at h
        exact Or.inr (Or.inr ⟨h.symm, h3⟩)
      · simp [h1, h2, h3] at h

/-- C25 (amended). Rate watchdog scope: in a call of `mk_servo_main` with a
fresh input, the rate watchdog takes two ramp steps off the scale, and returns
the rate error when the result is negative, if and only if the measured rate
of one of imu, mag, motor is below 80% of its nominal rate, whatever that
nominal rate; the error names the first such channel. A channel whose nominal
rate is 0 or less does not trigger the watchdog when its measured rate is not
negative, as with the measured rate 0 that `mk_main_perm` assigns to the imu
and mag channels whose nominal rate is below 0.1. -/
theorem rate_watchdog_scope (period_ms : ℕ) (conn : rotorcraft_conn_s) (st : sensor_time_s)
    (rd : List rotor_data_s) (input : or_rotorcraft_input) (servo : servo_s) (scale : ℚ)
    (tv tv_send : timeval)
    (hfresh : ¬ (1 / 2 + ts_secs input.ts < timeval_secs tv)) :
    (low_rate st = none ↔
        ¬ st.measured_rate.imu < 8 / 10 * st.rate.imu
          ∧ ¬ st.measured_rate.mag < 8 / 10 * st.rate.mag
          ∧ ¬ st.measured_rate.motor < 8 / 10 * st.rate.motor)
    ∧ (∀ dev, low_rate st = some dev →
        (dev = "imu" ∧ st.measured_rate.imu < 8 / 10 * st.rate.imu)
        ∨ (dev = "mag" ∧ st.measured_rate.mag < 8 / 10 * st.rate.mag)
        ∨ (dev = "motor" ∧ st.measured_rate.motor < 8 / 10 * st.rate.motor))
    ∧ (low_rate st = none →
        mk_servo_main period_ms (some conn) st rd { read_fails := false, data := some input }
            servo scale tv tv_send
          = match servo_rotor_check (rd.take or_rotorcraft_max_rotors) 0 with
            | some e => { event := e, scale := scale, rotor_data := rd
                          sent := (mk_stop conn rd tv_send).2 }
            | none => servo_ramp_send period_ms conn rd input servo scale tv_send)
    ∧ (∀ dev, low_rate st = some dev →
        (scale - 2 / 1000 * (period_ms : ℚ) / servo.ramp < 0 →
          mk_servo_main period_ms (some conn) st rd { read_fails := false, data := some input }
              servo scale tv tv_send
            = { event := genom_event.rotorcraft_e_rate dev, scale := 0, rotor_data := rd
                sent := (mk_stop conn rd tv_send).2 })
        ∧ (¬ scale - 2 / 1000 * (period_ms : ℚ) / servo.ramp < 0 →
          mk_servo_main period_ms (some conn) st rd { read_fails := false, data := some input }
              servo scale tv tv_send
            = match servo_rotor_check (rd.take or_rotorcraft_max_rotors) 0 with
              | some e => { event := e
                            scale := scale - 2 / 1000 * (period_ms : ℚ) / servo.ramp
                            rotor_data := rd, sent := (mk_stop conn rd tv_send).2 }
              | none => servo_ramp_send period_ms conn rd input servo
                          (scale - 2 / 1000 * (period_ms : ℚ) / servo.ramp) tv_send))
    ∧ (∀ measured nominal : ℚ, nominal ≤ 0 → 0 ≤ measured →
        rate_less80p measured nominal = false)
    ∧ (∀ (its mts : or_time_ts) (tvm : timeval),
        (st.rate.imu < 1 / 10 →
          (main_perm_rates st its mts rd tvm).measured_rate.imu = 0)
        ∧ (st.rate.mag < 1 / 10 →
          (main_perm_rates st its mts rd tvm).measured_rate.mag = 0)) := by
  refine ⟨low_rate_none_iff st, low_rate_some st, ?_, ?_, ?_, ?_⟩
  · intro hl
    unfold mk_servo_main
    simp only [hl, hfresh, Bool.false_eq_true, if_false, decide_False, Bool.false_and,
      Option.isSome_none]
  · intro dev hl
    constructor
    · intro hneg
      unfold mk_servo_main
      simp only [hl, hfresh, hneg, Bool.false_eq_true, if_false, decide_False, decide_True,
        Bool.false_and, Option.isSome_some, if_true]
    · intro hneg
      unfold mk_servo_main
      simp only [hl, hfresh, hneg, Bool.false_eq_true, if_false, decide_False,
        Bool.false_and, Option.isSome_some, if_true]
  · intro measured nominal hn hm
    unfold rate_less80p
    simp only [decide_eq_false_iff_not, not_lt]
    have : 8 / 10 * nominal ≤ 0 := by linarith
    linarith
  · intro its mts tvm
    have haged : ∀ (ts : or_time_ts) (nominal : ℚ), nominal < 1 / 10 →
        rate_aged tvm ts nominal = true := by
      intro ts nominal hn
      unfold rate_aged
      rw [Bool.or_eq_true]
      exact Or.inr (decide_eq_true hn)
    constructor
    · intro h
      simp only [main_perm_rates, haged its _ h, if_true]
    · intro h
      simp only [main_perm_rates, haged mts _ h, if_true]
theorem rate_watchdog_scope_witness :
    ¬ (1 / 2 + ts_secs input_velocity.ts < timeval_secs tick_spinning.tv)
      ∧ (low_rate sensor_time_low_imu = some "imu" →
          ((0 : ℚ) - 2 / 1000 * ((1 : ℕ) : ℚ) / ({ timeout := 30, ramp := 3 } : servo_s).ramp < 0 →
            mk_servo_main 1 (some conn_two_links) sensor_time_low_imu rotors_spinning
                { read_fails := false, data := some input_velocity } { timeout := 30, ramp := 3 }
                0 tick_spinning.tv tick_spinning.tv_send
              = { event := genom_event.rotorcraft_e_rate "imu", scale := 0
                  rotor_data := rotors_spinning
                  sent := (mk_stop conn_two_links rotors_spinning tick_spinning.tv_send).2 })) :=
  ⟨by norm_num [input_velocity, tick_spinning, ts_secs, timeval_secs],
   fun hl => ((rate_watchdog_scope 1 conn_two_links sensor_time_low_imu rotors_spinning
      input_velocity { timeout := 30, ramp := 3 } 0 tick_spinning.tv tick_spinning.tv_send
      (by norm_num [input_velocity, tick_spinning, ts_secs, timeval_secs])).2.2.2.1
      "imu" hl).1⟩

/-- C25, as stated, fails: with the nominal IMU rate 0.05 Hz, below 0.1,
`mk_main_perm` sets the measured IMU rate to 0, which is below 80% of 0.05;
the next call of `mk_servo_main`, with the scale at 0, a fresh input and every
rotor spinning, returns the rate error "imu". -/
theorem rate_watchdog_scope_counterexample :
    sensor_time_slow_imu.rate.imu < 1 / 10
      ∧ (main_perm_rates sensor_time_slow_imu rotor_spinning.state.ts rotor_spinning.state.ts
          rotors_spinning tick_spinning.tv).rate.imu = 1 / 20
      ∧ (main_perm_rates sensor_time_slow_imu rotor_spinning.state.ts rotor_spinning.state.ts
          rotors_spinning tick_spinning.tv).measured_rate.imu = 0
      ∧ mk_servo_main 1 (some conn_two_links)
          (main_perm_rates sensor_time_slow_imu rotor_spinning.state.ts
            rotor_spinning.state.ts rotors_spinning tick_spinning.tv)
          rotors_spinning { read_fails := false, data := some input_velocity }
          { timeout := 30, ramp := 3 } 0 tick_spinning.tv tick_spinning.tv_send
        = { event := genom_event.rotorcraft_e_rate "imu", scale := 0
            rotor_data := rotors_spinning
            sent := (mk_stop conn_two_links rotors_spinning tick_spinning.tv_send).2 } := by
  have hslow : sensor_time_slow_imu.rate.imu < 1 / 10 := by
    norm_num [sensor_time_slow_imu, rate_init]
  have haged : rate_aged tick_spinning.tv rotor_spinning.state.ts
      sensor_time_slow_imu.rate.imu = true := by
    unfold rate_aged
    rw [Bool.or_eq_true]
    exact Or.inr (decide_eq_true hslow)
  have hm : (main_perm_rates sensor_time_slow_imu rotor_spinning.state.ts
      rotor_spinning.state.ts rotors_spinning tick_spinning.tv).measured_rate.imu = 0 := by
    simp only [main_perm_rates, haged, if_true]
  have hr : (main_perm_rates sensor_time_slow_imu rotor_spinning.state.ts
      rotor_spinning.state.ts rotors_spinning tick_spinning.tv).rate.imu = 1 / 20 := rfl
  have hl : low_rate (main_perm_rates sensor_time_slow_imu rotor_spinning.state.ts
      rotor_spinning.state.ts rotors_spinning tick_spinning.tv) = some "imu" := by
    unfold low_rate rate_less80p
    rw [hm, hr]
    norm_num
  have hfresh : ¬ (1 / 2 + ts_secs input_velocity.ts < timeval_secs tick_spinning.tv) := by
    norm_num [input_velocity, tick_spinning, ts_secs, timeval_secs]
  refine ⟨hslow, hr, hm, ?_⟩
  unfold mk_servo_main
  simp only [hl, hfresh, Bool.false_eq_true, if_false, decide_False, Bool.false_and,
    Option.isSome_some, if_true]
  norm_num

/-! ### Start monitor -/

theorem start_monitor_loop_disabled (conn : rotorcraft_conn_s) (timeout : ℕ)
    (r : rotor_data_s) (rs : List rotor_data_s) (i state : ℕ) (complete : Bool)
    (hd : r.state.disabled = true) :
    start_monitor_loop conn timeout (r :: rs) i state complete
      = if r.state.starting || r.state.spinning then
          { error := some (genom_event.rotorcraft_e_rotor_not_disabled (1 + i))
            state := state, complete := complete, sent := [] }
        else start_monitor_loop conn timeout rs (i + 1) state complete := by
  rw [start_monitor_loop, if_pos hd]

theorem start_monitor_loop_spinning (conn : rotorcraft_conn_s) (timeout : ℕ)
    (r : rotor_data_s) (rs : List rotor_data_s) (i state : ℕ) (complete : Bool)
    (hd : r.state.disabled = false) (hs : r.state.spinning = true) :
    start_monitor_loop conn timeout (r :: rs) i state complete
      = start_monitor_loop conn timeout rs (i + 1)
          (if r.state.starting then (state ||| 1 <<< i) % 65536 else state) complete := by
  rw [start_monitor_loop, if_neg (by rw [hd]; decide), if_pos hs]

theorem start_monitor_loop_emerg (conn : rotorcraft_conn_s) (timeout : ℕ)
    (r : rotor_data_s) (rs : List rotor_data_s) (i state : ℕ) (complete : Bool)
    (hd : r.state.disabled = false) (hs : r.state.spinning = false)
    (he : r.state.emerg = true) :
    start_monitor_loop conn timeout (r :: rs) i state complete
      = { error := some (genom_event.rotorcraft_e_rotor_failure (1 + i))
          state := if r.state.starting then (state ||| 1 <<< i) % 65536 else state
          complete := complete, sent := [] } := by
  rw [start_monitor_loop, if_neg (by rw [hd]; decide), if_neg (by rw [hs]; decide), if_pos he]

theorem start_monitor_loop_waiting (conn : rotorcraft_conn_s) (timeout : ℕ)
    (r : rotor_data_s) (rs : List rotor_data_s) (i state : ℕ) (complete : Bool)
    (hd : r.state.disabled = false) (hs : r.state.spinning = false)
    (he : r.state.emerg = false) :
    start_monitor_loop conn timeout (r :: rs) i state complete
      = if !r.state.starting
            && decide ((if r.state.starting then (state ||| 1 <<< i) % 65536 else state)
                  &&& 1 <<< i ≠ 0) then
          { error := some (genom_event.rotorcraft_e_rotor_stopped (1 + i))
            state := if r.state.starting then (state ||| 1 <<< i) % 65536 else state
            complete := complete, sent := [] }
        else
          { start_monitor_loop conn timeout rs (i + 1)
              (if r.state.starting then (state ||| 1 <<< i) % 65536 else state) false with
            sent :=
              (if !r.state.starting && decide (timeout % 100 = 0) then
                send_to_owner "g%1" (i + 1) conn else [])
              ++ (start_monitor_loop conn timeout rs (i + 1)
                    (if r.state.starting then (state ||| 1 <<< i) % 65536 else state)
                    false).sent } := by
  rw [start_monitor_loop, if_neg (by rw [hd]; decide), if_neg (by rw [hs]; decide),
    if_neg (by rw [he]; decide)]

/-- One step of the loop of `mk_start_monitor` on a rotor that triggers no
error: the loop goes on with the next rotor, with some state and flag, and the
error it returns is the one of the rest of the loop. -/
theorem start_monitor_loop_step (conn : rotorcraft_conn_s) (timeout : ℕ)
    (r : rotor_data_s) (rs : List rotor_data_s) (i state : ℕ) (complete : Bool)
    (h : (start_monitor_loop conn timeout (r :: rs) i state complete).error = none) :
    ∃ s2 c2, (c2 = (complete && (r.state.disabled || r.state.spinning)))
      ∧ ∀ rest : List rotor_data_s,
        (start_monitor_loop conn timeout (r :: rest) i state complete).error
            = (start_monitor_loop conn timeout rest (i + 1) s2 c2).error
          ∧ (start_monitor_loop conn timeout (r :: rest) i state complete).state
            = (start_monitor_loop conn timeout rest (i + 1) s2 c2).state
          ∧ (start_monitor_loop conn timeout (r :: rest) i state complete).complete
            = (start_monitor_loop conn timeout rest (i + 1) s2 c2).complete := by
  cases hd : r.state.disabled with
  | true =>
    rw [start_monitor_loop_disabled conn timeout r rs i state complete hd] at h
    cases hss : (r.state.starting || r.state.spinning) with
    | true => rw [hss, if_pos rfl] at h; exact absurd h (by simp)
    | false =>
      refine ⟨state, complete, by simp, ?_⟩
      intro rest
      rw [start_monitor_loop_disabled conn timeout r rest i state complete hd, hss]
      exact ⟨rfl, rfl, rfl⟩
  | false =>
    cases hs : r.state.spinning with
    | true =>
      refine ⟨if r.state.starting then (state ||| 1 <<< i) % 65536 else state, complete,
        by simp, ?_⟩
      intro rest
      rw [start_monitor_loop_spinning conn timeout r rest i state complete hd hs]
      exact ⟨rfl, rfl, rfl⟩
    | false =>
      cases he : r.state.emerg with
      | true =>
        rw [start_monitor_loop_emerg conn timeout r rs i state complete hd hs he] at h
        exact absurd h (by simp)
      | false =>
        rw [start_monitor_loop_waiting conn timeout r rs i state complete hd hs he] at h
        cases hst : (!r.state.starting
            && decide ((if r.state.starting then (state ||| 1 <<< i) % 65536 else state)
                  &&& 1 <<< i ≠ 0)) with
        | true => rw [hst, if_pos rfl] at h; exact absurd h (by simp)
        | false =>
          refine ⟨if r.state.starting then (state ||| 1 <<< i) % 65536 else state, false,
            by simp, ?_⟩
          intro rest
          rw [start_monitor_loop_waiting conn timeout r rest i state complete hd hs he, hst]
          exact ⟨rfl, rfl, rfl⟩

/-- The loop of `mk_start_monitor` over a list that begins with rotors that
trigger no error goes on with the rest of the list. -/
theorem start_monitor_loop_append (conn : rotorcraft_conn_s) (timeout : ℕ) :
    ∀ (pre rest : List rotor_data_s) (i state : ℕ) (complete : Bool),
      (start_monitor_loop conn timeout pre i state complete).error = none →
      ∃ s2 c2, (start_monitor_loop conn timeout (pre ++ rest) i state complete).error
        = (start_monitor_loop conn timeout rest (i + pre.length) s2 c2).error := by
  intro pre
  induction pre with
  | nil => intro rest i state complete _; exact ⟨state, complete, rfl⟩
  | cons r rs ih =>
    intro rest i state complete h
    obtain ⟨s2, c2, -, hstep⟩ := start_monitor_loop_step conn timeout r rs i state complete h
    have h2 : (start_monitor_loop conn timeout rs (i + 1) s2 c2).error = none := by
      rw [← (hstep rs).1]; exact h
    obtain ⟨s3, c3, h3⟩ := ih rest (i + 1) s2 c2 h2
    refine ⟨s3, c3, ?_⟩
    have hidx : i + (r :: rs).length = i + 1 + rs.length := by
      simp only [List.length_cons]; omega
    rw [hidx, ← h3]
    exact (hstep (rs ++ rest)).1

/-- When the loop of `mk_start_monitor` returns no error, the flag `complete`
tells whether every rotor is disabled or spinning. -/
theorem start_monitor_loop_complete (conn : rotorcraft_conn_s) (timeout : ℕ) :
    ∀ (l : List rotor_data_s) (i state : ℕ) (complete : Bool),
      (start_monitor_loop conn timeout l i state complete).error = none →
      (start_monitor_loop conn timeout l i state complete).complete
        = (complete && l.all (fun r => r.state.disabled || r.state.spinning)) := by
  intro l
  induction l with
  | nil => intro i state complete _; simp [start_monitor_loop]
  | cons r rs ih =>
    intro i state complete h
    obtain ⟨s2, c2, hc2, hstep⟩ := start_monitor_loop_step conn timeout r rs i state complete h
    have h2 : (start_monitor_loop conn timeout rs (i + 1) s2 c2).error = none := by
      rw [← (hstep rs).1]; exact h
    rw [(hstep rs).2.2, ih (i + 1) s2 c2 h2, hc2, List.all_cons, Bool.and_assoc]

/-- The result of `mk_start_monitor` when its loop returns an error. -/
theorem mk_start_monitor_error (conn : rotorcraft_conn_s) (st : sensor_time_s)
    (timeout state : ℕ) (rd : List rotor_data_s) (tv_send : timeval) (e : genom_event)
    (h : (start_monitor_loop conn (to_uint32 ((timeout : ℤ) - 1))
      (rd.take or_rotorcraft_max_rotors) 0 state true).error = some e) :
    (mk_start_monitor conn st timeout state rd tv_send).event = e
      ∧ (mk_start_monitor conn st timeout state rd tv_send).sent
        = (start_monitor_loop conn (to_uint32 ((timeout : ℤ) - 1))
            (rd.take or_rotorcraft_max_rotors) 0 state true).sent
          ++ conn.chan.enum.map (fun ic => { chan := ic.1, fmt := "x", args := [] }) := by
  constructor
  · unfold mk_start_monitor
    simp only [h]
  · unfold mk_start_monitor
    simp only [h]
    rfl

/-- The result of `mk_start_monitor` when its loop returns no error. -/
theorem mk_start_monitor_end (conn : rotorcraft_conn_s) (st : sensor_time_s)
    (timeout state : ℕ) (rd : List rotor_data_s) (tv_send : timeval)
    (h : (start_monitor_loop conn (to_uint32 ((timeout : ℤ) - 1))
      (rd.take or_rotorcraft_max_rotors) 0 state true).error = none) :
    (mk_start_monitor conn st timeout state rd tv_send).event
        = (start_monitor_end st (to_uint32 ((timeout : ℤ) - 1))
            ((rd.take or_rotorcraft_max_rotors).all
              (fun r => r.state.disabled || r.state.spinning))).1
      ∧ (mk_start_monitor conn st timeout state rd tv_send).sent
        = (start_monitor_loop conn (to_uint32 ((timeout : ℤ) - 1))
            (rd.take or_rotorcraft_max_rotors) 0 state true).sent
          ++ (if (start_monitor_end st (to_uint32 ((timeout : ℤ) - 1))
                ((rd.take or_rotorcraft_max_rotors).all
                  (fun r => r.state.disabled || r.state.spinning))).2
              then conn.chan.enum.map (fun ic => { chan := ic.1, fmt := "x", args := [] })
              else []) := by
  have hc := start_monitor_loop_complete conn _ _ 0 state true h
  rw [Bool.true_and] at hc
  constructor
  · unfold mk_start_monitor
    simp only [h, hc]
  · unfold mk_start_monitor
    simp only [h, hc]
    rfl
/-- C26 (amended). Start monitor emergency: in every call of `mk_start_monitor`
in which some enabled rotor that is not spinning has the emerg flag set, and
no earlier rotor triggers an error, the call sends `x` to every link and
returns the rotor_failure error of that rotor, whatever its starting flag. An
enabled rotor that reports spinning is passed over by the loop, whatever its
emerg flag. -/
theorem mk_start_monitor_emerg (conn : rotorcraft_conn_s) (st : sensor_time_s)
    (timeout state : ℕ) (rd : List rotor_data_s) (tv_send : timeval) (i : ℕ)
    (r : rotor_data_s)
    (hi : (rd.take or_rotorcraft_max_rotors)[i]? = some r)
    (hd : r.state.disabled = false) (hs : r.state.spinning = false)
    (he : r.state.emerg = true)
    (hpre : (start_monitor_loop conn (to_uint32 ((timeout : ℤ) - 1))
      ((rd.take or_rotorcraft_max_rotors).take i) 0 state true).error = none) :
    ((mk_start_monitor conn st timeout state rd tv_send).event
        = genom_event.rotorcraft_e_rotor_failure (1 + i)
      ∧ ∃ pre, (mk_start_monitor conn st timeout state rd tv_send).sent
          = pre ++ conn.chan.enum.map (fun ic => { chan := ic.1, fmt := "x", args := [] }))
    ∧ (∀ (q : rotor_data_s) (qs : List rotor_data_s) (j s : ℕ) (c : Bool) (t : ℕ),
        q.state.disabled = false → q.state.spinning = true →
        start_monitor_loop conn t (q :: qs) j s c
          = start_monitor_loop conn t qs (j + 1)
              (if q.state.starting then (s ||| 1 <<< j) % 65536 else s) c) := by
  refine ⟨?_, fun q qs j s c t hqd hqs => start_monitor_loop_spinning conn t q qs j s c hqd hqs⟩
  obtain ⟨hlt, hget⟩ := List.getElem?_eq_some.mp hi
  have hsplit : rd.take or_rotorcraft_max_rotors
      = (rd.take or_rotorcraft_max_rotors).take i
        ++ r :: (rd.take or_rotorcraft_max_rotors).drop (i + 1) := by
    rw [← hget, ← List.drop_eq_getElem_cons hlt, List.take_append_drop]
  have hlen : ((rd.take or_rotorcraft_max_rotors).take i).length = i := by
    rw [List.length_take]; omega
  obtain ⟨s2, c2, happ⟩ := start_monitor_loop_append conn (to_uint32 ((timeout : ℤ) - 1))
    ((rd.take or_rotorcraft_max_rotors).take i)
    (r :: (rd.take or_rotorcraft_max_rotors).drop (i + 1)) 0 state true hpre
  rw [← hsplit, hlen, Nat.zero_add,
    start_monitor_loop_emerg conn _ r _ i s2 c2 hd hs he] at happ
  obtain ⟨hev, hsent⟩ := mk_start_monitor_error conn st timeout state rd tv_send _ happ
  exact ⟨hev, _, hsent⟩

theorem mk_start_monitor_emerg_witness :
    (((rotor_emerg_idle :: List.replicate 7 rotor_spinning).take or_rotorcraft_max_rotors)[0]?
          = some rotor_emerg_idle
        ∧ rotor_emerg_idle.state.disabled = false
        ∧ rotor_emerg_idle.state.spinning = false
        ∧ rotor_emerg_idle.state.emerg = true
        ∧ (start_monitor_loop conn_two_links (to_uint32 (((5 : ℕ) : ℤ) - 1))
            (((rotor_emerg_idle :: List.replicate 7 rotor_spinning).take
              or_rotorcraft_max_rotors).take 0) 0 0 true).error = none)
      ∧ (mk_start_monitor conn_two_links sensor_time_nominal 5 0
            (rotor_emerg_idle :: List.replicate 7 rotor_spinning)
            tick_spinning.tv_send).event = genom_event.rotorcraft_e_rotor_failure (1 + 0)
      ∧ ∃ pre, (mk_start_monitor conn_two_links sensor_time_nominal 5 0
            (rotor_emerg_idle :: List.replicate 7 rotor_spinning)
            tick_spinning.tv_send).sent
          = pre ++ conn_two_links.chan.enum.map
              (fun ic => { chan := ic.1, fmt := "x", args := [] }) :=
  ⟨⟨rfl, rfl, rfl, rfl, rfl⟩,
   (mk_start_monitor_emerg conn_two_links sensor_time_nominal 5 0
      (rotor_emerg_idle :: List.replicate 7 rotor_spinning) tick_spinning.tv_send 0
      rotor_emerg_idle rfl rfl rfl rfl rfl).1⟩

/-- C26, as stated, fails: rotor 1 is enabled and has the emerg flag set while
it reports spinning, the other rotors are spinning and the sensor rates are
nominal; `mk_start_monitor` sends nothing and returns the terminal event, not
the rotor_failure error. -/
theorem mk_start_monitor_emerg_counterexample :
    rotor_emerg.state.disabled = false ∧ rotor_emerg.state.emerg = true
      ∧ rotor_emerg.state.spinning = true
      ∧ mk_start_monitor conn_two_links sensor_time_nominal 5 0
          (rotor_emerg :: List.replicate 7 rotor_spinning) tick_spinning.tv_send
        = { event := genom_event.rotorcraft_ether, timeout := 4, state := 0, sent := [] } := by
  have hlow : low_rate sensor_time_nominal = none := by
    norm_num [low_rate, rate_less80p, sensor_time_nominal, rate_init]
  have hscan : start_monitor_loop conn_two_links (to_uint32 (((5 : ℕ) : ℤ) - 1))
      ((rotor_emerg :: List.replicate 7 rotor_spinning).take or_rotorcraft_max_rotors) 0 0 true
      = { error := none, state := 0, complete := true, sent := [] } := by decide
  refine ⟨rfl, rfl, rfl, ?_⟩
  unfold mk_start_monitor
  simp only [hscan, start_monitor_end, hlow]
  rfl

/-- C27 (amended). Start timeout: when the tick counter of `mk_start_monitor`
reaches 0 in a call whose loop returns no rotor error, then, if some enabled
rotor is not yet spinning, the call sends `x` to every link and returns the
system error; if every enabled rotor is spinning but a sensor rate is still
below 80% of nominal, the call sends `x` to every link and returns the rate
error that names the channel; with no low rate it returns the terminal
event. -/
theorem mk_start_monitor_timeout (conn : rotorcraft_conn_s) (st : sensor_time_s)
    (timeout state : ℕ) (rd : List rotor_data_s) (tv_send : timeval)
    (ht : to_uint32 ((timeout : ℤ) - 1) = 0)
    (hscan : (start_monitor_loop conn (to_uint32 ((timeout : ℤ) - 1))
      (rd.take or_rotorcraft_max_rotors) 0 state true).error = none) :
    ((∃ r ∈ rd.take or_rotorcraft_max_rotors,
          r.state.disabled = false ∧ r.state.spinning = false) →
        (mk_start_monitor conn st timeout state rd tv_send).event
            = genom_event.rotorcraft_e_sys
          ∧ ∃ pre, (mk_start_monitor conn st timeout state rd tv_send).sent
              = pre ++ conn.chan.enum.map (fun ic => { chan := ic.1, fmt := "x", args := [] }))
    ∧ ((∀ r ∈ rd.take or_rotorcraft_max_rotors,
          r.state.disabled = true ∨ r.state.spinning = true) →
        (∀ dev, low_rate st = some dev →
          (mk_start_monitor conn st timeout state rd tv_send).event
              = genom_event.rotorcraft_e_rate dev
            ∧ ∃ pre, (mk_start_monitor conn st timeout state rd tv_send).sent
                = pre ++ conn.chan.enum.map
                    (fun ic => { chan := ic.1, fmt := "x", args := [] }))
        ∧ (low_rate st = none →
          (mk_start_monitor conn st timeout state rd tv_send).event
              = genom_event.rotorcraft_ether)) := by
  obtain ⟨hev, hsent⟩ := mk_start_monitor_end conn st timeout state rd tv_send hscan
  rw [ht] at hev hsent
  constructor
  · rintro ⟨r, hr, hd, hs⟩
    have hall : (rd.take or_rotorcraft_max_rotors).all
        (fun r => r.state.disabled || r.state.spinning) = false := by
      rw [List.all_eq_false]
      exact ⟨r, hr, by simp [hd, hs]⟩
    rw [hall] at hev hsent
    simp only [start_monitor_end, Bool.not_false, if_true] at hev hsent
    exact ⟨hev, _, hsent⟩
  · intro h
    have hall : (rd.take or_rotorcraft_max_rotors).all
        (fun r => r.state.disabled || r.state.spinning) = true := by
      rw [List.all_eq_true]
      intro r hr
      rcases h r hr with h1 | h1 <;> simp [h1]
    rw [hall] at hev hsent
    constructor
    · intro dev hl
      simp only [start_monitor_end, Bool.not_true, Bool.false_eq_true, if_false, hl,
        if_true] at hev hsent
      exact ⟨hev, _, hsent⟩
    · intro hl
      simp only [start_monitor_end, Bool.not_true, Bool.false_eq_true, if_false, hl] at hev
      exact hev

theorem mk_start_monitor_timeout_witness :
    (to_uint32 (((1 : ℕ) : ℤ) - 1) = 0
        ∧ (start_monitor_loop conn_two_links (to_uint32 (((1 : ℕ) : ℤ) - 1))
            (rotors_one_starting.take or_rotorcraft_max_rotors) 0 0 true).error = none)
      ∧ (mk_start_monitor conn_two_links sensor_time_nominal 1 0 rotors_one_starting
            tick_spinning.tv_send).event = genom_event.rotorcraft_e_sys
      ∧ ∃ pre, (mk_start_monitor conn_two_links sensor_time_nominal 1 0 rotors_one_starting
            tick_spinning.tv_send).sent
          = pre ++ conn_two_links.chan.enum.map
              (fun ic => { chan := ic.1, fmt := "x", args := [] }) :=
  ⟨⟨by decide, by decide⟩,
   (mk_start_monitor_timeout conn_two_links sensor_time_nominal 1 0 rotors_one_starting
      tick_spinning.tv_send (by decide) (by decide)).1
      ⟨rotor_starting, by decide, rfl, rfl⟩⟩

/-- C27, as stated, fails: every rotor is enabled and spinning, the IMU is
measured at 700 Hz for a nominal rate of 1000 Hz, and the tick counter goes
from 1 to 0; `mk_start_monitor` sends `x` to every link and returns the rate
error "imu", not the system error. -/
theorem mk_start_monitor_timeout_counterexample :
    to_uint32 (((1 : ℕ) : ℤ) - 1) = 0
      ∧ (∀ r ∈ rotors_spinning, r.state.disabled = false ∧ r.state.spinning = true)
      ∧ mk_start_monitor conn_two_links sensor_time_low_imu 1 0 rotors_spinning
          tick_spinning.tv_send
        = { event := genom_event.rotorcraft_e_rate "imu", timeout := 0, state := 0
            sent := conn_two_links.chan.enum.map
              (fun ic => { chan := ic.1, fmt := "x", args := [] }) } := by
  have hlow : low_rate sensor_time_low_imu = some "imu" :=
    low_rate_imu sensor_time_low_imu rfl rfl
  have hscan : start_monitor_loop conn_two_links (to_uint32 (((1 : ℕ) : ℤ) - 1))
      (rotors_spinning.take or_rotorcraft_max_rotors) 0 0 true
      = { error := none, state := 0, complete := true, sent := [] } := by decide
  refine ⟨by decide, by decide, ?_⟩
  unfold mk_start_monitor
  simp only [hscan, start_monitor_end, hlow]
  rfl

/-! ### Received frames -/

theorem mk_comm_recv_msg_motor_eq (chan : mk_channel_s) (msg : List ℕ)
    (cal : imu_calibration_s) (s : comm_state) (tv : timeval) (h : msg.head? = some 77) :
    mk_comm_recv_msg chan msg cal s tv = recv_motor chan msg s tv := by
  unfold mk_comm_recv_msg
  rw [h]
  simp

theorem motor_global_id_eq (chan : mk_channel_s) (b : ℕ)
    (hrange : 1 ≤ chan.minid ∧ chan.minid ≤ chan.maxid
      ∧ chan.maxid ≤ or_rotorcraft_max_rotors) :
    motor_global_id chan (b &&& 15) = (b &&& 15) + chan.minid - 1 := by
  have h15 : b &&& 15 ≤ 15 := Nat.and_le_right
  have h8 : or_rotorcraft_max_rotors = 8 := rfl
  unfold motor_global_id
  omega

theorem motor_index_eq (id : ℕ) (h1 : 1 ≤ id) (h8 : id ≤ or_rotorcraft_max_rotors) :
    motor_index id = id - 1 := by
  have h : or_rotorcraft_max_rotors = 8 := rfl
  unfold motor_index
  omega

theorem recv_motor_accept (chan : mk_channel_s) (msg : List ℕ) (s : comm_state)
    (tv : timeval) (t : ts_s) (r : rotor_data_s) (hmotor : chan.motor = true)
    (hlen : msg.length = 9)
    (hin : ¬ (motor_global_id chan (msg_byte msg 2 &&& 15) < chan.minid
      ∨ chan.maxid < motor_global_id chan (msg_byte msg 2 &&& 15)))
    (ht : s.sensor_time.motor[motor_index (motor_global_id chan (msg_byte msg 2 &&& 15))]?
      = some t)
    (hr : s.rotor_data[motor_index (motor_global_id chan (msg_byte msg 2 &&& 15))]? = some r) :
    recv_motor chan msg s tv
      = if msg_byte msg 1 = t.seq then some s
        else
          some { s with
            sensor_time :=
              { s.sensor_time with
                motor := s.sensor_time.motor.set
                  (motor_index (motor_global_id chan (msg_byte msg 2 &&& 15)))
                  (mk_get_ts (msg_byte msg 1) tv s.sensor_time.rate.motor t
                    s.sensor_time.measured_rate.motor).1
                measured_rate :=
                  { s.sensor_time.measured_rate with
                    motor := (mk_get_ts (msg_byte msg 1) tv s.sensor_time.rate.motor t
                                s.sensor_time.measured_rate.motor).2.2 } }
            rotor_data := s.rotor_data.set
              (motor_index (motor_global_id chan (msg_byte msg 2 &&& 15)))
              (motor_record r msg
                (mk_get_ts (msg_byte msg 1) tv s.sensor_time.rate.motor t
                  s.sensor_time.measured_rate.motor).2.1) } := by
  unfold recv_motor
  rw [if_neg (by rw [hmotor]; decide), if_pos hlen, if_neg hin]
  simp only [ht, hr]

/-- C28 (amended). Motor frame routing: for a 9-byte `M` frame received on a
motor link with range [minid, maxid] inside [1, 8], the global rotor id is
(state & 0x0f) + minid - 1; if it lies outside [minid, maxid] the frame changes
nothing; otherwise the array index id - 1 is within 0..7 and only the rotor
record and the timing channel of that id, and the measured motor rate, are
modified (nothing at all when the sequence byte is the last one of the
channel), with emerg, spinning, starting set from bits 0x80, 0x20, 0x10 of the
state byte, and the published velocity equal to 0 whenever the spinning bit is
clear, whatever the velocity field. -/
theorem mk_comm_recv_msg_motor (chan : mk_channel_s) (msg : List ℕ)
    (cal : imu_calibration_s) (s : comm_state) (tv : timeval)
    (hhead : msg.head? = some 77) (hlen : msg.length = 9) (hmotor : chan.motor = true)
    (hrange : 1 ≤ chan.minid ∧ chan.minid ≤ chan.maxid
      ∧ chan.maxid ≤ or_rotorcraft_max_rotors)
    (hst : s.sensor_time.motor.length = or_rotorcraft_max_rotors)
    (hrd : s.rotor_data.length = or_rotorcraft_max_rotors) :
    motor_global_id chan (msg_byte msg 2 &&& 15) = (msg_byte msg 2 &&& 15) + chan.minid - 1
    ∧ (((msg_byte msg 2 &&& 15) + chan.minid - 1 < chan.minid
          ∨ chan.maxid < (msg_byte msg 2 &&& 15) + chan.minid - 1) →
        mk_comm_recv_msg chan msg cal s tv = some s)
    ∧ (chan.minid ≤ (msg_byte msg 2 &&& 15) + chan.minid - 1 →
        (msg_byte msg 2 &&& 15) + chan.minid - 1 ≤ chan.maxid →
        (msg_byte msg 2 &&& 15) + chan.minid - 1 - 1 < or_rotorcraft_max_rotors
        ∧ ∃ s2, mk_comm_recv_msg chan msg cal s tv = some s2
          ∧ (∀ (k : ℕ), k ≠ (msg_byte msg 2 &&& 15) + chan.minid - 1 - 1 →
              s2.rotor_data[k]? = s.rotor_data[k]?
              ∧ s2.sensor_time.motor[k]? = s.sensor_time.motor[k]?)
          ∧ s2.imu_filter = s.imu_filter ∧ s2.idata = s.idata ∧ s2.mdata = s.mdata
          ∧ s2.battery = s.battery ∧ s2.imu_temp = s.imu_temp
          ∧ s2.sensor_time.imu = s.sensor_time.imu ∧ s2.sensor_time.mag = s.sensor_time.mag
          ∧ s2.sensor_time.battery = s.sensor_time.battery
          ∧ s2.sensor_time.rate = s.sensor_time.rate
          ∧ s2.sensor_time.measured_rate.imu = s.sensor_time.measured_rate.imu
          ∧ s2.sensor_time.measured_rate.mag = s.sensor_time.measured_rate.mag
          ∧ s2.sensor_time.measured_rate.battery = s.sensor_time.measured_rate.battery
          ∧ (∀ t, s.sensor_time.motor[(msg_byte msg 2 &&& 15) + chan.minid - 1 - 1]? = some t →
              msg_byte msg 1 = t.seq → s2 = s)
          ∧ (∀ t r, s.sensor_time.motor[(msg_byte msg 2 &&& 15) + chan.minid - 1 - 1]? = some t →
              s.rotor_data[(msg_byte msg 2 &&& 15) + chan.minid - 1 - 1]? = some r →
              msg_byte msg 1 ≠ t.seq →
              s2.rotor_data[(msg_byte msg 2 &&& 15) + chan.minid - 1 - 1]?
                  = some (motor_record r msg
                      (mk_get_ts (msg_byte msg 1) tv s.sensor_time.rate.motor t
                        s.sensor_time.measured_rate.motor).2.1)
              ∧ s2.sensor_time.motor[(msg_byte msg 2 &&& 15) + chan.minid - 1 - 1]?
                  = some (mk_get_ts (msg_byte msg 1) tv s.sensor_time.rate.motor t
                      s.sensor_time.measured_rate.motor).1
              ∧ s2.sensor_time.measured_rate.motor
                  = (mk_get_ts (msg_byte msg 1) tv s.sensor_time.rate.motor t
                      s.sensor_time.measured_rate.motor).2.2))
    ∧ (∀ (r : rotor_data_s) (ts : or_time_ts),
        (motor_record r msg ts).state.emerg = decide (msg_byte msg 2 &&& 128 ≠ 0)
        ∧ (motor_record r msg ts).state.spinning = decide (msg_byte msg 2 &&& 32 ≠ 0)
        ∧ (motor_record r msg ts).state.starting = decide (msg_byte msg 2 &&& 16 ≠ 0)
        ∧ (msg_byte msg 2 &&& 32 = 0 → (motor_record r msg ts).state.velocity = some 0)
        ∧ (motor_record r msg ts).ts = r.ts ∧ (motor_record r msg ts).wd = r.wd
        ∧ (motor_record r msg ts).clkrate = r.clkrate
        ∧ (motor_record r msg ts).autoconf = r.autoconf) := by
  have hgid := motor_global_id_eq chan (msg_byte msg 2) hrange
  have h8 : or_rotorcraft_max_rotors = 8 := rfl
  refine ⟨hgid, ?_, ?_, ?_⟩
  · intro hout
    rw [mk_comm_recv_msg_motor_eq chan msg cal s tv hhead]
    unfold recv_motor
    rw [if_neg (by rw [hmotor]; decide), if_pos hlen, hgid, if_pos hout]
  · intro h1 h2
    have hidx := motor_index_eq ((msg_byte msg 2 &&& 15) + chan.minid - 1)
      (le_trans hrange.1 h1) (le_trans h2 hrange.2.2)
    have hlt : (msg_byte msg 2 &&& 15) + chan.minid - 1 - 1 < or_rotorcraft_max_rotors := by
      omega
    refine ⟨hlt, ?_⟩
    have hlt1 : (msg_byte msg 2 &&& 15) + chan.minid - 1 - 1 < s.sensor_time.motor.length := by
      rw [hst]; exact hlt
    have hlt2 : (msg_byte msg 2 &&& 15) + chan.minid - 1 - 1 < s.rotor_data.length := by
      rw [hrd]; exact hlt
    have ht := List.getElem?_eq_getElem hlt1
    have hr := List.getElem?_eq_getElem hlt2
    have hin : ¬ (motor_global_id chan (msg_byte msg 2 &&& 15) < chan.minid
        ∨ chan.maxid < motor_global_id chan (msg_byte msg 2 &&& 15)) := by
      rw [hgid]; omega
    have hacc := recv_motor_accept chan msg s tv _ _ hmotor hlen hin
      (by rw [hgid, hidx]; exact ht) (by rw [hgid, hidx]; exact hr)
    rw [hgid, hidx] at hacc
    rw [mk_comm_recv_msg_motor_eq chan msg cal s tv hhead, hacc]
    by_cases hseq : msg_byte msg 1
        = (s.sensor_time.motor[(msg_byte msg 2 &&& 15) + chan.minid - 1 - 1]).seq
    · rw [if_pos hseq]
      refine ⟨s, rfl, fun k _ => ⟨rfl, rfl⟩, rfl, rfl, rfl, rfl, rfl, rfl, rfl, rfl, rfl, rfl,
        rfl, rfl, fun _ _ _ => rfl, ?_⟩
      intro t r ht2 _ hne
      rw [ht] at ht2
      rw [← Option.some.inj ht2] at hne
      exact absurd hseq hne
    · rw [if_neg hseq]
      refine ⟨_, rfl, ?_, rfl, rfl, rfl, rfl, rfl, rfl, rfl, rfl, rfl, rfl, rfl, rfl, ?_, ?_⟩
      · intro k hk
        constructor
        · simp only [List.getElem?_set]
          rw [if_neg (fun h => hk h.symm)]
        · simp only [List.getElem?_set]
          rw [if_neg (fun h => hk h.symm)]
      · intro t ht2 heq
        rw [ht] at ht2
        rw [← Option.some.inj ht2] at heq
        exact absurd heq hseq
      · intro t r ht2 hr2 _
        rw [ht] at ht2
        rw [hr] at hr2
        have e1 := Option.some.inj ht2
        have e2 := Option.some.inj hr2
        subst e1
        subst e2
        refine ⟨?_, ?_, rfl⟩
        · simp only [List.getElem?_set, if_pos trivial, hlt2, if_true]
        · simp only [List.getElem?_set, if_pos trivial, hlt1, if_true]
  · intro r ts
    refine ⟨rfl, rfl, rfl, ?_, rfl, rfl, rfl, rfl⟩
    intro h0
    simp only [motor_record, h0, ne_eq, not_true_eq_false, if_false]
theorem mk_comm_recv_msg_motor_witness :
    (motor_frame.head? = some 77 ∧ motor_frame.length = 9
        ∧ (link_of true true true 1 8).motor = true
        ∧ (1 ≤ (link_of true true true 1 8).minid
            ∧ (link_of true true true 1 8).minid ≤ (link_of true true true 1 8).maxid
            ∧ (link_of true true true 1 8).maxid ≤ or_rotorcraft_max_rotors)
        ∧ comm_state_nominal.sensor_time.motor.length = or_rotorcraft_max_rotors
        ∧ comm_state_nominal.rotor_data.length = or_rotorcraft_max_rotors)
      ∧ motor_global_id (link_of true true true 1 8) (msg_byte motor_frame 2 &&& 15)
        = (msg_byte motor_frame 2 &&& 15) + (link_of true true true 1 8).minid - 1 :=
  ⟨⟨rfl, rfl, rfl, by decide, rfl, rfl⟩,
   (mk_comm_recv_msg_motor (link_of true true true 1 8) motor_frame calibration_init
      comm_state_nominal tick_spinning.tv rfl rfl rfl (by decide) rfl rfl).1⟩

/-- C28, as stated, fails: a motor frame for rotor 1, received on a link that
drives rotors 1 to 8, also changes the measured motor rate of the timing
state, from 100 to 90.001, besides the record and the timing channel of
rotor 1. -/
theorem mk_comm_recv_msg_motor_counterexample :
    motor_frame.head? = some 77 ∧ motor_frame.length = 9
      ∧ (msg_byte motor_frame 2 &&& 15) + (link_of true true true 1 8).minid - 1 = 1
      ∧ comm_state_nominal.sensor_time.measured_rate.motor = 100
      ∧ (mk_comm_recv_msg (link_of true true true 1 8) motor_frame calibration_init
            comm_state_nominal tick_spinning.tv).map
          (fun s => s.sensor_time.measured_rate.motor) = some (90001 / 1000) := by
  have hacc := recv_motor_accept (link_of true true true 1 8) motor_frame comm_state_nominal
    tick_spinning.tv ts_reset rotor_spinning rfl rfl (by decide) (by decide) (by decide)
  have hseq : ¬ msg_byte motor_frame 1 = ts_reset.seq := by decide
  have hrate : (mk_get_ts 1 tick_spinning.tv 100 ts_reset 100).2.2 = 90001 / 1000 := by
    simp only [mk_get_ts, mk_get_ts_rate, arrival, tick_spinning, ts_reset, tsshift]
    norm_num
  refine ⟨rfl, rfl, by decide, rfl, ?_⟩
  rw [mk_comm_recv_msg_motor_eq (link_of true true true 1 8) motor_frame calibration_init
    comm_state_nominal tick_spinning.tv rfl, hacc, if_neg hseq, Option.map_some']
  exact congrArg some hrate
/-- C29. Duplicate-sequence drop: an IMU, magnetometer or motor frame whose
sequence byte equals the last sequence recorded for its channel leaves the
whole state as it is: timing state, measured rates, filter state, published
records and rotor records (so also the disabled flag of an autoconf rotor).
The motor link has its range inside [1, 8] and the arrays have 8 elements. -/
theorem mk_comm_recv_msg_duplicate (chan : mk_channel_s) (msg : List ℕ)
    (cal : imu_calibration_s) (s : comm_state) (tv : timeval)
    (hrange : chan.motor = true →
      1 ≤ chan.minid ∧ chan.minid ≤ chan.maxid ∧ chan.maxid ≤ or_rotorcraft_max_rotors)
    (hst : s.sensor_time.motor.length = or_rotorcraft_max_rotors)
    (hrd : s.rotor_data.length = or_rotorcraft_max_rotors) :
    (msg.head? = some 73 → msg_byte msg 1 = s.sensor_time.imu.seq →
        mk_comm_recv_msg chan msg cal s tv = some s)
    ∧ (msg.head? = some 67 → msg_byte msg 1 = s.sensor_time.mag.seq →
        mk_comm_recv_msg chan msg cal s tv = some s)
    ∧ (msg.head? = some 77 →
        (∀ t, s.sensor_time.motor[(msg_byte msg 2 &&& 15) + chan.minid - 1 - 1]? = some t →
          msg_byte msg 1 = t.seq) →
        mk_comm_recv_msg chan msg cal s tv = some s) := by
  refine ⟨?_, ?_, ?_⟩
  · intro hhead hseq
    unfold mk_comm_recv_msg
    rw [if_pos hhead]
    unfold recv_imu
    rw [if_pos hseq]
    simp
  · intro hhead hseq
    unfold mk_comm_recv_msg
    rw [hhead]
    simp only [Option.some.injEq, Nat.reduceEqDiff, if_false, if_true]
    unfold recv_mag
    rw [if_pos hseq]
    simp
  · intro hhead hseq
    rw [mk_comm_recv_msg_motor_eq chan msg cal s tv hhead]
    by_cases hmotor : chan.motor = true
    · by_cases hlen : msg.length = 9
      · have hr := hrange hmotor
        have hgid := motor_global_id_eq chan (msg_byte msg 2) hr
        have h8 : or_rotorcraft_max_rotors = 8 := rfl
        by_cases hout : (msg_byte msg 2 &&& 15) + chan.minid - 1 < chan.minid
            ∨ chan.maxid < (msg_byte msg 2 &&& 15) + chan.minid - 1
        · unfold recv_motor
          rw [if_neg (by rw [hmotor]; decide), if_pos hlen, hgid, if_pos hout]
        · have hidx := motor_index_eq ((msg_byte msg 2 &&& 15) + chan.minid - 1)
            (by omega) (by omega)
          have hlt1 : (msg_byte msg 2 &&& 15) + chan.minid - 1 - 1
              < s.sensor_time.motor.length := by rw [hst]; omega
          have hlt2 : (msg_byte msg 2 &&& 15) + chan.minid - 1 - 1 < s.rotor_data.length := by
            rw [hrd]; omega
          have ht := List.getElem?_eq_getElem hlt1
          have hrr := List.getElem?_eq_getElem hlt2
          have hacc := recv_motor_accept chan msg s tv _ _ hmotor hlen
            (by rw [hgid]; exact hout) (by rw [hgid, hidx]; exact ht)
            (by rw [hgid, hidx]; exact hrr)
          rw [hacc, if_pos (hseq _ ht)]
      · unfold recv_motor
        rw [if_neg (by rw [hmotor]; decide), if_neg hlen]
    · unfold recv_motor
      rw [if_pos (by simpa using hmotor)]

theorem mk_comm_recv_msg_duplicate_witness :
    (((link_of true true true 1 8).motor = true →
          1 ≤ (link_of true true true 1 8).minid
          ∧ (link_of true true true 1 8).minid ≤ (link_of true true true 1 8).maxid
          ∧ (link_of true true true 1 8).maxid ≤ or_rotorcraft_max_rotors)
        ∧ comm_state_nominal.sensor_time.motor.length = or_rotorcraft_max_rotors
        ∧ comm_state_nominal.rotor_data.length = or_rotorcraft_max_rotors)
      ∧ mk_comm_recv_msg (link_of true true true 1 8) [77, 0, 33, 0, 100, 0, 0, 0, 0]
          calibration_init comm_state_nominal tick_spinning.tv = some comm_state_nominal :=
  ⟨⟨fun _ => by decide, rfl, rfl⟩,
   (mk_comm_recv_msg_duplicate (link_of true true true 1 8) [77, 0, 33, 0, 100, 0, 0, 0, 0]
      calibration_init comm_state_nominal tick_spinning.tv (fun _ => by decide) rfl rfl).2.2
      rfl
      (fun t ht => by
        have h0 : comm_state_nominal.sensor_time.motor[
            (msg_byte [77, 0, 33, 0, 100, 0, 0, 0, 0] 2 &&& 15)
              + (link_of true true true 1 8).minid - 1 - 1]? = some ts_reset := by decide
        rw [h0] at ht
        rw [← Option.some.inj ht]
        rfl)⟩

theorem be_int16_signed (hi lo : ℕ) (h1 : hi < 256) (h2 : lo < 256) :
    be_int16 hi lo
      = if hi < 128 then (hi : ℤ) * 256 + (lo : ℤ) else (hi : ℤ) * 256 + (lo : ℤ) - 65536 := by
  unfold be_int16 to_int16
  split_ifs with h
  · omega
  · omega

/-- C30. Magnetometer double bias: for every accepted magnetometer frame (on a
link with the mag capability, 8 bytes long, with a new sequence byte) with raw
counts `c`, the signed big-endian 16-bit integers of the frame, the calibrated
input stored in the filter state is `m = mscale * (c * mres + 2 * mbias)`: the
bias is added once to the raw sample and once more by `rc_filter_imu_data`
before the scale matrix is applied. -/
theorem mk_comm_recv_msg_mag (chan : mk_channel_s) (msg : List ℕ)
    (cal : imu_calibration_s) (s : comm_state) (tv : timeval)
    (hhead : msg.head? = some 67) (hlen : msg.length = 8) (hmag : chan.mag = true)
    (hseq : msg_byte msg 1 ≠ s.sensor_time.mag.seq) :
    (∃ s2, mk_comm_recv_msg chan msg cal s tv = some s2
      ∧ ∀ i : Fin 3, s2.imu_filter.m i
          = some (scale_at cal.mscale i 0
                    * ((be_int16 (msg_byte msg 2) (msg_byte msg 3) : ℚ)
                        * (rc_devices chan.device).mres + 2 * cal.mbias 0)
                  + scale_at cal.mscale i 1
                    * ((be_int16 (msg_byte msg 4) (msg_byte msg 5) : ℚ)
                        * (rc_devices chan.device).mres + 2 * cal.mbias 1)
                  + scale_at cal.mscale i 2
                    * ((be_int16 (msg_byte msg 6) (msg_byte msg 7) : ℚ)
                        * (rc_devices chan.device).mres + 2 * cal.mbias 2)))
    ∧ (∀ hi lo : ℕ, hi < 256 → lo < 256 →
        be_int16 hi lo
          = if hi < 128 then (hi : ℤ) * 256 + (lo : ℤ)
            else (hi : ℤ) * 256 + (lo : ℤ) - 65536) := by
  refine ⟨?_, be_int16_signed⟩
  refine ⟨recv_mag chan msg cal s tv, ?_, ?_⟩
  · unfold mk_comm_recv_msg
    rw [hhead]
    simp only [Option.some.injEq, Nat.reduceEqDiff, if_false, if_true]
  · intro i
    unfold recv_mag
    rw [if_neg (by rw [hmag]; decide), if_pos hlen, if_neg hseq]
    simp only [rc_filter_imu_data, rc_filter_imu_in, mag_sample, Option.some.injEq]
    simp only [Fin.val_zero, Fin.val_one, Fin.val_two, Nat.mul_zero, Nat.mul_one, Nat.add_zero]
    ring

theorem mk_comm_recv_msg_mag_witness :
    (([67, 1, 0, 100, 255, 156, 0, 0] : List ℕ).head? = some 67
        ∧ ([67, 1, 0, 100, 255, 156, 0, 0] : List ℕ).length = 8
        ∧ (link_of true true true 1 8).mag = true
        ∧ msg_byte [67, 1, 0, 100, 255, 156, 0, 0] 1 ≠ comm_state_nominal.sensor_time.mag.seq)
      ∧ ∃ s2, mk_comm_recv_msg (link_of true true true 1 8) [67, 1, 0, 100, 255, 156, 0, 0]
            calibration_init comm_state_nominal tick_spinning.tv = some s2
          ∧ s2.imu_filter.m 1
            = some (scale_at calibration_init.mscale 1 0
                      * ((be_int16 (msg_byte [67, 1, 0, 100, 255, 156, 0, 0] 2)
                            (msg_byte [67, 1, 0, 100, 255, 156, 0, 0] 3) : ℚ)
                          * (rc_devices (link_of true true true 1 8).device).mres
                          + 2 * calibration_init.mbias 0)
                    + scale_at calibration_init.mscale 1 1
                      * ((be_int16 (msg_byte [67, 1, 0, 100, 255, 156, 0, 0] 4)
                            (msg_byte [67, 1, 0, 100, 255, 156, 0, 0] 5) : ℚ)
                          * (rc_devices (link_of true true true 1 8).device).mres
                          + 2 * calibration_init.mbias 1)
                    + scale_at calibration_init.mscale 1 2
                      * ((be_int16 (msg_byte [67, 1, 0, 100, 255, 156, 0, 0] 6)
                            (msg_byte [67, 1, 0, 100, 255, 156, 0, 0] 7) : ℚ)
                          * (rc_devices (link_of true true true 1 8).device).mres
                          + 2 * calibration_init.mbias 2)) :=
  ⟨⟨rfl, rfl, rfl, by decide⟩,
   (mk_comm_recv_msg_mag (link_of true true true 1 8) [67, 1, 0, 100, 255, 156, 0, 0]
      calibration_init comm_state_nominal tick_spinning.tv rfl rfl rfl (by decide)).1.imp
      (fun _ h => ⟨h.1, h.2 1⟩)⟩


/-! ### Bounded lag of the reconstructed time -/

/-- C35. Bounded lag of the reconstructed time: for every channel state,
sequence byte, nominal rate and arrival time, the time from which `mk_get_ts`
makes its timestamp (the final `ats`, before `tsshift` is added again) is at
most the arrival time and at least the arrival time minus 5 ms, and the state
stored by the call has `offset = ts - ` that time (so that `ts - offset` is the
emitted time). -/
theorem mk_get_ts_bounded_lag (seq : ℕ) (atv : timeval) (rate : ℚ) (t : ts_s) (lp : ℚ) :
    (mk_get_ts seq atv rate t lp).2.1 = ts_of_time (mk_get_ts_time seq atv rate t lp)
      ∧ arrival atv - 5 / 1000 ≤ mk_get_ts_time seq atv rate t lp
      ∧ mk_get_ts_time seq atv rate t lp ≤ arrival atv
      ∧ (∃ o, (mk_get_ts seq atv rate t lp).1.offset = some o
          ∧ (mk_get_ts seq atv rate t lp).1.ts - o = mk_get_ts_time seq atv rate t lp) := by
  have h := mk_get_ts_sync_spec seq (arrival atv) rate (mk_get_ts_rate (arrival atv) t lp).1
  refine ⟨rfl, h.2.2, h.2.1, _, h.1, ?_⟩
  show (mk_get_ts_sync seq (arrival atv) rate (mk_get_ts_rate (arrival atv) t lp).1).1.ts
      - ((mk_get_ts_sync seq (arrival atv) rate (mk_get_ts_rate (arrival atv) t lp).1).1.ts
        - (mk_get_ts_sync seq (arrival atv) rate (mk_get_ts_rate (arrival atv) t lp).1).2)
    = (mk_get_ts_sync seq (arrival atv) rate (mk_get_ts_rate (arrival atv) t lp).1).2
  ring

/-! ### Range of the velocity encoding -/

theorem velocity_period_abs (w : ℚ) : |velocity_period w| ≤ 32767 + 1 / 2 := by
  unfold velocity_period
  by_cases h : |w| < 1000000 / 65535
  · rw [if_pos h]
    by_cases hw : w < 0
    · rw [if_pos hw]; norm_num [abs_of_neg]
    · rw [if_neg hw]; norm_num [abs_of_pos]
  · rw [if_neg h]
    have hge : (1000000 : ℚ) / 65535 ≤ |w| := not_lt.mp h
    have hpos : (0 : ℚ) < |w| := lt_of_lt_of_le (by norm_num) hge
    rw [abs_div, abs_of_pos (by norm_num : (0 : ℚ) < 500000), div_le_iff₀ hpos]
    calc (500000 : ℚ) = (32767 + 1 / 2) * (1000000 / 65535) := by norm_num
      _ ≤ (32767 + 1 / 2) * |w| := mul_le_mul_of_nonneg_left hge (by norm_num)

/-- C39. Velocity encoding fits 16 bits: for every commanded velocity w (a
rational, NaN being replaced by 0 before), the half-period that
`mk_set_velocity` computes has an integer part within -32767 .. 32767, so that
its storage in an `int16_t` keeps it; so has the element `p[i]` of every rotor
record and command. At `w = 1e6/65535` the half-period `1e6/2/w` is 32767.5
and is truncated to 32767 (and to -32767 at the opposite velocity). -/
theorem velocity_period_fits_int16 (w : ℚ) :
    -32767 ≤ dbl_to_int (velocity_period w) ∧ dbl_to_int (velocity_period w) ≤ 32767
      ∧ to_int16 (dbl_to_int (velocity_period w)) = dbl_to_int (velocity_period w)
      ∧ (∀ (r : rotor_data_s) (d : Option ℚ),
          velocity_p r d = dbl_to_int (velocity_period (velocity_wd r d))
            ∧ -32767 ≤ velocity_p r d ∧ velocity_p r d ≤ 32767)
      ∧ velocity_period (1000000 / 65535) = 1000000 / 2 / (1000000 / 65535)
      ∧ velocity_period (1000000 / 65535) = 32767 + 1 / 2
      ∧ dbl_to_int (velocity_period (1000000 / 65535)) = 32767
      ∧ velocity_period (-(1000000 / 65535)) = -(32767 + 1 / 2)
      ∧ dbl_to_int (velocity_period (-(1000000 / 65535))) = -32767 := by
  have hb : ∀ q : ℚ, -32767 ≤ dbl_to_int (velocity_period q)
      ∧ dbl_to_int (velocity_period q) ≤ 32767 := by
    intro q
    have h := abs_le.mp (velocity_period_abs q)
    exact dbl_to_int_bounds (velocity_period q) 32767 (by norm_num)
      (by push_cast; linarith [h.1]) (by push_cast; linarith [h.2])
  have hfit : ∀ q : ℚ, to_int16 (dbl_to_int (velocity_period q))
      = dbl_to_int (velocity_period q) := fun q =>
    to_int16_of_range _ (by linarith [(hb q).1]) (hb q).2
  have hp : velocity_period (1000000 / 65535) = 32767 + 1 / 2 := by
    unfold velocity_period
    rw [if_neg (by norm_num [abs_of_pos])]
    norm_num
  have hn : velocity_period (-(1000000 / 65535)) = -(32767 + 1 / 2) := by
    unfold velocity_period
    rw [if_neg (by norm_num [abs_of_pos])]
    norm_num
  refine ⟨(hb w).1, (hb w).2, hfit w, ?_, ?_, hp, ?_, hn, ?_⟩
  · intro r d
    have e : velocity_p r d = dbl_to_int (velocity_period (velocity_wd r d)) := hfit _
    exact ⟨e, by rw [e]; exact (hb _).1, by rw [e]; exact (hb _).2⟩
  · rw [hp]; norm_num
  · rw [hp]
    unfold dbl_to_int
    rw [if_pos (by norm_num)]
    rw [Int.floor_eq_iff]
    constructor <;> norm_num
  · rw [hn]
    unfold dbl_to_int
    rw [if_neg (by norm_num)]
    have : ⌊-(-(32767 + 1 / 2 : ℚ))⌋ = 32767 := by
      rw [Int.floor_eq_iff]
      constructor <;> norm_num
    rw [this]


/-! ### Servo scale invariant -/

theorem servo_rotor_check_not_pause (l : List rotor_data_s) (k : ℕ) (e : genom_event)
    (h : servo_rotor_check l k = some e) : e ≠ genom_event.rotorcraft_pause_main := by
  obtain ⟨i, r, _, _, he | he⟩ := servo_rotor_check_some l k e h
  · rw [he]; exact fun h => by cases h
  · rw [he]; exact fun h => by cases h

/-- A call of `mk_servo_main` that returns the pause event has passed the
watchdogs with a scale that is not negative and not above the scale on entry,
and has ended with the ramp and send steps at that scale. -/
theorem mk_servo_main_pause (period_ms : ℕ) (conn : Option rotorcraft_conn_s)
    (st : sensor_time_s) (rd : List rotor_data_s) (ri : rotorcraft_rotor_input)
    (servo : servo_s) (scale : ℚ) (tv tv_send : timeval)
    (h0 : 0 ≤ scale) (hr : 0 < servo.ramp)
    (hev : (mk_servo_main period_ms conn st rd ri servo scale tv tv_send).event
      = genom_event.rotorcraft_pause_main) :
    ∃ c input s2, conn = some c ∧ ri.data = some input ∧ 0 ≤ s2 ∧ s2 ≤ scale
      ∧ mk_servo_main period_ms conn st rd ri servo scale tv tv_send
        = servo_ramp_send period_ms c rd input servo s2 tv_send := by
  have hstep : (0 : ℚ) ≤ 2 / 1000 * (period_ms : ℚ) / servo.ramp := by positivity
  have hchk := servo_rotor_check_not_pause (rd.take or_rotorcraft_max_rotors) 0
  cases conn with
  | none => simp [mk_servo_main] at hev
  | some c =>
    cases hread : ri.read_fails with
    | true => simp [mk_servo_main, hread] at hev
    | false =>
      cases hin : ri.data with
      | none => simp [mk_servo_main, hread, hin] at hev
      | some input =>
        refine ⟨c, input, ?_⟩
        unfold mk_servo_main at hev ⊢
        simp only [hread, hin, Bool.false_eq_true, if_false] at hev ⊢
        generalize decide (1 / 2 + ts_secs input.ts < timeval_secs tv) = stale at hev ⊢
        generalize low_rate st = lr at hev ⊢
        generalize servo_rotor_check (rd.take or_rotorcraft_max_rotors) 0 = chk at hev hchk ⊢
        generalize 2 / 1000 * (period_ms : ℚ) / servo.ramp = step at hev hstep ⊢
        cases stale
        · cases lr with
          | none =>
            cases chk with
            | none => exact ⟨scale, trivial, trivial, h0, le_refl _, by simp⟩
            | some e => exact absurd (by simpa using hev) (hchk e rfl)
          | some dev =>
            by_cases h2 : scale - step < 0
            · simp [h2] at hev
            · cases chk with
              | none =>
                exact ⟨scale - step, trivial, trivial, not_lt.mp h2, by linarith, by simp [h2]⟩
              | some e => exact absurd (by simpa [h2] using hev) (hchk e rfl)
        · by_cases h1 : scale - step < 0
          · simp [h1] at hev
          · cases lr with
            | none =>
              cases chk with
              | none =>
                exact ⟨scale - step, trivial, trivial, not_lt.mp h1, by linarith, by simp [h1]⟩
              | some e => exact absurd (by simpa [h1] using hev) (hchk e rfl)
            | some dev =>
              by_cases h2 : scale - step - step < 0
              · simp [h1, h2] at hev
              · cases chk with
                | none =>
                  exact ⟨scale - step - step, trivial, trivial, not_lt.mp h2, by linarith,
                    by simp [h1, h2]⟩
                | some e => exact absurd (by simpa [h1, h2] using hev) (hchk e rfl)

/-- The ramp and send steps keep a scale of [0, 1] in [0, 1] and dispatch the
input multiplied by the scale. -/
theorem servo_ramp_send_factor (period_ms : ℕ) (conn : rotorcraft_conn_s)
    (rd : List rotor_data_s) (input : or_rotorcraft_input) (servo : servo_s) (s : ℚ)
    (tv : timeval) (h0 : 0 ≤ s) (h1 : s ≤ 1) (hr : 0 < servo.ramp) :
    0 ≤ (servo_ramp_send period_ms conn rd input servo s tv).scale
      ∧ (servo_ramp_send period_ms conn rd input servo s tv).scale ≤ 1
      ∧ (servo_ramp_send period_ms conn rd input servo s tv).sent
        = (servo_send conn rd input.control
            (input.desired.map (Option.map (fun x => x * s))) tv).sent
      ∧ (servo_ramp_send period_ms conn rd input servo s tv).rotor_data
        = (servo_send conn rd input.control
            (input.desired.map (Option.map (fun x => x * s))) tv).rotor_data := by
  have hstep : (0 : ℚ) ≤ 1 / 1000 * (period_ms : ℚ) / servo.ramp := by positivity
  have hdes : (if s < 1 then input.desired.map (Option.map (fun x => x * s)) else input.desired)
      = input.desired.map (Option.map (fun x => x * s)) := by
    by_cases hs : s < 1
    · rw [if_pos hs]
    · rw [if_neg hs]
      have : s = 1 := le_antisymm h1 (not_lt.mp hs)
      rw [this]
      have hid : (Option.map (fun x : ℚ => x * 1)) = id := by
        funext o
        cases o <;> simp
      rw [hid, List.map_id]
  refine ⟨?_, ?_, ?_, ?_⟩
  · show 0 ≤ (if s < 1 then
        if servo_rampup rd input.desired.length = true then
          (if 1 < s + 1 / 1000 * (period_ms : ℚ) / servo.ramp then 1
           else s + 1 / 1000 * (period_ms : ℚ) / servo.ramp)
        else s
      else s)
    split_ifs <;> linarith
  · show (if s < 1 then
        if servo_rampup rd input.desired.length = true then
          (if 1 < s + 1 / 1000 * (period_ms : ℚ) / servo.ramp then 1
           else s + 1 / 1000 * (period_ms : ℚ) / servo.ramp)
        else s
      else s) ≤ 1
    split_ifs <;> linarith
  · unfold servo_ramp_send servo_send
    simp only [hdes]
  · unfold servo_ramp_send servo_send
    simp only [hdes]

/-- Along a run of the servo from a scale of [0, 1], every call that returns
the pause event leaves a scale of [0, 1] and has dispatched the input of its
tick multiplied by a factor of [0, 1]. -/
theorem mk_servo_calls_factor (period_ms : ℕ) (conn : Option rotorcraft_conn_s)
    (servo : servo_s) (hr : 0 < servo.ramp) (ticks : List servo_tick) :
    ∀ (scale : ℚ), 0 ≤ scale → scale ≤ 1 → ∀ (k : ℕ) (r : servo_result),
      (mk_servo_calls period_ms conn servo scale ticks)[k]? = some r →
      r.event = genom_event.rotorcraft_pause_main →
      0 ≤ r.scale ∧ r.scale ≤ 1
        ∧ ∃ c t input f, conn = some c ∧ ticks[k]? = some t
          ∧ t.rotor_input.data = some input ∧ 0 ≤ f ∧ f ≤ 1
          ∧ r.sent = (servo_send c t.rotor_data input.control
              (input.desired.map (Option.map (fun x => x * f))) t.tv_send).sent := by
  induction ticks with
  | nil => intro scale _ _ k r h; simp [mk_servo_calls] at h
  | cons t ts ih =>
    intro scale h0 h1 k r h hev
    have hstep : (mk_servo_main period_ms conn t.sensor_time t.rotor_data t.rotor_input servo
        scale t.tv t.tv_send).event = genom_event.rotorcraft_pause_main →
        0 ≤ (mk_servo_main period_ms conn t.sensor_time t.rotor_data t.rotor_input servo
          scale t.tv t.tv_send).scale
        ∧ (mk_servo_main period_ms conn t.sensor_time t.rotor_data t.rotor_input servo
          scale t.tv t.tv_send).scale ≤ 1
        ∧ ∃ c input f, conn = some c ∧ t.rotor_input.data = some input ∧ 0 ≤ f ∧ f ≤ 1
          ∧ (mk_servo_main period_ms conn t.sensor_time t.rotor_data t.rotor_input servo
              scale t.tv t.tv_send).sent
            = (servo_send c t.rotor_data input.control
              (input.desired.map (Option.map (fun x => x * f))) t.tv_send).sent := by
      intro he
      obtain ⟨c, input, s2, hc, hin, hs0, hs1, heq⟩ :=
        mk_servo_main_pause period_ms conn t.sensor_time t.rotor_data t.rotor_input servo
          scale t.tv t.tv_send h0 hr he
      have hf := servo_ramp_send_factor period_ms c t.rotor_data input servo s2 t.tv_send
        hs0 (le_trans hs1 h1) hr
      rw [heq]
      exact ⟨hf.1, hf.2.1, c, input, s2, hc, hin, hs0, le_trans hs1 h1, hf.2.2.1⟩
    unfold mk_servo_calls at h
    by_cases he : (mk_servo_main period_ms conn t.sensor_time t.rotor_data t.rotor_input servo
        scale t.tv t.tv_send).event = genom_event.rotorcraft_pause_main
    · rw [if_pos he] at h
      obtain ⟨hp0, hp1, c, input, f, hc, hin, hf0, hf1, hsent⟩ := hstep he
      cases k with
      | zero =>
        simp only [List.getElem?_cons_zero, Option.some.injEq] at h
        rw [← h]
        exact ⟨hp0, hp1, c, t, input, f, hc, List.getElem?_cons_zero, hin, hf0, hf1, hsent⟩
      | succ j =>
        simp only [List.getElem?_cons_succ] at h ⊢
        exact ih _ hp0 hp1 j r h hev
    · rw [if_neg he] at h
      cases k with
      | zero =>
        simp only [List.getElem?_cons_zero, Option.some.injEq] at h
        rw [← h] at hev
        exact absurd hev he
      | succ j => simp at h

/-- C36. Servo scale invariant: if the scale is in [0, 1] and the ramp is
positive on entry, a call of `mk_servo_main` that returns the pause event
leaves the scale in [0, 1], and the command it has dispatched is the input
multiplied by a factor of [0, 1]. Hence, in a run that begins with the scale
set by `mk_servo_start`, every call that returns the pause event leaves the
scale in [0, 1] and has dispatched the input of its tick multiplied by a
factor of [0, 1]. -/
theorem mk_servo_main_scale_invariant (period_ms : ℕ) (conn : Option rotorcraft_conn_s)
    (st : sensor_time_s) (rd : List rotor_data_s) (ri : rotorcraft_rotor_input)
    (servo : servo_s) (scale : ℚ) (tv tv_send : timeval)
    (h0 : 0 ≤ scale) (h1 : scale ≤ 1) (hr : 0 < servo.ramp) :
    ((mk_servo_main period_ms conn st rd ri servo scale tv tv_send).event
        = genom_event.rotorcraft_pause_main →
      0 ≤ (mk_servo_main period_ms conn st rd ri servo scale tv tv_send).scale
        ∧ (mk_servo_main period_ms conn st rd ri servo scale tv tv_send).scale ≤ 1
        ∧ ∃ c input f, conn = some c ∧ ri.data = some input ∧ 0 ≤ f ∧ f ≤ 1
          ∧ (mk_servo_main period_ms conn st rd ri servo scale tv tv_send).sent
            = (servo_send c rd input.control
                (input.desired.map (Option.map (fun x => x * f))) tv_send).sent)
      ∧ (∀ (ticks : List servo_tick) (k : ℕ) (r : servo_result),
          (mk_servo_calls period_ms conn servo mk_servo_start.1 ticks)[k]? = some r →
          r.event = genom_event.rotorcraft_pause_main →
          0 ≤ r.scale ∧ r.scale ≤ 1
            ∧ ∃ c t input f, conn = some c ∧ ticks[k]? = some t
              ∧ t.rotor_input.data = some input ∧ 0 ≤ f ∧ f ≤ 1
              ∧ r.sent = (servo_send c t.rotor_data input.control
                  (input.desired.map (Option.map (fun x => x * f))) t.tv_send).sent) := by
  constructor
  · intro he
    obtain ⟨c, input, s2, hc, hin, hs0, hs1, heq⟩ :=
      mk_servo_main_pause period_ms conn st rd ri servo scale tv tv_send h0 hr he
    have hf := servo_ramp_send_factor period_ms c rd input servo s2 tv_send
      hs0 (le_trans hs1 h1) hr
    rw [heq]
    exact ⟨hf.1, hf.2.1, c, input, s2, hc, hin, hs0, le_trans hs1 h1, hf.2.2.1⟩
  · intro ticks k r h hev
    exact mk_servo_calls_factor period_ms conn servo hr ticks mk_servo_start.1
      (le_refl _) (by norm_num [mk_servo_start]) k r h hev

theorem mk_servo_main_scale_invariant_witness :
    (0 : ℚ) ≤ 1 / 2 ∧ (1 / 2 : ℚ) ≤ 1 ∧ (0 : ℚ) < 1
      ∧ (mk_servo_main 1 (some conn_two_links) tick_spinning.sensor_time
          tick_spinning.rotor_data tick_spinning.rotor_input { timeout := 30, ramp := 1 }
          (1 / 2) tick_spinning.tv tick_spinning.tv_send).event
        = genom_event.rotorcraft_pause_main
      ∧ 0 ≤ (mk_servo_main 1 (some conn_two_links) tick_spinning.sensor_time
          tick_spinning.rotor_data tick_spinning.rotor_input { timeout := 30, ramp := 1 }
          (1 / 2) tick_spinning.tv tick_spinning.tv_send).scale
      ∧ (mk_servo_main 1 (some conn_two_links) tick_spinning.sensor_time
          tick_spinning.rotor_data tick_spinning.rotor_input { timeout := 30, ramp := 1 }
          (1 / 2) tick_spinning.tv tick_spinning.tv_send).scale ≤ 1 := by
  have hev : (mk_servo_main 1 (some conn_two_links) tick_spinning.sensor_time
      tick_spinning.rotor_data tick_spinning.rotor_input { timeout := 30, ramp := 1 }
      (1 / 2) tick_spinning.tv tick_spinning.tv_send).event
      = genom_event.rotorcraft_pause_main := by
    rw [mk_servo_main_nominal 1 conn_two_links { timeout := 30, ramp := 1 } tick_spinning
      input_velocity (1 / 2) tick_spinning_nominal rfl]
    rfl
  have h := (mk_servo_main_scale_invariant 1 (some conn_two_links) tick_spinning.sensor_time
    tick_spinning.rotor_data tick_spinning.rotor_input { timeout := 30, ramp := 1 }
    (1 / 2) tick_spinning.tv tick_spinning.tv_send (by norm_num) (by norm_num)
    (by norm_num)).1 hev
  exact ⟨by norm_num, by norm_num, by norm_num, hev, h.1, h.2.1⟩


/-! ### Links without motors in the command dispatch -/

theorem opened_ok_chan_opened (d i : ℕ) : opened_ok (Except.ok (chan_opened d i)) := by
  intro c h
  cases h
  show (0 : ℤ) ≤ 4
  norm_num

theorem conn_motorless_built :
    mk_pconnect_start (Except.ok (chan_opened 1 2)) false false false 0
        (mk_connect_start (Except.ok (chan_opened 1 1)) { chan := [] } sensor_time_nominal).conn
        sensor_time_nominal
      = some (configure_streaming genom_event.rotorcraft_ether conn_motorless
          sensor_time_nominal) := by
  rfl

theorem conn_reachable_motorless : conn_reachable conn_motorless := by
  have h1 : conn_reachable
      (mk_connect_start (Except.ok (chan_opened 1 1)) { chan := [] } sensor_time_nominal).conn :=
    conn_reachable.connect _ _ _ conn_reachable.empty (opened_ok_chan_opened 1 1)
  exact conn_reachable.pconnect (Except.ok (chan_opened 1 2)) false false false 0 _
    sensor_time_nominal _ h1 (opened_ok_chan_opened 1 2) (by norm_num) conn_motorless_built

/-- The frame that the send loop makes for the second link of `conn_motorless`:
one element, read at the index -1 of `p`. -/
theorem dispatch_motorless (fmt : String) (p : List ℤ) (l : ℕ) (hl : 1 ≤ l) :
    ({ chan := 1, fmt := fmt, args := [msg_arg.arr [read_p p (-1)]] } : sent_msg)
      ∈ dispatch fmt conn_motorless p l := by
  have hc : dispatch_count l (chan_opened 1 2) = 1 := by
    unfold dispatch_count
    rw [if_neg (by simp [chan_opened]; omega)]
    simp [chan_opened, to_uint32]
  unfold dispatch
  rw [List.mem_filterMap]
  refine ⟨(1, chan_opened 1 2), by simp [conn_motorless, List.enum, List.enumFrom], ?_⟩
  have hm : (chan_opened 1 2).minid = 0 := rfl
  simp [hm, hc, List.range_succ]

theorem read_p_neg (p : List ℤ) : read_p p (-1) = none := by
  simp [read_p]

/-- C33. What the command dispatch does where the claim fails. The connection
`conn_motorless` is built by `connect` on a first device and `pconnect` on a
second device with motor = false, whose link gets `minid = maxid = 0`. For
every rotor array and every command of length l >= 1, `mk_set_velocity` and
`mk_set_throttle` pass to that link one element, read at the index -1 of the
array `p` of encoded commands, which is outside of [0, l). For the single
velocity 100 the frames are `[5000]` for the first link and the element read
at -1 for the second. -/
theorem dispatch_motorless_out_of_bounds :
    conn_reachable conn_motorless
      ∧ (∀ (rotor_data : List rotor_data_s) (desired : or_rotorcraft_rotor_control)
          (tv : timeval), 1 ≤ desired.length →
          ({ chan := 1, fmt := "w%@"
             args := [msg_arg.arr [read_p (List.zipWith velocity_p rotor_data desired) (-1)]] }
              : sent_msg) ∈ (mk_set_velocity conn_motorless rotor_data desired tv).sent
          ∧ read_p (List.zipWith velocity_p rotor_data desired) (-1) = none
          ∧ ({ chan := 1, fmt := "q%@"
               args := [msg_arg.arr [read_p (List.zipWith throttle_p rotor_data desired) (-1)]] }
              : sent_msg) ∈ (mk_set_throttle conn_motorless rotor_data desired tv).sent
          ∧ read_p (List.zipWith throttle_p rotor_data desired) (-1) = none)
      ∧ (mk_set_velocity conn_motorless rotors_spinning [some 100] tick_spinning.tv).sent
          = [{ chan := 0, fmt := "w%@", args := [msg_arg.arr [some 5000]] },
             { chan := 1, fmt := "w%@", args := [msg_arg.arr [none]] }] := by
  refine ⟨conn_reachable_motorless, ?_, ?_⟩
  · intro rotor_data desired tv hl
    have hne : ¬ desired.length = 0 := by omega
    refine ⟨?_, read_p_neg _, ?_, read_p_neg _⟩
    · unfold mk_set_velocity
      rw [if_neg hne]
      exact dispatch_motorless "w%@" _ _ hl
    · unfold mk_set_throttle
      rw [if_neg hne]
      exact dispatch_motorless "q%@" _ _ hl
  · have hv : velocity_p rotor_spinning (some 100) = 5000 := by
      have hw : velocity_wd rotor_spinning (some 100) = 100 := by
        simp [velocity_wd, rotor_spinning]
      have hp : velocity_period 100 = 5000 := by
        unfold velocity_period
        rw [if_neg (by norm_num [abs_of_pos])]
        norm_num
      unfold velocity_p
      rw [hw, hp]
      have : ((5000 : ℚ)) = ((5000 : ℤ) : ℚ) := by norm_num
      rw [this, dbl_to_int_intCast]
      rfl
    simp [mk_set_velocity, dispatch, conn_motorless, rotors_spinning, List.enum, List.enumFrom,
      List.replicate, hv, dispatch_count, chan_opened, or_rotorcraft_max_rotors, to_uint32,
      List.range_succ, read_p]


/-! ### Recording of a new link over closed slots -/

/-- With two closed slots or more the loop "record" meets a closed slot after
`chan` has been set to NULL. -/
theorem record_two_closed (n : mk_channel_s) (l : List mk_channel_s)
    (h : 2 ≤ l.countP (fun c => decide (c.fd < 0))) : record n l = none := by
  cases hr : record n l with
  | none => rfl
  | some f =>
    exfalso
    rcases record_spec n l f hr with ⟨_, hopen⟩ | ⟨l1, c, l2, hl, hc, h1, h2, _⟩
    · have h0 : l.countP (fun c => decide (c.fd < 0)) = 0 := by
        rw [List.countP_eq_zero]
        intro d hd
        have := hopen d hd
        simp only [decide_eq_true_eq, not_lt]
        exact this
      omega
    · have h10 : l1.countP (fun c => decide (c.fd < 0)) = 0 := by
        rw [List.countP_eq_zero]
        intro d hd
        have := h1 d hd
        simp only [decide_eq_true_eq, not_lt]
        exact this
      have h20 : l2.countP (fun c => decide (c.fd < 0)) = 0 := by
        rw [List.countP_eq_zero]
        intro d hd
        have := h2 d hd
        simp only [decide_eq_true_eq, not_lt]
        exact this
      rw [hl, List.countP_append, List.countP_cons, h10, h20] at h
      simp only [hc, decide_True, if_true] at h
      omega

theorem conn_two_closed_chan :
    conn_two_closed.chan
      = [{ chan_opened 1 1 with fd := -1, imu := true, mag := true, motor := true, minid := 1
                                maxid := or_rotorcraft_max_rotors },
         { chan_opened 1 2 with fd := -1 }] := by
  rfl

theorem conn_two_closed_close (chan : mk_channel_s) :
    conn_two_closed.chan.map (close_same_device chan) = conn_two_closed.chan := by
  rw [conn_two_closed_chan]
  simp [close_same_device, chan_opened]

theorem conn_two_closed_alloc (a b : ℕ) :
    (alloc_loop a conn_two_closed.chan b).1 = conn_two_closed.chan := by
  rw [alloc_loop_fst, conn_two_closed_chan]
  simp [alloc_step, chan_opened]

theorem conn_two_closed_count :
    2 ≤ conn_two_closed.chan.countP (fun c => decide (c.fd < 0)) := by
  rw [conn_two_closed_chan]
  simp [chan_opened, List.countP_cons]

/-- C34. What `mk_pconnect_start` does where the claim fails. The connection
`conn_two_closed` is reachable: `connect` on a first device, `pconnect` on a
second one, then `disconnect`, which leaves the two slots closed. On that
connection a call of `mk_pconnect_start` whose device opens, for a third
device with every capability and offset 0, has no result: after the first
closed slot has received the link, the loop "record" copies `*chan` into the
second closed slot with `chan` NULL. More generally no call on that connection
returns successfully: whatever the opened link, the flags, the offset and the
timing state, a call that returns has returned the bad-device error. -/
theorem mk_pconnect_start_two_closed_slots :
    conn_reachable conn_two_closed
      ∧ conn_two_closed.chan.map (fun c => c.fd) = [-1, -1]
      ∧ mk_pconnect_start (Except.ok (chan_opened 1 3)) true true true 0 conn_two_closed
          sensor_time_nominal = none
      ∧ (∀ (chan : mk_channel_s) (imu mag motor : Bool) (offset : ℕ) (st : sensor_time_s)
          (r : connect_result),
          mk_pconnect_start (Except.ok chan) imu mag motor offset conn_two_closed st = some r →
          r.event = genom_event.rotorcraft_e_baddev) := by
  have hgen : ∀ (chan : mk_channel_s) (imu mag motor : Bool) (offset : ℕ) (st : sensor_time_s)
      (r : connect_result),
      mk_pconnect_start (Except.ok chan) imu mag motor offset conn_two_closed st = some r →
      r.event = genom_event.rotorcraft_e_baddev := by
    intro chan imu mag motor offset st r h
    rcases mk_pconnect_start_cases chan imu mag motor offset conn_two_closed st r h with
      ⟨he, -⟩ | ⟨he, -⟩ | ⟨-, -, -, hrec⟩ | ⟨-, -, -, -, -, -, hrec⟩
    · exact he
    · exact he
    · rw [conn_two_closed_close, record_two_closed _ _ conn_two_closed_count] at hrec
      exact absurd hrec (by simp)
    · rw [conn_two_closed_close, conn_two_closed_alloc,
        record_two_closed _ _ conn_two_closed_count] at hrec
      exact absurd hrec (by simp)
  refine ⟨conn_reachable.disconnect _ conn_reachable_motorless, by rw [conn_two_closed_chan]; rfl,
    ?_, hgen⟩
  rfl


/-! ### State of the connection after a bad-device error -/

theorem motor_ranges_ok_record_motorless (n : mk_channel_s) (l f : List mk_channel_s)
    (hok : motor_ranges_ok l) (hn : n.motor = false) (h : record n l = some f) :
    motor_ranges_ok f := by
  have hno : ¬ open_motor n := fun ho => by
    have := ho.2
    rw [hn] at this
    exact absurd this (by decide)
  rcases record_spec n l f h with ⟨hf, -⟩ | ⟨l1, c, l2, hl, -, -, -, hf⟩
  · subst hf
    constructor
    · intro d hd ho
      rcases List.mem_append.mp hd with hd | hd
      · exact hok.1 d hd ho
      · rw [List.mem_singleton.mp hd] at ho; exact absurd ho hno
    · rw [List.pairwise_append]
      refine ⟨hok.2, List.pairwise_singleton _ _, ?_⟩
      intro x hx y hy _ hoy
      rw [List.mem_singleton.mp hy] at hoy
      exact absurd hoy hno
  · subst hf
    subst hl
    constructor
    · intro d hd ho
      rcases List.mem_append.mp hd with hd | hd
      · exact hok.1 d (List.mem_append_left _ hd) ho
      · rcases List.mem_cons.mp hd with hd | hd
        · rw [hd] at ho; exact absurd ho hno
        · exact hok.1 d (List.mem_append_right _ (List.mem_cons_of_mem c hd)) ho
    · refine pairwise_replace _ l1 l2 c n hok.2 ?_ ?_
      · intro x _ _ hon
        exact absurd hon hno
      · intro y _ hon _
        exact absurd hon hno

/-- Every connection that `connect`, `pconnect` and `disconnect` can build
keeps the motor-range invariant. -/
theorem conn_reachable_motor_ranges (conn : rotorcraft_conn_s) (h : conn_reachable conn) :
    motor_ranges_ok conn.chan := by
  induction h with
  | empty => exact ⟨fun c hc => absurd hc (List.not_mem_nil c), List.Pairwise.nil⟩
  | connect opened conn st _ _ _ =>
    cases opened with
    | error e => exact ⟨fun c hc => absurd hc (List.not_mem_nil c), List.Pairwise.nil⟩
    | ok chan =>
      constructor
      · intro c hc _
        have hc2 : c = { chan with imu := true, mag := true, motor := true, minid := 1
                                   maxid := or_rotorcraft_max_rotors } := by
          simpa [mk_connect_start, configure_streaming] using hc
        rw [hc2]
        exact ⟨le_refl _, by show 1 ≤ or_rotorcraft_max_rotors; decide, le_refl _⟩
      · exact List.pairwise_singleton _ _
  | pconnect opened imu mag motor offset conn st r _ _ _ hr ih =>
    cases opened with
    | error e =>
      simp only [mk_pconnect_start, Option.some.injEq] at hr
      subst hr
      exact ih
    | ok chan =>
      have hok1 := motor_ranges_ok_close chan conn.chan ih
      rcases mk_pconnect_start_cases chan imu mag motor offset conn st r hr with
        ⟨-, -, hc⟩ | ⟨-, -, -, hc⟩ | ⟨-, -, hm, hrec⟩ | ⟨-, -, -, hab, ha, hb, hrec⟩
      · rw [hc]; exact hok1
      · rw [hc]; exact motor_ranges_ok_alloc _ _ _ hok1
      · exact motor_ranges_ok_record_motorless _ _ _ hok1 (by simpa using hm) hrec
      · exact motor_ranges_ok_record _ _ _ (motor_ranges_ok_alloc _ _ _ hok1) ⟨ha, hab, hb⟩
          (alloc_loop_disjoint _ _ _ hok1 ha) hrec
  | disconnect conn _ _ =>
    have hclosed : ∀ c ∈ (mk_disconnect_start conn).conn.chan, ¬ open_motor c := by
      intro c hc ho
      simp only [mk_disconnect_start, List.mem_map] at hc
      obtain ⟨d, -, hd⟩ := hc
      by_cases hfd : d.fd < 0
      · rw [if_pos hfd] at hd
        rw [← hd] at ho
        exact absurd ho.1 (not_le.mpr hfd)
      · rw [if_neg hfd] at hd
        rw [← hd] at ho
        exact absurd ho.1 (by show ¬ (0 : ℤ) ≤ -1; norm_num)
    constructor
    · intro c hc ho
      exact absurd ho (hclosed c hc)
    · apply List.Pairwise.imp_of_mem _ (List.pairwise_of_forall (fun _ _ => trivial) :
        (mk_disconnect_start conn).conn.chan.Pairwise (fun _ _ => True))
      intro a b ha _ _ hoa
      exact absurd hoa (hclosed a ha)

theorem alloc_step_snd_keep (a : ℕ) (c : mk_channel_s) (b : ℕ)
    (h : open_motor c → c.maxid < a ∨ (a ≤ c.minid ∧ b < c.minid)) :
    (alloc_step a c b).2 = b := by
  unfold alloc_step
  by_cases h1 : c.fd < 0
  · rw [if_pos h1]
  · rw [if_neg h1]
    by_cases h2 : c.motor = false
    · rw [if_pos h2]
    · rw [if_neg h2]
      have ho : open_motor c := ⟨not_lt.mp h1, by simpa using h2⟩
      rcases h ho with h3 | ⟨h4, h5⟩
      · rw [if_pos h3]
      · by_cases h3 : c.maxid < a
        · rw [if_pos h3]
        · rw [if_neg h3, if_pos h4]
          show (if c.minid ≤ b then to_uint16 ((c.minid : ℤ) - 1) else b) = b
          rw [if_neg (not_le.mpr h5)]

theorem alloc_loop_snd_keep (a : ℕ) : ∀ (l : List mk_channel_s) (b : ℕ),
    (∀ d ∈ l, open_motor d → d.maxid < a ∨ (a ≤ d.minid ∧ b < d.minid)) →
    (alloc_loop a l b).2 = b := by
  intro l
  induction l with
  | nil => intro b _; rfl
  | cons c cs ih =>
    intro b h
    have hc := alloc_step_snd_keep a c b (h c (List.mem_cons_self _ _))
    show (alloc_loop a cs (alloc_step a c b).2).2 = b
    rw [hc]
    exact ih b (fun d hd => h d (List.mem_cons_of_mem _ hd))

theorem alloc_step_snd_ge (a : ℕ) (c s : mk_channel_s) (b : ℕ)
    (hwf : open_motor c → 1 ≤ c.minid ∧ c.minid ≤ c.maxid ∧ c.maxid ≤ or_rotorcraft_max_rotors)
    (hdis : open_motor c → c.maxid < s.minid ∨ s.maxid < c.minid)
    (hs1 : s.minid < a) (hs2 : a ≤ s.maxid) (hb : s.maxid ≤ b) :
    s.maxid ≤ (alloc_step a c b).2 := by
  unfold alloc_step
  by_cases h1 : c.fd < 0
  · rw [if_pos h1]; exact hb
  · rw [if_neg h1]
    by_cases h2 : c.motor = false
    · rw [if_pos h2]; exact hb
    · rw [if_neg h2]
      have ho : open_motor c := ⟨not_lt.mp h1, by simpa using h2⟩
      obtain ⟨w1, w2, w3⟩ := hwf ho
      unfold or_rotorcraft_max_rotors at w3
      by_cases h3 : c.maxid < a
      · rw [if_pos h3]; exact hb
      · rw [if_neg h3]
        rcases hdis ho with hd | hd
        · omega
        · rw [if_pos (by omega)]
          show s.maxid ≤ (if c.minid ≤ b then to_uint16 ((c.minid : ℤ) - 1) else b)
          by_cases h5 : c.minid ≤ b
          · rw [if_pos h5, to_uint16_pred _ w1 (by omega)]
            omega
          · rw [if_neg h5]; exact hb

theorem alloc_step_snd_straddler (a : ℕ) (s : mk_channel_s) (b : ℕ) (ho : open_motor s)
    (hs1 : s.minid < a) (hs2 : a ≤ s.maxid) (hs3 : s.maxid ≤ or_rotorcraft_max_rotors) :
    (alloc_step a s b).2 = s.maxid := by
  unfold or_rotorcraft_max_rotors at hs3
  unfold alloc_step
  rw [if_neg (not_lt.mpr ho.1), if_neg (by simp [ho.2]), if_neg (not_lt.mpr hs2),
    if_neg (not_le.mpr hs1)]
  exact to_uint16_of_lt _ (by omega)

/-- When an open motor link contains `minid`, the range allocated to the new
link ends where the range of that link ended. -/
theorem alloc_loop_straddler (a : ℕ) : ∀ (l : List mk_channel_s) (b : ℕ) (s : mk_channel_s),
    motor_ranges_ok l → s ∈ l → open_motor s → s.minid < a → a ≤ s.maxid → s.maxid ≤ b →
    (alloc_loop a l b).2 = s.maxid := by
  intro l
  induction l with
  | nil => intro b s _ hs; exact absurd hs (List.not_mem_nil s)
  | cons c cs ih =>
    intro b s hok hs ho hs1 hs2 hb
    have hpair := List.pairwise_cons.mp hok.2
    have hokcs : motor_ranges_ok cs :=
      ⟨fun d hd => hok.1 d (List.mem_cons_of_mem _ hd), hpair.2⟩
    show (alloc_loop a cs (alloc_step a c b).2).2 = s.maxid
    rcases List.mem_cons.mp hs with hsc | hscs
    · subst hsc
      have hwf := hok.1 s (List.mem_cons_self _ _) ho
      rw [alloc_step_snd_straddler a s b ho hs1 hs2 hwf.2.2]
      apply alloc_loop_snd_keep
      intro d hd hod
      have hwd := hok.1 d (List.mem_cons_of_mem _ hd) hod
      rcases hpair.1 d hd ho hod with h | h
      · exact Or.inr ⟨by omega, h⟩
      · exact Or.inl (by omega)
    · have hge := alloc_step_snd_ge a c s b (hok.1 c (List.mem_cons_self _ _))
        (fun hoc => hpair.1 s hscs hoc ho) hs1 hs2 hb
      exact ih _ s hokcs hscs ho hs1 hs2 hge

theorem alloc_loop_unchanged (a : ℕ) (l : List mk_channel_s) (b : ℕ)
    (h : ∀ s ∈ l, ¬ (open_motor s ∧ s.minid < a ∧ a ≤ s.maxid)) :
    (alloc_loop a l b).1 = l := by
  rw [alloc_loop_fst]
  conv_rhs => rw [← List.map_id l]
  apply List.map_congr_left
  intro c hc
  rcases alloc_step_cases a c with h1 | ⟨-, h2, h3, h4, h5⟩
  · exact h1
  · exact absurd ⟨⟨h2, h3⟩, h4, h5⟩ (h c hc)

/-- The range test that makes `mk_pconnect_start` return the bad-device error
after the flags have been found compatible. -/
theorem mk_pconnect_start_range_error (chan : mk_channel_s) (imu mag motor : Bool) (offset : ℕ)
    (conn : rotorcraft_conn_s) (st : sensor_time_s) (r : connect_result)
    (h : mk_pconnect_start (Except.ok chan) imu mag motor offset conn st = some r)
    (hev : r.event = genom_event.rotorcraft_e_baddev) :
    (r = { event := genom_event.rotorcraft_e_baddev
           conn := { chan := conn.chan.map (close_same_device chan) }
           sensor_time := st, sent := [] })
    ∨ (((alloc_loop (to_uint16 ((offset : ℤ) + 1)) (conn.chan.map (close_same_device chan))
              or_rotorcraft_max_rotors).2 < to_uint16 ((offset : ℤ) + 1)
          ∨ to_uint16 ((offset : ℤ) + 1) < 1
          ∨ or_rotorcraft_max_rotors
              < (alloc_loop (to_uint16 ((offset : ℤ) + 1))
                  (conn.chan.map (close_same_device chan)) or_rotorcraft_max_rotors).2)
        ∧ r = { event := genom_event.rotorcraft_e_baddev
                conn := { chan := (alloc_loop (to_uint16 ((offset : ℤ) + 1))
                            (conn.chan.map (close_same_device chan))
                            or_rotorcraft_max_rotors).1 }
                sensor_time := st, sent := [] }) := by
  unfold mk_pconnect_start at h
  simp only at h
  split_ifs at h with h1 h2 h3
  · simp only [Option.some.injEq] at h
    exact Or.inl h.symm
  · simp only [Option.map_eq_some'] at h
    obtain ⟨l, -, hr⟩ := h
    rw [← hr] at hev
    exact absurd hev (by simp [configure_streaming])
  · simp only [Option.some.injEq] at h
    exact Or.inr ⟨h3, h.symm⟩
  · simp only [Option.map_eq_some'] at h
    obtain ⟨l, -, hr⟩ := h
    rw [← hr] at hev
    exact absurd hev (by simp [configure_streaming])

/-- After a bad-device error on a connection that keeps the motor-range
invariant, the array of links is the one left by the loop "check already open
device". -/
theorem mk_pconnect_start_baddev_conn (chan : mk_channel_s) (imu mag motor : Bool) (offset : ℕ)
    (conn : rotorcraft_conn_s) (st : sensor_time_s) (r : connect_result)
    (hinv : motor_ranges_ok conn.chan)
    (h : mk_pconnect_start (Except.ok chan) imu mag motor offset conn st = some r)
    (hev : r.event = genom_event.rotorcraft_e_baddev) :
    r = { event := genom_event.rotorcraft_e_baddev
          conn := { chan := conn.chan.map (close_same_device chan) }
          sensor_time := st, sent := [] } := by
  rcases mk_pconnect_start_range_error chan imu mag motor offset conn st r h hev with
    h1 | ⟨htest, h2⟩
  · exact h1
  · have hok1 := motor_ranges_ok_close chan conn.chan hinv
    have hun : (alloc_loop (to_uint16 ((offset : ℤ) + 1))
        (conn.chan.map (close_same_device chan)) or_rotorcraft_max_rotors).1
        = conn.chan.map (close_same_device chan) := by
      apply alloc_loop_unchanged
      intro s hs ⟨ho, hs1, hs2⟩
      have hwf := hok1.1 s hs ho
      have heq := alloc_loop_straddler (to_uint16 ((offset : ℤ) + 1)) _
        or_rotorcraft_max_rotors s hok1 hs ho hs1 hs2 hwf.2.2
      rw [heq] at htest
      have := hwf.2.2
      omega
    rw [h2, hun]

theorem conn_reachable_connected : conn_reachable conn_connected :=
  conn_reachable.connect _ _ _ conn_reachable.empty (opened_ok_chan_opened 1 1)

theorem close_same_device_cases (chan c : mk_channel_s) :
    (close_same_device chan c = c
        ∧ (c.fd < 0 ∨ c.st_dev ≠ chan.st_dev ∨ c.st_ino ≠ chan.st_ino))
      ∨ (close_same_device chan c = { c with fd := -1 }
        ∧ 0 ≤ c.fd ∧ c.st_dev = chan.st_dev ∧ c.st_ino = chan.st_ino) := by
  unfold close_same_device
  by_cases h1 : c.fd < 0
  · rw [if_pos h1]; exact Or.inl ⟨rfl, Or.inl h1⟩
  · rw [if_neg h1]
    by_cases h2 : c.st_dev ≠ chan.st_dev
    · rw [if_pos h2]; exact Or.inl ⟨rfl, Or.inr (Or.inl h2)⟩
    · rw [if_neg h2]
      by_cases h3 : c.st_ino ≠ chan.st_ino
      · rw [if_pos h3]; exact Or.inl ⟨rfl, Or.inr (Or.inr h3)⟩
      · rw [if_neg h3]
        exact Or.inr ⟨rfl, not_lt.mp h1, not_not.mp h2, not_not.mp h3⟩

/-- C40 (amended). State of the connection after the bad-device error of
`mk_pconnect_start` (conflicting imu/mag capability or invalid motor range) on
a connection that `connect`, `pconnect` and `disconnect` can build: the array
of links is the one left by the first loop of the codel, which closes the open
links on the device just opened. Every link keeps its capabilities, its motor
range and its device; a link that is closed or on another device is unchanged,
and an open link on the device just opened has been closed. The timing state
is unchanged and nothing is sent. -/
theorem mk_pconnect_start_baddev_state (chan : mk_channel_s) (imu mag motor : Bool)
    (offset : ℕ) (conn : rotorcraft_conn_s) (st : sensor_time_s) (r : connect_result)
    (hreach : conn_reachable conn)
    (h : mk_pconnect_start (Except.ok chan) imu mag motor offset conn st = some r)
    (hev : r.event = genom_event.rotorcraft_e_baddev) :
    r.conn.chan = conn.chan.map (close_same_device chan)
      ∧ r.sensor_time = st ∧ r.sent = []
      ∧ r.conn.chan.length = conn.chan.length
      ∧ ∀ (i : ℕ) (c : mk_channel_s), conn.chan[i]? = some c →
          ∃ d, r.conn.chan[i]? = some d
            ∧ d.imu = c.imu ∧ d.mag = c.mag ∧ d.motor = c.motor
            ∧ d.minid = c.minid ∧ d.maxid = c.maxid
            ∧ d.path = c.path ∧ d.st_dev = c.st_dev ∧ d.st_ino = c.st_ino ∧ d.device = c.device
            ∧ ((c.fd < 0 ∨ c.st_dev ≠ chan.st_dev ∨ c.st_ino ≠ chan.st_ino) → d = c)
            ∧ (0 ≤ c.fd → c.st_dev = chan.st_dev → c.st_ino = chan.st_ino → d.fd = -1) := by
  have hr := mk_pconnect_start_baddev_conn chan imu mag motor offset conn st r
    (conn_reachable_motor_ranges conn hreach) h hev
  subst hr
  refine ⟨rfl, rfl, rfl, by simp, ?_⟩
  intro i c hc
  refine ⟨close_same_device chan c, by simp [List.getElem?_map, hc], ?_⟩
  rcases close_same_device_cases chan c with ⟨he, hcase⟩ | ⟨he, h1, h2, h3⟩
  · rw [he]
    refine ⟨rfl, rfl, rfl, rfl, rfl, rfl, rfl, rfl, rfl, fun _ => rfl, ?_⟩
    intro g1 g2 g3
    rcases hcase with hc1 | hc2 | hc3
    · exact absurd g1 (not_le.mpr hc1)
    · exact absurd g2 hc2
    · exact absurd g3 hc3
  · rw [he]
    refine ⟨rfl, rfl, rfl, rfl, rfl, rfl, rfl, rfl, rfl, ?_, fun _ _ _ => rfl⟩
    intro hcase
    rcases hcase with hc1 | hc2 | hc3
    · exact absurd h1 (not_le.mpr hc1)
    · exact absurd h2 hc2
    · exact absurd h3 hc3

theorem mk_pconnect_start_baddev_state_witness :
    conn_reachable conn_connected
      ∧ mk_pconnect_start (Except.ok (chan_opened 1 1)) false false true 8 conn_connected
          sensor_time_nominal
        = some { event := genom_event.rotorcraft_e_baddev
                 conn := { chan := conn_connected.chan.map (close_same_device (chan_opened 1 1)) }
                 sensor_time := sensor_time_nominal, sent := [] }
      ∧ ({ event := genom_event.rotorcraft_e_baddev
           conn := { chan := conn_connected.chan.map (close_same_device (chan_opened 1 1)) }
           sensor_time := sensor_time_nominal, sent := [] } : connect_result).conn.chan.length
          = conn_connected.chan.length :=
  ⟨conn_reachable_connected, rfl,
    (mk_pconnect_start_baddev_state (chan_opened 1 1) false false true 8 conn_connected
      sensor_time_nominal _ conn_reachable_connected rfl rfl).2.2.2.1⟩

/-- C40, counterexample. After `connect` on a device, `pconnect` on the same
device with motor = true and offset 8 asks for the range 9 to 8 and returns the
bad-device error; the link that was open before the call is closed after it,
so the connection is not unchanged. -/
theorem mk_pconnect_start_baddev_counterexample :
    conn_reachable conn_connected
      ∧ conn_connected.chan.map (fun c => c.fd) = [4]
      ∧ ∃ r, mk_pconnect_start (Except.ok (chan_opened 1 1)) false false true 8 conn_connected
            sensor_time_nominal = some r
          ∧ r.event = genom_event.rotorcraft_e_baddev
          ∧ r.conn.chan.map (fun c => c.fd) = [-1]
          ∧ r.conn ≠ conn_connected := by
  refine ⟨conn_reachable_connected, rfl, _, rfl, rfl, rfl, ?_⟩
  intro h
  have hfd := congrArg (fun (c : rotorcraft_conn_s) => c.chan.map (fun c => c.fd)) h
  revert hfd
  decide


/-! ### Length of the start monitor -/

theorem start_monitor_loop_error_not_pause (conn : rotorcraft_conn_s) (timeout : ℕ) :
    ∀ (l : List rotor_data_s) (i state : ℕ) (complete : Bool) (e : genom_event),
      (start_monitor_loop conn timeout l i state complete).error = some e →
      e ≠ genom_event.rotorcraft_pause_monitor := by
  intro l
  induction l with
  | nil => intro i state complete e h; simp [start_monitor_loop] at h
  | cons r rs ih =>
    intro i state complete e h
    cases hd : r.state.disabled with
    | true =>
      rw [start_monitor_loop_disabled conn timeout r rs i state complete hd] at h
      cases hss : (r.state.starting || r.state.spinning) with
      | true =>
        rw [hss, if_pos rfl] at h
        simp only [Option.some.injEq] at h
        rw [← h]
        exact fun h => by cases h
      | false =>
        rw [hss, if_neg (by decide)] at h
        exact ih _ _ _ e h
    | false =>
      cases hs : r.state.spinning with
      | true =>
        rw [start_monitor_loop_spinning conn timeout r rs i state complete hd hs] at h
        exact ih _ _ _ e h
      | false =>
        cases he : r.state.emerg with
        | true =>
          rw [start_monitor_loop_emerg conn timeout r rs i state complete hd hs he] at h
          simp only [Option.some.injEq] at h
          rw [← h]
          exact fun h => by cases h
        | false =>
          rw [start_monitor_loop_waiting conn timeout r rs i state complete hd hs he] at h
          generalize (!r.state.starting
            && decide ((if r.state.starting then (state ||| 1 <<< i) % 65536 else state)
                  &&& 1 <<< i ≠ 0)) = cnd at h
          cases cnd
          · rw [if_neg (by decide)] at h
            exact ih _ _ _ e h
          · rw [if_pos rfl] at h
            simp only [Option.some.injEq] at h
            rw [← h]
            exact fun h => by cases h

/-- A call of `mk_start_monitor` that returns the pause event has left a tick
counter that is not 0. -/
theorem mk_start_monitor_pause (conn : rotorcraft_conn_s) (st : sensor_time_s)
    (timeout state : ℕ) (rd : List rotor_data_s) (tv_send : timeval)
    (h : (mk_start_monitor conn st timeout state rd tv_send).event
      = genom_event.rotorcraft_pause_monitor) :
    (mk_start_monitor conn st timeout state rd tv_send).timeout = to_uint32 ((timeout : ℤ) - 1)
      ∧ to_uint32 ((timeout : ℤ) - 1) ≠ 0 := by
  have ht : (mk_start_monitor conn st timeout state rd tv_send).timeout
      = to_uint32 ((timeout : ℤ) - 1) := by
    unfold mk_start_monitor
    simp only
    split <;> rfl
  refine ⟨ht, ?_⟩
  cases herr : (start_monitor_loop conn (to_uint32 ((timeout : ℤ) - 1))
      (rd.take or_rotorcraft_max_rotors) 0 state true).error with
  | some e =>
    have he := (mk_start_monitor_error conn st timeout state rd tv_send e herr).1
    rw [he] at h
    exact absurd h (start_monitor_loop_error_not_pause conn _ _ _ _ _ e herr)
  | none =>
    have he := (mk_start_monitor_end conn st timeout state rd tv_send herr).1
    rw [he] at h
    intro h0
    rw [h0] at h
    unfold start_monitor_end at h
    revert h
    generalize (List.take or_rotorcraft_max_rotors rd).all
      (fun r => r.state.disabled || r.state.spinning) = c
    cases c
    · simp
    · cases low_rate st <;> simp

/-- From a tick counter T >= 1 the start activity makes at most T calls of
`mk_start_monitor`. -/
theorem mk_start_monitor_calls_length (conn : rotorcraft_conn_s) :
    ∀ (ticks : List monitor_tick) (timeout state : ℕ), 1 ≤ timeout → timeout < 4294967296 →
      (mk_start_monitor_calls conn timeout state ticks).length ≤ timeout := by
  intro ticks
  induction ticks with
  | nil => intro timeout state _ _; simp [mk_start_monitor_calls]
  | cons t ts ih =>
    intro timeout state h1 h2
    unfold mk_start_monitor_calls
    by_cases he : (mk_start_monitor conn t.sensor_time timeout state t.rotor_data t.tv_send).event
        = genom_event.rotorcraft_pause_monitor
    · rw [if_pos he]
      obtain ⟨ht, hne⟩ := mk_start_monitor_pause conn _ _ _ _ _ he
      have hcast : ((timeout : ℤ) - 1) = ((timeout - 1 : ℕ) : ℤ) := by omega
      have hval : to_uint32 ((timeout : ℤ) - 1) = timeout - 1 := by
        rw [hcast, to_uint32_of_nat _ (by omega)]
      rw [hval] at hne
      rw [ht, hval, List.length_cons]
      have := ih (timeout - 1) (mk_start_monitor conn t.sensor_time timeout state t.rotor_data
        t.tv_send).state (by omega) (by omega)
      omega
    · rw [if_neg he]
      simpa using h1

theorem start_monitor_loop_idle (conn : rotorcraft_conn_s) (timeout : ℕ) :
    ∀ (n i : ℕ) (complete : Bool),
      (start_monitor_loop conn timeout (List.replicate n rotor_idle) i 0 complete).error = none
        ∧ (start_monitor_loop conn timeout (List.replicate n rotor_idle) i 0 complete).state
          = 0 := by
  intro n
  induction n with
  | zero => intro i complete; exact ⟨rfl, rfl⟩
  | succ k ih =>
    intro i complete
    rw [List.replicate_succ,
      start_monitor_loop_waiting conn timeout rotor_idle _ i 0 complete rfl rfl rfl]
    have hst : rotor_idle.state.starting = false := rfl
    simp only [hst, Bool.false_eq_true, if_false, Nat.zero_and, ne_eq, not_true_eq_false,
      decide_False, Bool.and_false]
    exact ih (i + 1) false

/-- A call of `mk_start_monitor` on eight stopped rotors, with an empty bit set
and a tick counter other than 1, returns the pause event. -/
theorem mk_start_monitor_idle (conn : rotorcraft_conn_s) (st : sensor_time_s) (timeout : ℕ)
    (tv : timeval) (hne : to_uint32 ((timeout : ℤ) - 1) ≠ 0) :
    (mk_start_monitor conn st timeout 0 rotors_idle tv).event
        = genom_event.rotorcraft_pause_monitor
      ∧ (mk_start_monitor conn st timeout 0 rotors_idle tv).timeout
        = to_uint32 ((timeout : ℤ) - 1)
      ∧ (mk_start_monitor conn st timeout 0 rotors_idle tv).state = 0 := by
  have htake : rotors_idle.take or_rotorcraft_max_rotors = List.replicate 8 rotor_idle := rfl
  have hloop := start_monitor_loop_idle conn (to_uint32 ((timeout : ℤ) - 1)) 8 0 true
  have herr : (start_monitor_loop conn (to_uint32 ((timeout : ℤ) - 1))
      (rotors_idle.take or_rotorcraft_max_rotors) 0 0 true).error = none := by
    rw [htake]; exact hloop.1
  have hev := (mk_start_monitor_end conn st timeout 0 rotors_idle tv herr).1
  have hall : (rotors_idle.take or_rotorcraft_max_rotors).all
      (fun r => r.state.disabled || r.state.spinning) = false := by
    rw [htake]; decide
  refine ⟨?_, ?_, ?_⟩
  · rw [hev, hall]
    simp [start_monitor_end, hne]
  · unfold mk_start_monitor
    simp only [herr]
  · unfold mk_start_monitor
    simp only [herr]
    rw [htake]; exact hloop.2

/-- C37. What the start activity does where the claim fails. With a servo
timeout of 0 (and a control period of 1 ms), `mk_start_start` on eight enabled,
stopped rotors stores the tick count T = 0 and goes to the monitor state. The
first call of `mk_start_monitor` decrements the `uint32_t` counter from 0 to
4294967295 and returns the pause event, and as long as the rotors stay stopped
every call with a counter other than 1 returns the pause event again with the
counter decremented: the activity is still in the monitor state after 3 calls,
more than max(T, 1) = 1. From a tick count T >= 1 (below 2^32), whatever the
ticks, the activity makes at most T calls of `mk_start_monitor`. -/
theorem mk_start_monitor_zero_timeout :
    (mk_start_start 1 (some conn_two_links) { timeout := 0, ramp := 3 } 30000 0
        rotors_idle).event = genom_event.rotorcraft_monitor
      ∧ (mk_start_start 1 (some conn_two_links) { timeout := 0, ramp := 3 } 30000 0
          rotors_idle).timeout = 0
      ∧ (mk_start_monitor conn_two_links sensor_time_nominal 0 0 rotors_idle
          monitor_tick_idle.tv_send).event = genom_event.rotorcraft_pause_monitor
      ∧ (mk_start_monitor conn_two_links sensor_time_nominal 0 0 rotors_idle
          monitor_tick_idle.tv_send).timeout = 4294967295
      ∧ (∀ (t : ℕ), 2 ≤ t → t < 4294967296 →
          (mk_start_monitor conn_two_links sensor_time_nominal t 0 rotors_idle
              monitor_tick_idle.tv_send).event = genom_event.rotorcraft_pause_monitor
            ∧ (mk_start_monitor conn_two_links sensor_time_nominal t 0 rotors_idle
              monitor_tick_idle.tv_send).timeout = t - 1
            ∧ (mk_start_monitor conn_two_links sensor_time_nominal t 0 rotors_idle
              monitor_tick_idle.tv_send).state = 0)
      ∧ (mk_start_monitor_calls conn_two_links 0 0
            (List.replicate 3 monitor_tick_idle)).map (fun r => (r.event, r.timeout))
          = [(genom_event.rotorcraft_pause_monitor, 4294967295),
             (genom_event.rotorcraft_pause_monitor, 4294967294),
             (genom_event.rotorcraft_pause_monitor, 4294967293)]
      ∧ (∀ (conn : rotorcraft_conn_s) (ticks : List monitor_tick) (timeout state : ℕ),
          1 ≤ timeout → timeout < 4294967296 →
          (mk_start_monitor_calls conn timeout state ticks).length ≤ timeout) := by
  have hval : ∀ t : ℕ, 1 ≤ t → t < 4294967296 → to_uint32 ((t : ℤ) - 1) = t - 1 := by
    intro t h1 h2
    have hcast : ((t : ℤ) - 1) = ((t - 1 : ℕ) : ℤ) := by omega
    rw [hcast, to_uint32_of_nat _ (by omega)]
  have h0 : to_uint32 (((0 : ℕ) : ℤ) - 1) = 4294967295 := by
    simp [to_uint32]
  have hidle : ∀ t : ℕ, 2 ≤ t → t < 4294967296 →
      (mk_start_monitor conn_two_links sensor_time_nominal t 0 rotors_idle
          monitor_tick_idle.tv_send).event = genom_event.rotorcraft_pause_monitor
        ∧ (mk_start_monitor conn_two_links sensor_time_nominal t 0 rotors_idle
          monitor_tick_idle.tv_send).timeout = t - 1
        ∧ (mk_start_monitor conn_two_links sensor_time_nominal t 0 rotors_idle
          monitor_tick_idle.tv_send).state = 0 := by
    intro t h1 h2
    have h := mk_start_monitor_idle conn_two_links sensor_time_nominal t
      monitor_tick_idle.tv_send (by rw [hval t (by omega) h2]; omega)
    rw [hval t (by omega) h2] at h
    exact h
  have hfirst := mk_start_monitor_idle conn_two_links sensor_time_nominal 0
    monitor_tick_idle.tv_send (by rw [h0]; decide)
  rw [h0] at hfirst
  refine ⟨rfl, ?_, hfirst.1, hfirst.2.1, hidle, ?_, ?_⟩
  · simp [mk_start_start, rotors_idle, rotor_idle, rotor_spinning, or_rotorcraft_max_rotors,
      dbl_to_int, to_uint32]
  · have h1 := hidle 4294967295 (by norm_num) (by norm_num)
    have h2 := hidle 4294967294 (by norm_num) (by norm_num)
    have e0 : monitor_tick_idle.sensor_time = sensor_time_nominal := rfl
    have e1 : monitor_tick_idle.rotor_data = rotors_idle := rfl
    simp only [List.replicate, mk_start_monitor_calls, e0, e1, hfirst.1, hfirst.2.1,
      hfirst.2.2, h1.1, h1.2.1, h1.2.2, h2.1, h2.2.1, h2.2.2, if_true, List.map_cons,
      List.map_nil]
  · intro conn ticks timeout state h1 h2
    exact mk_start_monitor_calls_length conn ticks timeout state h1 h2


/-! ### Length of the published rotor sequence -/

theorem main_perm_rotor_loop_disabled : ∀ (l : List rotor_data_s) (i : ℕ) (rotor : rotor_sequence),
    (∀ r ∈ l, r.state.disabled = true) →
    (main_perm_rotor_loop l i rotor).length = rotor.length := by
  intro l
  induction l with
  | nil => intro i rotor _; rfl
  | cons r rs ih =>
    intro i rotor h
    rw [main_perm_rotor_loop, ih (i + 1) _ (fun x hx => h x (List.mem_cons_of_mem _ hx))]
    simp [h r (List.mem_cons_self _ _)]

/-- After the loop the length is 1 + the index of the last rotor that is not
disabled, when there is one. -/
theorem main_perm_rotor_loop_length : ∀ (l1 : List rotor_data_s) (r : rotor_data_s)
    (l2 : List rotor_data_s) (i : ℕ) (rotor : rotor_sequence),
    r.state.disabled = false → (∀ x ∈ l2, x.state.disabled = true) →
    (main_perm_rotor_loop (l1 ++ r :: l2) i rotor).length = i + l1.length + 1 := by
  intro l1
  induction l1 with
  | nil =>
    intro r l2 i rotor hr h2
    rw [List.nil_append, main_perm_rotor_loop, main_perm_rotor_loop_disabled l2 _ _ h2]
    simp [hr]
  | cons c cs ih =>
    intro r l2 i rotor hr h2
    rw [List.cons_append, main_perm_rotor_loop, ih r l2 (i + 1) _ hr h2, List.length_cons]
    omega

theorem main_perm_rotor_loop_buffer : ∀ (l : List rotor_data_s) (i : ℕ) (rotor : rotor_sequence),
    i + l.length ≤ rotor.buffer.length →
    (main_perm_rotor_loop l i rotor).buffer.length = rotor.buffer.length
      ∧ (∀ (k : ℕ), k < i → (main_perm_rotor_loop l i rotor).buffer[k]? = rotor.buffer[k]?)
      ∧ (∀ (k : ℕ) (r : rotor_data_s), l[k]? = some r →
          (main_perm_rotor_loop l i rotor).buffer[i + k]? = some r.state) := by
  intro l
  induction l with
  | nil =>
    intro i rotor _
    exact ⟨rfl, fun _ _ => rfl, fun k r h => by simp at h⟩
  | cons c cs ih =>
    intro i rotor hlen
    rw [List.length_cons] at hlen
    have hs : (rotor.buffer.set i c.state).length = rotor.buffer.length := List.length_set _ _ _
    obtain ⟨h1, h2, h3⟩ := ih (i + 1)
      { length := if c.state.disabled then rotor.length else i + 1
        buffer := rotor.buffer.set i c.state } (by show i + 1 + cs.length ≤ _; rw [hs]; omega)
    rw [main_perm_rotor_loop]
    refine ⟨by rw [h1]; exact hs, ?_, ?_⟩
    · intro k hk
      rw [h2 k (by omega)]
      show (rotor.buffer.set i c.state)[k]? = rotor.buffer[k]?
      rw [List.getElem?_set]
      rw [if_neg (by omega)]
    · intro k r hk
      cases k with
      | zero =>
        simp only [List.getElem?_cons_zero, Option.some.injEq] at hk
        show (main_perm_rotor_loop cs (i + 1)
          { length := if c.state.disabled = true then rotor.length else i + 1
            buffer := rotor.buffer.set i c.state }).buffer[i]? = some r.state
        rw [h2 i (by omega)]
        show (rotor.buffer.set i c.state)[i]? = some r.state
        rw [List.getElem?_set, if_pos rfl, if_pos (by omega), hk]
      | succ j =>
        simp only [List.getElem?_cons_succ] at hk
        have := h3 j r hk
        rw [show i + (j + 1) = i + 1 + j by omega]
        exact this

/-- C38. What `mk_main_perm` does where the claim fails. The loop that fills
the rotor sequence of the port `rotor_measure` assigns `_length` only for a
rotor that is not disabled. When the eight rotors are disabled the length is
the one left by the previous call, not 0: after a call with eight enabled
rotors (length 8), a call with the eight rotors disabled leaves the length at
8. For the rest the loop does what the claim says: with a rotor that is not
disabled the length is 1 + the index of the last such rotor, and every entry of
the buffer is the state of the rotor of the same index. -/
theorem main_perm_rotor_all_disabled :
    (∀ (rotor_data : List rotor_data_s) (rotor : rotor_sequence),
        (∀ r ∈ rotor_data.take or_rotorcraft_max_rotors, r.state.disabled = true) →
        (main_perm_rotor rotor_data rotor).length = rotor.length)
      ∧ (∀ r ∈ rotors_disabled, r.state.disabled = true)
      ∧ (main_perm_rotor rotors_spinning
          { length := 0, buffer := List.replicate 8 rotor_idle.state }).length = 8
      ∧ (main_perm_rotor rotors_disabled
          (main_perm_rotor rotors_spinning
            { length := 0, buffer := List.replicate 8 rotor_idle.state })).length = 8
      ∧ (∀ (l1 : List rotor_data_s) (r : rotor_data_s) (l2 : List rotor_data_s)
          (rotor : rotor_sequence), (l1 ++ r :: l2).length = or_rotorcraft_max_rotors →
          r.state.disabled = false → (∀ x ∈ l2, x.state.disabled = true) →
          (main_perm_rotor (l1 ++ r :: l2) rotor).length = l1.length + 1)
      ∧ (∀ (rotor_data : List rotor_data_s) (rotor : rotor_sequence) (k : ℕ) (r : rotor_data_s),
          rotor_data.length = or_rotorcraft_max_rotors →
          rotor.buffer.length = or_rotorcraft_max_rotors → rotor_data[k]? = some r →
          (main_perm_rotor rotor_data rotor).buffer[k]? = some r.state) := by
  refine ⟨?_, ?_, ?_, ?_, ?_, ?_⟩
  · intro rotor_data rotor h
    exact main_perm_rotor_loop_disabled _ 0 rotor h
  · intro r hr
    rw [List.eq_of_mem_replicate hr]
    rfl
  · rfl
  · rfl
  · intro l1 r l2 rotor hlen hr h2
    unfold main_perm_rotor
    rw [List.take_of_length_le (by rw [hlen]), main_perm_rotor_loop_length l1 r l2 0 rotor hr h2]
    omega
  · intro rotor_data rotor k r hlen hb hk
    unfold main_perm_rotor
    rw [List.take_of_length_le (by rw [hlen])]
    have := (main_perm_rotor_loop_buffer rotor_data 0 rotor (by omega)).2.2 k r hk
    rw [Nat.zero_add] at this
    exact this


/-! ### No-data recovery -/

/-- The test of a block of `mk_avgsensors_collect`, as the code makes it. -/
theorem avg_accumulate_iff (present : Bool) (ts : or_time_ts) (v : Fin 3 → Option ℚ)
    (stamp : or_time_ts) (a : rotorcraft_accum) :
    ((present = true ∧ (ts.sec ≠ a.last.sec ∨ ts.nsec ≠ a.last.sec)) →
        avg_accumulate present ts v stamp a
          = { data := fun k => nan_add (a.data k) (v k), count := a.count + 1, last := stamp })
      ∧ (¬ (present = true ∧ (ts.sec ≠ a.last.sec ∨ ts.nsec ≠ a.last.sec)) →
        avg_accumulate present ts v stamp a = a) := by
  unfold avg_accumulate
  constructor
  · intro h
    rw [if_pos (by simpa using h)]
  · intro h
    rw [if_neg (by simpa using h)]

/-- C32. What `mk_avgsensors_collect` does where the claim fails. The test of
each block is `ts.sec != last.sec || ts.nsec != last.sec`: the field `nsec` of
the sample is compared with the field `sec` of the last stamp. A present sample
whose stamp is the one of the last sample added is therefore added again as
soon as its `nsec` differs from its `sec`. From the accumulators cleared by
`mk_avgsensors_start`, a first call with the gyroscope sample (1, 2, 3)
stamped {1000000017, 5000000} adds it (count 1), and a second call with the
same port data, stamp unchanged, adds it a second time: the count is 2 and the
sums are (2, 4, 6). -/
theorem mk_avgsensors_collect_twice :
    ((mk_avgsensors_collect 1 pose_gyro pose_init mk_avgsensors_start.1 2).accum 0).count = 1
      ∧ ((mk_avgsensors_collect 1 pose_gyro pose_init mk_avgsensors_start.1 2).accum 0).last
        = pose_gyro.ts
      ∧ (mk_avgsensors_collect 1 pose_gyro pose_init mk_avgsensors_start.1 2).event
        = genom_event.rotorcraft_pause_collect
      ∧ ((mk_avgsensors_collect 1 pose_gyro pose_init
            (mk_avgsensors_collect 1 pose_gyro pose_init mk_avgsensors_start.1 2).accum
            (mk_avgsensors_collect 1 pose_gyro pose_init mk_avgsensors_start.1 2).duration).accum
          0).count = 2
      ∧ (∀ k, ((mk_avgsensors_collect 1 pose_gyro pose_init
            (mk_avgsensors_collect 1 pose_gyro pose_init mk_avgsensors_start.1 2).accum
            (mk_avgsensors_collect 1 pose_gyro pose_init mk_avgsensors_start.1 2).duration).accum
          0).data k = (![some 2, some 4, some 6] : Fin 3 → Option ℚ) k)
      ∧ (∀ (period_ms : ℕ) (imu_data mag_data : or_pose_estimator_state)
          (accum : Fin 3 → rotorcraft_accum) (duration : ℚ),
          imu_data.avel_present = true → (accum 0).last = imu_data.ts →
          imu_data.ts.nsec ≠ imu_data.ts.sec →
          ((mk_avgsensors_collect period_ms imu_data mag_data accum duration).accum 0).count
            = (accum 0).count + 1) := by
  have h1 : (mk_avgsensors_collect 1 pose_gyro pose_init mk_avgsensors_start.1 2).accum 0
      = { data := fun k => nan_add (some 0) (pose_gyro.avel k), count := 1
          last := pose_gyro.ts } := by
    show avg_accumulate pose_gyro.avel_present pose_gyro.ts pose_gyro.avel pose_gyro.ts
      (mk_avgsensors_start.1 0) = _
    exact (avg_accumulate_iff pose_gyro.avel_present pose_gyro.ts pose_gyro.avel pose_gyro.ts
      (mk_avgsensors_start.1 0)).1 ⟨rfl, Or.inl (by decide)⟩
  have h2 : (mk_avgsensors_collect 1 pose_gyro pose_init
      (mk_avgsensors_collect 1 pose_gyro pose_init mk_avgsensors_start.1 2).accum
      (mk_avgsensors_collect 1 pose_gyro pose_init mk_avgsensors_start.1 2).duration).accum 0
      = { data := fun k => nan_add (nan_add (some 0) (pose_gyro.avel k)) (pose_gyro.avel k)
          count := 2, last := pose_gyro.ts } := by
    show avg_accumulate pose_gyro.avel_present pose_gyro.ts pose_gyro.avel pose_gyro.ts
      ((mk_avgsensors_collect 1 pose_gyro pose_init mk_avgsensors_start.1 2).accum 0) = _
    rw [h1]
    exact (avg_accumulate_iff pose_gyro.avel_present pose_gyro.ts pose_gyro.avel pose_gyro.ts
      { data := fun k => nan_add (some 0) (pose_gyro.avel k), count := 1
        last := pose_gyro.ts }).1 ⟨rfl, Or.inr (by decide)⟩
  refine ⟨by rw [h1], by rw [h1], ?_, by rw [h2], ?_, ?_⟩
  · show (if (0 : ℚ) < 2 - ((1 : ℕ) : ℚ) / 1000 then genom_event.rotorcraft_pause_collect
      else _) = _
    rw [if_pos (by norm_num)]
  · intro k
    rw [h2]
    fin_cases k <;> simp [nan_add, pose_gyro] <;> norm_num
  · intro period_ms imu_data mag_data accum duration hp hl hne
    show (avg_accumulate imu_data.avel_present imu_data.ts imu_data.avel imu_data.ts
      (accum 0)).count = _
    rw [(avg_accumulate_iff imu_data.avel_present imu_data.ts imu_data.avel imu_data.ts
      (accum 0)).1 ⟨hp, Or.inr (by rw [hl]; exact hne)⟩]

end Rotorcraft
